import Mathlib

/-! T=1 transport engine of libese: a shallow embedding

The definitions follow `libese-teq1/teq1.c`, `libese-teq1/include/ese/teq1.h`,
`libese/ese.c` and `libese/include/ese/ese_hw_api.h`.

Conventions of the embedding:

* a byte (`uint8_t`) is a `Nat` below 256; a frame is well formed when its
  information field has `INF_LEN + 1` cells (`Teq1Frame.wf`);
* a C pointer into the caller's transmit buffer is the list of bytes from the
  cursor on; the receive buffer is the whole buffer plus the cursor offset;
* loops that need not terminate take a fuel argument and return `none`
  (`Except.error Fault.OutOfFuel`) when it runs out;
* a `float` is kept as a rational number: rounding is not modelled.
-/

namespace Teq1

/-! ## teq1.h: protocol control byte -/

/-- Value of `kPcbTypeInfo0` in `enum pcb_type`. -/
def kPcbTypeInfo0 : Nat := 0
/-- Value of `kPcbTypeInfo1` in `enum pcb_type`. -/
def kPcbTypeInfo1 : Nat := 1
/-- Value of `kPcbTypeReceiveReady` in `enum pcb_type`. -/
def kPcbTypeReceiveReady : Nat := 2
/-- Value of `kPcbTypeSupervisory` in `enum pcb_type`. -/
def kPcbTypeSupervisory : Nat := 3

/-- Read of the bit-field of `width` bits that starts at bit `lo` of the byte
`val` (`struct PCB` is a union of bit-field views of one `uint8_t`, allocated
from the least significant bit as the constants `kTeq1InfoMoreBit`,
`kTeq1InfoSeqBit`, `kTeq1RrSeqBit` of the same header fix it). -/
def bitfield_get (val lo width : Nat) : Nat := (val / 2 ^ lo) % 2 ^ width

/-- Store of `v` into the bit-field of `width` bits at bit `lo` of the byte
`val`: the value is truncated to the field, the other bits are kept. -/
def bitfield_set (val lo width v : Nat) : Nat :=
  val - bitfield_get val lo width * 2 ^ lo + (v % 2 ^ width) * 2 ^ lo

/-- Field `PCB.type`: bits 6 and 7. -/
def PCB_type (val : Nat) : Nat := bitfield_get val 6 2
/-- Field `PCB.I.more_data`: bit 5. -/
def PCB_I_more_data (val : Nat) : Nat := bitfield_get val 5 1
/-- Field `PCB.I.send_seq`: bit 6. -/
def PCB_I_send_seq (val : Nat) : Nat := bitfield_get val 6 1
/-- Field `PCB.R.next_seq`: bit 4. -/
def PCB_R_next_seq (val : Nat) : Nat := bitfield_get val 4 1
/-- Field `PCB.R.parity_err`: bit 0. -/
def PCB_R_parity_err (val : Nat) : Nat := bitfield_get val 0 1
/-- Field `PCB.R.other_err`: bit 1. -/
def PCB_R_other_err (val : Nat) : Nat := bitfield_get val 1 1

/-- Assignment `PCB.I.more_data = v`. -/
def PCB_set_I_more_data (val v : Nat) : Nat := bitfield_set val 5 1 v
/-- Assignment `PCB.I.send_seq = v`. -/
def PCB_set_I_send_seq (val v : Nat) : Nat := bitfield_set val 6 1 v
/-- Assignment `PCB.R.next_seq = v`. -/
def PCB_set_R_next_seq (val v : Nat) : Nat := bitfield_set val 4 1 v

/-- C logical negation `!x` of an integer. -/
def lnot (x : Int) : Nat := if x = 0 then 1 else 0

def kTeq1RrType : Nat := 1 <<< 7
def kTeq1SuperType : Nat := 3 <<< 6
def kTeq1SuperResyncBit : Nat := 0
def kTeq1SuperIfsBit : Nat := 1
def kTeq1SuperAbortBit : Nat := 1 <<< 1
def kTeq1SuperWtxBit : Nat := 3

/-- Macro `TEQ1_I(S, M)`. -/
def TEQ1_I (s m : Nat) : Nat := (s <<< 6) ||| (m <<< 5)
/-- Macro `TEQ1_R(S, O, P)`. -/
def TEQ1_R (s o p : Nat) : Nat := kTeq1RrType ||| (s <<< 4) ||| p ||| (o <<< 1)
/-- Macro `TEQ1_S_RESYNC(R)`. -/
def TEQ1_S_RESYNC (r : Nat) : Nat := kTeq1SuperType ||| (r <<< 5) ||| kTeq1SuperResyncBit
/-- Macro `TEQ1_S_WTX(R)`. -/
def TEQ1_S_WTX (r : Nat) : Nat := kTeq1SuperType ||| (r <<< 5) ||| kTeq1SuperWtxBit
/-- Macro `TEQ1_S_ABORT(R)`. -/
def TEQ1_S_ABORT (r : Nat) : Nat := kTeq1SuperType ||| (r <<< 5) ||| kTeq1SuperAbortBit
/-- Macro `TEQ1_S_IFS(R)`. -/
def TEQ1_S_IFS (r : Nat) : Nat := kTeq1SuperType ||| (r <<< 5) ||| kTeq1SuperIfsBit

/-- Modelled from the spec: the case-label macro `I(S, M)` of the private
header `teq1_private.h`, which is not among the sources. It names the control
byte of the information block with send-sequence bit `S` and more-data bit
`M`, the byte that `TEQ1_I` of `teq1.h` encodes. -/
def I (s m : Nat) : Nat := TEQ1_I s m

/-- Modelled from the spec: the case-label macro `R(S, O, P)` of the private
header `teq1_private.h`: the control byte of the receive-ready block with
next-sequence bit `S`, other-error flag `O` and parity-error flag `P`, the byte
that `TEQ1_R` of `teq1.h` encodes. -/
def R (s o p : Nat) : Nat := TEQ1_R s o p

/-- Sub-types of a supervisory block (`enum super_type`). -/
inductive super_type where
  | RESYNC
  | IFS
  | ABORT
  | WTX
deriving DecidableEq, Repr

/-- Second argument `REQUEST` of the macro `S`. -/
def REQUEST : Nat := 0
/-- Second argument `RESPONSE` of the macro `S`. -/
def RESPONSE : Nat := 1

/-- Modelled from the spec: the case-label macro `S(TYPE, REQUEST|RESPONSE)` of
the private header `teq1_private.h`: the control byte of the supervisory block
of the given sub-type, the byte the `TEQ1_S_*` macros of `teq1.h` encode. -/
def S (t : super_type) (r : Nat) : Nat :=
  match t with
  | .RESYNC => TEQ1_S_RESYNC r
  | .IFS => TEQ1_S_IFS r
  | .ABORT => TEQ1_S_ABORT r
  | .WTX => TEQ1_S_WTX r

/-- Modelled from the spec: the macro `TEQ1_RULE(TX, RX)` of the private header
`teq1_private.h`, which packs the control byte of the block sent and the one of
the block received into one integer for the dispatch of `teq1_rules`. -/
def TEQ1_RULE (tx rx : Nat) : Nat := ((tx &&& 255) <<< 8) ||| (rx &&& 255)

/-! ## teq1.h: frames -/

def INF_LEN : Nat := 254
def IFSC : Nat := 254

/-- The C `struct Teq1Frame`: the header bytes and the `INF_LEN + 1` cells of
`INF` (payload followed by the LRC byte). -/
structure Teq1Frame where
  NAD : Nat
  PCB : Nat
  LEN : Nat
  INF : List Nat
deriving DecidableEq, Repr

/-- The member `val` of the union in `Teq1Frame`: the frame as raw bytes. -/
def Teq1Frame.val (frame : Teq1Frame) : List Nat :=
  frame.NAD :: frame.PCB :: frame.LEN :: frame.INF

/-- A frame as it lies in memory: every cell is a byte and `INF` has
`INF_LEN + 1` cells. -/
def Teq1Frame.wf (frame : Teq1Frame) : Prop :=
  frame.NAD < 256 ∧ frame.PCB < 256 ∧ frame.LEN < 256 ∧
  frame.INF.length = INF_LEN + 1 ∧ ∀ b ∈ frame.INF, b < 256

/-- The loop `while (buffer < end) lrc ^= *buffer++;` of `teq1_compute_LRC`;
the first argument is the number of iterations left, `end - buffer`. -/
def teq1_compute_LRC_loop (val : List Nat) : Nat → Nat → Nat → Nat
  | 0, _, lrc => lrc
  | k + 1, buffer, lrc =>
    teq1_compute_LRC_loop val k (buffer + 1) (lrc ^^^ val.getD buffer 0)

/-- `teq1_compute_LRC`: `end = buffer + LEN + sizeof(header)`. -/
def teq1_compute_LRC (frame : Teq1Frame) : Nat :=
  teq1_compute_LRC_loop frame.val (frame.LEN + 3) 0 0

/-- `memcpy(dst + off, src, n)` on lists of bytes. -/
def memcpy (dst : List Nat) (off : Nat) (src : List Nat) (n : Nat) : List Nat :=
  dst.take off ++ src.take n ++ dst.drop (off + n)

/-- Exclusive-or of a list of bytes. -/
def xor_all (bytes : List Nat) : Nat := bytes.foldl (fun a b => a ^^^ b) 0

/-! ## teq1.h and teq1_private.h: session state -/

/-- The C `struct Teq1CardState`: the two sequence toggles, each a one-bit
field; the cell holds the stored bit. -/
structure Teq1CardState where
  card : Nat
  interface : Nat
deriving DecidableEq, Repr

/-- Value read from a one-bit field declared `int name:1`. The field is a plain
`int` bit-field, which the compilers this code is built with (GCC, Clang) treat
as signed: a stored bit 1 reads as -1, a stored bit 0 as 0. -/
def int1_read (bit : Nat) : Int := if bit % 2 = 1 then -1 else 0

/-- Bit stored by an assignment of `v` to a one-bit field `int name:1`. -/
def int1_store (v : Int) : Nat := (v % 2).toNat

/-- Macro `TEQ1_INIT_CARD_STATE`: `seq.card = 1; seq.interface = 1;`. -/
def TEQ1_INIT_CARD_STATE (_card : Teq1CardState) : Teq1CardState :=
  { card := int1_store 1, interface := int1_store 1 }

/-- The member `app_data` of `struct Teq1State`: `tx_buf` is the transmit
buffer from the cursor on, `rx_mem` the caller's receive buffer and `rx_buf`
the offset of the receive cursor in it. -/
structure Teq1AppData where
  tx_buf : List Nat
  tx_len : Nat
  rx_mem : List Nat
  rx_buf : Nat
  rx_len : Nat
deriving DecidableEq, Repr

/-- Modelled from the spec: `struct Teq1State` of the private header
`teq1_private.h`, which is not among the sources: the pending wait multiplier,
the negotiated information field size, the error and retransmit counters, the
last error description, the sequence toggles (`card_state` is a pointer into
the interface, held here as the value it points to) and the application data
cursors. -/
structure Teq1State where
  wait_mult : Nat
  ifs : Nat
  errors : Nat
  retransmits : Nat
  last_error_message : Option String
  card_state : Teq1CardState
  app_data : Teq1AppData
deriving DecidableEq, Repr

/-- Modelled from the spec: the initialiser macro `TEQ1_INIT_STATE` of the
private header `teq1_private.h`: wait multiplier 1, the default information
field size, counters at 0, no error message, and the caller's buffers. -/
def TEQ1_INIT_STATE (tx_buf : List Nat) (tx_len : Nat) (rx_mem : List Nat)
    (rx_len : Nat) (card_state : Teq1CardState) : Teq1State :=
  { wait_mult := 1, ifs := IFSC, errors := 0, retransmits := 0,
    last_error_message := none, card_state := card_state,
    app_data := { tx_buf := tx_buf, tx_len := tx_len, rx_mem := rx_mem,
                  rx_buf := 0, rx_len := rx_len } }

/-- Modelled from the spec: `enum RuleResult` of the private header
`teq1_private.h`, with the constants that `teq1_rule_result_to_name` lists. -/
inductive RuleResult where
  | kRuleResultComplete
  | kRuleResultAbort
  | kRuleResultContinue
  | kRuleResultHardFail
  | kRuleResultResetDevice
  | kRuleResultResetSession
  | kRuleResultRetransmit
  | kRuleResultSingleShot
deriving DecidableEq, Repr

open RuleResult super_type

/-! ## teq1.c: information field helpers -/

/-- `teq1_fill_info_block`: returns the value returned, the state and the
frame. -/
def teq1_fill_info_block (state : Teq1State) (frame : Teq1Frame) :
    Nat × Teq1State × Teq1Frame :=
  let inf_len := if state.ifs < INF_LEN then state.ifs else INF_LEN
  if PCB_type frame.PCB = kPcbTypeInfo0 ∨ PCB_type frame.PCB = kPcbTypeInfo1 then
    let len := state.app_data.tx_len % 2 ^ 32
    let len := if len > inf_len then inf_len else len
    let frame := { frame with INF := memcpy frame.INF 0 state.app_data.tx_buf len }
    let frame := { frame with LEN := len &&& 255 }
    let state := { state with app_data :=
      { state.app_data with tx_len := state.app_data.tx_len - len,
                            tx_buf := state.app_data.tx_buf.drop len } }
    let frame := { frame with PCB := PCB_set_I_more_data frame.PCB 0 }
    let frame := if state.app_data.tx_len > 0 then
        { frame with PCB := PCB_set_I_more_data frame.PCB 1 } else frame
    (len % 256, state, frame)
  else
    (255, state, frame)

/-- `teq1_get_app_data`. -/
def teq1_get_app_data (state : Teq1State) (frame : Teq1Frame) : Teq1State :=
  if PCB_type frame.PCB = kPcbTypeInfo0 ∨ PCB_type frame.PCB = kPcbTypeInfo1 then
    let len := frame.LEN % 256
    let len := if len > state.app_data.rx_len then state.app_data.rx_len else len
    { state with app_data :=
      { state.app_data with
          rx_mem := memcpy state.app_data.rx_mem state.app_data.rx_buf frame.INF len,
          rx_len := state.app_data.rx_len - len,
          rx_buf := state.app_data.rx_buf + len } }
  else
    state

/-! ## teq1.c: the rule engine -/

/-- The first `switch` of `teq1_frame_error_check`, on the type of the block
sent: for an I-block, `seq.interface = tx_frame->header.PCB.I.send_seq`. -/
def note_tx_seq (state : Teq1State) (tx_frame : Teq1Frame) : Teq1State :=
  if PCB_type tx_frame.PCB = kPcbTypeInfo0 ∨ PCB_type tx_frame.PCB = kPcbTypeInfo1 then
    { state with card_state :=
      { state.card_state with interface := int1_store (PCB_I_send_seq tx_frame.PCB) } }
  else state

/-- `teq1_frame_error_check`: returns the control byte of the error R-block (0
when the frame is good) and the state, whose sequence toggles it updates. -/
def teq1_frame_error_check (state : Teq1State) (tx_frame rx_frame : Teq1Frame) :
    Nat × Teq1State :=
  if rx_frame.PCB = 255 then (R 0 1 0, state)
  else
    let lrc := teq1_compute_LRC rx_frame
    if rx_frame.INF.getD rx_frame.LEN 0 ≠ lrc then (R 0 0 1, state)
    else
      let state := note_tx_seq state tx_frame
      if PCB_type rx_frame.PCB = kPcbTypeSupervisory then
        if rx_frame.PCB ≠ S RESYNC RESPONSE ∧ rx_frame.LEN ≠ 1 then (R 0 1 0, state)
        else (0, state)
      else if PCB_type rx_frame.PCB = kPcbTypeReceiveReady then
        if rx_frame.LEN ≠ 0 then (R 0 1 0, state)
        else (0, state)
      else if PCB_type rx_frame.PCB = kPcbTypeInfo0 ∨ PCB_type rx_frame.PCB = kPcbTypeInfo1 then
        if (PCB_I_send_seq rx_frame.PCB : Int) = int1_read state.card_state.card then
          (R 0 1 0, state)
        else
          (0, { state with card_state :=
            { state.card_state with card := int1_store (PCB_I_send_seq rx_frame.PCB) } })
      else (0, state)

/-- The arms of the `switch (txrx)` of `teq1_rules`, in the order of the
source; `default_` is `default: break`. -/
inductive RuleArm where
  | rule_2_1
  | card_chain_begin
  | chained_tx
  | wtx_request
  | ifs_response
  | ifs_request
  | chain_end
  | chain_continue
  | resync_response
  | resync_no_reply
  | bad_rx
  | weird_rx
  | r_block_retransmit
  | i_block_retransmit
  | abort_response
  | abort_done
  | abort_request
  | abort_no_reply
  | default_
deriving DecidableEq, Repr

open RuleArm

/-- The case labels of the `switch (txrx)` of `teq1_rules`: the arm that the
value of `txrx` selects. -/
def rule_arm (txrx : Nat) : RuleArm :=
  if txrx ∈ [TEQ1_RULE (I 0 0) (I 0 0), TEQ1_RULE (I 0 0) (I 1 0),
             TEQ1_RULE (I 1 0) (I 1 0), TEQ1_RULE (I 1 0) (I 0 0)] then rule_2_1
  else if txrx ∈ [TEQ1_RULE (I 0 0) (I 0 1), TEQ1_RULE (I 1 0) (I 1 1)] then card_chain_begin
  else if txrx ∈ [TEQ1_RULE (I 0 1) (R 1 0 0), TEQ1_RULE (I 1 1) (R 0 0 0)] then chained_tx
  else if txrx ∈ [TEQ1_RULE (I 0 0) (S WTX REQUEST), TEQ1_RULE (I 1 0) (S WTX REQUEST)] then
    wtx_request
  else if txrx ∈ [TEQ1_RULE (S IFS REQUEST) (S IFS RESPONSE)] then ifs_response
  else if txrx ∈ [TEQ1_RULE (I 0 0) (S IFS REQUEST), TEQ1_RULE (I 0 1) (S IFS REQUEST),
                  TEQ1_RULE (I 1 0) (S IFS REQUEST), TEQ1_RULE (I 1 1) (S IFS REQUEST),
                  TEQ1_RULE (R 0 0 0) (S IFS REQUEST),
                  TEQ1_RULE (R 1 0 0) (S IFS REQUEST)] then ifs_request
  else if txrx ∈ [TEQ1_RULE (R 0 0 0) (I 0 0), TEQ1_RULE (R 1 0 0) (I 1 0)] then chain_end
  else if txrx ∈ [TEQ1_RULE (R 0 0 0) (I 0 1), TEQ1_RULE (R 1 0 0) (I 1 1)] then chain_continue
  else if txrx ∈ [TEQ1_RULE (S RESYNC REQUEST) (S RESYNC RESPONSE)] then resync_response
  else if txrx ∈ [TEQ1_RULE (S RESYNC REQUEST) 255] then resync_no_reply
  else if txrx ∈ [TEQ1_RULE (I 0 0) 255, TEQ1_RULE (I 1 0) 255,
                  TEQ1_RULE (I 0 1) 255, TEQ1_RULE (I 1 1) 255] then bad_rx
  else if txrx ∈ [TEQ1_RULE (I 0 0) (R 1 0 0), TEQ1_RULE (I 0 0) (R 1 0 1),
                  TEQ1_RULE (I 0 0) (R 1 1 0), TEQ1_RULE (I 0 0) (R 1 1 1),
                  TEQ1_RULE (I 1 0) (R 0 0 0), TEQ1_RULE (I 1 0) (R 0 0 1),
                  TEQ1_RULE (I 1 0) (R 0 1 0), TEQ1_RULE (I 1 0) (R 0 1 1)] then weird_rx
  else if txrx ∈ [TEQ1_RULE (R 0 0 0) 255, TEQ1_RULE (R 0 0 1) 255,
                  TEQ1_RULE (R 0 1 0) 255, TEQ1_RULE (R 0 1 1) 255,
                  TEQ1_RULE (R 1 0 0) 255, TEQ1_RULE (R 1 0 1) 255,
                  TEQ1_RULE (R 1 1 0) 255, TEQ1_RULE (R 1 1 1) 255] then r_block_retransmit
  else if txrx ∈ [TEQ1_RULE (I 0 0) (R 0 0 0), TEQ1_RULE (I 0 0) (R 0 0 1),
                  TEQ1_RULE (I 0 0) (R 0 1 0), TEQ1_RULE (I 0 0) (R 0 1 1),
                  TEQ1_RULE (I 1 0) (R 1 0 0), TEQ1_RULE (I 1 0) (R 1 1 0),
                  TEQ1_RULE (I 1 0) (R 1 0 1), TEQ1_RULE (I 1 0) (R 1 1 1),
                  TEQ1_RULE (I 0 1) (R 0 0 0), TEQ1_RULE (I 0 1) (R 0 1 0),
                  TEQ1_RULE (I 0 1) (R 0 0 1), TEQ1_RULE (I 0 1) (R 0 1 1),
                  TEQ1_RULE (I 1 1) (R 1 0 0), TEQ1_RULE (I 1 1) (R 1 1 0),
                  TEQ1_RULE (I 1 1) (R 1 0 1), TEQ1_RULE (I 1 1) (R 1 1 1)] then
    i_block_retransmit
  else if txrx ∈ [TEQ1_RULE (S ABORT REQUEST) (S ABORT RESPONSE)] then abort_response
  else if txrx ∈ [TEQ1_RULE (S ABORT RESPONSE) (R 0 0 0),
                  TEQ1_RULE (S ABORT RESPONSE) (R 1 0 0)] then abort_done
  else if txrx ∈ [TEQ1_RULE (I 0 1) (S ABORT REQUEST), TEQ1_RULE (I 1 1) (S ABORT REQUEST),
                  TEQ1_RULE (R 0 0 0) (S ABORT REQUEST), TEQ1_RULE (R 0 0 1) (S ABORT REQUEST),
                  TEQ1_RULE (R 0 1 0) (S ABORT REQUEST), TEQ1_RULE (R 0 1 1) (S ABORT REQUEST),
                  TEQ1_RULE (R 1 0 0) (S ABORT REQUEST), TEQ1_RULE (R 1 0 1) (S ABORT REQUEST),
                  TEQ1_RULE (R 1 1 0) (S ABORT REQUEST),
                  TEQ1_RULE (R 1 1 1) (S ABORT REQUEST)] then abort_request
  else if txrx ∈ [TEQ1_RULE (S ABORT RESPONSE) 255] then abort_no_reply
  else default_

/-- The bodies of the arms of the `switch (txrx)` of `teq1_rules`: `some` of
the result, the state and `next_tx` when the arm returns, `none` when control
leaves the switch through `default: break`. -/
def teq1_rules_switch (state : Teq1State) (tx_frame rx_frame next_tx : Teq1Frame)
    (R_err txrx : Nat) : Option (RuleResult × Teq1State × Teq1Frame) :=
  match rule_arm txrx with
  | rule_2_1 =>
    some (kRuleResultComplete, teq1_get_app_data state rx_frame, next_tx)
  | card_chain_begin =>
    let state := teq1_get_app_data state rx_frame
    let next_tx := { next_tx with PCB := TEQ1_R (lnot (PCB_I_send_seq rx_frame.PCB)) 0 0 }
    let next_tx := { next_tx with LEN := 0 }
    some (kRuleResultContinue, state, next_tx)
  | chained_tx =>
    let next_tx := { next_tx with PCB := I 0 0 }
    let next_tx := { next_tx with
      PCB := PCB_set_I_send_seq next_tx.PCB (PCB_R_next_seq rx_frame.PCB) }
    let r := teq1_fill_info_block state next_tx
    some (kRuleResultContinue, r.2.1, r.2.2)
  | wtx_request =>
    let next_tx := { next_tx with PCB := S WTX RESPONSE }
    let next_tx := { next_tx with LEN := 1 }
    let next_tx := { next_tx with INF := next_tx.INF.set 0 (rx_frame.INF.getD 0 0) }
    let state := { state with wait_mult := rx_frame.INF.getD 0 0 }
    some (kRuleResultSingleShot, state, next_tx)
  | ifs_response =>
    some (kRuleResultComplete, state, next_tx)
  | ifs_request =>
    let next_tx := { next_tx with PCB := S IFS RESPONSE }
    let next_tx := { next_tx with LEN := 1 }
    let next_tx := { next_tx with INF := next_tx.INF.set 0 (rx_frame.INF.getD 0 0) }
    let state := { state with ifs := rx_frame.INF.getD 0 0 }
    some (kRuleResultSingleShot, state, next_tx)
  | chain_end =>
    some (kRuleResultComplete, teq1_get_app_data state rx_frame, next_tx)
  | chain_continue =>
    let state := teq1_get_app_data state rx_frame
    let next_tx := { next_tx with PCB := TEQ1_R (lnot (PCB_I_send_seq rx_frame.PCB)) 0 0 }
    some (kRuleResultContinue, state, next_tx)
  | resync_response =>
    some (kRuleResultResetSession, state, next_tx)
  | resync_no_reply =>
    some (kRuleResultRetransmit, state, next_tx)
  | bad_rx =>
    let next_tx := { next_tx with PCB := R_err }
    let next_tx := { next_tx with
      PCB := PCB_set_R_next_seq next_tx.PCB (PCB_I_send_seq tx_frame.PCB) }
    some (kRuleResultSingleShot, state, next_tx)
  | weird_rx =>
    let next_tx := { next_tx with PCB := R 0 0 0 }
    let next_tx := { next_tx with
      PCB := PCB_set_R_next_seq next_tx.PCB (PCB_I_send_seq tx_frame.PCB) }
    some (kRuleResultSingleShot, state, next_tx)
  | r_block_retransmit =>
    some (kRuleResultRetransmit, state, next_tx)
  | i_block_retransmit =>
    some (kRuleResultRetransmit, state, next_tx)
  | abort_response =>
    some (kRuleResultComplete, state, next_tx)
  | abort_done =>
    some (kRuleResultAbort, state, next_tx)
  | abort_request =>
    some (kRuleResultContinue, state, { next_tx with PCB := S ABORT REQUEST })
  | abort_no_reply =>
    some (kRuleResultRetransmit, state, next_tx)
  | default_ =>
    none

/-- The state after the rule engine has counted one erroneous frame:
`state->last_error_message = "Invalid frame received"; state->errors++;`. -/
def count_error (state : Teq1State) : Teq1State :=
  { state with last_error_message := some "Invalid frame received", errors := state.errors + 1 }

/-- The `while (1)` loop of `teq1_rules`, one iteration per unit of fuel:
returns the result, the state, the received frame (whose control byte the loop
may overwrite with 255) and `next_tx`. -/
def teq1_rules_loop : Nat → Teq1State → Teq1Frame → Teq1Frame → Teq1Frame → Nat →
    Option (RuleResult × Teq1State × Teq1Frame × Teq1Frame)
  | 0, _, _, _, _, _ => none
  | fuel + 1, state, tx_frame, rx_frame, next_tx, txrx =>
    let chk := teq1_frame_error_check state tx_frame rx_frame
    let R_err := chk.1
    let state := chk.2
    let state := if R_err ≠ 0 then
        { state with last_error_message := some "Invalid frame received",
                     errors := state.errors + 1 }
      else state
    let txrx := if R_err ≠ 0 then TEQ1_RULE tx_frame.PCB 255 else txrx
    if R_err ≠ 0 ∧ state.errors ≥ 6 then
      some (kRuleResultResetDevice, state, rx_frame, next_tx)
    else if R_err ≠ 0 ∧ state.errors ≥ 3 then
      some (kRuleResultContinue, state, rx_frame, { next_tx with PCB := S RESYNC REQUEST })
    else
      match teq1_rules_switch state tx_frame rx_frame next_tx R_err txrx with
      | some (result, state, next_tx) => some (result, state, rx_frame, next_tx)
      | none =>
        if rx_frame.PCB ≠ 255 then
          teq1_rules_loop fuel state tx_frame { rx_frame with PCB := 255 } next_tx txrx
        else
          some (kRuleResultHardFail, state, rx_frame, next_tx)

/-- `teq1_rules`, with the fuel of its loop. -/
def teq1_rules (fuel : Nat) (state : Teq1State) (tx_frame rx_frame next_tx : Teq1Frame) :
    Option (RuleResult × Teq1State × Teq1Frame × Teq1Frame) :=
  teq1_rules_loop fuel state tx_frame rx_frame next_tx (TEQ1_RULE tx_frame.PCB rx_frame.PCB)

/-! ## ese_hw_api.h: the interface and the hardware operations -/

/-- The way a run can end without returning: the fuel of a loop ran out, the
process was aborted by `LOG_ALWAYS_FATAL`, or a null pointer was called or
dereferenced. -/
inductive Fault where
  | OutOfFuel
  | Fatal
  | NullCall
deriving DecidableEq, Repr

/-- The member `error` of `struct EseInterface`. -/
structure EseError where
  is_err : Int
  code : Int
  message : Option String
deriving DecidableEq, Repr

/-- The mutable `struct EseInterface`: the error record, the table of error
messages of the backend, the sequence toggles that `teq1_transceive` keeps at
the head of `pad`, and the state `hw` of the backend and of the device behind
it. The constant `ops` is passed next to it. -/
structure EseInterface (H : Type) where
  error : EseError
  errors : List String
  errors_count : Nat
  card_state : Teq1CardState
  hw : H

/-- The fields of `struct Teq1ProtocolOptions` that are plain data. -/
structure Teq1ProtocolOptionsData where
  host_address : Nat
  node_address : Nat
  bwt : ℚ
  etu : ℚ

/-- The C `struct Teq1ProtocolOptions`; the hook `preprocess` receives the
options, the frame and the direction flag, and returns its `int` and the
frame. -/
structure Teq1ProtocolOptions extends Teq1ProtocolOptionsData where
  preprocess : Option (Teq1ProtocolOptionsData → Teq1Frame → Int → Int × Teq1Frame)

/-- Result of a raw receive: the `size_t` returned, the bytes stored at the
start of the buffer, and the interface. -/
structure HwReceived (H : Type) where
  ret : Nat
  bytes : List Nat
  ese : EseInterface H

/-- The C `struct EseOperations`; a null function pointer is `none`.
`hw_receive` takes the interface, whether the buffer is non-null, the length
and `complete`; `hw_transmit` takes the interface, the bytes at the buffer
(`none` for a null buffer), the length and `complete`; `poll` takes the
interface, the byte polled for, the timeout and `complete`; `transceive` takes
the interface, the bytes at the transmit buffer and their number, the contents
of the receive buffer (`none` for a null buffer) and its capacity, and returns
its `size_t`, the interface and the receive buffer; `open_op` and `close_op`
are the members `open` and `close` (`open` is a reserved word here), the first
taking the interface and the pointer `hw_opts` as a number. -/
structure EseOperations (H : Type) where
  name : Option String
  hw_receive : Option (EseInterface H → Bool → Nat → Int → HwReceived H)
  hw_transmit : Option (EseInterface H → Option (List Nat) → Nat → Int → Nat × EseInterface H)
  hw_reset : Option (EseInterface H → Int × EseInterface H)
  poll : Option (EseInterface H → Nat → ℚ → Int → Int × EseInterface H)
  opts : Option Teq1ProtocolOptions
  transceive : Option (EseInterface H → Option (List Nat) → Nat → Option (List Nat) → Nat →
    Except Fault (Nat × EseInterface H × Option (List Nat))) := none
  open_op : Option (EseInterface H → Nat → Int × EseInterface H) := none
  close_op : Option (EseInterface H → Int × EseInterface H) := none

def TEQ1_ERROR_HARD_FAIL : Int := 0
def TEQ1_ERROR_ABORT : Int := 1
def TEQ1_ERROR_DEVICE_RESET : Int := 2

/-! ## ese.c -/

def kEseErrorMessages : List String :=
  ["Hardware supplied no transceive implementation.", "Timed out polling for value."]

/-- The body of `ese_set_error` after its null check; `LOG_ALWAYS_FATAL` ends
the run with `Fault.Fatal`. -/
def ese_set_error_nonnull {H : Type} (ese : EseInterface H) (code : Int) :
    Except Fault (EseInterface H) :=
  let ese := { ese with error := { ese.error with code := code } }
  let ese := { ese with error := { ese.error with is_err := 1 } }
  if code < 0 then
    let code := -(code + 1)
    if code.toNat ≥ kEseErrorMessages.length then .error Fault.Fatal
    else .ok { ese with error := { ese.error with message := kEseErrorMessages.get? code.toNat } }
  else if code.toNat ≥ ese.errors_count then .error Fault.Fatal
  else .ok { ese with error := { ese.error with message := ese.errors.get? code.toNat } }

/-- `ese_set_error`; a null interface is `none`. -/
def ese_set_error {H : Type} (ese : Option (EseInterface H)) (code : Int) :
    Except Fault (Option (EseInterface H)) :=
  match ese with
  | none => .ok none
  | some ese =>
    match ese_set_error_nonnull ese code with
    | .ok ese => .ok (some ese)
    | .error e => .error e

/-! ## teq1.c: link primitives -/

/-- `teq1_transmit`: returns its `int`, the interface and the frame. -/
def teq1_transmit {H : Type} (ops : EseOperations H) (ese : EseInterface H)
    (frame : Teq1Frame) : Except Fault (Int × EseInterface H × Teq1Frame) :=
  match ops.opts with
  | none => .error Fault.NullCall
  | some opts =>
    let frame := { frame with NAD := opts.node_address }
    let frame := { frame with INF := frame.INF.set frame.LEN (teq1_compute_LRC frame) }
    let frame := match opts.preprocess with
      | some preprocess => (preprocess opts.toTeq1ProtocolOptionsData frame 1).2
      | none => frame
    match ops.hw_transmit with
    | none => .error Fault.NullCall
    | some hw_transmit =>
      let r := hw_transmit ese (some frame.val) (3 + frame.LEN + 1) 1
      .ok (0, r.2, frame)

/-- `teq1_receive`: returns its `int`, the interface and the frame. -/
def teq1_receive {H : Type} (ops : EseOperations H) (ese : EseInterface H)
    (timeout : ℚ) (frame : Teq1Frame) : Except Fault (Int × EseInterface H × Teq1Frame) :=
  match ops.opts with
  | none => .error Fault.NullCall
  | some opts =>
    match ops.poll with
    | none => .error Fault.NullCall
    | some poll =>
      let p := poll ese opts.host_address timeout 0
      if p.1 < 0 then .ok (-1, p.2, frame)
      else
        let ese := p.2
        let frame := { frame with NAD := opts.host_address }
        match ops.hw_receive with
        | none => .error Fault.NullCall
        | some hw_receive =>
          let r := hw_receive ese true (3 - 1) 0
          let hdr := memcpy [frame.PCB, frame.LEN] 0 r.bytes (min r.bytes.length (3 - 1))
          let frame := { frame with PCB := hdr.getD 0 0, LEN := hdr.getD 1 0 }
          let ese := r.ese
          if frame.LEN = 255 then
            let r := hw_receive ese false 0 1
            .ok (-1, r.ese, frame)
          else
            let r := hw_receive ese true (frame.LEN + 1) 1
            let frame := { frame with
              INF := memcpy frame.INF 0 r.bytes (min r.bytes.length (frame.LEN + 1)) }
            let ese := r.ese
            let frame := match opts.preprocess with
              | some preprocess => (preprocess opts.toTeq1ProtocolOptionsData frame 0).2
              | none => frame
            .ok (frame.LEN, ese, frame)

/-! ## teq1.c: the exchange loop -/

/-- The local variables of `teq1_transceive` that live across iterations:
the array `tx_frame`, the index of the element `tx` points to, `was_reset`,
`active` and `state`. -/
structure TransceiveLocals where
  tx_frame0 : Teq1Frame
  tx_frame1 : Teq1Frame
  tx : Nat
  was_reset : Bool
  active : Nat
  state : Teq1State
deriving DecidableEq, Repr

/-- Read `tx_frame[i]`. -/
def TransceiveLocals.frame (l : TransceiveLocals) (i : Nat) : Teq1Frame :=
  if i = 0 then l.tx_frame0 else l.tx_frame1

/-- Write `tx_frame[i]`. -/
def TransceiveLocals.setFrame (l : TransceiveLocals) (i : Nat) (f : Teq1Frame) :
    TransceiveLocals :=
  if i = 0 then { l with tx_frame0 := f } else { l with tx_frame1 := f }

/-- C logical negation of an index that is 0 or 1. -/
def inot (i : Nat) : Nat := if i = 0 then 1 else 0

/-- The frame after `memset(&frame, 0xff, sizeof(frame))`. -/
def frame_ff : Teq1Frame :=
  { NAD := 255, PCB := 255, LEN := 255, INF := List.replicate (INF_LEN + 1) 255 }

/-- What `teq1_transceive` leaves: the value returned, the interface and the
caller's receive buffer. -/
structure TransceiveResult (H : Type) where
  ret : Nat
  ese : EseInterface H
  rx_mem : List Nat

/-- The code of `case kRuleResultContinue` of the exchange loop: the locals for
the next iteration. -/
def transceive_cont (l : TransceiveLocals) : TransceiveLocals :=
  let l := { l with active := inot l.active }
  let l := { l with tx := l.active }
  let l := { l with state := { l.state with retransmits := 0 } }
  { l with state := { l.state with errors := 0 } }

/-- The code of `case kRuleResultResetSession` of the exchange loop: the
interface and the locals for the next iteration. The assignment
`state = init_state` restores the cursors, not the bytes already written to the
caller's receive buffer. -/
def transceive_reset {H : Type} (ese : EseInterface H) (l : TransceiveLocals)
    (init_state : Teq1State) : EseInterface H × TransceiveLocals :=
  let state := { init_state with app_data :=
    { init_state.app_data with rx_mem := l.state.app_data.rx_mem } }
  let ese := { ese with card_state := TEQ1_INIT_CARD_STATE ese.card_state }
  let state := { state with card_state := ese.card_state }
  let tx : Teq1Frame := { NAD := 0, PCB := 0, LEN := 0, INF := List.replicate (INF_LEN + 1) 0 }
  let tx := { tx with PCB := I 0 0 }
  let r := teq1_fill_info_block state tx
  (ese, { (l.setFrame l.tx r.2.2) with state := r.2.1 })

/-- How one iteration of the exchange loop ends: the function returns, or the
loop goes round again (`continue`, or the end of the body with `done` still
0). -/
inductive LoopStep (H : Type) where
  | ret : TransceiveResult H → LoopStep H
  | again : EseInterface H → TransceiveLocals → LoopStep H

/-- The first half of the body of the `while (!done)` loop of
`teq1_transceive`, up to the call of `teq1_rules`: transmit the frame `tx`
points to, point `tx` back to the active frame, fill the receive frame with
0xff, receive, reset the wait multiplier and clear the header of the inactive
frame. Returns the interface, the locals and the frame received. -/
def transceive_txrx {H : Type} (ops : EseOperations H) (ese : EseInterface H)
    (l : TransceiveLocals) : Except Fault (EseInterface H × TransceiveLocals × Teq1Frame) :=
  match ops.opts with
  | none => .error Fault.NullCall
  | some opts =>
    match teq1_transmit ops ese (l.frame l.tx) with
    | .error e => .error e
    | .ok (_, ese, frame) =>
      let l := l.setFrame l.tx frame
      let l := { l with tx := l.active }
      let rx_frame := frame_ff
      match teq1_receive ops ese (opts.bwt * (l.state.wait_mult : ℚ)) rx_frame with
      | .error e => .error e
      | .ok (n, ese, rx_frame) =>
        let rx_frame := if n < 0 then { rx_frame with PCB := 255 } else rx_frame
        let l := { l with state := { l.state with wait_mult := 1 } }
        let l := l.setFrame (inot l.active)
          { l.frame (inot l.active) with NAD := 0, PCB := 0, LEN := 0 }
        .ok (ese, l, rx_frame)

/-- The error exits of the exchange loop: `ese_set_error(ese, code); return 0;`. -/
def transceive_fail {H : Type} (ese : EseInterface H) (l : TransceiveLocals) (code : Int) :
    Except Fault (LoopStep H) :=
  match ese_set_error_nonnull ese code with
  | .error e => .error e
  | .ok ese => .ok (.ret { ret := 0, ese := ese, rx_mem := l.state.app_data.rx_mem })

/-- The second half of the body of the `while (!done)` loop of
`teq1_transceive`: the call of `teq1_rules` and the `switch (result)`.
`state.card_state` points into the interface: the toggles are read from the
interface before `teq1_rules` and written back after it. -/
def transceive_dispatch {H : Type} (ops : EseOperations H) (init_state : Teq1State)
    (rx_len : Nat) (fuel : Nat) (ese : EseInterface H) (l : TransceiveLocals)
    (rx_frame : Teq1Frame) : Except Fault (LoopStep H) :=
  match teq1_rules fuel { l.state with card_state := ese.card_state }
      (l.frame l.tx) rx_frame (l.frame (inot l.active)) with
  | none => .error Fault.OutOfFuel
  | some (result, state, _, next_tx) =>
    let ese := { ese with card_state := state.card_state }
    let l := { l with state := state }
    let l := l.setFrame (inot l.active) next_tx
    match result with
    | kRuleResultComplete =>
      .ok (.ret { ret := rx_len - l.state.app_data.rx_len, ese := ese,
                  rx_mem := l.state.app_data.rx_mem })
    | kRuleResultRetransmit =>
      let old := l.state.retransmits
      let l := { l with state := { l.state with retransmits := old + 1 } }
      if old < 3 then .ok (.again ese l)
      else if (l.frame l.tx).PCB = S RESYNC REQUEST then
        transceive_fail ese l TEQ1_ERROR_HARD_FAIL
      else
        let l := l.setFrame (inot l.active)
          { l.frame (inot l.active) with PCB := S RESYNC REQUEST }
        .ok (.again ese (transceive_cont l))
    | kRuleResultContinue => .ok (.again ese (transceive_cont l))
    | kRuleResultHardFail => transceive_fail ese l TEQ1_ERROR_HARD_FAIL
    | kRuleResultAbort => transceive_fail ese l TEQ1_ERROR_ABORT
    | kRuleResultSingleShot => .ok (.again ese { l with tx := inot l.active })
    | kRuleResultResetDevice =>
      if l.was_reset then transceive_fail ese l TEQ1_ERROR_DEVICE_RESET
      else
        match ops.hw_reset with
        | none => transceive_fail ese l TEQ1_ERROR_DEVICE_RESET
        | some hw_reset =>
          let r := hw_reset ese
          if r.1 = -1 then transceive_fail r.2 l TEQ1_ERROR_DEVICE_RESET
          else
            let l := { l with was_reset := true }
            let n := transceive_reset r.2 l init_state
            .ok (.again n.1 n.2)
    | kRuleResultResetSession =>
      let n := transceive_reset ese l init_state
      .ok (.again n.1 n.2)

/-- The body of the `while (!done)` loop of `teq1_transceive`. -/
def transceive_body {H : Type} (ops : EseOperations H) (init_state : Teq1State)
    (rx_len : Nat) (fuel : Nat) (ese : EseInterface H) (l : TransceiveLocals) :
    Except Fault (LoopStep H) :=
  match transceive_txrx ops ese l with
  | .error e => .error e
  | .ok (ese, l, rx_frame) => transceive_dispatch ops init_state rx_len fuel ese l rx_frame

/-- The `while (!done)` loop of `teq1_transceive`, one iteration per unit of
fuel; the loop of `teq1_rules` draws on the same fuel. -/
def teq1_transceive_loop {H : Type} (ops : EseOperations H) (init_state : Teq1State)
    (rx_len : Nat) : Nat → EseInterface H → TransceiveLocals →
    Except Fault (TransceiveResult H)
  | 0, _, _ => .error Fault.OutOfFuel
  | fuel + 1, ese, l =>
    match transceive_body ops init_state rx_len (fuel + 1) ese l with
    | .error e => .error e
    | .ok (.ret r) => .ok r
    | .ok (.again ese l) => teq1_transceive_loop ops init_state rx_len fuel ese l

/-- The statements of `teq1_transceive` that follow the declaration of
`init_state` and `state`, which both hold the value `init_state` here: the
first I-block is built and the exchange loop runs. `stack0` and `stack1` are
the contents of the uninitialised local array `tx_frame` on entry. -/
def teq1_transceive_from {H : Type} (fuel : Nat) (ops : EseOperations H) (ese : EseInterface H)
    (init_state : Teq1State) (rx_len : Nat) (stack0 stack1 : Teq1Frame) :
    Except Fault (TransceiveResult H) :=
  let state := init_state
  let tx := { stack0 with PCB := TEQ1_I (lnot (int1_read ese.card_state.interface)) 0 }
  let r := teq1_fill_info_block state tx
  teq1_transceive_loop ops init_state rx_len fuel ese
    { tx_frame0 := r.2.2, tx_frame1 := stack1, tx := 0, was_reset := false, active := 0,
      state := r.2.1 }

/-- `teq1_transceive`. `tx_buf` is the caller's transmit buffer, `rx_mem` the
caller's receive buffer, and `stack0`, `stack1` are the contents of the
uninitialised local array `tx_frame` on entry. -/
def teq1_transceive {H : Type} (fuel : Nat) (ops : EseOperations H) (ese : EseInterface H)
    (tx_buf : List Nat) (tx_len : Nat) (rx_mem : List Nat) (rx_len : Nat)
    (stack0 stack1 : Teq1Frame) : Except Fault (TransceiveResult H) :=
  teq1_transceive_from fuel ops ese
    (TEQ1_INIT_STATE tx_buf tx_len rx_mem rx_len ese.card_state) rx_len stack0 stack1

/-! ## A scripted card

A test double for the hardware contract: the card answers each transmitted
frame with the next entry of a script, and the frames transmitted are logged. -/

/-- State of the scripted card: the replies still to come (`none` is a reply
that never arrives, `some bytes` the bytes that follow the address byte on the
wire), the number of bytes already read from the first one, and the frames
transmitted so far, oldest first. -/
structure Script where
  replies : List (Option (List Nat))
  cursor : Nat
  sent : List (List Nat)
deriving DecidableEq, Repr

/-- Poll of the scripted card: 1 when a reply is waiting, otherwise -1 (a reply
that never arrives is consumed). -/
def script_poll (ese : EseInterface Script) (_poll_for : Nat) (_timeout : ℚ) (_complete : Int) :
    Int × EseInterface Script :=
  match ese.hw.replies with
  | [] => (-1, ese)
  | none :: rest => (-1, { ese with hw := { ese.hw with replies := rest, cursor := 0 } })
  | some _ :: _ => (1, ese)

/-- Raw receive of the scripted card: the next `len` bytes of the current
reply; the reply is finished when `complete` is set. -/
def script_receive (ese : EseInterface Script) (_buf : Bool) (len : Nat) (complete : Int) :
    HwReceived Script :=
  match ese.hw.replies with
  | some bytes :: rest =>
    let out := (bytes.drop ese.hw.cursor).take len
    let hw := if complete ≠ 0 then { ese.hw with replies := rest, cursor := 0 }
              else { ese.hw with cursor := ese.hw.cursor + len }
    { ret := out.length, bytes := out, ese := { ese with hw := hw } }
  | _ => { ret := 0, bytes := [], ese := ese }

/-- Raw transmit of the scripted card: the bytes are appended to the log. -/
def script_transmit (ese : EseInterface Script) (buf : Option (List Nat)) (len : Nat)
    (_complete : Int) : Nat × EseInterface Script :=
  (len, { ese with hw := { ese.hw with sent := ese.hw.sent ++ [(buf.getD []).take len] } })

/-- Operations of the scripted card, for the given protocol options; it has no
reset line. -/
def script_ops (opts : Teq1ProtocolOptions) : EseOperations Script :=
  { name := some "scripted card", hw_receive := some script_receive,
    hw_transmit := some script_transmit, hw_reset := none, poll := some script_poll,
    opts := some opts }

/-- An interface to the scripted card with the given sequence toggles and
script, no error recorded, and the error table of the T=1 backends. -/
def script_ese (card_state : Teq1CardState) (replies : List (Option (List Nat))) :
    EseInterface Script :=
  { error := { is_err := 0, code := 0, message := none },
    errors := ["T=1 hard failure.", "T=1 abort.", "T=1 device reset failed."],
    errors_count := 3, card_state := card_state,
    hw := { replies := replies, cursor := 0, sent := [] } }

/-- The bytes a card puts on the wire after the address byte `nad` for a block
with control byte `pcb` and payload `inf`: control byte, length, payload and
the LRC over address, control byte, length and payload. -/
def wire_reply (nad pcb : Nat) (inf : List Nat) : List Nat :=
  pcb :: inf.length :: inf ++ [xor_all (nad :: pcb :: inf.length :: inf)]

/-- Protocol options without a preprocess hook, with the addresses of the
PN80T backend. -/
def opts_plain : Teq1ProtocolOptions :=
  { host_address := 0xA5, node_address := 0x5A, bwt := 1, etu := 1, preprocess := none }

/-- A frame with a two-byte payload. -/
def frame_demo : Teq1Frame :=
  { NAD := 0, PCB := 0, LEN := 2, INF := [1, 2] ++ List.replicate 253 0 }

/-- A session state at the start of an exchange with nothing to send and a
receive buffer of eight bytes, the sequence toggles as `TEQ1_INIT_CARD_STATE`
leaves them. -/
def state_demo : Teq1State :=
  TEQ1_INIT_STATE [] 0 (List.replicate 8 0) 8 (TEQ1_INIT_CARD_STATE ⟨0, 0⟩)

/-- An empty block `I(0,0)` as sent. -/
def sent_demo : Teq1Frame :=
  { NAD := 0x5A, PCB := I 0 0, LEN := 0, INF := List.replicate 255 0 }

/-- A received block `I(0,0)` with payload 7, 8 and the right LRC, 0xA8. -/
def reply_demo : Teq1Frame :=
  { NAD := 0xA5, PCB := I 0 0, LEN := 2, INF := [7, 8, 0xA8] ++ List.replicate 252 255 }

/-- The block `reply_demo` with a wrong LRC byte. -/
def reply_bad_demo : Teq1Frame :=
  { NAD := 0xA5, PCB := I 0 0, LEN := 2, INF := [7, 8, 0xA9] ++ List.replicate 252 255 }

/-! ## Specification helpers -/

/-- The frame as `teq1_transmit` leaves it when no preprocess hook is
configured: the node address in NAD and the LRC stored at `INF[LEN]`. -/
def sealed (node_address : Nat) (frame : Teq1Frame) : Teq1Frame :=
  { frame with
      NAD := node_address
      INF := frame.INF.set frame.LEN (teq1_compute_LRC { frame with NAD := node_address }) }

/-- The frame that `teq1_receive` assembles in a buffer filled with 0xff from
the wire bytes `wire_reply nad pcb inf`. -/
def received (nad pcb : Nat) (inf : List Nat) : Teq1Frame :=
  { NAD := nad, PCB := pcb, LEN := inf.length,
    INF := inf ++ [xor_all (nad :: pcb :: inf.length :: inf)]
      ++ List.replicate (INF_LEN - inf.length) 255 }

/-- The locals after the first half of the loop body, when no preprocess hook
is configured. -/
def txrx_locals (node_address : Nat) (l : TransceiveLocals) : TransceiveLocals :=
  let l := l.setFrame l.tx (sealed node_address (l.frame l.tx))
  let l := { l with tx := l.active }
  let l := { l with state := { l.state with wait_mult := 1 } }
  l.setFrame (inot l.active) { l.frame (inot l.active) with NAD := 0, PCB := 0, LEN := 0 }

/-- Number of payload bytes the next I-block takes. -/
def chunk_len (state : Teq1State) : Nat := min state.app_data.tx_len (min state.ifs INF_LEN)

/-- The interface of the scripted card after one frame was sent and the reply
at the head of the script was read. -/
def script_after (ese : EseInterface Script) (rest : List (Option (List Nat)))
    (wire : List Nat) : EseInterface Script :=
  { ese with hw := { replies := rest, cursor := 0, sent := ese.hw.sent ++ [wire] } }

/-- A received block `I(1,0)` with payload 7, 8 and the right LRC, 0xE8. -/
def replay_demo : Teq1Frame :=
  { NAD := 0xA5, PCB := I 1 0, LEN := 2, INF := [7, 8, 0xE8] ++ List.replicate 252 255 }

/-- The application data after `teq1_get_app_data` delivered the payload `p` of
an I-block. -/
def rx_write (a : Teq1AppData) (p : List Nat) : Teq1AppData :=
  { a with
      rx_mem := memcpy a.rx_mem a.rx_buf p (min p.length a.rx_len)
      rx_len := a.rx_len - min p.length a.rx_len
      rx_buf := a.rx_buf + min p.length a.rx_len }

/-- The replies of a card that answers with a chain: the payloads `blocks` in
I-blocks with the more-data bit set, then `last` in a final I-block, the
sequence bit alternating from `t`. -/
def chain_replies (host : Nat) (last : List Nat) : Nat → List (List Nat) →
    List (Option (List Nat))
  | t, [] => [some (wire_reply host (I t 0) last)]
  | t, b :: bs => some (wire_reply host (I t 1) b) :: chain_replies host last (1 - t) bs

/-- The wire bytes of `k` empty R-blocks `R(t,0,0)`, `R(!t,0,0)`, ... -/
def chain_acks (node : Nat) : Nat → Nat → List (List Nat)
  | _, 0 => []
  | t, k + 1 => (node :: wire_reply node (R t 0 0) []) :: chain_acks node (1 - t) k

/-- The locals are ready to send the empty block `R(t,0,0)` from the active
frame. -/
def AckReady (t : Nat) (l : TransceiveLocals) : Prop :=
  l.tx = l.active ∧ (l.frame l.active).PCB = R t 0 0 ∧ (l.frame l.active).LEN = 0 ∧
  0 < (l.frame l.active).INF.length ∧ 0 < (l.frame (inot l.active)).INF.length

/-- A received block `I(1,1)` (more data follows) with payload 7, 8 and the
right LRC, 0xC8. -/
def chain_demo : Teq1Frame :=
  { NAD := 0xA5, PCB := I 1 1, LEN := 2, INF := [7, 8, 0xC8] ++ List.replicate 252 255 }

/-- The state `state_demo` with the peer sequence bit recorded as 0. -/
def state_card0_demo : Teq1State :=
  { state_demo with card_state := { card := 0, interface := 1 } }

/-- A received block `I(0,1)` (more data follows) with payload 7, 8 and the
right LRC, 0x88. -/
def chain_same_demo : Teq1Frame :=
  { NAD := 0xA5, PCB := I 0 1, LEN := 2, INF := [7, 8, 0x88] ++ List.replicate 252 255 }

/-- The locals are ready to send, from the active frame, the I-block with
sequence bit `s` that carries the fragment `c`, with `remaining` the bytes of
the transmit buffer after it and `ifs` the information field size. -/
def TxReady (ifs s : Nat) (c remaining : List Nat) (l : TransceiveLocals) : Prop :=
  l.tx = l.active ∧
  (l.frame l.active).PCB = I s (if remaining.length > 0 then 1 else 0) ∧
  (l.frame l.active).LEN = c.length ∧
  (l.frame l.active).INF.take c.length = c ∧ c.length ≤ 254 ∧
  (l.frame l.active).INF.length = INF_LEN + 1 ∧
  (l.frame (inot l.active)).INF.length = INF_LEN + 1 ∧
  l.state.app_data.tx_buf = remaining ∧ l.state.app_data.tx_len = remaining.length ∧
  l.state.ifs = ifs

/-- The replies of a card that acknowledges `k` chained I-blocks, the first of
which has sequence bit `s`: `R(!s,0,0)`, `R(s,0,0)`, ... -/
def tx_acks (host : Nat) : Nat → Nat → List (Option (List Nat))
  | _, 0 => []
  | s, k + 1 => some (wire_reply host (R (1 - s) 0 0) []) :: tx_acks host (1 - s) k

/-- A received `S(WTX, REQUEST)` asking for the multiplier 9, with the right LRC,
0x6E. -/
def wtx_demo : Teq1Frame :=
  { NAD := 0xA5, PCB := S WTX REQUEST, LEN := 1, INF := [9, 0x6E] ++ List.replicate 253 255 }

/-- A received `S(IFS, REQUEST)` proposing the size 32, with the right LRC,
0x45. -/
def ifs_demo : Teq1Frame :=
  { NAD := 0xA5, PCB := S IFS REQUEST, LEN := 1, INF := [32, 0x45] ++ List.replicate 253 255 }

/-- No reply of the script ever arrives: the card is silent. -/
def script_silent (ese : EseInterface Script) : Prop := ∀ r ∈ ese.hw.replies, r = none

instance script_silent_decidable (ese : EseInterface Script) : Decidable (script_silent ese) := by
  unfold script_silent; infer_instance

/-- Invariant of the exchange loop while every block received is the invalid
sentinel: the error counter is below the RESYNC threshold at the head of the
loop, and the active frame is an I-block or an `S(RESYNC, REQUEST)` whose
retransmit count has not passed the error count. -/
def SilentInv (l : TransceiveLocals) : Prop :=
  l.state.errors ≤ 2 ∧ (l.tx = l.active ∨ l.tx = inot l.active) ∧
  ((l.frame l.active).PCB ∈ [I 0 0, I 0 1, I 1 0, I 1 1] ∨
   ((l.frame l.active).PCB = S RESYNC REQUEST ∧ l.state.retransmits ≤ l.state.errors))

/-! ## Erroneous replies and invariants of the exchange loop -/

/-- A reply that the engine must treat as erroneous: no reply at all (the poll
fails), or a frame with control byte `pcb`, payload `inf` and the checksum byte
`lrc`. -/
inductive BadReply where
  | timeout
  | corrupt (pcb : Nat) (inf : List Nat) (lrc : Nat)
deriving DecidableEq, Repr

/-- The entry of the script for an erroneous reply. -/
def BadReply.wire : BadReply → Option (List Nat)
  | .timeout => none
  | .corrupt pcb inf lrc => some (pcb :: inf.length :: inf ++ [lrc])

/-- The reply is erroneous indeed: a frame that arrives has at most 254 payload
bytes and a checksum byte that differs from the LRC of the frame. -/
def BadReply.bad (host : Nat) : BadReply → Prop
  | .timeout => True
  | .corrupt pcb inf lrc => inf.length ≤ 254 ∧ lrc ≠ xor_all (host :: pcb :: inf.length :: inf)

instance BadReply.bad_decidable (host : Nat) (b : BadReply) : Decidable (b.bad host) := by
  cases b <;> unfold BadReply.bad <;> infer_instance

/-- What `teq1_frame_error_check` returns for an erroneous reply: other error
for the sentinel, parity error for a wrong checksum. -/
def BadReply.err : BadReply → Nat
  | .timeout => R 0 1 0
  | .corrupt pcb _ _ => if pcb = 255 then R 0 1 0 else R 0 0 1

/-- The frame that `teq1_receive` leaves in a buffer filled with 0xff for an
erroneous reply. -/
def BadReply.frame (host : Nat) : BadReply → Teq1Frame
  | .timeout => frame_ff
  | .corrupt pcb inf lrc =>
    { NAD := host, PCB := pcb, LEN := inf.length,
      INF := inf ++ [lrc] ++ List.replicate (INF_LEN - inf.length) 255 }

/-- The error R-block that answers an erroneous reply to an I-block with
sequence bit `s`. -/
def BadReply.nack (s : Nat) : BadReply → Nat
  | .timeout => R s 1 0
  | .corrupt pcb _ _ => if pcb = 255 then R s 1 0 else R s 0 1

/-- The bytes that `teq1_transmit` hands to the hardware for a frame when no
preprocess hook is configured: header, payload and LRC. -/
def wire_of (node_address : Nat) (frame : Teq1Frame) : List Nat :=
  (sealed node_address frame).val.take (3 + frame.LEN + 1)

/-- The sent block is one for which an erroneous reply means `Retransmit`: an
R-block or `S(RESYNC, REQUEST)`. -/
def retransmit_block (pcb : Nat) : Prop :=
  pcb = S RESYNC REQUEST ∨ pcb ∈ [R 0 0 0, R 0 0 1, R 0 1 0, R 0 1 1, R 1 0 0, R 1 0 1, R 1 1 0,
    R 1 1 1]

instance retransmit_block_decidable (pcb : Nat) : Decidable (retransmit_block pcb) := by
  unfold retransmit_block; infer_instance

/-- What one call of the rule engine keeps, from the state and `next_tx` on
entry to the state and `next_tx` on return: the retransmit counter, the size of
the information field of `next_tx`, the transmit cursor inside the transmit
buffer; and either a WTX response was prepared for a single shot, with its
multiplier recorded, or the wait multiplier is untouched and the block
prepared is not a WTX response. -/
def RulesKeep (state : Teq1State) (next : Teq1Frame) (res : RuleResult) (st : Teq1State)
    (nx : Teq1Frame) : Prop :=
  st.retransmits = state.retransmits ∧ nx.INF.length = next.INF.length ∧
  st.app_data.tx_len ≤ st.app_data.tx_buf.length ∧
  ((res = kRuleResultSingleShot ∧ nx.PCB = S WTX RESPONSE ∧ nx.LEN = 1 ∧
      st.wait_mult = nx.INF.getD 0 0) ∨
   (st.wait_mult = state.wait_mult ∧
      ((res = kRuleResultSingleShot ∨ res = kRuleResultContinue) → nx.PCB ≠ S WTX RESPONSE)))

/-- What a run of `teq1_transceive` against the scripted card leaves, for
inspection: the value returned, the error flag and code of the interface, and
the frames transmitted; `none` when the run does not return. -/
def run_summary (x : Except Fault (TransceiveResult Script)) :
    Option (Nat × Int × Int × List (List Nat)) :=
  match x with
  | .ok r => some (r.ret, r.ese.error.is_err, r.ese.error.code, r.ese.hw.sent)
  | .error _ => none

/-- An empty block `R(1,0,0)` as sent. -/
def ack_demo : Teq1Frame :=
  { NAD := 0x5A, PCB := R 1 0 0, LEN := 0, INF := List.replicate 255 0 }

/-- Locals of the exchange loop in which the active frame is the acknowledgement
`ack_demo`, with both counters at 0. -/
def ack_locals_demo : TransceiveLocals :=
  { tx_frame0 := ack_demo, tx_frame1 := frame_demo, tx := 0, was_reset := false, active := 0,
    state := state_demo }

/-- State of the timed card, a scripted card that also logs the timeout of each
poll: the replies still to come, the number of bytes already read from the
first one, the frames transmitted and the timeouts polled with, oldest
first. -/
structure Timed where
  replies : List (Option (List Nat))
  cursor : Nat
  sent : List (List Nat)
  polls : List ℚ
deriving DecidableEq

/-- Poll of the timed card: the timeout is logged; 1 when a reply is waiting,
otherwise -1 (a reply that never arrives is consumed). -/
def timed_poll (ese : EseInterface Timed) (_poll_for : Nat) (timeout : ℚ) (_complete : Int) :
    Int × EseInterface Timed :=
  let ese := { ese with hw := { ese.hw with polls := ese.hw.polls ++ [timeout] } }
  match ese.hw.replies with
  | [] => (-1, ese)
  | none :: rest => (-1, { ese with hw := { ese.hw with replies := rest, cursor := 0 } })
  | some _ :: _ => (1, ese)

/-- Raw receive of the timed card: the next `len` bytes of the current reply;
the reply is finished when `complete` is set. -/
def timed_receive (ese : EseInterface Timed) (_buf : Bool) (len : Nat) (complete : Int) :
    HwReceived Timed :=
  match ese.hw.replies with
  | some bytes :: rest =>
    let out := (bytes.drop ese.hw.cursor).take len
    let hw := if complete ≠ 0 then { ese.hw with replies := rest, cursor := 0 }
              else { ese.hw with cursor := ese.hw.cursor + len }
    { ret := out.length, bytes := out, ese := { ese with hw := hw } }
  | _ => { ret := 0, bytes := [], ese := ese }

/-- Raw transmit of the timed card: the bytes are appended to the log. -/
def timed_transmit (ese : EseInterface Timed) (buf : Option (List Nat)) (len : Nat)
    (_complete : Int) : Nat × EseInterface Timed :=
  (len, { ese with hw := { ese.hw with sent := ese.hw.sent ++ [(buf.getD []).take len] } })

/-- Operations of the timed card, for the given protocol options; it has no
reset line. -/
def timed_ops (opts : Teq1ProtocolOptions) : EseOperations Timed :=
  { name := some "timed card", hw_receive := some timed_receive,
    hw_transmit := some timed_transmit, hw_reset := none, poll := some timed_poll,
    opts := some opts }

/-- An interface to the timed card with the given sequence toggles and script,
no error recorded, empty logs, and the error table of the T=1 backends. -/
def timed_ese (card_state : Teq1CardState) (replies : List (Option (List Nat))) :
    EseInterface Timed :=
  { error := { is_err := 0, code := 0, message := none },
    errors := ["T=1 hard failure.", "T=1 abort.", "T=1 device reset failed."],
    errors_count := 3, card_state := card_state,
    hw := { replies := replies, cursor := 0, sent := [], polls := [] } }

/-- The timeout that the claim assigns to the receive that follows the
transmission of the frame `wire` (address, control byte, length, payload,
LRC): the base wait time times the payload byte of an `S(WTX, RESPONSE)`, and
the base wait time times 1 after any other frame. -/
def timeout_of (bwt : ℚ) (wire : List Nat) : ℚ :=
  bwt * ((if wire.getD 1 0 = S WTX RESPONSE then wire.getD 3 0 else 1 : Nat) : ℚ)

/-- What holds of the locals at the head of each iteration of the exchange
loop: the active frame is not a WTX response, both frames have the full
information field, the transmit cursor is inside the transmit buffer, and
either `tx` points to the active frame and no multiplier is pending, or `tx`
points to the inactive frame for a single shot and a multiplier is pending
exactly when that frame is a WTX response, whose payload byte it is. -/
def WtxInv (l : TransceiveLocals) : Prop :=
  (l.frame l.active).PCB ≠ S WTX RESPONSE ∧
  (l.frame l.active).INF.length = INF_LEN + 1 ∧
  (l.frame (inot l.active)).INF.length = INF_LEN + 1 ∧
  l.state.app_data.tx_len ≤ l.state.app_data.tx_buf.length ∧
  ((l.tx = l.active ∧ l.state.wait_mult = 1) ∨
   (l.tx = inot l.active ∧
     (((l.frame (inot l.active)).PCB = S WTX RESPONSE ∧ (l.frame (inot l.active)).LEN = 1 ∧
        l.state.wait_mult = (l.frame (inot l.active)).INF.getD 0 0) ∨
      ((l.frame (inot l.active)).PCB ≠ S WTX RESPONSE ∧ l.state.wait_mult = 1))))

/-- What a run of `teq1_transceive` against the timed card leaves, for
inspection: the value returned, the error flag of the interface and the frames
transmitted; `none` when the run does not return. -/
def timed_summary (x : Except Fault (TransceiveResult Timed)) :
    Option (Nat × Int × List (List Nat)) :=
  match x with
  | .ok r => some (r.ret, r.ese.error.is_err, r.ese.hw.sent)
  | .error _ => none

/-- The bit-field `PCB.S.type` of `struct PCB`: bits 0 and 1. -/
def PCB_S_type (val : Nat) : Nat := bitfield_get val 0 2

/-- The bit-field `PCB.S.response` of `struct PCB`: bit 5. -/
def PCB_S_response (val : Nat) : Nat := bitfield_get val 5 1

/-- The twenty control bytes that the encoders of `teq1.h` produce from
one-bit arguments. -/
def pcb_encodings : List Nat :=
  [TEQ1_I 0 0, TEQ1_I 0 1, TEQ1_I 1 0, TEQ1_I 1 1,
   TEQ1_R 0 0 0, TEQ1_R 0 0 1, TEQ1_R 0 1 0, TEQ1_R 0 1 1,
   TEQ1_R 1 0 0, TEQ1_R 1 0 1, TEQ1_R 1 1 0, TEQ1_R 1 1 1,
   TEQ1_S_RESYNC 0, TEQ1_S_RESYNC 1, TEQ1_S_IFS 0, TEQ1_S_IFS 1,
   TEQ1_S_ABORT 0, TEQ1_S_ABORT 1, TEQ1_S_WTX 0, TEQ1_S_WTX 1]

/-- A frame is classified erroneous by the rule engine when the error check
rejects it, or when the error check passes it and no case label matches the
pair of the sent and the received control byte. -/
def classified_erroneous (state : Teq1State) (tx rx : Teq1Frame) : Prop :=
  (teq1_frame_error_check state tx rx).1 ≠ 0 ∨
  rule_arm (TEQ1_RULE tx.PCB rx.PCB) = default_

instance classified_erroneous_decidable (state : Teq1State) (tx rx : Teq1Frame) :
    Decidable (classified_erroneous state tx rx) := by
  unfold classified_erroneous; infer_instance

/-- The error R-block that the error check assigns to a frame it rejects, and
to a frame that is re-marked for want of a rule: parity error for a
non-sentinel frame with a wrong checksum, other error otherwise. -/
def error_code (rx : Teq1Frame) : Nat :=
  if rx.PCB ≠ 255 ∧ rx.INF.getD rx.LEN 0 ≠ teq1_compute_LRC rx then R 0 0 1 else R 0 1 0

/-- The state after the first evaluation of a frame by the rule engine: the
error check, and the count of the error if there is one. -/
def first_pass (state : Teq1State) (tx rx : Teq1Frame) : Teq1State :=
  if (teq1_frame_error_check state tx rx).1 ≠ 0 then
    count_error (teq1_frame_error_check state tx rx).2
  else (teq1_frame_error_check state tx rx).2

/-- The first evaluation of a frame finds no rule to apply: the escalation
thresholds are not reached and no case label matches, for a frame that the
error check rejects the pair of the sent block and the sentinel, otherwise the
pair of the sent block and the received block. -/
def no_rule (state : Teq1State) (tx rx : Teq1Frame) : Prop :=
  ((teq1_frame_error_check state tx rx).1 = 0 ∧
    rule_arm (TEQ1_RULE tx.PCB rx.PCB) = default_) ∨
  ((teq1_frame_error_check state tx rx).1 ≠ 0 ∧ state.errors + 1 < 3 ∧
    rule_arm (TEQ1_RULE tx.PCB 255) = default_)

instance no_rule_decidable (state : Teq1State) (tx rx : Teq1Frame) :
    Decidable (no_rule state tx rx) := by
  unfold no_rule; infer_instance

/-- A frame with no rule to apply: `S(ABORT, REQUEST)` was sent and nothing
came back. -/
def abort_sent_demo : Teq1Frame :=
  { NAD := 0x5A, PCB := S ABORT REQUEST, LEN := 0, INF := List.replicate 255 0 }

/-- Locals of the exchange loop in which the active frame is the request
`abort_sent_demo`. -/
def abort_locals_demo : TransceiveLocals :=
  { tx_frame0 := abort_sent_demo, tx_frame1 := frame_demo, tx := 0, was_reset := false,
    active := 0, state := state_demo }

/-- The part of a run that the caller of `teq1_transceive` sees: the value
returned, the error flag and code, and the contents of the receive buffer. -/
def rx_summary {H : Type} (x : Except Fault (TransceiveResult H)) :
    Option (Nat × Int × Int × List Nat) :=
  match x with
  | .ok r => some (r.ret, r.ese.error.is_err, r.ese.error.code, r.rx_mem)
  | .error _ => none

/-- One call of a hardware operation, with its arguments. -/
inductive HwCall where
  | poll (poll_for : Nat) (timeout : ℚ) (complete : Int)
  | receive (buf : Bool) (len : Nat) (complete : Int)
  | transmit (bytes : List Nat) (len : Nat) (complete : Int)
deriving DecidableEq

/-- State of the probed backend, a test double for the hardware contract that
logs every call of an operation with its arguments: what the poll returns, the
bytes still to be delivered by raw receives in order, the count that the raw
transmit reports, and the calls made so far, oldest first. -/
structure Probe where
  poll_ret : Int
  wire : List Nat
  tx_ret : Nat
  calls : List HwCall
deriving DecidableEq

/-- Poll of the probed backend. -/
def probe_poll (ese : EseInterface Probe) (poll_for : Nat) (timeout : ℚ) (complete : Int) :
    Int × EseInterface Probe :=
  (ese.hw.poll_ret,
   { ese with hw := { ese.hw with calls := ese.hw.calls ++ [.poll poll_for timeout complete] } })

/-- Raw receive of the probed backend: the next `len` bytes, none into a null
buffer. -/
def probe_receive (ese : EseInterface Probe) (buf : Bool) (len : Nat) (complete : Int) :
    HwReceived Probe :=
  let out := if buf then ese.hw.wire.take len else []
  { ret := out.length, bytes := out,
    ese := { ese with hw := { ese.hw with
      wire := ese.hw.wire.drop out.length
      calls := ese.hw.calls ++ [.receive buf len complete] } } }

/-- Raw transmit of the probed backend. -/
def probe_transmit (ese : EseInterface Probe) (buf : Option (List Nat)) (len : Nat)
    (complete : Int) : Nat × EseInterface Probe :=
  (ese.hw.tx_ret,
   { ese with hw := { ese.hw with
      calls := ese.hw.calls ++ [.transmit ((buf.getD []).take len) len complete] } })

/-- Operations of the probed backend, for the given protocol options. -/
def probe_ops (opts : Teq1ProtocolOptions) : EseOperations Probe :=
  { name := some "probed backend", hw_receive := some probe_receive,
    hw_transmit := some probe_transmit, hw_reset := none, poll := some probe_poll,
    opts := some opts }

/-- An interface to the probed backend, no error recorded and no call made. -/
def probe_ese (poll_ret : Int) (wire : List Nat) (tx_ret : Nat) : EseInterface Probe :=
  { error := { is_err := 0, code := 0, message := none },
    errors := ["T=1 hard failure.", "T=1 abort.", "T=1 device reset failed."],
    errors_count := 3, card_state := { card := 1, interface := 1 },
    hw := { poll_ret := poll_ret, wire := wire, tx_ret := tx_ret, calls := [] } }

/-- The frame as `teq1_receive` leaves it when the wire delivers the control
byte `pcb`, the length `len` and then `rest`, before the preprocess hook. -/
def assembled (host : Nat) (frame : Teq1Frame) (pcb len : Nat) (rest : List Nat) : Teq1Frame :=
  { NAD := host, PCB := pcb, LEN := len,
    INF := memcpy frame.INF 0 (rest.take (len + 1)) (min (rest.take (len + 1)).length (len + 1)) }

/-- The frame after the optional preprocess hook, called with direction flag
`tx`. -/
def hooked (opts : Teq1ProtocolOptions) (frame : Teq1Frame) (tx : Int) : Teq1Frame :=
  match opts.preprocess with
  | some preprocess => (preprocess opts.toTeq1ProtocolOptionsData frame tx).2
  | none => frame

/-- The conversion of a `size_t` to the `int` that `ese_transceive` returns:
the low 32 bits, read as a two's complement number. -/
def int_of_size_t (n : Nat) : Int :=
  let m : Nat := n % 2 ^ 32
  if m < 2 ^ 31 then (m : Int) else (m : Int) - 2 ^ 32

/-- The tail of `ese_transceive`: `if (ese->error.is_err) return -1; return
recvd;`. -/
def ese_transceive_finish {H : Type} (recvd : Nat) (ese : EseInterface H)
    (rx_buf : Option (List Nat)) : Except Fault (Int × Option (EseInterface H) × Option (List Nat)) :=
  .ok (if ese.error.is_err ≠ 0 then -1 else int_of_size_t recvd, some ese, rx_buf)

/-- `ese_transceive`: returns its `int`, the interface and the receive buffer;
a null interface or buffer is `none`. The `while (1)` never goes round: each
path through its body ends in `break`. -/
def ese_transceive {H : Type} (ops : EseOperations H) (ese : Option (EseInterface H))
    (tx_buf : Option (List Nat)) (tx_len : Nat) (rx_buf : Option (List Nat)) (rx_max : Nat) :
    Except Fault (Int × Option (EseInterface H) × Option (List Nat)) :=
  match ese with
  | none => .ok (-1, none, rx_buf)
  | some ese =>
    match ops.transceive with
    | some transceive =>
      match transceive ese tx_buf tx_len rx_buf rx_max with
      | .error e => .error e
      | .ok (recvd, ese, rx_buf) => ese_transceive_finish recvd ese rx_buf
    | none =>
      match ops.hw_transmit, ops.hw_receive with
      | some hw_transmit, some hw_receive =>
        let t := hw_transmit ese tx_buf tx_len 1
        let ese := t.2
        if ese.error.is_err ≠ 0 then ese_transceive_finish 0 ese rx_buf
        else
          let r := hw_receive ese rx_buf.isSome rx_max 1
          ese_transceive_finish r.ret r.ese
            (rx_buf.map fun b => memcpy b 0 r.bytes (min r.bytes.length rx_max))
      | _, _ =>
        match ese_set_error_nonnull ese (-1) with
        | .error e => .error e
        | .ok ese => ese_transceive_finish 0 ese rx_buf

/-- Operations of a backend with a transceive operation that reports `n`
bytes and leaves the interface and the buffer alone. -/
def counting_ops (n : Nat) : EseOperations Probe :=
  { name := none, hw_receive := none, hw_transmit := none, hw_reset := none, poll := none,
    opts := none, transceive := some fun ese _ _ rx_buf _ => .ok (n, ese, rx_buf) }

/-- Invariant of the exchange loop: the control byte of the active frame is
not `S(ABORT, RESPONSE)`, and `tx` points to one of the two frames. -/
def AbortFree (l : TransceiveLocals) : Prop :=
  (l.frame l.active).PCB % 256 ≠ S ABORT RESPONSE ∧ (l.tx = l.active ∨ l.tx = inot l.active)

/-- The blocks after which the rule table answers an abort request of the
peer: an I-block with the more-data bit, or any R-block. -/
def abort_request_block (pcb : Nat) : Prop :=
  pcb ∈ [I 0 1, I 1 1, R 0 0 0, R 0 0 1, R 0 1 0, R 0 1 1, R 1 0 0, R 1 0 1, R 1 1 0, R 1 1 1]

instance abort_request_block_decidable (pcb : Nat) : Decidable (abort_request_block pcb) := by
  unfold abort_request_block; infer_instance

/-- A checksum-valid `S(ABORT, REQUEST)` with one byte of payload, as
received. -/
def abort_request_demo : Teq1Frame := received 0xA5 (S ABORT REQUEST) [0]

/-- A checksum-valid block `R(0,0,0)` with one byte of payload, as received. -/
def ack_long_demo : Teq1Frame := received 0xA5 (R 0 0 0) [7]

/-- An interface with the error table of the T=1 backends and no error
recorded, over a backend without state. -/
def plain_ese : EseInterface Unit :=
  { error := { is_err := 0, code := 0, message := none },
    errors := ["T=1 hard failure.", "T=1 abort.", "T=1 device reset failed."],
    errors_count := 3, card_state := { card := 1, interface := 1 }, hw := () }

/-- The checksum comparison of `teq1_frame_error_check` fails for the frame:
the byte `INF[LEN]` differs from `teq1_compute_LRC`, and the error check
returns an error R-block, the parity error unless the control byte is the
sentinel. -/
def checksum_fails (state : Teq1State) (tx frame : Teq1Frame) : Prop :=
  frame.INF.getD frame.LEN 0 ≠ teq1_compute_LRC frame ∧
  (teq1_frame_error_check state tx frame).1 ≠ 0 ∧
  (frame.PCB ≠ 255 → (teq1_frame_error_check state tx frame).1 = R 0 0 1)

instance checksum_fails_decidable (state : Teq1State) (tx frame : Teq1Frame) :
    Decidable (checksum_fails state tx frame) := by
  unfold checksum_fails; infer_instance

/-- A received `S(IFS, REQUEST)` proposing the size 0, with the right LRC. -/
def ifs_zero_demo : Teq1Frame := received 0xA5 (S IFS REQUEST) [0]

/-- A state with one byte left to send and the information field size 0. -/
def stalled_state_demo : Teq1State :=
  { TEQ1_INIT_STATE [7] 1 (List.replicate 8 0) 8 (TEQ1_INIT_CARD_STATE ⟨0, 0⟩) with ifs := 0 }

/-- What a run of `teq1_transceive` against the scripted card leaves, with
each frame sent cut down to its header and its length on the wire: the value
returned, the error flag and code, and the frames. -/
def run_headers (x : Except Fault (TransceiveResult Script)) :
    Option (Nat × Int × Int × List (List Nat × Nat)) :=
  match x with
  | .ok r => some (r.ret, r.ese.error.is_err, r.ese.error.code,
      r.ese.hw.sent.map fun (f : List Nat) => (f.take 3, f.length))
  | .error _ => none

/-- The sent control bytes for which the `switch` of `teq1_rules` has a case
label with the sentinel 255 as received byte. -/
def sentinel_rule_pcbs : List Nat :=
  [S RESYNC REQUEST, I 0 0, I 1 0, I 0 1, I 1 1, R 0 0 0, R 0 0 1, R 0 1 0, R 0 1 1,
   R 1 0 0, R 1 0 1, R 1 1 0, R 1 1 1, S ABORT RESPONSE]

/-- The received block is rejected by the error check without being the
sentinel, the count stays below 3 after it is counted, and the sent block has no
case label for the sentinel: `teq1_rules` then marks the block with 255 and
evaluates it a second time. -/
def counted_twice (state : Teq1State) (tx rx : Teq1Frame) : Prop :=
  (teq1_frame_error_check state tx rx).1 ≠ 0 ∧ rx.PCB ≠ 255 ∧ state.errors + 1 < 3 ∧
    rule_arm (TEQ1_RULE tx.PCB 255) = default_

instance counted_twice_decidable (state : Teq1State) (tx rx : Teq1Frame) :
    Decidable (counted_twice state tx rx) := by
  unfold counted_twice
  exact inferInstance

/-- The error counter after one call of `teq1_rules`. -/
def errors_after (x : Option (RuleResult × Teq1State × Teq1Frame × Teq1Frame)) : Option Nat :=
  x.map (fun r => r.2.1.errors)

/-- The calls of the raw transmit among the calls logged. -/
def transmit_calls (calls : List HwCall) : List HwCall :=
  calls.filter (fun c => match c with
    | .transmit _ _ _ => true
    | _ => false)

/-- Locals of the exchange loop in which the active frame is the block
`sent_demo`, an empty `I(0,0)`. -/
def info_locals_demo : TransceiveLocals :=
  { tx_frame0 := sent_demo, tx_frame1 := frame_demo, tx := 0, was_reset := false, active := 0,
    state := state_demo }

/-- The receive cursor plus the remaining receive capacity: the end of the
caller's receive window, as an offset in the receive buffer. -/
def rx_end (state : Teq1State) : Nat := state.app_data.rx_buf + state.app_data.rx_len

/-- A state in the middle of a delivery: five of the eight bytes of the receive
buffer are written. -/
def rx_state_demo : Teq1State :=
  { state_demo with app_data :=
      { state_demo.app_data with rx_mem := [1, 2, 3, 4, 5, 0, 0, 0], rx_buf := 5, rx_len := 3 } }

/-- A received block `I(0,0)` with six payload bytes and the right LRC. -/
def long_reply_demo : Teq1Frame := received 0xA5 (I 0 0) [11, 12, 13, 14, 15, 16]

/-- `echo_preprocess` of `ese_hw_echo.c`: returns its `int` and the frame. -/
def echo_preprocess (opts : Teq1ProtocolOptionsData) (frame : Teq1Frame) (tx : Int) :
    Int × Teq1Frame :=
  if tx ≠ 0 then
    let frame := { frame with NAD := 0x00 }
    let frame := { frame with INF := frame.INF.set frame.LEN (teq1_compute_LRC frame) }
    let frame := { frame with NAD := opts.node_address }
    (0, frame)
  else
    let frame := { frame with NAD := 0x00 }
    (0, frame)

/-- `nxp_pn80t_preprocess` of `nxp/pn80t_spidev.c`: returns its `int` and the
frame. -/
def nxp_pn80t_preprocess (opts : Teq1ProtocolOptionsData) (frame : Teq1Frame) (tx : Int) :
    Int × Teq1Frame :=
  if tx ≠ 0 then
    let frame := { frame with NAD := 0x00 }
    let frame := { frame with INF := frame.INF.set frame.LEN (teq1_compute_LRC frame) }
    let frame := { frame with NAD := opts.node_address }
    (0, frame)
  else
    let frame := { frame with NAD := 0x00 }
    (0, frame)

/-- The `teq1_options` of `ese_hw_echo.c`, the times as the decimal numbers
written in the source. -/
def echo_teq1_options : Teq1ProtocolOptions :=
  { host_address := 0xAA, node_address := 0xBB, bwt := 3.14152, etu := 1.0,
    preprocess := some echo_preprocess }

/-- The `teq1_options` of `nxp/pn80t_spidev.c`, the times as the decimal numbers
written in the source. -/
def nxp_pn80t_teq1_options : Teq1ProtocolOptions :=
  { host_address := 0xA5, node_address := 0x5A, bwt := 1.624, etu := 0.00105,
    preprocess := some nxp_pn80t_preprocess }

/-- The hook is one of the two preprocess functions of the backends. -/
def backend_hook (pre : Teq1ProtocolOptionsData → Teq1Frame → Int → Int × Teq1Frame) : Prop :=
  pre = echo_preprocess ∨ pre = nxp_pn80t_preprocess

/-- `ese_open`: returns its `int` and the interface; a null interface is
`none`. The call of `ese_name` only feeds the log. -/
def ese_open {H : Type} (ops : EseOperations H) (ese : Option (EseInterface H))
    (hw_opts : Nat) : Int × Option (EseInterface H) :=
  match ese with
  | none => (-1, none)
  | some ese =>
    match ops.open_op with
    | some open_op =>
      let r := open_op ese hw_opts
      (r.1, some r.2)
    | none => (0, some ese)

/-- `ese_close`: returns its `int` and the interface; a null interface is
`none`. The call of `ese_name` only feeds the log. -/
def ese_close {H : Type} (ops : EseOperations H) (ese : Option (EseInterface H)) :
    Int × Option (EseInterface H) :=
  match ese with
  | none => (-1, none)
  | some ese =>
    match ops.close_op with
    | none => (0, some ese)
    | some close_op =>
      let r := close_op ese
      (r.1, some r.2)

/-- The member `transceive` of the T=1 backends, `&teq1_transceive`, as an
operation: the buffers are the bytes at the two pointers (none for a null
pointer), and `fuel`, `stack0` and `stack1` are the fuel of the loops and the
contents of the uninitialised local array `tx_frame`. -/
def teq1_transceive_op {H : Type} (fuel : Nat) (ops : EseOperations H)
    (stack0 stack1 : Teq1Frame) (ese : EseInterface H) (tx_buf : Option (List Nat))
    (tx_len : Nat) (rx_buf : Option (List Nat)) (rx_len : Nat) :
    Except Fault (Nat × EseInterface H × Option (List Nat)) :=
  match teq1_transceive fuel ops ese (tx_buf.getD []) tx_len (rx_buf.getD []) rx_len
      stack0 stack1 with
  | .error e => .error e
  | .ok r => .ok (r.ret, r.ese, rx_buf.map fun _ => r.rx_mem)

/-- The operations of the backend do not clear the error flag: each of them
leaves `error.is_err` nonzero when it is nonzero on entry. -/
def Sticky {H : Type} (ops : EseOperations H) : Prop :=
  (∀ f, ops.hw_transmit = some f →
    ∀ e b n c, e.error.is_err ≠ 0 → (f e b n c).2.error.is_err ≠ 0) ∧
  (∀ f, ops.hw_receive = some f →
    ∀ e b n c, e.error.is_err ≠ 0 → (f e b n c).ese.error.is_err ≠ 0) ∧
  (∀ f, ops.poll = some f →
    ∀ e p t c, e.error.is_err ≠ 0 → (f e p t c).2.error.is_err ≠ 0) ∧
  (∀ f, ops.hw_reset = some f → ∀ e, e.error.is_err ≠ 0 → (f e).2.error.is_err ≠ 0) ∧
  (∀ f, ops.transceive = some f → ∀ e a b c d n e2 x, f e a b c d = .ok (n, e2, x) →
    e.error.is_err ≠ 0 → e2.error.is_err ≠ 0) ∧
  (∀ f, ops.open_op = some f → ∀ e o, e.error.is_err ≠ 0 → (f e o).2.error.is_err ≠ 0) ∧
  (∀ f, ops.close_op = some f → ∀ e, e.error.is_err ≠ 0 → (f e).2.error.is_err ≠ 0)

/-- An interface to the probed backend on which the error
`TEQ1_ERROR_HARD_FAIL` is recorded. -/
def errored_ese : EseInterface Probe :=
  { probe_ese 1 [] 0 with error := { is_err := 1, code := 0, message := some "T=1 hard failure." } }

/-- The locals with which `teq1_transceive_from` enters the exchange loop: the
first I-block is in `tx_frame[0]`, which is the active frame and the one `tx`
points to. -/
def transceive_start {H : Type} (ese : EseInterface H) (init_state : Teq1State)
    (stack0 stack1 : Teq1Frame) : TransceiveLocals :=
  let tx := { stack0 with PCB := TEQ1_I (lnot (int1_read ese.card_state.interface)) 0 }
  let r := teq1_fill_info_block init_state tx
  { tx_frame0 := r.2.2, tx_frame1 := stack1, tx := 0, was_reset := false, active := 0,
    state := r.2.1 }

/-- The interface and the locals with which the exchange loop, started with
`fuel`, enters the iteration that follows `k` iterations, each of which went
round again; `none` when the loop ended before. -/
def loop_config {H : Type} (ops : EseOperations H) (init_state : Teq1State) (rx_len : Nat) :
    Nat → Nat → EseInterface H → TransceiveLocals → Option (EseInterface H × TransceiveLocals)
  | _, 0, ese, l => some (ese, l)
  | 0, _ + 1, _, _ => none
  | fuel + 1, k + 1, ese, l =>
    match transceive_body ops init_state rx_len (fuel + 1) ese l with
    | .ok (.again ese l) => loop_config ops init_state rx_len fuel k ese l
    | _ => none

/-- One iteration of the exchange loop that resends the active block: the
frame `tx` points to is transmitted and a reply received by `transceive_txrx`,
`teq1_rules` returns `kRuleResultRetransmit`, and `transceive_dispatch` goes
round again with the same active frame. Gives the interface and the locals of
the next iteration. -/
def resend_step {H : Type} (ops : EseOperations H) (init_state : Teq1State) (rx_len fuel : Nat)
    (ese : EseInterface H) (l : TransceiveLocals) : Option (EseInterface H × TransceiveLocals) :=
  match transceive_txrx ops ese l with
  | .error _ => none
  | .ok (e1, l1, rx_frame) =>
    match teq1_rules fuel { l1.state with card_state := e1.card_state }
        (l1.frame l1.tx) rx_frame (l1.frame (inot l1.active)) with
    | none => none
    | some r =>
      if r.1 = kRuleResultRetransmit then
        match transceive_dispatch ops init_state rx_len fuel e1 l1 rx_frame with
        | .ok (.again e2 l2) => if l2.active = l1.active then some (e2, l2) else none
        | _ => none
      else none

/-- A run of `m` consecutive iterations of the exchange loop, started with
`fuel`, each of which resends the active block. -/
def resend_streak {H : Type} (ops : EseOperations H) (init_state : Teq1State) (rx_len : Nat) :
    Nat → Nat → EseInterface H → TransceiveLocals → Option (EseInterface H × TransceiveLocals)
  | _, 0, ese, l => some (ese, l)
  | 0, _ + 1, _, _ => none
  | fuel + 1, m + 1, ese, l =>
    match resend_step ops init_state rx_len (fuel + 1) ese l with
    | some (e2, l2) => resend_streak ops init_state rx_len fuel m e2 l2
    | none => none

/-! ## Checksum lemmas -/

theorem xor_foldl_init (l : List Nat) (a : Nat) :
    l.foldl (fun x y => x ^^^ y) a = a ^^^ xor_all l := by
  unfold xor_all
  induction l generalizing a with
  | nil => simp
  | cons b t ih => simp only [List.foldl_cons]; rw [ih (a ^^^ b), ih (0 ^^^ b)]; simp [Nat.xor_assoc]

theorem xor_all_cons (b : Nat) (l : List Nat) : xor_all (b :: l) = b ^^^ xor_all l := by
  have h := xor_foldl_init l (0 ^^^ b)
  simpa [xor_all] using h

theorem xor_all_append (l m : List Nat) : xor_all (l ++ m) = xor_all l ^^^ xor_all m := by
  induction l with
  | nil => simp [xor_all]
  | cons b t ih => simp [xor_all_cons, ih, Nat.xor_assoc]

theorem xor_all_snoc_self (l : List Nat) : xor_all (l ++ [xor_all l]) = 0 := by
  rw [xor_all_append, xor_all_cons]; simp [xor_all]

theorem lrc_loop_eq (val : List Nat) (k buffer lrc : Nat) :
    teq1_compute_LRC_loop val k buffer lrc = lrc ^^^ xor_all ((val.drop buffer).take k) := by
  induction k generalizing buffer lrc with
  | zero => simp [teq1_compute_LRC_loop, xor_all]
  | succ k ih =>
    rw [teq1_compute_LRC_loop, ih]
    rcases Nat.lt_or_ge buffer val.length with h | h
    · rw [List.drop_eq_getElem_cons h, List.take_succ_cons, xor_all_cons]
      simp [h, Nat.xor_assoc]
    · have h1 : val.drop buffer = [] := List.drop_eq_nil_of_le h
      have h2 : val.drop (buffer + 1) = [] := List.drop_eq_nil_of_le (by omega)
      have h3 : val[buffer]? = none := by simp [h]
      simp [h1, h2, xor_all, h3]

theorem compute_LRC_eq (frame : Teq1Frame) :
    teq1_compute_LRC frame
      = xor_all (frame.NAD :: frame.PCB :: frame.LEN :: frame.INF.take frame.LEN) := by
  unfold teq1_compute_LRC
  rw [lrc_loop_eq]
  simp [Teq1Frame.val]

theorem take_set_self (inf : List Nat) (n v : Nat) :
    (inf.set n v).take n = inf.take n := by
  rw [List.set_take, List.set_eq_of_length_le (by simp)]

theorem set_LRC_take (inf : List Nat) (n v : Nat) (h : n < inf.length) :
    (inf.set n v).take (n + 1) = inf.take n ++ [v] := by
  rw [List.take_succ, take_set_self]
  simp [List.getElem?_set, h]

theorem transmit_frame_LRC (frame : Teq1Frame) (nad : Nat) :
    teq1_compute_LRC
        { frame with
            NAD := nad
            INF := frame.INF.set frame.LEN (teq1_compute_LRC { frame with NAD := nad }) }
      = teq1_compute_LRC { frame with NAD := nad } := by
  rw [compute_LRC_eq, compute_LRC_eq]
  simp only [take_set_self]


/-! ## Rule engine lemmas -/

theorem TEQ1_RULE_eq (tx rx : Nat) : TEQ1_RULE tx rx = (tx % 256) * 256 + rx % 256 := by
  unfold TEQ1_RULE
  have h1 : tx &&& 255 = tx % 256 := Nat.and_pow_two_sub_one_eq_mod tx 8
  have h2 : rx &&& 255 = rx % 256 := Nat.and_pow_two_sub_one_eq_mod rx 8
  rw [h1, h2, Nat.shiftLeft_eq]
  have h3 : rx % 256 < 2 ^ 8 := Nat.mod_lt _ (by norm_num)
  have := Nat.mul_add_lt_is_or h3 (tx % 256)
  rw [Nat.mul_comm, ← this]

set_option maxRecDepth 100000 in
theorem arm_sentinel_fin : ∀ q : Fin 256, rule_arm (q.val * 256 + 255) ∈
    [resync_no_reply, bad_rx, r_block_retransmit, abort_no_reply, default_] := by
  decide

theorem arm_sentinel (p : Nat) : rule_arm (TEQ1_RULE p 255) ∈
    [resync_no_reply, bad_rx, r_block_retransmit, abort_no_reply, default_] := by
  rw [TEQ1_RULE_eq]
  exact arm_sentinel_fin ⟨p % 256, Nat.mod_lt _ (by norm_num)⟩

theorem switch_sentinel (state : Teq1State) (tx rx next : Teq1Frame) (R_err p : Nat) :
    teq1_rules_switch state tx rx next R_err (TEQ1_RULE p 255) = none ∨
    ∃ res next', teq1_rules_switch state tx rx next R_err (TEQ1_RULE p 255)
        = some (res, state, next') ∧
      (res = kRuleResultRetransmit ∨ res = kRuleResultSingleShot) := by
  have h := arm_sentinel p
  unfold teq1_rules_switch
  generalize rule_arm (TEQ1_RULE p 255) = a at h
  cases a <;> simp at h <;> simp

theorem rules_loop_err (fuel : Nat) (state st1 : Teq1State) (tx rx next : Teq1Frame)
    (txrx e : Nat) (h : teq1_frame_error_check state tx rx = (e, st1)) (he : e ≠ 0) :
    teq1_rules_loop (fuel + 1) state tx rx next txrx =
      if st1.errors + 1 ≥ 6 then some (kRuleResultResetDevice, count_error st1, rx, next)
      else if st1.errors + 1 ≥ 3 then
        some (kRuleResultContinue, count_error st1, rx, { next with PCB := S RESYNC REQUEST })
      else
        match teq1_rules_switch (count_error st1) tx rx next e (TEQ1_RULE tx.PCB 255) with
        | some (result, state, next_tx) => some (result, state, rx, next_tx)
        | none =>
          if rx.PCB ≠ 255 then
            teq1_rules_loop fuel (count_error st1) tx { rx with PCB := 255 } next
              (TEQ1_RULE tx.PCB 255)
          else some (kRuleResultHardFail, count_error st1, rx, next) := by
  rw [teq1_rules_loop]
  simp only [h, he, count_error, ne_eq, not_false_eq_true, if_true, true_and]

theorem rules_loop_ok (fuel : Nat) (state st1 : Teq1State) (tx rx next : Teq1Frame)
    (txrx : Nat) (h : teq1_frame_error_check state tx rx = (0, st1)) :
    teq1_rules_loop (fuel + 1) state tx rx next txrx =
      match teq1_rules_switch st1 tx rx next 0 txrx with
      | some (result, state, next_tx) => some (result, state, rx, next_tx)
      | none =>
        if rx.PCB ≠ 255 then
          teq1_rules_loop fuel st1 tx { rx with PCB := 255 } next txrx
        else some (kRuleResultHardFail, st1, rx, next) := by
  rw [teq1_rules_loop]
  simp only [h, ne_eq, not_true_eq_false, if_false, false_and]

theorem error_check_sentinel (state : Teq1State) (tx rx : Teq1Frame) (h : rx.PCB = 255) :
    teq1_frame_error_check state tx rx = (R 0 1 0, state) := by
  simp [teq1_frame_error_check, h]

theorem error_check_parity (state : Teq1State) (tx rx : Teq1Frame) (h : rx.PCB ≠ 255)
    (hl : rx.INF.getD rx.LEN 0 ≠ teq1_compute_LRC rx) :
    teq1_frame_error_check state tx rx = (R 0 0 1, state) := by
  simp only [teq1_frame_error_check, h, if_false, ne_eq, hl, not_false_eq_true, if_true]

/-- What the rule engine does with a frame that fails the error check. -/
theorem rules_loop_err_outcome (fuel : Nat) (state st1 : Teq1State) (tx rx next : Teq1Frame)
    (txrx e : Nat) (h : teq1_frame_error_check state tx rx = (e, st1)) (he : e ≠ 0) :
    ∃ res st2 rx2 next2,
      teq1_rules_loop (fuel + 2) state tx rx next txrx = some (res, st2, rx2, next2) ∧
      res ≠ kRuleResultComplete ∧ st2.app_data = st1.app_data ∧
      st2.card_state = st1.card_state ∧
      (st2.errors = st1.errors + 1 ∨ st2.errors = st1.errors + 2) := by
  rw [rules_loop_err (fuel + 1) state st1 tx rx next txrx e h he]
  by_cases h6 : st1.errors + 1 ≥ 6
  · rw [if_pos h6]
    exact ⟨_, _, _, _, rfl, by simp, rfl, rfl, Or.inl rfl⟩
  rw [if_neg h6]
  by_cases h3 : st1.errors + 1 ≥ 3
  · rw [if_pos h3]
    exact ⟨_, _, _, _, rfl, by simp, rfl, rfl, Or.inl rfl⟩
  rw [if_neg h3]
  rcases switch_sentinel (count_error st1) tx rx next e tx.PCB with hs | ⟨res, n', hs, hres⟩
  · rw [hs]
    by_cases hp : rx.PCB = 255
    · simp only [hp, ne_eq, not_true_eq_false, if_false]
      exact ⟨_, _, _, _, rfl, by simp, rfl, rfl, Or.inl rfl⟩
    · simp only [ne_eq, hp, not_false_eq_true, if_true]
      have hc := error_check_sentinel (count_error st1) tx { rx with PCB := 255 } rfl
      rw [rules_loop_err fuel _ _ tx _ next _ _ hc (by decide)]
      by_cases h6' : (count_error st1).errors + 1 ≥ 6
      · rw [if_pos h6']
        exact ⟨_, _, _, _, rfl, by simp, rfl, rfl, Or.inr rfl⟩
      rw [if_neg h6']
      by_cases h3' : (count_error st1).errors + 1 ≥ 3
      · rw [if_pos h3']
        exact ⟨_, _, _, _, rfl, by simp, rfl, rfl, Or.inr rfl⟩
      rw [if_neg h3']
      rcases switch_sentinel (count_error (count_error st1)) tx { rx with PCB := 255 } next
        (R 0 1 0) tx.PCB with hs2 | ⟨res, n', hs2, hres⟩
      · rw [hs2]
        simp only [ne_eq, not_true_eq_false, if_false]
        exact ⟨_, _, _, _, rfl, by simp, rfl, rfl, Or.inr rfl⟩
      · rw [hs2]
        refine ⟨_, _, _, _, rfl, ?_, rfl, rfl, Or.inr rfl⟩
        rcases hres with h | h <;> simp [h]
  · rw [hs]
    refine ⟨_, _, _, _, rfl, ?_, rfl, rfl, Or.inl rfl⟩
    rcases hres with h | h <;> simp [h]


theorem I_values : I 0 0 = 0 ∧ I 0 1 = 32 ∧ I 1 0 = 64 ∧ I 1 1 = 96 := by decide

theorem note_tx_seq_card (state : Teq1State) (tx : Teq1Frame) :
    (note_tx_seq state tx).card_state.card = state.card_state.card := by
  unfold note_tx_seq; split <;> rfl

/-- The error check accepts a checksum-valid I-block exactly when the
comparison `send_seq == seq.card` fails; with the toggle read as a signed
one-bit field that is when the block carries bit 1 or the recorded bit is 1. -/
theorem error_check_I_accept (state : Teq1State) (tx rx : Teq1Frame) (t m : Nat)
    (ht : t < 2) (hm : m < 2) (hrx : rx.PCB = I t m)
    (hl : rx.INF.getD rx.LEN 0 = teq1_compute_LRC rx)
    (hc : state.card_state.card < 2) (hacc : t = 1 ∨ state.card_state.card = 1) :
    teq1_frame_error_check state tx rx =
      (0, { note_tx_seq state tx with card_state :=
              { (note_tx_seq state tx).card_state with card := t } }) := by
  have hcard := note_tx_seq_card state tx
  unfold teq1_frame_error_check
  simp only [hrx, hl]
  generalize note_tx_seq state tx = st1 at hcard ⊢
  obtain rfl | rfl : t = 0 ∨ t = 1 := by omega
  all_goals obtain rfl | rfl : m = 0 ∨ m = 1 := by omega
  all_goals obtain hc' | hc' : state.card_state.card = 0 ∨ state.card_state.card = 1 := by omega
  all_goals first
    | (exfalso; omega)
    | (simp [I_values, hcard, hc', PCB_type, PCB_I_send_seq, bitfield_get,
         kPcbTypeSupervisory, kPcbTypeReceiveReady, kPcbTypeInfo0, kPcbTypeInfo1, int1_read,
         int1_store])

theorem memcpy_length (dst src : List Nat) (off n : Nat) (h : off + n ≤ dst.length)
    (hs : n ≤ src.length) : (memcpy dst off src n).length = dst.length := by
  simp [memcpy]; omega

theorem memcpy_read (dst src : List Nat) (off n : Nat) (h : off ≤ dst.length)
    (hs : n ≤ src.length) : ((memcpy dst off src n).drop off).take n = src.take n := by
  unfold memcpy
  rw [List.append_assoc, List.drop_append_of_le_length (by simp; omega)]
  rw [List.drop_of_length_le (by simp), List.nil_append]
  rw [List.take_append_of_le_length (by simp; omega)]
  simp

theorem memcpy_before (dst src : List Nat) (off n : Nat) (h : off ≤ dst.length) :
    (memcpy dst off src n).take off = dst.take off := by
  unfold memcpy
  rw [List.append_assoc, List.take_append_of_le_length (by simp; omega)]
  simp

theorem get_app_data_I (st : Teq1State) (rx : Teq1Frame) (t m : Nat) (ht : t < 2) (hm : m < 2)
    (hrx : rx.PCB = I t m) (hL : rx.LEN ≤ 254) :
    teq1_get_app_data st rx =
      { st with app_data :=
        { st.app_data with
            rx_mem := memcpy st.app_data.rx_mem st.app_data.rx_buf rx.INF
              (min rx.LEN st.app_data.rx_len),
            rx_len := st.app_data.rx_len - min rx.LEN st.app_data.rx_len,
            rx_buf := st.app_data.rx_buf + min rx.LEN st.app_data.rx_len } } := by
  have hmod : rx.LEN % 256 = rx.LEN := Nat.mod_eq_of_lt (by omega)
  have hty : PCB_type rx.PCB = kPcbTypeInfo0 ∨ PCB_type rx.PCB = kPcbTypeInfo1 := by
    rw [hrx]
    obtain rfl | rfl : t = 0 ∨ t = 1 := by omega
    all_goals obtain rfl | rfl : m = 0 ∨ m = 1 := by omega
    all_goals decide
  have hmin : (if rx.LEN > st.app_data.rx_len then st.app_data.rx_len else rx.LEN)
      = min rx.LEN st.app_data.rx_len := by
    split <;> omega
  unfold teq1_get_app_data
  simp only [hty, if_true, hmod, hmin]

theorem rules_I_I_complete (fuel : Nat) (state : Teq1State) (tx rx next : Teq1Frame)
    (s t : Nat) (hs : s < 2) (ht : t < 2) (htx : tx.PCB = I s 0) (hrx : rx.PCB = I t 0)
    (hl : rx.INF.getD rx.LEN 0 = teq1_compute_LRC rx)
    (hc : state.card_state.card < 2) (hacc : t = 1 ∨ state.card_state.card = 1) :
    teq1_rules (fuel + 1) state tx rx next =
      some (kRuleResultComplete,
        teq1_get_app_data { note_tx_seq state tx with card_state :=
              { (note_tx_seq state tx).card_state with card := t } } rx, rx, next) := by
  unfold teq1_rules
  rw [rules_loop_ok _ _ _ _ _ _ _ (error_check_I_accept state tx rx t 0 ht (by omega) hrx hl hc hacc)]
  have harm : rule_arm (TEQ1_RULE tx.PCB rx.PCB) = rule_2_1 := by
    rw [htx, hrx]
    obtain rfl | rfl : s = 0 ∨ s = 1 := by omega
    all_goals obtain rfl | rfl : t = 0 ∨ t = 1 := by omega
    all_goals decide
  simp only [teq1_rules_switch, harm]

/-! ## Exchange loop lemmas -/

theorem script_transmit_eq (opts : Teq1ProtocolOptions) (hpre : opts.preprocess = none)
    (ese : EseInterface Script) (frame : Teq1Frame) :
    teq1_transmit (script_ops opts) ese frame =
      .ok (0, { ese with hw := { ese.hw with sent := ese.hw.sent ++
          [(sealed opts.node_address frame).val.take (3 + frame.LEN + 1)] } },
        sealed opts.node_address frame) := by
  simp [teq1_transmit, script_ops, hpre, script_transmit, sealed]

theorem script_receive_eq (opts : Teq1ProtocolOptions) (hpre : opts.preprocess = none)
    (ese : EseInterface Script) (timeout : ℚ) (pcb : Nat) (inf : List Nat)
    (rest : List (Option (List Nat)))
    (hrep : ese.hw.replies = some (wire_reply opts.host_address pcb inf) :: rest)
    (hcur : ese.hw.cursor = 0) (hlen : inf.length ≤ 254) :
    teq1_receive (script_ops opts) ese timeout frame_ff =
      .ok ((inf.length : Int), { ese with hw := { ese.hw with replies := rest, cursor := 0 } },
        received opts.host_address pcb inf) := by
  have h255 : inf.length ≠ 255 := by omega
  simp [teq1_receive, script_ops, hpre, script_poll, script_receive, hrep, hcur, wire_reply,
    memcpy, frame_ff, received, h255]
  have htake : ∀ x : Nat, List.take (inf.length + 1) (inf ++ [x]) = inf ++ [x] :=
    fun x => List.take_of_length_le (by simp)
  simp [htake]

theorem received_LRC (nad pcb : Nat) (inf : List Nat) :
    (received nad pcb inf).INF.getD (received nad pcb inf).LEN 0
      = teq1_compute_LRC (received nad pcb inf) := by
  rw [compute_LRC_eq]
  have h : (inf ++ [xor_all (nad :: pcb :: inf.length :: inf)]
      ++ List.replicate (INF_LEN - inf.length) 255)[inf.length]?
      = some (xor_all (nad :: pcb :: inf.length :: inf)) := by
    rw [List.append_assoc, List.getElem?_append_right (le_refl _)]
    simp
  simp only [received, List.getD_eq_getElem?_getD, h, Option.getD_some]
  simp

theorem received_INF_length (nad pcb : Nat) (inf : List Nat) (h : inf.length ≤ 254) :
    (received nad pcb inf).INF.length = INF_LEN + 1 := by
  simp [received, INF_LEN]; omega

theorem txrx_script (opts : Teq1ProtocolOptions) (hpre : opts.preprocess = none)
    (ese : EseInterface Script) (l : TransceiveLocals) (pcb : Nat) (inf : List Nat)
    (rest : List (Option (List Nat)))
    (hrep : ese.hw.replies = some (wire_reply opts.host_address pcb inf) :: rest)
    (hcur : ese.hw.cursor = 0) (hlen : inf.length ≤ 254) :
    transceive_txrx (script_ops opts) ese l =
      .ok ({ ese with hw := { replies := rest, cursor := 0, sent := ese.hw.sent ++
                [(sealed opts.node_address (l.frame l.tx)).val.take (3 + (l.frame l.tx).LEN + 1)] } },
        txrx_locals opts.node_address l, received opts.host_address pcb inf) := by
  unfold transceive_txrx
  have hopts : (script_ops opts).opts = some opts := rfl
  simp only [hopts, script_transmit_eq opts hpre]
  rw [script_receive_eq opts hpre
    { ese with hw := { ese.hw with sent := ese.hw.sent ++
        [(sealed opts.node_address (l.frame l.tx)).val.take (3 + (l.frame l.tx).LEN + 1)] } }
    _ pcb inf rest hrep hcur hlen]
  simp [txrx_locals]

@[simp] theorem setFrame_state (l : TransceiveLocals) (i : Nat) (f : Teq1Frame) :
    (l.setFrame i f).state = l.state := by
  unfold TransceiveLocals.setFrame; split <;> rfl

@[simp] theorem setFrame_active (l : TransceiveLocals) (i : Nat) (f : Teq1Frame) :
    (l.setFrame i f).active = l.active := by
  unfold TransceiveLocals.setFrame; split <;> rfl

@[simp] theorem setFrame_tx (l : TransceiveLocals) (i : Nat) (f : Teq1Frame) :
    (l.setFrame i f).tx = l.tx := by
  unfold TransceiveLocals.setFrame; split <;> rfl

@[simp] theorem setFrame_was_reset (l : TransceiveLocals) (i : Nat) (f : Teq1Frame) :
    (l.setFrame i f).was_reset = l.was_reset := by
  unfold TransceiveLocals.setFrame; split <;> rfl

theorem dispatch_complete {H : Type} (ops : EseOperations H) (init_state : Teq1State)
    (rx_len fuel : Nat) (ese : EseInterface H) (l : TransceiveLocals) (rx_frame : Teq1Frame)
    (st : Teq1State) (rx next : Teq1Frame)
    (h : teq1_rules fuel { l.state with card_state := ese.card_state }
      (l.frame l.tx) rx_frame (l.frame (inot l.active))
        = some (kRuleResultComplete, st, rx, next)) :
    transceive_dispatch ops init_state rx_len fuel ese l rx_frame =
      .ok (.ret { ret := rx_len - st.app_data.rx_len,
                  ese := { ese with card_state := st.card_state },
                  rx_mem := st.app_data.rx_mem }) := by
  unfold transceive_dispatch
  rw [h]
  simp

theorem and_255 (n : Nat) (h : n ≤ 254) : n &&& 255 = n := by
  rw [Nat.and_pow_two_sub_one_eq_mod n 8]; exact Nat.mod_eq_of_lt (by omega)

theorem set_more_data (s m : Nat) (hs : s < 2) (hm : m < 2) :
    PCB_set_I_more_data (PCB_set_I_more_data (I s 0) 0) m = I s m ∧
    PCB_set_I_more_data (I s 0) 0 = I s 0 := by
  obtain rfl | rfl : s = 0 ∨ s = 1 := by omega
  all_goals obtain rfl | rfl : m = 0 ∨ m = 1 := by omega
  all_goals decide

theorem I_type (s m : Nat) (hs : s < 2) (hm : m < 2) :
    PCB_type (I s m) = kPcbTypeInfo0 ∨ PCB_type (I s m) = kPcbTypeInfo1 := by
  obtain rfl | rfl : s = 0 ∨ s = 1 := by omega
  all_goals obtain rfl | rfl : m = 0 ∨ m = 1 := by omega
  all_goals decide

theorem fill_info_block_I (state : Teq1State) (frame : Teq1Frame) (s : Nat) (hs : s < 2)
    (hpcb : frame.PCB = I s 0) (hlen : state.app_data.tx_len < 2 ^ 32) :
    teq1_fill_info_block state frame =
      (chunk_len state,
       { state with app_data :=
          { state.app_data with
              tx_len := state.app_data.tx_len - chunk_len state,
              tx_buf := state.app_data.tx_buf.drop (chunk_len state) } },
       { frame with
          INF := memcpy frame.INF 0 state.app_data.tx_buf (chunk_len state)
          LEN := chunk_len state
          PCB := I s (if state.app_data.tx_len - chunk_len state > 0 then 1 else 0) }) := by
  have hty := I_type s 0 hs (by omega)
  have hmod : state.app_data.tx_len % 2 ^ 32 = state.app_data.tx_len := Nat.mod_eq_of_lt hlen
  have hlen' : (if state.app_data.tx_len > (if state.ifs < INF_LEN then state.ifs else INF_LEN)
      then (if state.ifs < INF_LEN then state.ifs else INF_LEN) else state.app_data.tx_len)
      = chunk_len state := by
    unfold chunk_len; split <;> split <;> omega
  have h254 : chunk_len state ≤ 254 := by unfold chunk_len INF_LEN; omega
  unfold teq1_fill_info_block
  simp only [hpcb, hty, if_true, hmod, hlen', and_255 _ h254, Nat.mod_eq_of_lt (show chunk_len state < 256 by omega)]
  by_cases hmore : state.app_data.tx_len - chunk_len state > 0
  · simp only [hmore, if_true, (set_more_data s 1 hs (by omega)).1]
  · simp only [hmore, if_false, (set_more_data s 0 hs (by omega)).2]

theorem sealed_wire (node : Nat) (f : Teq1Frame) (inf : List Nat) (hL : f.LEN = inf.length)
    (hinf : f.INF.take f.LEN = inf) (hlt : f.LEN < f.INF.length) :
    (sealed node f).val.take (3 + f.LEN + 1) = node :: wire_reply node f.PCB inf := by
  have h4 : 3 + f.LEN + 1 = (f.LEN + 1) + 3 := by omega
  rw [h4]
  simp only [sealed, Teq1Frame.val, List.take_succ_cons]
  rw [set_LRC_take _ _ _ hlt, compute_LRC_eq]
  rw [hL] at hinf
  simp only [hinf, wire_reply, hL, List.cons_append]

theorem lnot_lt (x : Int) : lnot x < 2 := by
  unfold lnot; split <;> omega

theorem send_seq_I (s m : Nat) (hs : s < 2) (hm : m < 2) :
    int1_store (PCB_I_send_seq (I s m)) = s := by
  obtain rfl | rfl : s = 0 ∨ s = 1 := by omega
  all_goals obtain rfl | rfl : m = 0 ∨ m = 1 := by omega
  all_goals decide

theorem note_tx_seq_I (state : Teq1State) (tx : Teq1Frame) (s m : Nat) (hs : s < 2) (hm : m < 2)
    (htx : tx.PCB = I s m) :
    note_tx_seq state tx =
      { state with card_state := { state.card_state with interface := s } } := by
  unfold note_tx_seq
  rw [htx, if_pos (I_type s m hs hm), send_seq_I s m hs hm]

theorem txrx_locals_tx (n : Nat) (l : TransceiveLocals) : (txrx_locals n l).tx = l.active := by
  simp [txrx_locals]

theorem txrx_locals_active (n : Nat) (l : TransceiveLocals) :
    (txrx_locals n l).active = l.active := by
  simp [txrx_locals]

theorem txrx_locals_was_reset (n : Nat) (l : TransceiveLocals) :
    (txrx_locals n l).was_reset = l.was_reset := by
  simp [txrx_locals]

theorem txrx_locals_state (n : Nat) (l : TransceiveLocals) :
    (txrx_locals n l).state = { l.state with wait_mult := 1 } := by
  simp [txrx_locals]

theorem frame_setFrame_same (l : TransceiveLocals) (i : Nat) (f : Teq1Frame) :
    (l.setFrame i f).frame i = f := by
  unfold TransceiveLocals.setFrame TransceiveLocals.frame; split <;> simp_all

theorem frame_setFrame_inot (l : TransceiveLocals) (i : Nat) (f : Teq1Frame) :
    (l.setFrame (inot i) f).frame i = l.frame i := by
  unfold TransceiveLocals.setFrame TransceiveLocals.frame inot
  by_cases h : i = 0 <;> simp [h]

theorem frame_setFrame_inot' (l : TransceiveLocals) (i : Nat) (f : Teq1Frame) :
    (l.setFrame i f).frame (inot i) = l.frame (inot i) := by
  unfold TransceiveLocals.setFrame TransceiveLocals.frame inot
  by_cases h : i = 0 <;> simp [h]

/-- After the first half of the body, when `tx` pointed to the active frame. -/
theorem txrx_locals_frames (n : Nat) (l : TransceiveLocals) (h : l.tx = l.active) :
    (txrx_locals n l).frame l.active = sealed n (l.frame l.active) ∧
    (txrx_locals n l).frame (inot l.active)
      = { l.frame (inot l.active) with NAD := 0, PCB := 0, LEN := 0 } := by
  by_cases h0 : l.active = 0 <;>
    simp [txrx_locals, TransceiveLocals.frame, TransceiveLocals.setFrame, inot, h0, h]

/-- After the first half of the body, when `tx` pointed to the inactive frame
(a single shot). -/
theorem txrx_locals_frames_shot (n : Nat) (l : TransceiveLocals) (h : l.tx = inot l.active) :
    (txrx_locals n l).frame l.active = l.frame l.active ∧
    (txrx_locals n l).frame (inot l.active)
      = { sealed n (l.frame (inot l.active)) with NAD := 0, PCB := 0, LEN := 0 } := by
  by_cases h0 : l.active = 0 <;>
    simp [txrx_locals, TransceiveLocals.frame, TransceiveLocals.setFrame, inot, h0, h]

theorem loop_step_ret (opts : Teq1ProtocolOptions) (hpre : opts.preprocess = none)
    (init_state : Teq1State) (rx_len fuel : Nat)
    (ese : EseInterface Script) (l : TransceiveLocals) (pcb : Nat) (inf : List Nat)
    (rest : List (Option (List Nat))) (r : TransceiveResult Script)
    (hrep : ese.hw.replies = some (wire_reply opts.host_address pcb inf) :: rest)
    (hcur : ese.hw.cursor = 0) (hlen : inf.length ≤ 254)
    (h : transceive_dispatch (script_ops opts) init_state rx_len (fuel + 1)
          (script_after ese rest
            ((sealed opts.node_address (l.frame l.tx)).val.take (3 + (l.frame l.tx).LEN + 1)))
          (txrx_locals opts.node_address l) (received opts.host_address pcb inf)
        = .ok (.ret r)) :
    teq1_transceive_loop (script_ops opts) init_state rx_len (fuel + 1) ese l = .ok r := by
  rw [teq1_transceive_loop, transceive_body, txrx_script opts hpre ese l pcb inf rest hrep hcur hlen]
  simp only [script_after] at h
  simp only [h]

theorem loop_step_again (opts : Teq1ProtocolOptions) (hpre : opts.preprocess = none)
    (init_state : Teq1State) (rx_len fuel : Nat)
    (ese : EseInterface Script) (l : TransceiveLocals) (pcb : Nat) (inf : List Nat)
    (rest : List (Option (List Nat))) (ese2 : EseInterface Script) (l2 : TransceiveLocals)
    (hrep : ese.hw.replies = some (wire_reply opts.host_address pcb inf) :: rest)
    (hcur : ese.hw.cursor = 0) (hlen : inf.length ≤ 254)
    (h : transceive_dispatch (script_ops opts) init_state rx_len (fuel + 1)
          (script_after ese rest
            ((sealed opts.node_address (l.frame l.tx)).val.take (3 + (l.frame l.tx).LEN + 1)))
          (txrx_locals opts.node_address l) (received opts.host_address pcb inf)
        = .ok (.again ese2 l2)) :
    teq1_transceive_loop (script_ops opts) init_state rx_len (fuel + 1) ese l
      = teq1_transceive_loop (script_ops opts) init_state rx_len fuel ese2 l2 := by
  rw [teq1_transceive_loop, transceive_body, txrx_script opts hpre ese l pcb inf rest hrep hcur hlen]
  simp only [script_after] at h
  simp only [h]

theorem dispatch_continue {H : Type} (ops : EseOperations H) (init_state : Teq1State)
    (rx_len fuel : Nat) (ese : EseInterface H) (l : TransceiveLocals) (rx_frame : Teq1Frame)
    (st : Teq1State) (rx next : Teq1Frame)
    (h : teq1_rules fuel { l.state with card_state := ese.card_state }
      (l.frame l.tx) rx_frame (l.frame (inot l.active))
        = some (kRuleResultContinue, st, rx, next)) :
    transceive_dispatch ops init_state rx_len fuel ese l rx_frame =
      .ok (.again { ese with card_state := st.card_state }
        (transceive_cont (({ l with state := st }).setFrame (inot l.active) next))) := by
  unfold transceive_dispatch
  rw [h]

theorem sealed_PCB (n : Nat) (f : Teq1Frame) : (sealed n f).PCB = f.PCB := rfl

theorem sealed_LEN (n : Nat) (f : Teq1Frame) : (sealed n f).LEN = f.LEN := rfl

theorem received_take (nad pcb : Nat) (inf : List Nat) (k : Nat) (h : k ≤ inf.length) :
    (received nad pcb inf).INF.take k = inf.take k := by
  simp only [received, List.append_assoc]
  rw [List.take_append_of_le_length h]

/-- One exchange of non-chained I-blocks run by the loop against the script. -/
theorem loop_single_exchange (opts : Teq1ProtocolOptions) (hpre : opts.preprocess = none)
    (init_state : Teq1State) (rx_len fuel : Nat)
    (ese : EseInterface Script) (l : TransceiveLocals) (s t : Nat) (payload : List Nat)
    (rest : List (Option (List Nat)))
    (hrep : ese.hw.replies = some (wire_reply opts.host_address (I t 0) payload) :: rest)
    (hcur : ese.hw.cursor = 0) (hk : payload.length ≤ 254)
    (htx : l.tx = l.active) (hpcb : (l.frame l.active).PCB = I s 0) (hs : s < 2) (ht : t < 2)
    (hcard : ese.card_state.card < 2) (hacc : t = 1 ∨ ese.card_state.card = 1) :
    teq1_transceive_loop (script_ops opts) init_state rx_len (fuel + 1) ese l =
      .ok { ret := rx_len -
              (l.state.app_data.rx_len - min payload.length l.state.app_data.rx_len),
            ese := { script_after ese rest
                ((sealed opts.node_address (l.frame l.active)).val.take
                  (3 + (l.frame l.active).LEN + 1)) with
              card_state := { card := t, interface := s } },
            rx_mem := memcpy l.state.app_data.rx_mem l.state.app_data.rx_buf
              (received opts.host_address (I t 0) payload).INF
              (min payload.length l.state.app_data.rx_len) } := by
  apply loop_step_ret opts hpre init_state rx_len fuel ese l (I t 0) payload rest _ hrep hcur hk
  have hfr := (txrx_locals_frames opts.node_address l htx).1
  have htx' : ((txrx_locals opts.node_address l).frame (txrx_locals opts.node_address l).tx).PCB
      = I s 0 := by
    rw [txrx_locals_tx, hfr, sealed_PCB, hpcb]
  have hrules := rules_I_I_complete fuel
    { (txrx_locals opts.node_address l).state with card_state := ese.card_state }
    ((txrx_locals opts.node_address l).frame (txrx_locals opts.node_address l).tx)
    (received opts.host_address (I t 0) payload)
    ((txrx_locals opts.node_address l).frame (inot (txrx_locals opts.node_address l).active))
    s t hs ht htx' rfl (received_LRC _ _ _) hcard hacc
  rw [dispatch_complete _ _ _ _ (script_after ese rest _) _ _ _ _ _ hrules]
  rw [note_tx_seq_I _ _ s 0 hs (by omega) htx']
  rw [get_app_data_I _ _ t 0 ht (by omega) rfl (by simpa [received] using hk)]
  simp only [txrx_locals_state, htx]
  rfl

theorem memcpy_zero_take (dst src : List Nat) (n : Nat) (hs : n ≤ src.length) :
    (memcpy dst 0 src n).take n = src.take n := by
  have := memcpy_read dst src 0 n (Nat.zero_le _) hs
  simpa using this

/-- One call of `teq1_transceive` against the scripted card whose first reply is
a checksum-valid non-chained I-block that the error check accepts. -/
theorem transceive_single_exchange (fuel : Nat) (opts : Teq1ProtocolOptions)
    (hpre : opts.preprocess = none) (ese : EseInterface Script)
    (hcard : ese.card_state.card < 2)
    (tx_buf rx_mem payload : List Nat) (rx_len t : Nat)
    (rest : List (Option (List Nat))) (stack0 stack1 : Teq1Frame)
    (hrep : ese.hw.replies = some (wire_reply opts.host_address (I t 0) payload) :: rest)
    (hcur : ese.hw.cursor = 0)
    (hstack : stack0.INF.length = INF_LEN + 1)
    (hn : tx_buf.length ≤ 254) (hk : payload.length ≤ 254) (hcap : payload.length ≤ rx_len)
    (hmem : rx_len ≤ rx_mem.length) (ht : t < 2) (hacc : t = 1 ∨ ese.card_state.card = 1) :
    ∃ r : TransceiveResult Script,
      teq1_transceive (fuel + 1) (script_ops opts) ese
          tx_buf tx_buf.length rx_mem rx_len stack0 stack1 = .ok r ∧
      r.ret = payload.length ∧
      r.rx_mem = payload ++ rx_mem.drop payload.length ∧
      r.rx_mem.length = rx_mem.length ∧
      r.ese.error = ese.error ∧
      r.ese.hw.sent = ese.hw.sent ++ [opts.node_address ::
        wire_reply opts.node_address (I (lnot (int1_read ese.card_state.interface)) 0) tx_buf] ∧
      r.ese.hw.replies = rest ∧ r.ese.hw.cursor = 0 ∧
      r.ese.card_state
        = { card := t, interface := lnot (int1_read ese.card_state.interface) } := by
  have hs := lnot_lt (int1_read ese.card_state.interface)
  generalize hsdef : lnot (int1_read ese.card_state.interface) = s at hs
  have hchunk : chunk_len (TEQ1_INIT_STATE tx_buf tx_buf.length rx_mem rx_len ese.card_state)
      = tx_buf.length := by
    simp [chunk_len, TEQ1_INIT_STATE, IFSC, INF_LEN]; omega
  have hfill := fill_info_block_I
    (TEQ1_INIT_STATE tx_buf tx_buf.length rx_mem rx_len ese.card_state)
    { stack0 with PCB := TEQ1_I s 0 } s hs rfl
    (by simp only [TEQ1_INIT_STATE]; omega)
  rw [hchunk] at hfill
  have hmore : (if (TEQ1_INIT_STATE tx_buf tx_buf.length rx_mem rx_len
      ese.card_state).app_data.tx_len - tx_buf.length > 0 then 1 else 0) = 0 := by
    simp [TEQ1_INIT_STATE]
  rw [hmore] at hfill
  unfold teq1_transceive teq1_transceive_from
  simp only [hsdef, hfill]
  refine ⟨_, loop_single_exchange opts hpre _ rx_len fuel _ _ s t payload rest hrep hcur hk rfl rfl
    hs ht hcard hacc, ?_, ?_, ?_, rfl, ?_, rfl, rfl, rfl⟩
  · simp only [TEQ1_INIT_STATE]; omega
  · simp only [TEQ1_INIT_STATE, memcpy, Nat.min_eq_left hcap, List.take_zero, List.nil_append,
      Nat.zero_add]
    rw [received_take _ _ _ _ (le_refl _), List.take_length]
  · simp only [TEQ1_INIT_STATE, Nat.min_eq_left hcap]
    exact memcpy_length _ _ _ _ (by omega)
      (by rw [received_INF_length _ _ _ hk, INF_LEN]; omega)
  · have hlen : (memcpy stack0.INF 0 tx_buf tx_buf.length).length = stack0.INF.length :=
      memcpy_length _ _ _ _ (by rw [hstack, INF_LEN]; omega) (le_refl _)
    have hw := sealed_wire opts.node_address
      { NAD := stack0.NAD, PCB := I s 0, LEN := tx_buf.length,
        INF := memcpy stack0.INF 0 tx_buf tx_buf.length } tx_buf rfl
      (by simpa using memcpy_zero_take stack0.INF tx_buf tx_buf.length (le_refl _))
      (by simp only [hlen, hstack, INF_LEN]; omega)
    simp only [script_after]
    exact congrArg (fun x => ese.hw.sent ++ [x]) hw

theorem R_type (t o p : Nat) (ht : t < 2) (ho : o < 2) (hp : p < 2) :
    PCB_type (R t o p) = kPcbTypeReceiveReady := by
  obtain rfl | rfl : t = 0 ∨ t = 1 := by omega
  all_goals obtain rfl | rfl : o = 0 ∨ o = 1 := by omega
  all_goals obtain rfl | rfl : p = 0 ∨ p = 1 := by omega
  all_goals decide

theorem note_tx_seq_R (state : Teq1State) (tx : Teq1Frame) (t o p : Nat) (ht : t < 2)
    (ho : o < 2) (hp : p < 2) (htx : tx.PCB = R t o p) : note_tx_seq state tx = state := by
  unfold note_tx_seq
  rw [htx, R_type t o p ht ho hp]
  simp [kPcbTypeReceiveReady, kPcbTypeInfo0, kPcbTypeInfo1]

theorem ack_of_I (t m : Nat) (ht : t < 2) (hm : m < 2) :
    TEQ1_R (lnot (PCB_I_send_seq (I t m))) 0 0 = R (1 - t) 0 0 := by
  obtain rfl | rfl : t = 0 ∨ t = 1 := by omega
  all_goals obtain rfl | rfl : m = 0 ∨ m = 1 := by omega
  all_goals decide

/-- Sent `I(s,0)`, received an acceptable `I(s,1)`: the card begins a chain. -/
theorem rules_chain_begin (fuel : Nat) (state : Teq1State) (tx rx next : Teq1Frame)
    (s : Nat) (hs : s < 2) (htx : tx.PCB = I s 0) (hrx : rx.PCB = I s 1)
    (hl : rx.INF.getD rx.LEN 0 = teq1_compute_LRC rx)
    (hc : state.card_state.card < 2) (hacc : s = 1 ∨ state.card_state.card = 1) :
    teq1_rules (fuel + 1) state tx rx next =
      some (kRuleResultContinue,
        teq1_get_app_data { state with card_state := { card := s, interface := s } } rx, rx,
        { next with PCB := R (1 - s) 0 0, LEN := 0 }) := by
  unfold teq1_rules
  rw [rules_loop_ok _ _ _ _ _ _ _
    (error_check_I_accept state tx rx s 1 hs (by omega) hrx hl hc hacc)]
  have harm : rule_arm (TEQ1_RULE tx.PCB rx.PCB) = card_chain_begin := by
    rw [htx, hrx]
    obtain rfl | rfl : s = 0 ∨ s = 1 := by omega
    all_goals decide
  simp only [teq1_rules_switch, harm]
  simp only [hrx, ack_of_I s 1 hs (by omega), note_tx_seq_I state tx s 0 hs (by omega) htx]

/-- Sent `R(t,0,0)`, received an acceptable `I(t,1)`: the chain goes on. -/
theorem rules_chain_continue (fuel : Nat) (state : Teq1State) (tx rx next : Teq1Frame)
    (t : Nat) (ht : t < 2) (htx : tx.PCB = R t 0 0) (hrx : rx.PCB = I t 1)
    (hl : rx.INF.getD rx.LEN 0 = teq1_compute_LRC rx)
    (hc : state.card_state.card < 2) (hacc : t = 1 ∨ state.card_state.card = 1) :
    teq1_rules (fuel + 1) state tx rx next =
      some (kRuleResultContinue,
        teq1_get_app_data
          { state with card_state := { state.card_state with card := t } } rx, rx,
        { next with PCB := R (1 - t) 0 0 }) := by
  unfold teq1_rules
  rw [rules_loop_ok _ _ _ _ _ _ _
    (error_check_I_accept state tx rx t 1 ht (by omega) hrx hl hc hacc)]
  have harm : rule_arm (TEQ1_RULE tx.PCB rx.PCB) = chain_continue := by
    rw [htx, hrx]
    obtain rfl | rfl : t = 0 ∨ t = 1 := by omega
    all_goals decide
  simp only [teq1_rules_switch, harm]
  simp only [hrx, ack_of_I t 1 ht (by omega),
    note_tx_seq_R state tx t 0 0 ht (by omega) (by omega) htx]

/-- Sent `R(t,0,0)`, received an acceptable `I(t,0)`: the chain ends. -/
theorem rules_chain_end (fuel : Nat) (state : Teq1State) (tx rx next : Teq1Frame)
    (t : Nat) (ht : t < 2) (htx : tx.PCB = R t 0 0) (hrx : rx.PCB = I t 0)
    (hl : rx.INF.getD rx.LEN 0 = teq1_compute_LRC rx)
    (hc : state.card_state.card < 2) (hacc : t = 1 ∨ state.card_state.card = 1) :
    teq1_rules (fuel + 1) state tx rx next =
      some (kRuleResultComplete,
        teq1_get_app_data
          { state with card_state := { state.card_state with card := t } } rx, rx, next) := by
  unfold teq1_rules
  rw [rules_loop_ok _ _ _ _ _ _ _
    (error_check_I_accept state tx rx t 0 ht (by omega) hrx hl hc hacc)]
  have harm : rule_arm (TEQ1_RULE tx.PCB rx.PCB) = chain_end := by
    rw [htx, hrx]
    obtain rfl | rfl : t = 0 ∨ t = 1 := by omega
    all_goals decide
  simp only [teq1_rules_switch, harm, note_tx_seq_R state tx t 0 0 ht (by omega) (by omega) htx]

theorem memcpy_congr (dst src1 src2 : List Nat) (off n : Nat)
    (h : src1.take n = src2.take n) : memcpy dst off src1 n = memcpy dst off src2 n := by
  unfold memcpy; rw [h]

theorem get_app_data_received (st : Teq1State) (host t m : Nat) (p : List Nat)
    (ht : t < 2) (hm : m < 2) (hp : p.length ≤ 254) :
    teq1_get_app_data st (received host (I t m) p)
      = { st with app_data := rx_write st.app_data p } := by
  rw [get_app_data_I st _ t m ht hm rfl (by simpa [received] using hp)]
  have hlen : (received host (I t m) p).LEN = p.length := rfl
  rw [hlen]
  have hc := memcpy_congr st.app_data.rx_mem (received host (I t m) p).INF p
    st.app_data.rx_buf (min p.length st.app_data.rx_len)
    (by rw [received_take _ _ _ _ (Nat.min_le_left _ _)])
  simp only [rx_write, hc]

@[simp] theorem cont_active (l : TransceiveLocals) : (transceive_cont l).active = inot l.active :=
  rfl

@[simp] theorem cont_tx (l : TransceiveLocals) : (transceive_cont l).tx = inot l.active := rfl

@[simp] theorem cont_frame (l : TransceiveLocals) (i : Nat) :
    (transceive_cont l).frame i = l.frame i := rfl

@[simp] theorem cont_app_data (l : TransceiveLocals) :
    (transceive_cont l).state.app_data = l.state.app_data := rfl

theorem frame_inot_inot (l : TransceiveLocals) (i : Nat) :
    l.frame (inot (inot i)) = l.frame i := by
  unfold TransceiveLocals.frame inot
  by_cases h : i = 0 <;> simp [h]

theorem sealed_INF_length (n : Nat) (f : Teq1Frame) : (sealed n f).INF.length = f.INF.length := by
  simp [sealed]

theorem sealed_wire_empty (node : Nat) (f : Teq1Frame) (hL : f.LEN = 0)
    (hlt : 0 < f.INF.length) :
    (sealed node f).val.take (3 + f.LEN + 1) = node :: wire_reply node f.PCB [] :=
  sealed_wire node f [] (by simpa using hL) (by simp [hL]) (by omega)

/-- The last step of a chained reception: `R(t,0,0)` is sent and the final
I-block arrives. -/
theorem loop_chain_end (opts : Teq1ProtocolOptions) (hpre : opts.preprocess = none)
    (init_state : Teq1State) (rx_len fuel : Nat)
    (ese : EseInterface Script) (l : TransceiveLocals) (t : Nat) (payload : List Nat)
    (rest : List (Option (List Nat)))
    (hrep : ese.hw.replies = some (wire_reply opts.host_address (I t 0) payload) :: rest)
    (hcur : ese.hw.cursor = 0) (hk : payload.length ≤ 254)
    (htx : l.tx = l.active) (hpcb : (l.frame l.active).PCB = R t 0 0)
    (hL : (l.frame l.active).LEN = 0) (hinf : 0 < (l.frame l.active).INF.length)
    (ht : t < 2)
    (hcard : ese.card_state.card < 2) (hacc : t = 1 ∨ ese.card_state.card = 1) :
    teq1_transceive_loop (script_ops opts) init_state rx_len (fuel + 1) ese l =
      .ok { ret := rx_len - (rx_write l.state.app_data payload).rx_len,
            ese := { script_after ese rest
                (opts.node_address :: wire_reply opts.node_address (R t 0 0) []) with
              card_state := { ese.card_state with card := t } },
            rx_mem := (rx_write l.state.app_data payload).rx_mem } := by
  apply loop_step_ret opts hpre init_state rx_len fuel ese l (I t 0) payload rest _ hrep hcur hk
  have hfr := (txrx_locals_frames opts.node_address l htx).1
  have htx' : ((txrx_locals opts.node_address l).frame (txrx_locals opts.node_address l).tx).PCB
      = R t 0 0 := by
    rw [txrx_locals_tx, hfr, sealed_PCB, hpcb]
  have hrules := rules_chain_end fuel
    { (txrx_locals opts.node_address l).state with card_state := ese.card_state }
    ((txrx_locals opts.node_address l).frame (txrx_locals opts.node_address l).tx)
    (received opts.host_address (I t 0) payload)
    ((txrx_locals opts.node_address l).frame (inot (txrx_locals opts.node_address l).active))
    t ht htx' rfl (received_LRC _ _ _) hcard hacc
  rw [dispatch_complete _ _ _ _ (script_after ese rest _) _ _ _ _ _ hrules]
  rw [get_app_data_received _ _ t 0 _ ht (by omega) hk]
  have hw := sealed_wire_empty opts.node_address (l.frame l.active) hL hinf
  rw [hpcb] at hw
  simp only [txrx_locals_state, htx, hw]

/-- The locals after a `Continue` that prepared `R(t',0,0)` in the inactive
frame. -/
theorem ackReady_after_continue (t' : Nat) (l : TransceiveLocals) (st : Teq1State)
    (nx : Teq1Frame) (h1 : 0 < (l.frame l.active).INF.length)
    (hp : nx.PCB = R t' 0 0) (hL : nx.LEN = 0) (hi : 0 < nx.INF.length) :
    AckReady t' (transceive_cont (({ l with state := st }).setFrame (inot l.active) nx)) ∧
    (transceive_cont (({ l with state := st }).setFrame (inot l.active) nx)).state.app_data
      = st.app_data := by
  by_cases h0 : l.active = 0 <;>
    simp_all [AckReady, TransceiveLocals.frame, TransceiveLocals.setFrame, inot,
      transceive_cont]

/-- One step inside a chained reception: `R(t,0,0)` is sent and an I-block with
the more-data bit arrives. -/
theorem loop_chain_step (opts : Teq1ProtocolOptions) (hpre : opts.preprocess = none)
    (init_state : Teq1State) (rx_len fuel : Nat)
    (ese : EseInterface Script) (l : TransceiveLocals) (t : Nat) (payload : List Nat)
    (rest : List (Option (List Nat)))
    (hrep : ese.hw.replies = some (wire_reply opts.host_address (I t 1) payload) :: rest)
    (hcur : ese.hw.cursor = 0) (hk : payload.length ≤ 254)
    (hinv : AckReady t l) (ht : t < 2)
    (hcard : ese.card_state.card < 2) (hacc : t = 1 ∨ ese.card_state.card = 1) :
    ∃ l2 : TransceiveLocals,
      teq1_transceive_loop (script_ops opts) init_state rx_len (fuel + 1) ese l =
        teq1_transceive_loop (script_ops opts) init_state rx_len fuel
          { script_after ese rest
              (opts.node_address :: wire_reply opts.node_address (R t 0 0) []) with
            card_state := { ese.card_state with card := t } } l2 ∧
      AckReady (1 - t) l2 ∧ l2.state.app_data = rx_write l.state.app_data payload := by
  obtain ⟨htx, hpcb, hL, hinf, hinf2⟩ := hinv
  have hfr := txrx_locals_frames opts.node_address l htx
  have htx' : ((txrx_locals opts.node_address l).frame (txrx_locals opts.node_address l).tx).PCB
      = R t 0 0 := by
    rw [txrx_locals_tx, hfr.1, sealed_PCB, hpcb]
  have hrules := rules_chain_continue fuel
    { (txrx_locals opts.node_address l).state with card_state := ese.card_state }
    ((txrx_locals opts.node_address l).frame (txrx_locals opts.node_address l).tx)
    (received opts.host_address (I t 1) payload)
    ((txrx_locals opts.node_address l).frame (inot (txrx_locals opts.node_address l).active))
    t ht htx' rfl (received_LRC _ _ _) hcard hacc
  rw [get_app_data_received _ _ t 1 _ ht (by omega) hk, txrx_locals_active] at hrules
  generalize hst : ({ ({ ({ (txrx_locals opts.node_address l).state with
      card_state := ese.card_state } : Teq1State) with
      card_state := { ese.card_state with card := t } } : Teq1State) with
      app_data := rx_write (txrx_locals opts.node_address l).state.app_data payload }
      : Teq1State) = st2 at hrules
  generalize hnx : ({ (txrx_locals opts.node_address l).frame (inot l.active) with
      PCB := R (1 - t) 0 0 } : Teq1Frame) = nx at hrules
  have hdisp := dispatch_continue (script_ops opts) init_state rx_len (fuel + 1)
    (script_after ese rest
      ((sealed opts.node_address (l.frame l.tx)).val.take (3 + (l.frame l.tx).LEN + 1)))
    (txrx_locals opts.node_address l) (received opts.host_address (I t 1) payload)
    st2 _ nx (by rw [txrx_locals_active]; exact hrules)
  have hstep := loop_step_again opts hpre init_state rx_len fuel ese l (I t 1) payload rest _ _
    hrep hcur hk hdisp
  have hw := sealed_wire_empty opts.node_address (l.frame l.active) hL hinf
  rw [hpcb] at hw
  rw [htx, hw] at hstep
  have hready := ackReady_after_continue (1 - t) (txrx_locals opts.node_address l) st2 nx
    (by rw [txrx_locals_active, hfr.1, sealed_INF_length]; exact hinf)
    (by rw [← hnx]) (by rw [← hnx, hfr.2]) (by rw [← hnx, hfr.2]; exact hinf2)
  have hcs : st2.card_state = { ese.card_state with card := t } := by rw [← hst]
  rw [hcs] at hstep
  refine ⟨_, hstep, hready.1, ?_⟩
  rw [hready.2, ← hst, txrx_locals_state]

/-- A chained reception from the point where the first acknowledgement is
about to be sent. -/
theorem loop_chain_rx (opts : Teq1ProtocolOptions) (hpre : opts.preprocess = none)
    (init_state : Teq1State) (rx_len : Nat) (last : List Nat) (hlast : last.length ≤ 254) :
    ∀ (blocks : List (List Nat)), (∀ b ∈ blocks, b.length ≤ 254) →
    ∀ (fuel : Nat) (ese : EseInterface Script) (l : TransceiveLocals) (t : Nat)
      (rest : List (Option (List Nat))),
      t < 2 → ese.hw.replies = chain_replies opts.host_address last t blocks ++ rest →
      ese.hw.cursor = 0 → ese.card_state.card = 1 - t → AckReady t l →
      ∃ r : TransceiveResult Script,
        teq1_transceive_loop (script_ops opts) init_state rx_len (fuel + blocks.length + 1) ese l
          = .ok r ∧
        r.ret = rx_len - ((blocks ++ [last]).foldl rx_write l.state.app_data).rx_len ∧
        r.rx_mem = ((blocks ++ [last]).foldl rx_write l.state.app_data).rx_mem ∧
        r.ese.hw.sent = ese.hw.sent ++ chain_acks opts.node_address t (blocks.length + 1) ∧
        r.ese.error = ese.error ∧ r.ese.hw.replies = rest := by
  intro blocks
  induction blocks with
  | nil =>
    intro _ fuel ese l t rest ht hrep hcur hcard hinv
    obtain ⟨htx, hpcb, hL, hinf, _⟩ := hinv
    refine ⟨_, loop_chain_end opts hpre init_state rx_len fuel ese l t last rest hrep hcur hlast
      htx hpcb hL hinf ht (by omega) (by omega), rfl, rfl, rfl, rfl, rfl⟩
  | cons b bs ih =>
    intro hb fuel ese l t rest ht hrep hcur hcard hinv
    have hb1 : b.length ≤ 254 := hb b (List.mem_cons_self _ _)
    obtain ⟨l2, hstep, hinv2, happ⟩ := loop_chain_step opts hpre init_state rx_len
      (fuel + bs.length + 1) ese l t b (chain_replies opts.host_address last (1 - t) bs ++ rest)
      hrep hcur hb1 hinv ht (by omega) (by omega)
    obtain ⟨r, hr, h1, h2, h3, h4, h5⟩ := ih (fun x hx => hb x (List.mem_cons_of_mem _ hx)) fuel
      { script_after ese (chain_replies opts.host_address last (1 - t) bs ++ rest)
          (opts.node_address :: wire_reply opts.node_address (R t 0 0) []) with
        card_state := { ese.card_state with card := t } } l2 (1 - t) rest (by omega) rfl rfl
      (by show t = 1 - (1 - t); omega) hinv2
    refine ⟨r, ?_, ?_, ?_, ?_, h4, h5⟩
    · rw [← hr, ← hstep]; rfl
    · rw [h1, happ]; rfl
    · rw [h2, happ]; rfl
    · rw [h3]; simp [script_after, chain_acks]

theorem take_append_split (p q : List Nat) (L : Nat) :
    (p ++ q).take (min (p.length + q.length) L)
      = p.take (min p.length L) ++ q.take (min q.length (L - min p.length L)) := by
  rcases Nat.le_total p.length L with h | h
  · have e1 : min p.length L = p.length := Nat.min_eq_left h
    have e2 : min (p.length + q.length) L = p.length + min q.length (L - p.length) := by omega
    rw [e1, e2, List.take_append, List.take_length]
  · have e1 : min p.length L = L := Nat.min_eq_right h
    have e2 : min (p.length + q.length) L = L := by omega
    rw [e1, e2, List.take_append_of_le_length h]
    simp

theorem rx_write_append (a : Teq1AppData) (p q : List Nat)
    (h : a.rx_buf + a.rx_len ≤ a.rx_mem.length) :
    rx_write (rx_write a p) q = rx_write a (p ++ q) := by
  have hm : min (p.length + q.length) a.rx_len
      = min p.length a.rx_len + min q.length (a.rx_len - min p.length a.rx_len) := by
    omega
  have hlen1 : (List.take a.rx_buf a.rx_mem ++ List.take (min p.length a.rx_len) p).length
      = a.rx_buf + min p.length a.rx_len := by
    simp only [List.length_append, List.length_take]; omega
  have hsplit := take_append_split p q a.rx_len
  simp only [rx_write, memcpy, List.length_append]
  congr 1
  · rw [hsplit, hm]
    rw [List.append_assoc (List.take a.rx_buf a.rx_mem), ← List.append_assoc,
      ← hlen1, List.take_left, List.drop_append, List.drop_drop, hlen1]
    simp only [List.append_assoc, Nat.add_assoc]
  · omega
  · omega

theorem rx_write_nil (a : Teq1AppData) : rx_write a [] = a := by
  simp [rx_write, memcpy]

theorem rx_write_foldl (ps : List (List Nat)) (a : Teq1AppData)
    (h : a.rx_buf + a.rx_len ≤ a.rx_mem.length) :
    ps.foldl rx_write a = rx_write a ps.flatten := by
  induction ps using List.reverseRecOn with
  | nil => simp [rx_write_nil]
  | append_singleton ps p ih =>
    rw [List.foldl_append, List.foldl_cons, List.foldl_nil, ih, rx_write_append _ _ _ h]
    simp

/-- The first step of a chained reception: the I-block `I(s,0)` is sent and an
I-block `I(s,1)` arrives. -/
theorem loop_chain_begin (opts : Teq1ProtocolOptions) (hpre : opts.preprocess = none)
    (init_state : Teq1State) (rx_len fuel : Nat)
    (ese : EseInterface Script) (l : TransceiveLocals) (s : Nat) (payload : List Nat)
    (rest : List (Option (List Nat)))
    (hrep : ese.hw.replies = some (wire_reply opts.host_address (I s 1) payload) :: rest)
    (hcur : ese.hw.cursor = 0) (hk : payload.length ≤ 254)
    (htx : l.tx = l.active) (hpcb : (l.frame l.active).PCB = I s 0)
    (hinf : 0 < (l.frame l.active).INF.length) (hinf2 : 0 < (l.frame (inot l.active)).INF.length)
    (hs : s < 2) (hcard : ese.card_state.card < 2) (hacc : s = 1 ∨ ese.card_state.card = 1) :
    ∃ l2 : TransceiveLocals,
      teq1_transceive_loop (script_ops opts) init_state rx_len (fuel + 1) ese l =
        teq1_transceive_loop (script_ops opts) init_state rx_len fuel
          { script_after ese rest
              ((sealed opts.node_address (l.frame l.active)).val.take
                (3 + (l.frame l.active).LEN + 1)) with
            card_state := { card := s, interface := s } } l2 ∧
      AckReady (1 - s) l2 ∧ l2.state.app_data = rx_write l.state.app_data payload := by
  have hfr := txrx_locals_frames opts.node_address l htx
  have htx' : ((txrx_locals opts.node_address l).frame (txrx_locals opts.node_address l).tx).PCB
      = I s 0 := by
    rw [txrx_locals_tx, hfr.1, sealed_PCB, hpcb]
  have hrules := rules_chain_begin fuel
    { (txrx_locals opts.node_address l).state with card_state := ese.card_state }
    ((txrx_locals opts.node_address l).frame (txrx_locals opts.node_address l).tx)
    (received opts.host_address (I s 1) payload)
    ((txrx_locals opts.node_address l).frame (inot (txrx_locals opts.node_address l).active))
    s hs htx' rfl (received_LRC _ _ _) hcard hacc
  rw [get_app_data_received _ _ s 1 _ hs (by omega) hk, txrx_locals_active] at hrules
  generalize hst : ({ ({ ({ (txrx_locals opts.node_address l).state with
      card_state := ese.card_state } : Teq1State) with
      card_state := { card := s, interface := s } } : Teq1State) with
      app_data := rx_write (txrx_locals opts.node_address l).state.app_data payload }
      : Teq1State) = st2 at hrules
  generalize hnx : ({ (txrx_locals opts.node_address l).frame (inot l.active) with
      PCB := R (1 - s) 0 0, LEN := 0 } : Teq1Frame) = nx at hrules
  have hdisp := dispatch_continue (script_ops opts) init_state rx_len (fuel + 1)
    (script_after ese rest
      ((sealed opts.node_address (l.frame l.tx)).val.take (3 + (l.frame l.tx).LEN + 1)))
    (txrx_locals opts.node_address l) (received opts.host_address (I s 1) payload)
    st2 _ nx (by rw [txrx_locals_active]; exact hrules)
  have hstep := loop_step_again opts hpre init_state rx_len fuel ese l (I s 1) payload rest _ _
    hrep hcur hk hdisp
  rw [htx] at hstep
  have hready := ackReady_after_continue (1 - s) (txrx_locals opts.node_address l) st2 nx
    (by rw [txrx_locals_active, hfr.1, sealed_INF_length]; exact hinf)
    (by rw [← hnx]) (by rw [← hnx]) (by rw [← hnx, hfr.2]; exact hinf2)
  have hcs : st2.card_state = { card := s, interface := s } := by rw [← hst]
  rw [hcs] at hstep
  refine ⟨_, hstep, hready.1, ?_⟩
  rw [hready.2, ← hst, txrx_locals_state]

/-- A whole reception, chained or not, from the point where the I-block
`I(s,0)` is about to be sent. -/
theorem loop_rx_all (opts : Teq1ProtocolOptions) (hpre : opts.preprocess = none)
    (init_state : Teq1State) (rx_len fuel : Nat) (last : List Nat) (hlast : last.length ≤ 254)
    (blocks : List (List Nat)) (hb : ∀ b ∈ blocks, b.length ≤ 254)
    (ese : EseInterface Script) (l : TransceiveLocals) (s : Nat)
    (rest : List (Option (List Nat)))
    (hrep : ese.hw.replies = chain_replies opts.host_address last s blocks ++ rest)
    (hcur : ese.hw.cursor = 0)
    (htx : l.tx = l.active) (hpcb : (l.frame l.active).PCB = I s 0)
    (hinf : 0 < (l.frame l.active).INF.length) (hinf2 : 0 < (l.frame (inot l.active)).INF.length)
    (hs : s < 2) (hcard : ese.card_state.card = 1 - s) :
    ∃ r : TransceiveResult Script,
      teq1_transceive_loop (script_ops opts) init_state rx_len (fuel + blocks.length + 1) ese l
        = .ok r ∧
      r.ret = rx_len - ((blocks ++ [last]).foldl rx_write l.state.app_data).rx_len ∧
      r.rx_mem = ((blocks ++ [last]).foldl rx_write l.state.app_data).rx_mem ∧
      r.ese.hw.sent = ese.hw.sent ++
        (sealed opts.node_address (l.frame l.active)).val.take (3 + (l.frame l.active).LEN + 1)
          :: chain_acks opts.node_address (1 - s) blocks.length ∧
      r.ese.error = ese.error ∧ r.ese.hw.replies = rest := by
  cases blocks with
  | nil =>
    have h := loop_single_exchange opts hpre init_state rx_len fuel ese l s s last rest hrep hcur
      hlast htx hpcb hs hs (by omega) (by omega)
    refine ⟨_, h, rfl, ?_, rfl, rfl, rfl⟩
    exact memcpy_congr _ _ _ _ _ (by rw [received_take _ _ _ _ (Nat.min_le_left _ _)])
  | cons b bs =>
    have hb1 : b.length ≤ 254 := hb b (List.mem_cons_self _ _)
    obtain ⟨l2, hstep, hinv2, happ⟩ := loop_chain_begin opts hpre init_state rx_len
      (fuel + bs.length + 1) ese l s b
      (chain_replies opts.host_address last (1 - s) bs ++ rest)
      hrep hcur hb1 htx hpcb hinf hinf2 hs (by omega) (by omega)
    obtain ⟨r, hr, h1, h2, h3, h4, h5⟩ := loop_chain_rx opts hpre init_state rx_len last hlast bs
      (fun x hx => hb x (List.mem_cons_of_mem _ hx)) fuel
      { script_after ese (chain_replies opts.host_address last (1 - s) bs ++ rest)
          ((sealed opts.node_address (l.frame l.active)).val.take
            (3 + (l.frame l.active).LEN + 1)) with
        card_state := { card := s, interface := s } } l2 (1 - s) rest (by omega) rfl rfl
      (by show s = 1 - (1 - s); omega) hinv2
    refine ⟨r, ?_, ?_, ?_, ?_, h4, h5⟩
    · rw [← hr, ← hstep]; rfl
    · rw [h1, happ]; rfl
    · rw [h2, happ]; rfl
    · rw [h3]; simp [script_after]

theorem R_values : R 0 0 0 = 128 ∧ R 1 0 0 = 144 := by decide

theorem error_check_R_ok (state : Teq1State) (tx rx : Teq1Frame) (t : Nat) (ht : t < 2)
    (hrx : rx.PCB = R t 0 0) (hL : rx.LEN = 0)
    (hl : rx.INF.getD rx.LEN 0 = teq1_compute_LRC rx) :
    teq1_frame_error_check state tx rx = (0, note_tx_seq state tx) := by
  unfold teq1_frame_error_check
  simp only [hrx, hl]
  obtain rfl | rfl : t = 0 ∨ t = 1 := by omega
  all_goals
    simp [R_values, hL, PCB_type, bitfield_get, kPcbTypeSupervisory, kPcbTypeReceiveReady]

theorem next_I_of_R (t : Nat) (ht : t < 2) :
    PCB_set_I_send_seq (I 0 0) (PCB_R_next_seq (R t 0 0)) = I t 0 := by
  obtain rfl | rfl : t = 0 ∨ t = 1 := by omega
  all_goals decide

/-- Sent `I(s,1)`, received the acknowledgement `R(!s,0,0)`: the next fragment
is prepared. -/
theorem rules_chained_tx (fuel : Nat) (state : Teq1State) (tx rx next : Teq1Frame)
    (s : Nat) (hs : s < 2) (htx : tx.PCB = I s 1) (hrx : rx.PCB = R (1 - s) 0 0)
    (hL : rx.LEN = 0) (hl : rx.INF.getD rx.LEN 0 = teq1_compute_LRC rx) :
    teq1_rules (fuel + 1) state tx rx next =
      some (kRuleResultContinue,
        (teq1_fill_info_block
          { state with card_state := { state.card_state with interface := s } }
          { next with PCB := I (1 - s) 0 }).2.1, rx,
        (teq1_fill_info_block
          { state with card_state := { state.card_state with interface := s } }
          { next with PCB := I (1 - s) 0 }).2.2) := by
  unfold teq1_rules
  rw [rules_loop_ok _ _ _ _ _ _ _ (error_check_R_ok state tx rx (1 - s) (by omega) hrx hL hl)]
  have harm : rule_arm (TEQ1_RULE tx.PCB rx.PCB) = chained_tx := by
    rw [htx, hrx]
    obtain rfl | rfl : s = 0 ∨ s = 1 := by omega
    all_goals decide
  simp only [teq1_rules_switch, harm]
  simp only [hrx, next_I_of_R (1 - s) (by omega), note_tx_seq_I state tx s 1 hs (by omega) htx]

theorem txReady_after_continue (ifs s : Nat) (c remaining : List Nat) (l : TransceiveLocals)
    (st : Teq1State) (nx : Teq1Frame) (h1 : (l.frame l.active).INF.length = INF_LEN + 1)
    (hp : nx.PCB = I s (if remaining.length > 0 then 1 else 0)) (hL : nx.LEN = c.length)
    (ht : nx.INF.take c.length = c) (hc : c.length ≤ 254) (hi : nx.INF.length = INF_LEN + 1)
    (hb : st.app_data.tx_buf = remaining) (hn : st.app_data.tx_len = remaining.length)
    (hifs : st.ifs = ifs) :
    TxReady ifs s c remaining
      (transceive_cont (({ l with state := st }).setFrame (inot l.active) nx)) ∧
    (transceive_cont (({ l with state := st }).setFrame (inot l.active) nx)).state.app_data
      = st.app_data := by
  by_cases h0 : l.active = 0 <;>
    simp_all [TxReady, TransceiveLocals.frame, TransceiveLocals.setFrame, inot, transceive_cont]

theorem txrx_locals_ifs (n : Nat) (l : TransceiveLocals) :
    (txrx_locals n l).state.ifs = l.state.ifs := by
  rw [txrx_locals_state]

theorem txrx_locals_app_data (n : Nat) (l : TransceiveLocals) :
    (txrx_locals n l).state.app_data = l.state.app_data := by
  rw [txrx_locals_state]

/-- What `teq1_fill_info_block` leaves for an I-block, by fields. -/
theorem fill_info_block_fields (state : Teq1State) (frame : Teq1Frame) (s : Nat) (hs : s < 2)
    (hpcb : frame.PCB = I s 0) (hlen : state.app_data.tx_len < 2 ^ 32) :
    ∃ (st : Teq1State) (nx : Teq1Frame),
      teq1_fill_info_block state frame = (chunk_len state, st, nx) ∧
      st.app_data.tx_buf = state.app_data.tx_buf.drop (chunk_len state) ∧
      st.app_data.tx_len = state.app_data.tx_len - chunk_len state ∧
      st.app_data.rx_mem = state.app_data.rx_mem ∧
      st.app_data.rx_buf = state.app_data.rx_buf ∧
      st.app_data.rx_len = state.app_data.rx_len ∧
      st.ifs = state.ifs ∧ st.card_state = state.card_state ∧
      nx.PCB = I s (if state.app_data.tx_len - chunk_len state > 0 then 1 else 0) ∧
      nx.LEN = chunk_len state ∧
      nx.INF = memcpy frame.INF 0 state.app_data.tx_buf (chunk_len state) :=
  ⟨_, _, fill_info_block_I state frame s hs hpcb hlen, rfl, rfl, rfl, rfl, rfl, rfl, rfl, rfl,
    rfl, rfl⟩

theorem S_values : S RESYNC REQUEST = 192 ∧ S RESYNC RESPONSE = 224 ∧ S IFS REQUEST = 193 ∧
    S IFS RESPONSE = 225 ∧ S ABORT REQUEST = 194 ∧ S ABORT RESPONSE = 226 ∧
    S WTX REQUEST = 195 ∧ S WTX RESPONSE = 227 := by decide

/-- The error check passes a checksum-valid supervisory block that is a RESYNC
response or has `LEN = 1`. -/
theorem error_check_S_ok (state : Teq1State) (tx rx : Teq1Frame)
    (hty : PCB_type rx.PCB = kPcbTypeSupervisory) (h255 : rx.PCB ≠ 255)
    (hl : rx.INF.getD rx.LEN 0 = teq1_compute_LRC rx)
    (hlen : rx.PCB = S RESYNC RESPONSE ∨ rx.LEN = 1) :
    teq1_frame_error_check state tx rx = (0, note_tx_seq state tx) := by
  unfold teq1_frame_error_check
  rw [if_neg h255]
  simp only [hl, ne_eq, not_true_eq_false, if_false, hty, if_true]
  rw [if_neg]
  intro h
  rcases hlen with h1 | h1
  · exact h.1 h1
  · exact h.2 h1

theorem note_tx_seq_fields (state : Teq1State) (tx : Teq1Frame) :
    (note_tx_seq state tx).app_data = state.app_data ∧
    (note_tx_seq state tx).errors = state.errors ∧
    (note_tx_seq state tx).retransmits = state.retransmits ∧
    (note_tx_seq state tx).ifs = state.ifs ∧
    (note_tx_seq state tx).wait_mult = state.wait_mult ∧
    (note_tx_seq state tx).card_state.card = state.card_state.card := by
  unfold note_tx_seq; split <;> simp

theorem getD_set_zero (l : List Nat) (v : Nat) (h : 0 < l.length) : (l.set 0 v).getD 0 0 = v := by
  cases l with
  | nil => simp at h
  | cons a t => simp

/-- The error check changes nothing in the state but the sequence toggles. -/
theorem error_check_state (state : Teq1State) (tx rx : Teq1Frame) :
    ∃ cs, (teq1_frame_error_check state tx rx).2 = { state with card_state := cs } := by
  unfold teq1_frame_error_check note_tx_seq
  simp only []
  split_ifs <;> exact ⟨_, rfl⟩

theorem error_check_errors (state : Teq1State) (tx rx : Teq1Frame) :
    (teq1_frame_error_check state tx rx).2.errors = state.errors := by
  obtain ⟨cs, h⟩ := error_check_state state tx rx
  rw [h]

theorem script_receive_silent (opts : Teq1ProtocolOptions) (ese : EseInterface Script)
    (timeout : ℚ) (f : Teq1Frame) (hsil : script_silent ese) :
    ∃ ese2, teq1_receive (script_ops opts) ese timeout f = .ok (-1, ese2, f) ∧
      script_silent ese2 ∧ ese2.hw.sent = ese.hw.sent ∧ ese2.card_state = ese.card_state ∧
      ese2.error = ese.error ∧ ese2.errors_count = ese.errors_count ∧
      ese2.errors = ese.errors := by
  unfold script_silent at hsil
  rcases hrep : ese.hw.replies with _ | ⟨r, rest⟩
  · refine ⟨ese, ?_, ?_, rfl, rfl, rfl, rfl, rfl⟩
    · simp [teq1_receive, script_ops, script_poll, hrep]
    · exact hsil
  · have hr : r = none := hsil r (by rw [hrep]; exact List.mem_cons_self _ _)
    subst hr
    refine ⟨{ ese with hw := { ese.hw with replies := rest, cursor := 0 } }, ?_, ?_, rfl, rfl,
      rfl, rfl, rfl⟩
    · simp [teq1_receive, script_ops, script_poll, hrep]
    · intro r hr
      exact hsil r (by rw [hrep]; exact List.mem_cons_of_mem _ hr)

theorem txrx_silent (opts : Teq1ProtocolOptions) (hpre : opts.preprocess = none)
    (ese : EseInterface Script) (l : TransceiveLocals) (hsil : script_silent ese) :
    ∃ ese2, transceive_txrx (script_ops opts) ese l
        = .ok (ese2, txrx_locals opts.node_address l, frame_ff) ∧
      script_silent ese2 ∧
      ese2.hw.sent = ese.hw.sent ++
        [(sealed opts.node_address (l.frame l.tx)).val.take (3 + (l.frame l.tx).LEN + 1)] ∧
      ese2.card_state = ese.card_state ∧ ese2.error = ese.error ∧
      ese2.errors_count = ese.errors_count ∧ ese2.errors = ese.errors := by
  obtain ⟨ese2, h1, h2, h3, h4, h5, h6, h7⟩ := script_receive_silent opts
    { ese with hw := { ese.hw with sent := ese.hw.sent ++
        [(sealed opts.node_address (l.frame l.tx)).val.take (3 + (l.frame l.tx).LEN + 1)] } }
    (opts.bwt * (l.state.wait_mult : ℚ)) frame_ff hsil
  refine ⟨ese2, ?_, h2, h3, h4, h5, h6, h7⟩
  unfold transceive_txrx
  have hopts : (script_ops opts).opts = some opts := rfl
  simp only [hopts, script_transmit_eq opts hpre, setFrame_state, h1]
  simp [txrx_locals, frame_ff]

/-- The rule engine on an erroneous frame when the sent block is an I-block and
the error count stays below 3: the error R-block is prepared for a single
shot. -/
theorem rules_err_I (fuel : Nat) (state st1 : Teq1State) (tx rx next : Teq1Frame) (e : Nat)
    (hchk : teq1_frame_error_check state tx rx = (e, st1)) (he : e ≠ 0)
    (htx : tx.PCB ∈ [I 0 0, I 0 1, I 1 0, I 1 1]) (herr : st1.errors + 1 < 3) :
    teq1_rules (fuel + 1) state tx rx next =
      some (kRuleResultSingleShot, count_error st1, rx,
        { next with PCB := PCB_set_R_next_seq e (PCB_I_send_seq tx.PCB) }) := by
  unfold teq1_rules
  rw [rules_loop_err fuel state st1 tx rx next _ e hchk he]
  rw [if_neg (by omega), if_neg (by omega)]
  have harm : rule_arm (TEQ1_RULE tx.PCB 255) = bad_rx := by
    simp only [List.mem_cons, List.mem_singleton, List.not_mem_nil, or_false] at htx
    rcases htx with h | h | h | h <;> rw [h] <;> decide
  simp only [teq1_rules_switch, harm]

/-- The rule engine on an erroneous frame when the sent block is
`S(RESYNC, REQUEST)` and the error count stays below 3: retransmit. -/
theorem rules_err_resync (fuel : Nat) (state st1 : Teq1State) (tx rx next : Teq1Frame) (e : Nat)
    (hchk : teq1_frame_error_check state tx rx = (e, st1)) (he : e ≠ 0)
    (htx : tx.PCB = S RESYNC REQUEST) (herr : st1.errors + 1 < 3) :
    teq1_rules (fuel + 1) state tx rx next =
      some (kRuleResultRetransmit, count_error st1, rx, next) := by
  unfold teq1_rules
  rw [rules_loop_err fuel state st1 tx rx next _ e hchk he]
  rw [if_neg (by omega), if_neg (by omega)]
  have harm : rule_arm (TEQ1_RULE tx.PCB 255) = resync_no_reply := by
    rw [htx]; decide
  simp only [teq1_rules_switch, harm]

/-- The rule engine on an erroneous frame that brings the error count to 3, 4
or 5: a RESYNC request is prepared, whatever was sent. -/
theorem rules_err_third (fuel : Nat) (state st1 : Teq1State) (tx rx next : Teq1Frame) (e : Nat)
    (hchk : teq1_frame_error_check state tx rx = (e, st1)) (he : e ≠ 0)
    (h3 : 3 ≤ st1.errors + 1) (h6 : st1.errors + 1 < 6) :
    teq1_rules (fuel + 1) state tx rx next =
      some (kRuleResultContinue, count_error st1, rx, { next with PCB := S RESYNC REQUEST }) := by
  unfold teq1_rules
  rw [rules_loop_err fuel state st1 tx rx next _ e hchk he]
  rw [if_neg (by omega), if_pos h3]

theorem dispatch_single_shot {H : Type} (ops : EseOperations H) (init_state : Teq1State)
    (rx_len fuel : Nat) (ese : EseInterface H) (l : TransceiveLocals) (rx_frame : Teq1Frame)
    (st : Teq1State) (rx next : Teq1Frame)
    (h : teq1_rules fuel { l.state with card_state := ese.card_state }
      (l.frame l.tx) rx_frame (l.frame (inot l.active))
        = some (kRuleResultSingleShot, st, rx, next)) :
    transceive_dispatch ops init_state rx_len fuel ese l rx_frame =
      .ok (.again { ese with card_state := st.card_state }
        { (({ l with state := st }).setFrame (inot l.active) next) with tx := inot l.active }) := by
  unfold transceive_dispatch
  rw [h]
  simp

theorem dispatch_retransmit {H : Type} (ops : EseOperations H) (init_state : Teq1State)
    (rx_len fuel : Nat) (ese : EseInterface H) (l : TransceiveLocals) (rx_frame : Teq1Frame)
    (st : Teq1State) (rx next : Teq1Frame)
    (h : teq1_rules fuel { l.state with card_state := ese.card_state }
      (l.frame l.tx) rx_frame (l.frame (inot l.active))
        = some (kRuleResultRetransmit, st, rx, next))
    (hr : st.retransmits < 3) :
    transceive_dispatch ops init_state rx_len fuel ese l rx_frame =
      .ok (.again { ese with card_state := st.card_state }
        (({ l with state := { st with retransmits := st.retransmits + 1 } }).setFrame
          (inot l.active) next)) := by
  unfold transceive_dispatch
  rw [h]
  simp [hr, TransceiveLocals.setFrame]
  split <;> rfl

/-- The locals that `case kRuleResultContinue` leaves, by fields. -/
theorem cont_facts (l : TransceiveLocals) (st : Teq1State) (nx : Teq1Frame) :
    (transceive_cont (({ l with state := st }).setFrame (inot l.active) nx)).active
      = inot l.active ∧
    (transceive_cont (({ l with state := st }).setFrame (inot l.active) nx)).tx
      = inot l.active ∧
    (transceive_cont (({ l with state := st }).setFrame (inot l.active) nx)).frame
      (inot l.active) = nx ∧
    (transceive_cont (({ l with state := st }).setFrame (inot l.active) nx)).frame l.active
      = l.frame l.active ∧
    (transceive_cont (({ l with state := st }).setFrame (inot l.active) nx)).state
      = { st with retransmits := 0, errors := 0 } ∧
    (transceive_cont (({ l with state := st }).setFrame (inot l.active) nx)).was_reset
      = l.was_reset := by
  by_cases h0 : l.active = 0 <;>
    simp [h0, TransceiveLocals.frame, TransceiveLocals.setFrame, inot, transceive_cont]

/-- The locals that `case kRuleResultSingleShot` leaves, by fields. -/
theorem shot_facts (l : TransceiveLocals) (st : Teq1State) (nx : Teq1Frame) :
    ({ (({ l with state := st }).setFrame (inot l.active) nx) with
        tx := inot l.active } : TransceiveLocals).active = l.active ∧
    ({ (({ l with state := st }).setFrame (inot l.active) nx) with
        tx := inot l.active } : TransceiveLocals).tx = inot l.active ∧
    ({ (({ l with state := st }).setFrame (inot l.active) nx) with
        tx := inot l.active } : TransceiveLocals).frame (inot l.active) = nx ∧
    ({ (({ l with state := st }).setFrame (inot l.active) nx) with
        tx := inot l.active } : TransceiveLocals).frame l.active = l.frame l.active ∧
    ({ (({ l with state := st }).setFrame (inot l.active) nx) with
        tx := inot l.active } : TransceiveLocals).state = st ∧
    ({ (({ l with state := st }).setFrame (inot l.active) nx) with
        tx := inot l.active } : TransceiveLocals).was_reset = l.was_reset := by
  by_cases h0 : l.active = 0 <;>
    simp [h0, TransceiveLocals.frame, TransceiveLocals.setFrame, inot]

/-- The locals that a retransmission leaves, by fields. -/
theorem retx_facts (l : TransceiveLocals) (st : Teq1State) (nx : Teq1Frame) :
    (({ l with state := st }).setFrame (inot l.active) nx).active = l.active ∧
    (({ l with state := st }).setFrame (inot l.active) nx).tx = l.tx ∧
    (({ l with state := st }).setFrame (inot l.active) nx).frame (inot l.active) = nx ∧
    (({ l with state := st }).setFrame (inot l.active) nx).frame l.active = l.frame l.active ∧
    (({ l with state := st }).setFrame (inot l.active) nx).state = st ∧
    (({ l with state := st }).setFrame (inot l.active) nx).was_reset = l.was_reset := by
  by_cases h0 : l.active = 0 <;>
    simp [h0, TransceiveLocals.frame, TransceiveLocals.setFrame, inot]

/-- The control byte of the active frame survives the first half of the loop
body. -/
theorem txrx_locals_active_PCB (n : Nat) (l : TransceiveLocals)
    (h : l.tx = l.active ∨ l.tx = inot l.active) :
    ((txrx_locals n l).frame l.active).PCB = (l.frame l.active).PCB ∧
    ((txrx_locals n l).frame l.active).LEN = (l.frame l.active).LEN := by
  rcases h with h | h
  · rw [(txrx_locals_frames n l h).1]; exact ⟨rfl, rfl⟩
  · rw [(txrx_locals_frames_shot n l h).1]; exact ⟨rfl, rfl⟩

/-- One iteration of the exchange loop against a silent card keeps the
invariant and never leaves the loop. -/
theorem silent_step (opts : Teq1ProtocolOptions) (hpre : opts.preprocess = none)
    (init_state : Teq1State) (rx_len fuel : Nat) (ese : EseInterface Script)
    (l : TransceiveLocals) (hsil : script_silent ese) (hinv : SilentInv l) :
    ∃ ese2 l2, transceive_body (script_ops opts) init_state rx_len (fuel + 1) ese l
        = .ok (.again ese2 l2) ∧ script_silent ese2 ∧ SilentInv l2 := by
  obtain ⟨he2, htx, hpcb⟩ := hinv
  obtain ⟨ese1, h1, hs1, -, -, -, -, -⟩ := txrx_silent opts hpre ese l hsil
  have hP := (txrx_locals_active_PCB opts.node_address l htx).1
  have htx1 : (txrx_locals opts.node_address l).tx = l.active := txrx_locals_tx _ _
  have hact1 : (txrx_locals opts.node_address l).active = l.active := txrx_locals_active _ _
  have hst1 : (txrx_locals opts.node_address l).state = { l.state with wait_mult := 1 } :=
    txrx_locals_state _ _
  have hchk := error_check_sentinel
    { (txrx_locals opts.node_address l).state with card_state := ese1.card_state }
    ((txrx_locals opts.node_address l).frame (txrx_locals opts.node_address l).tx) frame_ff rfl
  have herrs : ({ (txrx_locals opts.node_address l).state with
      card_state := ese1.card_state } : Teq1State).errors = l.state.errors := by
    rw [hst1]
  unfold transceive_body
  rw [h1]
  simp only []
  by_cases h2 : l.state.errors = 2
  · have hr := rules_err_third fuel _ _ _ frame_ff
      ((txrx_locals opts.node_address l).frame (inot (txrx_locals opts.node_address l).active))
      _ hchk (by decide) (by rw [herrs]; omega) (by rw [herrs]; omega)
    rw [dispatch_continue _ _ _ _ _ _ _ _ _ _ hr]
    obtain ⟨c1, c2, c3, -, c5, -⟩ := cont_facts (txrx_locals opts.node_address l)
      (count_error { (txrx_locals opts.node_address l).state with card_state := ese1.card_state })
      { (txrx_locals opts.node_address l).frame
          (inot (txrx_locals opts.node_address l).active) with PCB := S RESYNC REQUEST }
    refine ⟨_, _, rfl, hs1, ?_, ?_, ?_⟩
    · rw [c5]
      show 0 ≤ 2
      omega
    · left; rw [c1, c2]
    · right
      rw [c1, c3, c5]
      exact ⟨rfl, Nat.le_refl _⟩
  · rcases hpcb with hI | ⟨hR, hre⟩
    · have hr := rules_err_I fuel _ _
        ((txrx_locals opts.node_address l).frame (txrx_locals opts.node_address l).tx) frame_ff
        ((txrx_locals opts.node_address l).frame (inot (txrx_locals opts.node_address l).active))
        _ hchk (by decide) (by rw [htx1, hP]; exact hI) (by rw [herrs]; omega)
      rw [dispatch_single_shot _ _ _ _ _ _ _ _ _ _ hr]
      obtain ⟨c1, c2, -, c4, c5, -⟩ := shot_facts (txrx_locals opts.node_address l)
        (count_error { (txrx_locals opts.node_address l).state with
          card_state := ese1.card_state })
        { (txrx_locals opts.node_address l).frame
            (inot (txrx_locals opts.node_address l).active) with
          PCB := PCB_set_R_next_seq (R 0 1 0) (PCB_I_send_seq
            ((txrx_locals opts.node_address l).frame (txrx_locals opts.node_address l).tx).PCB) }
      rw [hact1] at c4
      refine ⟨_, _, rfl, hs1, ?_, ?_, ?_⟩
      · rw [c5]
        show ({ (txrx_locals opts.node_address l).state with
          card_state := ese1.card_state } : Teq1State).errors + 1 ≤ 2
        rw [herrs]; omega
      · right; rw [c1, c2]
      · left
        rw [c1, hact1, c4, hP]
        exact hI
    · have hr := rules_err_resync fuel _ _
        ((txrx_locals opts.node_address l).frame (txrx_locals opts.node_address l).tx) frame_ff
        ((txrx_locals opts.node_address l).frame (inot (txrx_locals opts.node_address l).active))
        _ hchk (by decide) (by rw [htx1, hP]; exact hR) (by rw [herrs]; omega)
      have hret : (count_error { (txrx_locals opts.node_address l).state with
          card_state := ese1.card_state }).retransmits = l.state.retransmits := by
        show (txrx_locals opts.node_address l).state.retransmits = _
        rw [hst1]
      rw [dispatch_retransmit _ _ _ _ _ _ _ _ _ _ hr (by rw [hret]; omega)]
      obtain ⟨c1, c2, -, c4, c5, -⟩ := retx_facts (txrx_locals opts.node_address l)
        { count_error { (txrx_locals opts.node_address l).state with
            card_state := ese1.card_state } with
          retransmits := (count_error { (txrx_locals opts.node_address l).state with
            card_state := ese1.card_state }).retransmits + 1 }
        ((txrx_locals opts.node_address l).frame (inot (txrx_locals opts.node_address l).active))
      rw [hact1] at c4
      refine ⟨_, _, rfl, hs1, ?_, ?_, ?_⟩
      · rw [c5]
        show ({ (txrx_locals opts.node_address l).state with
          card_state := ese1.card_state } : Teq1State).errors + 1 ≤ 2
        rw [herrs]; omega
      · left; rw [c1, c2, htx1, hact1]
      · right
        refine ⟨by rw [c1, hact1, c4, hP]; exact hR, ?_⟩
        rw [c5]
        show (count_error { (txrx_locals opts.node_address l).state with
          card_state := ese1.card_state }).retransmits + 1 ≤
          ({ (txrx_locals opts.node_address l).state with
            card_state := ese1.card_state } : Teq1State).errors + 1
        rw [hret, herrs]; omega

/-- Against a silent card the exchange loop never returns: it runs out of any
fuel. -/
theorem silent_loop (opts : Teq1ProtocolOptions) (hpre : opts.preprocess = none)
    (init_state : Teq1State) (rx_len : Nat) :
    ∀ (fuel : Nat) (ese : EseInterface Script) (l : TransceiveLocals),
      script_silent ese → SilentInv l →
      teq1_transceive_loop (script_ops opts) init_state rx_len fuel ese l
        = .error Fault.OutOfFuel := by
  intro fuel
  induction fuel with
  | zero => intro ese l _ _; rfl
  | succ n ih =>
    intro ese l hsil hinv
    obtain ⟨ese2, l2, hb, hs2, hi2⟩ := silent_step opts hpre init_state rx_len n ese l hsil hinv
    rw [teq1_transceive_loop, hb]
    exact ih ese2 l2 hs2 hi2

/-- For an I-block `teq1_fill_info_block` leaves an I-block with the same
sequence bit and touches no counter, whatever the length of the data. -/
theorem fill_info_block_PCB (state : Teq1State) (frame : Teq1Frame) (s : Nat) (hs : s < 2)
    (hpcb : frame.PCB = I s 0) :
    ((teq1_fill_info_block state frame).2.2.PCB = I s 0 ∨
      (teq1_fill_info_block state frame).2.2.PCB = I s 1) ∧
    (teq1_fill_info_block state frame).2.1.errors = state.errors ∧
    (teq1_fill_info_block state frame).2.1.retransmits = state.retransmits ∧
    (teq1_fill_info_block state frame).2.1.wait_mult = state.wait_mult := by
  have hty := I_type s 0 hs (by omega)
  unfold teq1_fill_info_block
  simp only [hpcb, hty, if_true]
  refine ⟨?_, trivial, trivial, trivial⟩
  split_ifs
  all_goals first
    | (right; exact (set_more_data s 1 hs (by omega)).1)
    | (left; exact (set_more_data s 0 hs (by omega)).2)

theorem script_receive_bad (opts : Teq1ProtocolOptions) (hpre : opts.preprocess = none)
    (ese : EseInterface Script) (timeout : ℚ) (b : BadReply)
    (rest : List (Option (List Nat)))
    (hrep : ese.hw.replies = b.wire :: rest)
    (hcur : ese.hw.cursor = 0) (hbad : b.bad opts.host_address) :
    ∃ n : Int, teq1_receive (script_ops opts) ese timeout frame_ff =
      .ok (n, { ese with hw := { ese.hw with replies := rest, cursor := 0 } },
        b.frame opts.host_address) ∧ (n < 0 → b = .timeout) := by
  cases b with
  | timeout =>
    refine ⟨-1, ?_, fun _ => rfl⟩
    simp only [BadReply.wire] at hrep
    simp [teq1_receive, script_ops, script_poll, hrep, BadReply.frame]
  | corrupt pcb inf lrc =>
    obtain ⟨hlen, -⟩ := hbad
    refine ⟨(inf.length : Int), ?_, fun h => absurd h (by omega)⟩
    simp only [BadReply.wire] at hrep
    have h255 : inf.length ≠ 255 := by omega
    simp [teq1_receive, script_ops, hpre, script_poll, script_receive, hrep, hcur,
      memcpy, frame_ff, BadReply.frame, h255]
    have htake : ∀ x : Nat, List.take (inf.length + 1) (inf ++ [x]) = inf ++ [x] :=
      fun x => List.take_of_length_le (by simp)
    simp [htake]

theorem bad_frame_check (host : Nat) (b : BadReply) (hbad : b.bad host)
    (state : Teq1State) (tx : Teq1Frame) (rx : Teq1Frame)
    (hrx : rx = b.frame host ∨ rx = { b.frame host with PCB := 255 })
    (hsent : rx = b.frame host ∨ b = .timeout) :
    teq1_frame_error_check state tx rx = (b.err, state) ∧ b.err ≠ 0 := by
  cases b with
  | timeout =>
    refine ⟨?_, by decide⟩
    have h : rx.PCB = 255 := by
      rcases hrx with h | h
      · rw [h]; rfl
      · rw [h]
    exact error_check_sentinel state tx rx h
  | corrupt pcb inf lrc =>
    obtain ⟨hlen, hne⟩ := hbad
    have hrx' : rx = BadReply.frame host (.corrupt pcb inf lrc) := by
      rcases hsent with h | h
      · exact h
      · exact absurd h (by simp)
    subst hrx'
    by_cases hp : pcb = 255
    · refine ⟨?_, by simp only [BadReply.err, hp, if_true]; decide⟩
      simp only [BadReply.err, hp, if_true]
      exact error_check_sentinel state tx _ (by simp [BadReply.frame, hp])
    · refine ⟨?_, by simp only [BadReply.err, hp, if_false]; decide⟩
      simp only [BadReply.err, hp, if_false]
      apply error_check_parity state tx _ (by simpa [BadReply.frame] using hp)
      rw [compute_LRC_eq]
      have h : (inf ++ [lrc] ++ List.replicate (INF_LEN - inf.length) 255)[inf.length]?
          = some lrc := by
        rw [List.append_assoc, List.getElem?_append_right (le_refl _)]
        simp
      simp only [BadReply.frame, List.getD_eq_getElem?_getD, h, Option.getD_some]
      simpa [List.take_append_of_le_length] using hne

theorem txrx_bad (opts : Teq1ProtocolOptions) (hpre : opts.preprocess = none)
    (ese : EseInterface Script) (l : TransceiveLocals) (b : BadReply)
    (rest : List (Option (List Nat)))
    (hrep : ese.hw.replies = b.wire :: rest)
    (hcur : ese.hw.cursor = 0) (hbad : b.bad opts.host_address) :
    ∃ rx, transceive_txrx (script_ops opts) ese l =
      .ok (script_after ese rest
          ((sealed opts.node_address (l.frame l.tx)).val.take (3 + (l.frame l.tx).LEN + 1)),
        txrx_locals opts.node_address l, rx) ∧
      ∀ state tx, teq1_frame_error_check state tx rx = (b.err, state) ∧ b.err ≠ 0 := by
  obtain ⟨n, hrecv, hn⟩ := script_receive_bad opts hpre
    { ese with hw := { ese.hw with sent := ese.hw.sent ++
        [(sealed opts.node_address (l.frame l.tx)).val.take (3 + (l.frame l.tx).LEN + 1)] } }
    (opts.bwt * (l.state.wait_mult : ℚ)) b rest hrep hcur hbad
  refine ⟨if n < 0 then { b.frame opts.host_address with PCB := 255 }
    else b.frame opts.host_address, ?_, ?_⟩
  · unfold transceive_txrx
    have hopts : (script_ops opts).opts = some opts := rfl
    simp only [hopts, script_transmit_eq opts hpre, setFrame_state, hrecv]
    simp [txrx_locals, script_after]
  · intro state tx
    by_cases hneg : n < 0
    · rw [if_pos hneg]
      exact bad_frame_check _ b hbad state tx _ (Or.inr rfl) (Or.inr (hn hneg))
    · rw [if_neg hneg]
      exact bad_frame_check _ b hbad state tx _ (Or.inl rfl) (Or.inl rfl)

/-- One iteration of the loop against an erroneous reply, given what the
second half of the body does with a frame that fails the error check. -/
theorem loop_step_bad (opts : Teq1ProtocolOptions) (hpre : opts.preprocess = none)
    (init_state : Teq1State) (rx_len fuel : Nat)
    (ese : EseInterface Script) (l : TransceiveLocals) (b : BadReply)
    (rest : List (Option (List Nat))) (ese2 : EseInterface Script) (l2 : TransceiveLocals)
    (hrep : ese.hw.replies = b.wire :: rest)
    (hcur : ese.hw.cursor = 0) (hbad : b.bad opts.host_address)
    (h : ∀ rx, (∀ state tx, teq1_frame_error_check state tx rx = (b.err, state)) →
      transceive_dispatch (script_ops opts) init_state rx_len (fuel + 1)
          (script_after ese rest
            ((sealed opts.node_address (l.frame l.tx)).val.take (3 + (l.frame l.tx).LEN + 1)))
          (txrx_locals opts.node_address l) rx
        = .ok (.again ese2 l2)) :
    teq1_transceive_loop (script_ops opts) init_state rx_len (fuel + 1) ese l
      = teq1_transceive_loop (script_ops opts) init_state rx_len fuel ese2 l2 := by
  obtain ⟨rx, htxrx, hchk⟩ := txrx_bad opts hpre ese l b rest hrep hcur hbad
  rw [teq1_transceive_loop, transceive_body, htxrx]
  simp only [h rx (fun state tx => (hchk state tx).1)]

theorem bad_err_ne (b : BadReply) : b.err ≠ 0 := by
  cases b with
  | timeout => decide
  | corrupt pcb inf lrc =>
    by_cases hp : pcb = 255 <;> simp only [BadReply.err, hp, if_true, if_false] <;> decide

theorem bad_nack (b : BadReply) (s m : Nat) (hs : s < 2) (hm : m < 2) :
    PCB_set_R_next_seq b.err (PCB_I_send_seq (I s m)) = b.nack s := by
  obtain rfl | rfl : s = 0 ∨ s = 1 := by omega
  all_goals obtain rfl | rfl : m = 0 ∨ m = 1 := by omega
  all_goals cases b with
    | timeout => decide
    | corrupt pcb inf lrc =>
      by_cases hp : pcb = 255 <;>
        simp only [BadReply.err, BadReply.nack, hp, if_true, if_false] <;> decide

theorem sealed_sealed (n : Nat) (f : Teq1Frame) : sealed n (sealed n f) = sealed n f := by
  have h := transmit_frame_LRC f n
  simp only [sealed] at h ⊢
  rw [h, List.set_set]

theorem wire_of_sealed (n : Nat) (f : Teq1Frame) : wire_of n (sealed n f) = wire_of n f := by
  unfold wire_of
  rw [sealed_sealed, sealed_LEN]

theorem wire_of_empty (n : Nat) (f : Teq1Frame) (hL : f.LEN = 0) (hlt : 0 < f.INF.length) :
    wire_of n f = n :: wire_reply n f.PCB [] :=
  sealed_wire_empty n f hL hlt

/-- The rule engine on an erroneous frame when the sent block is an R-block or
`S(RESYNC, REQUEST)` and the error count stays below 3: retransmit. -/
theorem rules_err_retransmit (fuel : Nat) (state st1 : Teq1State) (tx rx next : Teq1Frame)
    (e : Nat) (hchk : teq1_frame_error_check state tx rx = (e, st1)) (he : e ≠ 0)
    (htx : retransmit_block tx.PCB) (herr : st1.errors + 1 < 3) :
    teq1_rules (fuel + 1) state tx rx next =
      some (kRuleResultRetransmit, count_error st1, rx, next) := by
  rcases htx with h | h
  · exact rules_err_resync fuel state st1 tx rx next e hchk he h herr
  · unfold teq1_rules
    rw [rules_loop_err fuel state st1 tx rx next _ e hchk he]
    rw [if_neg (by omega), if_neg (by omega)]
    have harm : rule_arm (TEQ1_RULE tx.PCB 255) = r_block_retransmit := by
      simp only [List.mem_cons, List.mem_singleton, List.not_mem_nil, or_false] at h
      rcases h with h | h | h | h | h | h | h | h <;> rw [h] <;> decide
    simp only [teq1_rules_switch, harm]

/-- The frames after the first half of the loop body: the active frame keeps
its control byte, length and wire bytes, the inactive one has its header
cleared and keeps the size of its information field. -/
theorem txrx_locals_keep (n : Nat) (l : TransceiveLocals)
    (h : l.tx = l.active ∨ l.tx = inot l.active) :
    ((txrx_locals n l).frame l.active).PCB = (l.frame l.active).PCB ∧
    ((txrx_locals n l).frame l.active).LEN = (l.frame l.active).LEN ∧
    ((txrx_locals n l).frame l.active).INF.length = (l.frame l.active).INF.length ∧
    wire_of n ((txrx_locals n l).frame l.active) = wire_of n (l.frame l.active) ∧
    ((txrx_locals n l).frame (inot l.active)).PCB = 0 ∧
    ((txrx_locals n l).frame (inot l.active)).LEN = 0 ∧
    ((txrx_locals n l).frame (inot l.active)).INF.length
      = (l.frame (inot l.active)).INF.length := by
  rcases h with h | h
  · obtain ⟨h1, h2⟩ := txrx_locals_frames n l h
    rw [h1, h2]
    exact ⟨rfl, rfl, sealed_INF_length _ _, wire_of_sealed _ _, rfl, rfl, rfl⟩
  · obtain ⟨h1, h2⟩ := txrx_locals_frames_shot n l h
    rw [h1, h2]
    exact ⟨rfl, rfl, rfl, rfl, rfl, rfl, sealed_INF_length _ _⟩

theorem shot_facts_at (l : TransceiveLocals) (st : Teq1State) (nx : Teq1Frame) (a : Nat)
    (ha : l.active = a) :
    ({ (({ l with state := st }).setFrame (inot l.active) nx) with
        tx := inot l.active } : TransceiveLocals).active = a ∧
    ({ (({ l with state := st }).setFrame (inot l.active) nx) with
        tx := inot l.active } : TransceiveLocals).tx = inot a ∧
    ({ (({ l with state := st }).setFrame (inot l.active) nx) with
        tx := inot l.active } : TransceiveLocals).frame (inot a) = nx ∧
    ({ (({ l with state := st }).setFrame (inot l.active) nx) with
        tx := inot l.active } : TransceiveLocals).frame a = l.frame a ∧
    ({ (({ l with state := st }).setFrame (inot l.active) nx) with
        tx := inot l.active } : TransceiveLocals).state = st ∧
    ({ (({ l with state := st }).setFrame (inot l.active) nx) with
        tx := inot l.active } : TransceiveLocals).was_reset = l.was_reset := by
  subst ha
  exact shot_facts l st nx

/-- An erroneous reply while an I-block is outstanding and the error count
stays below 3: the frame `tx` points to is sent, the error R-block is prepared
in the inactive frame and `tx` is pointed at it. -/
theorem loop_bad_I (opts : Teq1ProtocolOptions) (hpre : opts.preprocess = none)
    (init_state : Teq1State) (rx_len fuel : Nat)
    (ese : EseInterface Script) (l : TransceiveLocals) (b : BadReply)
    (rest : List (Option (List Nat)))
    (hrep : ese.hw.replies = b.wire :: rest)
    (hcur : ese.hw.cursor = 0) (hbad : b.bad opts.host_address)
    (s m : Nat) (hs : s < 2) (hm : m < 2)
    (htx : l.tx = l.active ∨ l.tx = inot l.active)
    (hpcb : (l.frame l.active).PCB = I s m) (herr : l.state.errors + 1 < 3) :
    ∃ l2, teq1_transceive_loop (script_ops opts) init_state rx_len (fuel + 1) ese l
        = teq1_transceive_loop (script_ops opts) init_state rx_len fuel
            (script_after ese rest (wire_of opts.node_address (l.frame l.tx))) l2 ∧
      l2.active = l.active ∧ l2.tx = inot l.active ∧
      (l2.frame l.active).PCB = I s m ∧
      (l2.frame l.active).LEN = (l.frame l.active).LEN ∧
      (l2.frame l.active).INF.length = (l.frame l.active).INF.length ∧
      wire_of opts.node_address (l2.frame l.active)
        = wire_of opts.node_address (l.frame l.active) ∧
      (l2.frame (inot l.active)).PCB = b.nack s ∧ (l2.frame (inot l.active)).LEN = 0 ∧
      (l2.frame (inot l.active)).INF.length = (l.frame (inot l.active)).INF.length ∧
      l2.state.errors = l.state.errors + 1 ∧ l2.state.retransmits = l.state.retransmits ∧
      l2.state.app_data = l.state.app_data ∧ l2.state.ifs = l.state.ifs ∧
      l2.state.wait_mult = 1 ∧ l2.was_reset = l.was_reset := by
  obtain ⟨k1, k2, k3, k4, -, k6, k7⟩ := txrx_locals_keep opts.node_address l htx
  have htx1 : (txrx_locals opts.node_address l).tx = l.active := txrx_locals_tx _ _
  have hact1 : (txrx_locals opts.node_address l).active = l.active := txrx_locals_active _ _
  have hst1 : (txrx_locals opts.node_address l).state = { l.state with wait_mult := 1 } :=
    txrx_locals_state _ _
  have hwr1 : (txrx_locals opts.node_address l).was_reset = l.was_reset :=
    txrx_locals_was_reset _ _
  have hP1 : ((txrx_locals opts.node_address l).frame (txrx_locals opts.node_address l).tx).PCB
      = I s m := by rw [htx1, k1, hpcb]
  obtain ⟨c1, c2, c3, c4, c5, c6⟩ := shot_facts_at (txrx_locals opts.node_address l)
    (count_error { (txrx_locals opts.node_address l).state with card_state := ese.card_state })
    { (txrx_locals opts.node_address l).frame
        (inot (txrx_locals opts.node_address l).active) with
      PCB := PCB_set_R_next_seq b.err (PCB_I_send_seq
        ((txrx_locals opts.node_address l).frame (txrx_locals opts.node_address l).tx).PCB) }
    l.active hact1
  refine ⟨{ (({ txrx_locals opts.node_address l with
        state := count_error { (txrx_locals opts.node_address l).state with
          card_state := ese.card_state } }).setFrame
      (inot (txrx_locals opts.node_address l).active)
      { (txrx_locals opts.node_address l).frame
          (inot (txrx_locals opts.node_address l).active) with
        PCB := PCB_set_R_next_seq b.err (PCB_I_send_seq
          ((txrx_locals opts.node_address l).frame
            (txrx_locals opts.node_address l).tx).PCB) }) with
      tx := inot (txrx_locals opts.node_address l).active },
    loop_step_bad opts hpre init_state rx_len fuel ese l b rest _ _ hrep hcur hbad
      (fun rx hchk => ?_), ?_⟩
  · have hr := rules_err_I fuel
      { (txrx_locals opts.node_address l).state with card_state := ese.card_state } _
      ((txrx_locals opts.node_address l).frame (txrx_locals opts.node_address l).tx) rx
      ((txrx_locals opts.node_address l).frame (inot (txrx_locals opts.node_address l).active))
      b.err (hchk _ _) (bad_err_ne b)
      (by
        rw [hP1]
        obtain rfl | rfl : s = 0 ∨ s = 1 := by omega
        all_goals obtain rfl | rfl : m = 0 ∨ m = 1 := by omega
        all_goals decide)
      (by rw [hst1]; exact herr)
    exact dispatch_single_shot _ _ _ _ (script_after ese rest _) _ _ _ _ _ hr
  · refine ⟨c1, c2, ?_, ?_, ?_, ?_, ?_, ?_, ?_, ?_, ?_, ?_, ?_, ?_, ?_⟩
    · rw [c4, k1, hpcb]
    · rw [c4, k2]
    · rw [c4, k3]
    · rw [c4, k4]
    · rw [c3, hP1]; exact bad_nack b s m hs hm
    · rw [c3]; show ((txrx_locals opts.node_address l).frame _).LEN = 0
      rw [hact1]; exact k6
    · rw [c3]; show ((txrx_locals opts.node_address l).frame _).INF.length = _
      rw [hact1]; exact k7
    · rw [c5, hst1]; rfl
    · rw [c5, hst1]; rfl
    · rw [c5, hst1]; rfl
    · rw [c5, hst1]; rfl
    · rw [c5, hst1]; rfl
    · rw [c6, hwr1]

theorem get_app_data_keeps (state : Teq1State) (rx : Teq1Frame) :
    (teq1_get_app_data state rx).wait_mult = state.wait_mult ∧
    (teq1_get_app_data state rx).retransmits = state.retransmits ∧
    (teq1_get_app_data state rx).errors = state.errors ∧
    (teq1_get_app_data state rx).ifs = state.ifs ∧
    (teq1_get_app_data state rx).app_data.tx_len = state.app_data.tx_len ∧
    (teq1_get_app_data state rx).app_data.tx_buf = state.app_data.tx_buf := by
  unfold teq1_get_app_data
  split <;> exact ⟨rfl, rfl, rfl, rfl, rfl, rfl⟩

/-- The shape of what `teq1_fill_info_block` returns for an I-block, whatever
the length of the data: `n` bytes are taken, at most `INF_LEN` and at most the
bytes left. -/
theorem fill_info_block_shape (state : Teq1State) (frame : Teq1Frame)
    (hty : PCB_type frame.PCB = kPcbTypeInfo0 ∨ PCB_type frame.PCB = kPcbTypeInfo1) :
    ∃ n p, n ≤ state.app_data.tx_len ∧ n ≤ INF_LEN ∧
      (p = PCB_set_I_more_data (PCB_set_I_more_data frame.PCB 0) 1 ∨
        p = PCB_set_I_more_data frame.PCB 0) ∧
      teq1_fill_info_block state frame =
        (n % 256,
         { state with app_data :=
            { state.app_data with tx_len := state.app_data.tx_len - n,
                                  tx_buf := state.app_data.tx_buf.drop n } },
         { NAD := frame.NAD, PCB := p, LEN := n &&& 255,
           INF := memcpy frame.INF 0 state.app_data.tx_buf n }) := by
  have hmod : state.app_data.tx_len % 2 ^ 32 ≤ state.app_data.tx_len := Nat.mod_le _ _
  have hn : (if state.app_data.tx_len % 2 ^ 32 > (if state.ifs < INF_LEN then state.ifs
        else INF_LEN) then (if state.ifs < INF_LEN then state.ifs else INF_LEN)
      else state.app_data.tx_len % 2 ^ 32)
      = min (state.app_data.tx_len % 2 ^ 32) (min state.ifs INF_LEN) := by
    split <;> split <;> omega
  unfold teq1_fill_info_block
  simp only [hty, if_true, hn]
  by_cases hmore : state.app_data.tx_len
      - min (state.app_data.tx_len % 2 ^ 32) (min state.ifs INF_LEN) > 0
  · refine ⟨min (state.app_data.tx_len % 2 ^ 32) (min state.ifs INF_LEN),
      PCB_set_I_more_data (PCB_set_I_more_data frame.PCB 0) 1, ?_, ?_, Or.inl rfl, ?_⟩
    · exact le_trans (Nat.min_le_left _ _) hmod
    · exact le_trans (Nat.min_le_right _ _) (Nat.min_le_right _ _)
    · simp only [hmore, if_true]
  · refine ⟨min (state.app_data.tx_len % 2 ^ 32) (min state.ifs INF_LEN),
      PCB_set_I_more_data frame.PCB 0, ?_, ?_, Or.inr rfl, ?_⟩
    · exact le_trans (Nat.min_le_left _ _) hmod
    · exact le_trans (Nat.min_le_right _ _) (Nat.min_le_right _ _)
    · simp only [hmore, if_false]

theorem memcpy_zero_length (dst src : List Nat) (n : Nat) (hs : n ≤ src.length)
    (hd : n ≤ dst.length) : (memcpy dst 0 src n).length = dst.length := by
  simp only [memcpy, List.take_zero, List.nil_append, List.length_append, List.length_take,
    List.length_drop, Nat.zero_add]
  omega

/-- What `teq1_fill_info_block` keeps, whatever the frame and the length of the
data: the counters, the size of the information field, and the transmit
cursor inside the transmit buffer. -/
theorem fill_info_block_keeps (state : Teq1State) (frame : Teq1Frame)
    (htl : state.app_data.tx_len ≤ state.app_data.tx_buf.length)
    (hinf : INF_LEN ≤ frame.INF.length) :
    (teq1_fill_info_block state frame).2.1.wait_mult = state.wait_mult ∧
    (teq1_fill_info_block state frame).2.1.retransmits = state.retransmits ∧
    (teq1_fill_info_block state frame).2.1.errors = state.errors ∧
    (teq1_fill_info_block state frame).2.1.app_data.tx_len
      ≤ (teq1_fill_info_block state frame).2.1.app_data.tx_buf.length ∧
    (teq1_fill_info_block state frame).2.2.INF.length = frame.INF.length := by
  by_cases hty : PCB_type frame.PCB = kPcbTypeInfo0 ∨ PCB_type frame.PCB = kPcbTypeInfo1
  · obtain ⟨n, p, hn1, hn2, -, heq⟩ := fill_info_block_shape state frame hty
    rw [heq]
    refine ⟨rfl, rfl, rfl, ?_, ?_⟩
    · simp only [List.length_drop]; omega
    · exact memcpy_zero_length _ _ _ (by omega) (by omega)
  · unfold teq1_fill_info_block
    simp only [hty, if_false]
    exact ⟨trivial, trivial, trivial, htl, trivial⟩

theorem set_next_seq_ne_wtx (e v : Nat) (he : e = 0 ∨ e = R 0 1 0 ∨ e = R 0 0 1) :
    PCB_set_R_next_seq e v ≠ S WTX RESPONSE := by
  have hv : v % 2 = 0 ∨ v % 2 = 1 := by omega
  rcases he with rfl | rfl | rfl <;> rcases hv with h | h <;>
    simp [PCB_set_R_next_seq, bitfield_set, bitfield_get, h, S_values, R, TEQ1_R, kTeq1RrType]

theorem set_next_seq_ack_ne_wtx (v : Nat) : PCB_set_R_next_seq (R 0 0 0) v ≠ S WTX RESPONSE := by
  have hv : v % 2 = 0 ∨ v % 2 = 1 := by omega
  rcases hv with h | h <;>
    simp [PCB_set_R_next_seq, bitfield_set, bitfield_get, h, S_values, R, TEQ1_R, kTeq1RrType]

theorem ack_ne_wtx (v : Nat) : TEQ1_R (lnot v) 0 0 ≠ S WTX RESPONSE := by
  unfold lnot
  split <;> decide

theorem set_send_seq_I (v : Nat) :
    PCB_set_I_send_seq (I 0 0) v = I 0 0 ∨ PCB_set_I_send_seq (I 0 0) v = I 1 0 := by
  have hv : v % 2 = 0 ∨ v % 2 = 1 := by omega
  rcases hv with h | h
  · left; simp [PCB_set_I_send_seq, bitfield_set, bitfield_get, h, I, TEQ1_I]
  · right; simp [PCB_set_I_send_seq, bitfield_set, bitfield_get, h, I, TEQ1_I]

/-- Every arm of the rule table keeps what `RulesKeep` lists, and the error
counter. -/
theorem switch_keeps (state : Teq1State) (tx rx next : Teq1Frame) (e txrx : Nat)
    (res : RuleResult) (st : Teq1State) (nx : Teq1Frame)
    (h : teq1_rules_switch state tx rx next e txrx = some (res, st, nx))
    (he : e = 0 ∨ e = R 0 1 0 ∨ e = R 0 0 1)
    (hinf : next.INF.length = INF_LEN + 1)
    (htl : state.app_data.tx_len ≤ state.app_data.tx_buf.length) :
    RulesKeep state next res st nx ∧ st.errors = state.errors := by
  obtain ⟨g1, g2, g3, -, g5, g6⟩ := get_app_data_keeps state rx
  unfold teq1_rules_switch at h
  generalize rule_arm txrx = a at h
  cases a <;> simp only [Option.some.injEq, Prod.mk.injEq] at h
  case default_ => exact absurd h (by simp)
  case chained_tx =>
    obtain ⟨rfl, rfl, rfl⟩ := h
    obtain ⟨f1, f2, f3, f4, f5⟩ := fill_info_block_keeps state
      { NAD := next.NAD, PCB := PCB_set_I_send_seq (I 0 0) (PCB_R_next_seq rx.PCB),
        LEN := next.LEN, INF := next.INF } htl (by show INF_LEN ≤ next.INF.length; omega)
    have hty : PCB_type (PCB_set_I_send_seq (I 0 0) (PCB_R_next_seq rx.PCB)) = kPcbTypeInfo0 ∨
        PCB_type (PCB_set_I_send_seq (I 0 0) (PCB_R_next_seq rx.PCB)) = kPcbTypeInfo1 := by
      rcases set_send_seq_I (PCB_R_next_seq rx.PCB) with h | h <;> rw [h] <;> decide
    obtain ⟨n, p, -, -, hp, heq⟩ := fill_info_block_shape state
      { NAD := next.NAD, PCB := PCB_set_I_send_seq (I 0 0) (PCB_R_next_seq rx.PCB),
        LEN := next.LEN, INF := next.INF } hty
    refine ⟨⟨f2, f5, f4, Or.inr ⟨f1, fun _ => ?_⟩⟩, f3⟩
    rw [heq]
    show p ≠ S WTX RESPONSE
    rcases set_send_seq_I (PCB_R_next_seq rx.PCB) with h | h <;>
      rcases hp with hp | hp <;> rw [hp] <;>
      simp only [h] <;> decide
  case wtx_request =>
    obtain ⟨rfl, rfl, rfl⟩ := h
    refine ⟨⟨rfl, by simp, htl, Or.inl ⟨rfl, rfl, rfl, ?_⟩⟩, rfl⟩
    exact (getD_set_zero _ _ (by rw [hinf]; omega)).symm
  case ifs_request =>
    obtain ⟨rfl, rfl, rfl⟩ := h
    exact ⟨⟨rfl, by simp, htl,
      Or.inr ⟨rfl, fun _ => by show S IFS RESPONSE ≠ S WTX RESPONSE; decide⟩⟩, rfl⟩
  case card_chain_begin =>
    obtain ⟨rfl, rfl, rfl⟩ := h
    exact ⟨⟨g2, rfl, by rw [g5, g6]; exact htl, Or.inr ⟨g1, fun _ => ack_ne_wtx _⟩⟩, g3⟩
  case chain_continue =>
    obtain ⟨rfl, rfl, rfl⟩ := h
    exact ⟨⟨g2, rfl, by rw [g5, g6]; exact htl, Or.inr ⟨g1, fun _ => ack_ne_wtx _⟩⟩, g3⟩
  case rule_2_1 =>
    obtain ⟨rfl, rfl, rfl⟩ := h
    exact ⟨⟨g2, rfl, by rw [g5, g6]; exact htl, Or.inr ⟨g1, fun hc => by simp at hc⟩⟩, g3⟩
  case chain_end =>
    obtain ⟨rfl, rfl, rfl⟩ := h
    exact ⟨⟨g2, rfl, by rw [g5, g6]; exact htl, Or.inr ⟨g1, fun hc => by simp at hc⟩⟩, g3⟩
  case bad_rx =>
    obtain ⟨rfl, rfl, rfl⟩ := h
    exact ⟨⟨rfl, rfl, htl, Or.inr ⟨rfl, fun _ => set_next_seq_ne_wtx _ _ he⟩⟩, rfl⟩
  case weird_rx =>
    obtain ⟨rfl, rfl, rfl⟩ := h
    exact ⟨⟨rfl, rfl, htl, Or.inr ⟨rfl, fun _ => set_next_seq_ack_ne_wtx _⟩⟩, rfl⟩
  case abort_request =>
    obtain ⟨rfl, rfl, rfl⟩ := h
    exact ⟨⟨rfl, rfl, htl,
      Or.inr ⟨rfl, fun _ => by show S ABORT REQUEST ≠ S WTX RESPONSE; decide⟩⟩, rfl⟩
  all_goals
    obtain ⟨rfl, rfl, rfl⟩ := h
    exact ⟨⟨rfl, rfl, htl, Or.inr ⟨rfl, fun hc => by simp at hc⟩⟩, rfl⟩

/-- No arm of the rule table returns `ResetDevice`. -/
theorem switch_not_reset (state : Teq1State) (tx rx next : Teq1Frame) (e txrx : Nat)
    (res : RuleResult) (st : Teq1State) (nx : Teq1Frame)
    (h : teq1_rules_switch state tx rx next e txrx = some (res, st, nx)) :
    res ≠ kRuleResultResetDevice := by
  intro hc
  rw [hc] at h
  unfold teq1_rules_switch at h
  generalize rule_arm txrx = a at h
  cases a <;> simp at h

theorem error_check_codes (state : Teq1State) (tx rx : Teq1Frame) :
    (teq1_frame_error_check state tx rx).1 = 0 ∨
    (teq1_frame_error_check state tx rx).1 = R 0 1 0 ∨
    (teq1_frame_error_check state tx rx).1 = R 0 0 1 := by
  unfold teq1_frame_error_check
  simp only []
  split_ifs <;> simp

theorem rulesKeep_of_eq (state st0 : Teq1State) (next : Teq1Frame) (res : RuleResult)
    (st : Teq1State) (nx : Teq1Frame) (h1 : st0.retransmits = state.retransmits)
    (h2 : st0.wait_mult = state.wait_mult) (h : RulesKeep st0 next res st nx) :
    RulesKeep state next res st nx := by
  unfold RulesKeep at h ⊢
  rw [h1, h2] at h
  exact h

/-- What the loop of the rule engine keeps: `RulesKeep`, and the error counter
never decreases; from an error count of at most 2 the result is never
`ResetDevice`, and the count on return is at most 2 unless the result is
`Continue` with a count of 3. -/
theorem rules_loop_keeps : ∀ (fuel : Nat) (state : Teq1State) (tx rx next : Teq1Frame)
    (txrx : Nat) (res : RuleResult) (st : Teq1State) (rx2 nx : Teq1Frame),
    teq1_rules_loop fuel state tx rx next txrx = some (res, st, rx2, nx) →
    next.INF.length = INF_LEN + 1 →
    state.app_data.tx_len ≤ state.app_data.tx_buf.length →
    RulesKeep state next res st nx ∧
    (state.errors ≤ 2 → res ≠ kRuleResultResetDevice ∧
      (st.errors ≤ 2 ∨ (res = kRuleResultContinue ∧ st.errors = 3))) := by
  intro fuel
  induction fuel with
  | zero => intro state tx rx next txrx res st rx2 nx h; simp [teq1_rules_loop] at h
  | succ n ih =>
    intro state tx rx next txrx res st rx2 nx h hinf htl
    obtain ⟨cs, hcs⟩ := error_check_state state tx rx
    have hcodes := error_check_codes state tx rx
    rcases hchk : teq1_frame_error_check state tx rx with ⟨e, st1⟩
    rw [hchk] at hcs hcodes
    simp only at hcs hcodes
    subst hcs
    by_cases he : e = 0
    · subst he
      rw [rules_loop_ok n state _ tx rx next txrx hchk] at h
      rcases hsw : teq1_rules_switch { state with card_state := cs } tx rx next 0 txrx
        with _ | ⟨r, s, m⟩
      · rw [hsw] at h
        simp only at h
        by_cases hp : rx.PCB = 255
        · simp only [hp, ne_eq, not_true_eq_false, if_false, Option.some.injEq,
            Prod.mk.injEq] at h
          obtain ⟨rfl, rfl, -, rfl⟩ := h
          exact ⟨⟨rfl, rfl, htl, Or.inr ⟨rfl, fun hc => by simp at hc⟩⟩,
            fun h2 => ⟨by simp, Or.inl h2⟩⟩
        · simp only [ne_eq, hp, not_false_eq_true, if_true] at h
          obtain ⟨k1, k2⟩ := ih _ tx _ next txrx res st rx2 nx h hinf htl
          exact ⟨rulesKeep_of_eq state _ next res st nx rfl rfl k1, k2⟩
      · rw [hsw] at h
        simp only [Option.some.injEq, Prod.mk.injEq] at h
        obtain ⟨rfl, rfl, -, rfl⟩ := h
        obtain ⟨k1, k2⟩ := switch_keeps _ tx rx next 0 txrx _ _ _ hsw (Or.inl rfl) hinf htl
        refine ⟨rulesKeep_of_eq state _ next _ _ _ rfl rfl k1,
          fun h2 => ⟨fun hc => ?_, Or.inl (by rw [k2]; exact h2)⟩⟩
        exact switch_not_reset _ tx rx next 0 txrx _ _ _ hsw hc
    · rw [rules_loop_err n state _ tx rx next txrx e hchk he] at h
      have herr0 : ({ state with card_state := cs } : Teq1State).errors = state.errors := rfl
      by_cases h6 : state.errors + 1 ≥ 6
      · rw [herr0, if_pos h6] at h
        simp only [Option.some.injEq, Prod.mk.injEq] at h
        obtain ⟨rfl, rfl, -, rfl⟩ := h
        exact ⟨⟨rfl, rfl, htl, Or.inr ⟨rfl, fun hc => by simp at hc⟩⟩,
          fun h2 => absurd h6 (by omega)⟩
      rw [herr0, if_neg h6] at h
      by_cases h3 : state.errors + 1 ≥ 3
      · rw [if_pos h3] at h
        simp only [Option.some.injEq, Prod.mk.injEq] at h
        obtain ⟨rfl, rfl, -, rfl⟩ := h
        refine ⟨⟨rfl, rfl, htl, Or.inr ⟨rfl, fun _ => by
          show S RESYNC REQUEST ≠ S WTX RESPONSE; decide⟩⟩,
          fun h2 => ⟨by simp, Or.inr ⟨rfl, ?_⟩⟩⟩
        show state.errors + 1 = 3
        omega
      rw [if_neg h3] at h
      have hcodes' : e = 0 ∨ e = R 0 1 0 ∨ e = R 0 0 1 := hcodes
      rcases hsw : teq1_rules_switch (count_error { state with card_state := cs }) tx rx next e
          (TEQ1_RULE tx.PCB 255) with _ | ⟨r, s, m⟩
      · rw [hsw] at h
        simp only at h
        by_cases hp : rx.PCB = 255
        · simp only [hp, ne_eq, not_true_eq_false, if_false, Option.some.injEq,
            Prod.mk.injEq] at h
          obtain ⟨rfl, rfl, -, rfl⟩ := h
          refine ⟨⟨rfl, rfl, htl, Or.inr ⟨rfl, fun hc => by simp at hc⟩⟩,
            fun h2 => ⟨by simp, Or.inl ?_⟩⟩
          show state.errors + 1 ≤ 2
          omega
        · simp only [ne_eq, hp, not_false_eq_true, if_true] at h
          obtain ⟨k1, k2⟩ := ih _ tx _ next _ res st rx2 nx h hinf htl
          refine ⟨rulesKeep_of_eq state _ next res st nx rfl rfl k1, fun h2 => k2 ?_⟩
          show state.errors + 1 ≤ 2
          omega
      · rw [hsw] at h
        simp only [Option.some.injEq, Prod.mk.injEq] at h
        obtain ⟨rfl, rfl, -, rfl⟩ := h
        obtain ⟨k1, k2⟩ := switch_keeps _ tx rx next e _ _ _ _ hsw hcodes' hinf htl
        refine ⟨rulesKeep_of_eq state _ next _ _ _ rfl rfl k1,
          fun h2 => ⟨fun hc => ?_, Or.inl ?_⟩⟩
        · exact switch_not_reset _ tx rx next e _ _ _ _ hsw hc
        · rw [k2]
          show state.errors + 1 ≤ 2
          omega

theorem fill_info_block_retransmits (state : Teq1State) (frame : Teq1Frame) :
    (teq1_fill_info_block state frame).2.1.retransmits = state.retransmits := by
  unfold teq1_fill_info_block
  simp only []
  split <;> rfl

theorem switch_retransmits (state : Teq1State) (tx rx next : Teq1Frame) (e txrx : Nat)
    (res : RuleResult) (st : Teq1State) (nx : Teq1Frame)
    (h : teq1_rules_switch state tx rx next e txrx = some (res, st, nx)) :
    st.retransmits = state.retransmits := by
  have g := (get_app_data_keeps state rx).2.1
  unfold teq1_rules_switch at h
  generalize rule_arm txrx = a at h
  cases a <;> simp only [Option.some.injEq, Prod.mk.injEq] at h
  case default_ => exact absurd h (by simp)
  case chained_tx =>
    obtain ⟨-, rfl, -⟩ := h
    exact fill_info_block_retransmits _ _
  all_goals
    obtain ⟨-, rfl, -⟩ := h
    first | rfl | exact g

/-- The rule engine never changes the retransmit counter. -/
theorem rules_loop_retransmits : ∀ (fuel : Nat) (state : Teq1State) (tx rx next : Teq1Frame)
    (txrx : Nat) (res : RuleResult) (st : Teq1State) (rx2 nx : Teq1Frame),
    teq1_rules_loop fuel state tx rx next txrx = some (res, st, rx2, nx) →
    st.retransmits = state.retransmits := by
  intro fuel
  induction fuel with
  | zero => intro state tx rx next txrx res st rx2 nx h; simp [teq1_rules_loop] at h
  | succ n ih =>
    intro state tx rx next txrx res st rx2 nx h
    obtain ⟨cs, hcs⟩ := error_check_state state tx rx
    rcases hchk : teq1_frame_error_check state tx rx with ⟨e, st1⟩
    rw [hchk] at hcs
    simp only at hcs
    subst hcs
    by_cases he : e = 0
    · subst he
      rw [rules_loop_ok n state _ tx rx next txrx hchk] at h
      rcases hsw : teq1_rules_switch { state with card_state := cs } tx rx next 0 txrx
        with _ | ⟨r, s, m⟩
      · rw [hsw] at h
        simp only at h
        by_cases hp : rx.PCB = 255
        · simp only [hp, ne_eq, not_true_eq_false, if_false, Option.some.injEq,
            Prod.mk.injEq] at h
          obtain ⟨-, rfl, -, -⟩ := h
          rfl
        · simp only [ne_eq, hp, not_false_eq_true, if_true] at h
          have k := ih _ _ _ _ _ _ _ _ _ h
          exact k
      · rw [hsw] at h
        simp only [Option.some.injEq, Prod.mk.injEq] at h
        obtain ⟨-, rfl, -, -⟩ := h
        have k := switch_retransmits _ _ _ _ _ _ _ _ _ hsw
        exact k
    · rw [rules_loop_err n state _ tx rx next txrx e hchk he] at h
      split at h
      · simp only [Option.some.injEq, Prod.mk.injEq] at h
        obtain ⟨-, rfl, -, -⟩ := h
        rfl
      split at h
      · simp only [Option.some.injEq, Prod.mk.injEq] at h
        obtain ⟨-, rfl, -, -⟩ := h
        rfl
      rcases hsw : teq1_rules_switch (count_error { state with card_state := cs }) tx rx next e
          (TEQ1_RULE tx.PCB 255) with _ | ⟨r, s, m⟩
      · rw [hsw] at h
        simp only at h
        by_cases hp : rx.PCB = 255
        · simp only [hp, ne_eq, not_true_eq_false, if_false, Option.some.injEq,
            Prod.mk.injEq] at h
          obtain ⟨-, rfl, -, -⟩ := h
          rfl
        · simp only [ne_eq, hp, not_false_eq_true, if_true] at h
          have k := ih _ _ _ _ _ _ _ _ _ h
          exact k
      · rw [hsw] at h
        simp only [Option.some.injEq, Prod.mk.injEq] at h
        obtain ⟨-, rfl, -, -⟩ := h
        have k := switch_retransmits _ _ _ _ _ _ _ _ _ hsw
        exact k

theorem reset_retransmits {H : Type} (ese : EseInterface H) (l : TransceiveLocals)
    (init_state : Teq1State) :
    (transceive_reset ese l init_state).2.state.retransmits = init_state.retransmits := by
  unfold transceive_reset
  simp only [setFrame_state]
  exact fill_info_block_retransmits _ _

theorem fail_ret {H : Type} (ese : EseInterface H) (l : TransceiveLocals) (code : Int)
    (x : LoopStep H) (h : transceive_fail ese l code = .ok x) :
    ∃ r, x = .ret r ∧ r.ret = 0 ∧ r.ese.error.is_err = 1 ∧ r.ese.error.code = code ∧
      r.ese.hw = ese.hw ∧ r.ese.card_state = ese.card_state := by
  unfold transceive_fail at h
  rcases hs : ese_set_error_nonnull ese code with e | e2
  · rw [hs] at h; simp at h
  · rw [hs] at h
    simp only [Except.ok.injEq] at h
    subst h
    refine ⟨_, rfl, rfl, ?_⟩
    unfold ese_set_error_nonnull at hs
    simp only [] at hs
    split at hs
    · split at hs
      · simp at hs
      · simp only [Except.ok.injEq] at hs
        subst hs
        exact ⟨rfl, rfl, rfl, rfl⟩
    · split at hs
      · simp at hs
      · simp only [Except.ok.injEq] at hs
        subst hs
        exact ⟨rfl, rfl, rfl, rfl⟩

/-- One exchange of non-chained I-blocks completed by the loop right after a
single shot: `tx` points to the inactive frame, which is sent, and the reply is
matched against the I-block in the active frame. -/
theorem loop_shot_exchange (opts : Teq1ProtocolOptions) (hpre : opts.preprocess = none)
    (init_state : Teq1State) (rx_len fuel : Nat)
    (ese : EseInterface Script) (l : TransceiveLocals) (s t : Nat) (payload : List Nat)
    (rest : List (Option (List Nat)))
    (hrep : ese.hw.replies = some (wire_reply opts.host_address (I t 0) payload) :: rest)
    (hcur : ese.hw.cursor = 0) (hk : payload.length ≤ 254)
    (htx : l.tx = inot l.active) (hpcb : (l.frame l.active).PCB = I s 0) (hs : s < 2)
    (ht : t < 2) (hcard : ese.card_state.card < 2) (hacc : t = 1 ∨ ese.card_state.card = 1) :
    teq1_transceive_loop (script_ops opts) init_state rx_len (fuel + 1) ese l =
      .ok { ret := rx_len -
              (l.state.app_data.rx_len - min payload.length l.state.app_data.rx_len),
            ese := { script_after ese rest (wire_of opts.node_address (l.frame l.tx)) with
              card_state := { card := t, interface := s } },
            rx_mem := memcpy l.state.app_data.rx_mem l.state.app_data.rx_buf
              (received opts.host_address (I t 0) payload).INF
              (min payload.length l.state.app_data.rx_len) } := by
  apply loop_step_ret opts hpre init_state rx_len fuel ese l (I t 0) payload rest _ hrep hcur hk
  have hfr := (txrx_locals_frames_shot opts.node_address l htx).1
  have htx' : ((txrx_locals opts.node_address l).frame (txrx_locals opts.node_address l).tx).PCB
      = I s 0 := by
    rw [txrx_locals_tx, hfr, hpcb]
  have hrules := rules_I_I_complete fuel
    { (txrx_locals opts.node_address l).state with card_state := ese.card_state }
    ((txrx_locals opts.node_address l).frame (txrx_locals opts.node_address l).tx)
    (received opts.host_address (I t 0) payload)
    ((txrx_locals opts.node_address l).frame (inot (txrx_locals opts.node_address l).active))
    s t hs ht htx' rfl (received_LRC _ _ _) hcard hacc
  rw [dispatch_complete _ _ _ _ (script_after ese rest _) _ _ _ _ _ hrules]
  rw [note_tx_seq_I _ _ s 0 hs (by omega) htx']
  rw [get_app_data_I _ _ t 0 ht (by omega) rfl (by simpa [received] using hk)]
  simp only [txrx_locals_state]
  rfl

/-- An exchange in which the first reply to a non-chained I-block has a wrong
checksum and the second is a checksum-valid non-chained I-block: the I-block
and one error R-block are sent and the payload of the second reply is
delivered. -/
theorem loop_corrupt_recovery (opts : Teq1ProtocolOptions) (hpre : opts.preprocess = none)
    (init_state : Teq1State) (rx_len fuel : Nat)
    (ese : EseInterface Script) (l : TransceiveLocals) (pcb c : Nat) (inf payload : List Nat)
    (s t : Nat) (rest : List (Option (List Nat)))
    (hrep : ese.hw.replies = some (pcb :: inf.length :: inf ++ [c]) ::
      some (wire_reply opts.host_address (I t 0) payload) :: rest)
    (hcur : ese.hw.cursor = 0) (hinf : inf.length ≤ 254)
    (hbad : c ≠ xor_all (opts.host_address :: pcb :: inf.length :: inf))
    (hk : payload.length ≤ 254)
    (htx : l.tx = l.active) (hpcb : (l.frame l.active).PCB = I s 0) (hs : s < 2) (ht : t < 2)
    (hcard : ese.card_state.card < 2) (hacc : t = 1 ∨ ese.card_state.card = 1)
    (herr : l.state.errors = 0) (hnx : 0 < (l.frame (inot l.active)).INF.length) :
    teq1_transceive_loop (script_ops opts) init_state rx_len (fuel + 2) ese l =
      .ok { ret := rx_len -
              (l.state.app_data.rx_len - min payload.length l.state.app_data.rx_len),
            ese := { ese with
              card_state := { card := t, interface := s }
              hw := { replies := rest, cursor := 0,
                      sent := ese.hw.sent ++ [wire_of opts.node_address (l.frame l.active),
                        opts.node_address :: wire_reply opts.node_address
                          (if pcb = 255 then R s 1 0 else R s 0 1) []] } },
            rx_mem := memcpy l.state.app_data.rx_mem l.state.app_data.rx_buf
              (received opts.host_address (I t 0) payload).INF
              (min payload.length l.state.app_data.rx_len) } := by
  obtain ⟨l1, e1, a1, t1, p1, -, -, -, n1, q1, i1, -, -, ad1, -, -, -⟩ :=
    loop_bad_I opts hpre init_state rx_len (fuel + 1) ese l (BadReply.corrupt pcb inf c) _
      hrep hcur ⟨hinf, hbad⟩ s 0 hs (by omega) (Or.inl htx) hpcb (by omega)
  rw [e1]
  have hx := loop_shot_exchange opts hpre init_state rx_len fuel
    (script_after ese (some (wire_reply opts.host_address (I t 0) payload) :: rest)
      (wire_of opts.node_address (l.frame l.tx))) l1 s t payload rest rfl rfl hk
    (by rw [t1, a1]) (by rw [a1]; exact p1) hs ht hcard hacc
  rw [hx, ad1]
  have hw1 : wire_of opts.node_address (l1.frame l1.tx)
      = opts.node_address :: wire_reply opts.node_address
        (if pcb = 255 then R s 1 0 else R s 0 1) [] := by
    rw [t1, wire_of_empty _ _ q1 (by rw [i1]; exact hnx), n1]
    rfl
  rw [hw1, htx]
  simp [script_after]

theorem timed_transmit_eq (opts : Teq1ProtocolOptions) (hpre : opts.preprocess = none)
    (ese : EseInterface Timed) (frame : Teq1Frame) :
    teq1_transmit (timed_ops opts) ese frame =
      .ok (0, { ese with hw := { ese.hw with sent := ese.hw.sent ++
          [wire_of opts.node_address frame] } },
        sealed opts.node_address frame) := by
  simp [teq1_transmit, timed_ops, hpre, timed_transmit, sealed, wire_of]

/-- The raw receive of the timed card leaves the logs and the rest of the
interface alone. -/
theorem timed_receive_logs (ese : EseInterface Timed) (b : Bool) (len : Nat) (c : Int) :
    (timed_receive ese b len c).ese.hw.sent = ese.hw.sent ∧
    (timed_receive ese b len c).ese.hw.polls = ese.hw.polls ∧
    (timed_receive ese b len c).ese.card_state = ese.card_state := by
  unfold timed_receive
  split
  · split <;> exact ⟨rfl, rfl, rfl⟩
  · exact ⟨rfl, rfl, rfl⟩

/-- Every receive from the timed card returns, logs its timeout and leaves the
log of transmitted frames alone. -/
theorem timed_receive_eq (opts : Teq1ProtocolOptions) (ese : EseInterface Timed)
    (timeout : ℚ) (frame : Teq1Frame) :
    ∃ n e2 f2, teq1_receive (timed_ops opts) ese timeout frame = .ok (n, e2, f2) ∧
      e2.hw.sent = ese.hw.sent ∧ e2.hw.polls = ese.hw.polls ++ [timeout] ∧
      e2.card_state = ese.card_state := by
  have hp : (timed_poll ese opts.host_address timeout 0).2.hw.sent = ese.hw.sent ∧
      (timed_poll ese opts.host_address timeout 0).2.hw.polls = ese.hw.polls ++ [timeout] ∧
      (timed_poll ese opts.host_address timeout 0).2.card_state = ese.card_state := by
    unfold timed_poll
    simp only []
    split <;> exact ⟨rfl, rfl, rfl⟩
  unfold teq1_receive
  simp only [timed_ops]
  split
  · exact ⟨_, _, _, rfl, hp⟩
  · split
    · refine ⟨_, _, _, rfl, ?_⟩
      obtain ⟨a1, a2, a3⟩ := timed_receive_logs
        (timed_receive (timed_poll ese opts.host_address timeout 0).2 true (3 - 1) 0).ese false 0 1
      obtain ⟨b1, b2, b3⟩ := timed_receive_logs
        (timed_poll ese opts.host_address timeout 0).2 true (3 - 1) 0
      exact ⟨by rw [a1, b1, hp.1], by rw [a2, b2, hp.2.1], by rw [a3, b3, hp.2.2]⟩
    · refine ⟨_, _, _, rfl, ?_⟩
      obtain ⟨b1, b2, b3⟩ := timed_receive_logs
        (timed_poll ese opts.host_address timeout 0).2 true (3 - 1) 0
      obtain ⟨a1, a2, a3⟩ := timed_receive_logs
        (timed_receive (timed_poll ese opts.host_address timeout 0).2 true (3 - 1) 0).ese true
        ((memcpy [frame.PCB, frame.LEN] 0
          (timed_receive (timed_poll ese opts.host_address timeout 0).2 true (3 - 1) 0).bytes
          (min (timed_receive (timed_poll ese opts.host_address timeout 0).2 true
            (3 - 1) 0).bytes.length (3 - 1))).getD 1 0 + 1) 1
      exact ⟨by rw [a1, b1, hp.1], by rw [a2, b2, hp.2.1], by rw [a3, b3, hp.2.2]⟩

/-- The first half of the loop body against the timed card: the frame `tx`
points to is logged as sent and the timeout of the receive is logged. -/
theorem txrx_timed (opts : Teq1ProtocolOptions) (hpre : opts.preprocess = none)
    (ese e1 : EseInterface Timed) (l l1 : TransceiveLocals) (rx : Teq1Frame)
    (h : transceive_txrx (timed_ops opts) ese l = .ok (e1, l1, rx)) :
    e1.hw.sent = ese.hw.sent ++ [wire_of opts.node_address (l.frame l.tx)] ∧
    e1.hw.polls = ese.hw.polls ++ [opts.bwt * (l.state.wait_mult : ℚ)] ∧
    l1 = txrx_locals opts.node_address l := by
  unfold transceive_txrx at h
  have hopts : (timed_ops opts).opts = some opts := rfl
  simp only [hopts, timed_transmit_eq opts hpre] at h
  obtain ⟨n, e2, f2, hr, h1, h2, -⟩ := timed_receive_eq opts
    { ese with hw := { ese.hw with sent := ese.hw.sent ++
        [wire_of opts.node_address (l.frame l.tx)] } }
    (opts.bwt * (l.state.wait_mult : ℚ)) frame_ff
  simp only [setFrame_state] at h
  rw [hr] at h
  simp only [Except.ok.injEq, Prod.mk.injEq] at h
  obtain ⟨rfl, rfl, -⟩ := h
  exact ⟨h1, h2, by simp [txrx_locals]⟩

/-- Under the invariant the timeout of the next receive is the one the claim
assigns to the frame about to be sent. -/
theorem wtx_timeout (bwt : ℚ) (node : Nat) (l : TransceiveLocals) (hinv : WtxInv l) :
    timeout_of bwt (wire_of node (l.frame l.tx)) = bwt * (l.state.wait_mult : ℚ) := by
  obtain ⟨h1, h2, h3, -, h5⟩ := hinv
  have hpcb : ∀ f : Teq1Frame, (wire_of node f).getD 1 0 = f.PCB := by
    intro f
    simp [wire_of, sealed, Teq1Frame.val, show 3 + f.LEN + 1 = (f.LEN + 1) + 3 by omega,
      List.take_succ_cons]
  unfold timeout_of
  rw [hpcb]
  rcases h5 with ⟨ht, hw⟩ | ⟨ht, ⟨hp, hL, hw⟩ | ⟨hp, hw⟩⟩
  · rw [ht, if_neg h1, hw]
  · rw [ht, if_pos hp, hw]
    congr 2
    have hlen : 1 < (l.frame (inot l.active)).INF.length := by rw [h3, INF_LEN]; omega
    simp only [wire_of, sealed, Teq1Frame.val, hL]
    rcases hinf : (l.frame (inot l.active)).INF with _ | ⟨a, _ | ⟨b, t⟩⟩
    · rw [hinf] at hlen; simp at hlen
    · rw [hinf] at hlen; simp at hlen
    · simp
  · rw [ht, if_neg hp, hw]

/-- The invariant from the fields of the locals. -/
theorem wtxInv_of (l : TransceiveLocals) (a : Nat) (fa fi : Teq1Frame) (ha : l.active = a)
    (hfa : l.frame a = fa) (hfi : l.frame (inot a) = fi)
    (hp : fa.PCB ≠ S WTX RESPONSE) (h1 : fa.INF.length = INF_LEN + 1)
    (h2 : fi.INF.length = INF_LEN + 1)
    (htl : l.state.app_data.tx_len ≤ l.state.app_data.tx_buf.length)
    (h5 : (l.tx = a ∧ l.state.wait_mult = 1) ∨
      (l.tx = inot a ∧
        ((fi.PCB = S WTX RESPONSE ∧ fi.LEN = 1 ∧ l.state.wait_mult = fi.INF.getD 0 0) ∨
         (fi.PCB ≠ S WTX RESPONSE ∧ l.state.wait_mult = 1)))) : WtxInv l := by
  subst ha hfa hfi
  exact ⟨hp, h1, h2, htl, h5⟩

/-- What `case kRuleResultResetSession` leaves satisfies the invariant. -/
theorem reset_wtx {H : Type} (ese : EseInterface H) (l : TransceiveLocals)
    (init_state : Teq1State) (hinit1 : init_state.wait_mult = 1)
    (hinit2 : init_state.app_data.tx_len ≤ init_state.app_data.tx_buf.length)
    (htx : l.tx = l.active) (hi2 : (l.frame (inot l.active)).INF.length = INF_LEN + 1) :
    (transceive_reset ese l init_state).1.hw = ese.hw ∧
    WtxInv (transceive_reset ese l init_state).2 := by
  refine ⟨rfl, ?_⟩
  obtain ⟨s0, hs0⟩ : ∃ s0 : Teq1State, s0 = ⟨init_state.wait_mult, init_state.ifs,
      init_state.errors, init_state.retransmits, init_state.last_error_message,
      TEQ1_INIT_CARD_STATE ese.card_state,
      ⟨init_state.app_data.tx_buf, init_state.app_data.tx_len, l.state.app_data.rx_mem,
        init_state.app_data.rx_buf, init_state.app_data.rx_len⟩⟩ := ⟨_, rfl⟩
  obtain ⟨f0, hf0⟩ : ∃ f0 : Teq1Frame, f0 = ⟨0, I 0 0, 0, List.replicate (INF_LEN + 1) 0⟩ :=
    ⟨_, rfl⟩
  have hs0w : s0.wait_mult = 1 := by rw [hs0]; exact hinit1
  have hs0t : s0.app_data.tx_len ≤ s0.app_data.tx_buf.length := by rw [hs0]; exact hinit2
  have hty : PCB_type f0.PCB = kPcbTypeInfo0 ∨ PCB_type f0.PCB = kPcbTypeInfo1 := by
    rw [hf0]; exact Or.inl (by decide)
  have hf0len : f0.INF.length = INF_LEN + 1 := by rw [hf0]; exact List.length_replicate _ _
  have hf0pcb : f0.PCB = I 0 0 := by rw [hf0]
  obtain ⟨f1, -, -, f4, f5⟩ := fill_info_block_keeps s0 f0 hs0t (by omega)
  obtain ⟨n, p, -, -, hp, heq⟩ := fill_info_block_shape s0 f0 hty
  have hpcb : (teq1_fill_info_block s0 f0).2.2.PCB ≠ S WTX RESPONSE := by
    rw [heq]
    show p ≠ S WTX RESPONSE
    rw [hf0pcb] at hp
    rcases hp with rfl | rfl <;> decide
  have hr : transceive_reset ese l init_state =
      ({ ese with card_state := TEQ1_INIT_CARD_STATE ese.card_state },
       { (l.setFrame l.tx (teq1_fill_info_block s0 f0).2.2) with
         state := (teq1_fill_info_block s0 f0).2.1 }) := by
    rw [hs0, hf0]; rfl
  rw [hr]
  refine wtxInv_of _ l.active _ _ (setFrame_active _ _ _) ?_ ?_ hpcb ?_ hi2 f4
    (Or.inl ⟨?_, ?_⟩)
  · show (l.setFrame l.tx _).frame l.active = _
    rw [htx]; exact frame_setFrame_same _ _ _
  · show (l.setFrame l.tx _).frame (inot l.active) = _
    rw [htx]; exact frame_setFrame_inot' _ _ _
  · rw [f5, hf0len]
  · show (l.setFrame l.tx _).tx = l.active
    rw [setFrame_tx, htx]
  · show (teq1_fill_info_block s0 f0).2.1.wait_mult = 1
    rw [f1, hs0w]

/-- The second half of the loop body keeps the invariant and leaves the
hardware alone, when the backend has no reset line. -/
theorem dispatch_wtx {H : Type} (ops : EseOperations H) (hreset : ops.hw_reset = none)
    (init_state : Teq1State) (rx_len fuel : Nat) (ese : EseInterface H)
    (l : TransceiveLocals) (rx_frame : Teq1Frame) (step : LoopStep H)
    (hinit1 : init_state.wait_mult = 1)
    (hinit2 : init_state.app_data.tx_len ≤ init_state.app_data.tx_buf.length)
    (htx : l.tx = l.active) (hw : l.state.wait_mult = 1)
    (hp : (l.frame l.active).PCB ≠ S WTX RESPONSE)
    (hi1 : (l.frame l.active).INF.length = INF_LEN + 1)
    (hi2 : (l.frame (inot l.active)).INF.length = INF_LEN + 1)
    (htl : l.state.app_data.tx_len ≤ l.state.app_data.tx_buf.length)
    (h : transceive_dispatch ops init_state rx_len fuel ese l rx_frame = .ok step) :
    (∀ r, step = .ret r → r.ese.hw = ese.hw) ∧
    (∀ e2 l2, step = .again e2 l2 → e2.hw = ese.hw ∧ WtxInv l2) := by
  rcases hr : teq1_rules fuel { l.state with card_state := ese.card_state }
      (l.frame l.tx) rx_frame (l.frame (inot l.active)) with _ | ⟨res, st, rx, nx⟩
  · unfold transceive_dispatch at h
    rw [hr] at h; simp at h
  unfold transceive_dispatch at h
  rw [hr] at h
  simp only [] at h
  have hk := rules_loop_keeps fuel { l.state with card_state := ese.card_state }
    (l.frame l.tx) rx_frame (l.frame (inot l.active))
    (TEQ1_RULE (l.frame l.tx).PCB rx_frame.PCB) res st rx nx hr hi2 htl
  obtain ⟨⟨-, k2, k3, k4⟩, -⟩ := hk
  have k2' : nx.INF.length = INF_LEN + 1 := by rw [k2, hi2]
  have hfail : ∀ (e : EseInterface H) (l0 : TransceiveLocals) (code : Int),
      transceive_fail e l0 code = .ok step → e.hw = ese.hw →
      (∀ r, step = .ret r → r.ese.hw = ese.hw) ∧
      (∀ e2 l2, step = .again e2 l2 → e2.hw = ese.hw ∧ WtxInv l2) := by
    intro e l0 code hf he
    obtain ⟨r, rfl, -, -, -, hhw, -⟩ := fail_ret _ _ _ _ hf
    refine ⟨fun r2 h2 => ?_, fun e2 l2 h2 => by simp at h2⟩
    simp only [LoopStep.ret.injEq] at h2
    subst h2
    rw [hhw, he]
  have hwm : res ≠ kRuleResultSingleShot → st.wait_mult = 1 := by
    intro hne
    rcases k4 with ⟨hs, -⟩ | ⟨hs, -⟩
    · exact absurd hs hne
    · rw [hs]; exact hw
  cases res <;> simp only [] at h
  case kRuleResultComplete =>
    simp only [Except.ok.injEq] at h
    subst h
    exact ⟨fun r h2 => by simp only [LoopStep.ret.injEq] at h2; subst h2; rfl,
      fun e2 l2 h2 => by simp at h2⟩
  case kRuleResultAbort => exact hfail _ _ _ h rfl
  case kRuleResultHardFail => exact hfail _ _ _ h rfl
  case kRuleResultContinue =>
    simp only [Except.ok.injEq] at h
    subst h
    refine ⟨fun r h2 => by simp at h2, fun e2 l2 h2 => ?_⟩
    simp only [LoopStep.again.injEq] at h2
    obtain ⟨rfl, rfl⟩ := h2
    obtain ⟨c1, c2, c3, c4, c5, -⟩ := cont_facts l st nx
    refine ⟨rfl, wtxInv_of _ (inot l.active) nx (l.frame l.active) c1 c3
      (by rw [frame_inot_inot]; exact c4) ?_ k2' hi1 (by rw [c5]; exact k3)
      (Or.inl ⟨c2, by rw [c5]; exact hwm (by simp)⟩)⟩
    rcases k4 with ⟨hs, -⟩ | ⟨-, hs⟩
    · simp at hs
    · exact hs (Or.inr rfl)
  case kRuleResultSingleShot =>
    simp only [Except.ok.injEq] at h
    subst h
    refine ⟨fun r h2 => by simp at h2, fun e2 l2 h2 => ?_⟩
    simp only [LoopStep.again.injEq] at h2
    obtain ⟨rfl, rfl⟩ := h2
    refine ⟨rfl, wtxInv_of _ l.active (l.frame l.active) nx ?_ ?_ ?_ hp hi1 k2' ?_
      (Or.inr ⟨?_, ?_⟩)⟩
    · by_cases h0 : l.active = 0 <;> simp [h0, TransceiveLocals.setFrame, inot]
    · by_cases h0 : l.active = 0 <;>
        simp [h0, TransceiveLocals.frame, TransceiveLocals.setFrame, inot]
    · by_cases h0 : l.active = 0 <;>
        simp [h0, TransceiveLocals.frame, TransceiveLocals.setFrame, inot]
    · by_cases h0 : l.active = 0 <;> simp [h0, TransceiveLocals.setFrame, inot, k3]
    · by_cases h0 : l.active = 0 <;> simp [h0, TransceiveLocals.setFrame, inot]
    simp only [setFrame_state]
    rcases k4 with ⟨-, h1, h2, h3⟩ | ⟨h1, h2⟩
    · exact Or.inl ⟨h1, h2, h3⟩
    · exact Or.inr ⟨h2 (Or.inl rfl), by rw [h1]; exact hw⟩
  case kRuleResultResetSession =>
    simp only [Except.ok.injEq] at h
    subst h
    refine ⟨fun r h2 => by simp at h2, fun e2 l2 h2 => ?_⟩
    simp only [LoopStep.again.injEq] at h2
    obtain ⟨rfl, rfl⟩ := h2
    obtain ⟨c1, c2, c3, -⟩ := retx_facts l st nx
    exact reset_wtx _ _ init_state hinit1 hinit2 (by rw [c2, c1, htx])
      (by rw [c1, c3]; exact k2')
  case kRuleResultResetDevice =>
    rw [hreset] at h
    split at h
    · exact hfail _ _ _ h rfl
    · exact hfail _ _ _ h rfl
  case kRuleResultRetransmit =>
    split at h
    · simp only [Except.ok.injEq] at h
      subst h
      refine ⟨fun r h2 => by simp at h2, fun e2 l2 h2 => ?_⟩
      simp only [LoopStep.again.injEq] at h2
      obtain ⟨rfl, rfl⟩ := h2
      obtain ⟨c1, c2, c3, c4, c5, -⟩ := retx_facts l st nx
      refine ⟨rfl, wtxInv_of _ l.active (l.frame l.active) nx ?_ ?_ ?_ hp hi1 k2' ?_
        (Or.inl ⟨?_, ?_⟩)⟩
      · exact c1
      · by_cases h0 : l.active = 0 <;>
          simp [h0, TransceiveLocals.frame, TransceiveLocals.setFrame, inot]
      · by_cases h0 : l.active = 0 <;>
          simp [h0, TransceiveLocals.frame, TransceiveLocals.setFrame, inot]
      · show (TransceiveLocals.state _).app_data.tx_len ≤ _
        simp only [setFrame_state]
        exact k3
      · show (TransceiveLocals.tx _) = l.active
        simp only [setFrame_tx]
        exact htx
      · show (TransceiveLocals.state _).wait_mult = 1
        simp only [setFrame_state]
        exact hwm (by simp)
    · split at h
      · exact hfail _ _ _ h rfl
      · simp only [Except.ok.injEq] at h
        subst h
        refine ⟨fun r h2 => by simp at h2, fun e2 l2 h2 => ?_⟩
        simp only [LoopStep.again.injEq] at h2
        obtain ⟨rfl, rfl⟩ := h2
        have hwm1 := hwm (by simp)
        refine ⟨rfl, wtxInv_of _ (inot l.active) { nx with PCB := S RESYNC REQUEST }
          (l.frame l.active) ?_ ?_ ?_ (by show S RESYNC REQUEST ≠ S WTX RESPONSE; decide) k2' hi1 ?_
          (Or.inl ⟨?_, ?_⟩)⟩
        · by_cases h0 : l.active = 0 <;>
            simp [h0, TransceiveLocals.setFrame, inot, transceive_cont]
        · by_cases h0 : l.active = 0 <;>
            simp [h0, TransceiveLocals.frame, TransceiveLocals.setFrame, inot, transceive_cont]
        · by_cases h0 : l.active = 0 <;>
            simp [h0, TransceiveLocals.frame, TransceiveLocals.setFrame, inot, transceive_cont]
        · by_cases h0 : l.active = 0 <;>
            simp [h0, TransceiveLocals.setFrame, inot, transceive_cont, k3]
        · by_cases h0 : l.active = 0 <;>
            simp [h0, TransceiveLocals.setFrame, inot, transceive_cont]
        · by_cases h0 : l.active = 0 <;>
            simp [h0, TransceiveLocals.setFrame, inot, transceive_cont, hwm1]

/-- One iteration of the exchange loop against the timed card keeps the
invariant and the correspondence between the two logs. -/
theorem body_wtx (opts : Teq1ProtocolOptions) (hpre : opts.preprocess = none)
    (init_state : Teq1State) (rx_len fuel : Nat) (ese : EseInterface Timed)
    (l : TransceiveLocals) (step : LoopStep Timed)
    (hinit1 : init_state.wait_mult = 1)
    (hinit2 : init_state.app_data.tx_len ≤ init_state.app_data.tx_buf.length)
    (hinv : WtxInv l) (hlog : ese.hw.polls = ese.hw.sent.map (timeout_of opts.bwt))
    (h : transceive_body (timed_ops opts) init_state rx_len fuel ese l = .ok step) :
    (∀ r, step = .ret r → r.ese.hw.polls = r.ese.hw.sent.map (timeout_of opts.bwt) ∧
      r.ese.hw.polls = ese.hw.polls ++ [opts.bwt * (l.state.wait_mult : ℚ)]) ∧
    (∀ e2 l2, step = .again e2 l2 →
      e2.hw.polls = e2.hw.sent.map (timeout_of opts.bwt) ∧
      e2.hw.polls = ese.hw.polls ++ [opts.bwt * (l.state.wait_mult : ℚ)] ∧ WtxInv l2) := by
  unfold transceive_body at h
  rcases hx : transceive_txrx (timed_ops opts) ese l with e | ⟨e1, l1, rx⟩
  · rw [hx] at h; simp at h
  rw [hx] at h
  simp only [] at h
  obtain ⟨s1, p1, rfl⟩ := txrx_timed opts hpre ese e1 l l1 rx hx
  have hlog1 : e1.hw.polls = e1.hw.sent.map (timeout_of opts.bwt) := by
    rw [s1, p1, hlog, List.map_append, List.map_singleton, wtx_timeout _ _ _ hinv]
  obtain ⟨i1, i2, i3, i4, i5⟩ := hinv
  have htx : l.tx = l.active ∨ l.tx = inot l.active := by
    rcases i5 with ⟨h1, -⟩ | ⟨h1, -⟩
    · exact Or.inl h1
    · exact Or.inr h1
  obtain ⟨k1, -, k3, -, -, -, k7⟩ := txrx_locals_keep opts.node_address l htx
  have hact := txrx_locals_active opts.node_address l
  have hd := dispatch_wtx (timed_ops opts) rfl init_state rx_len fuel e1
    (txrx_locals opts.node_address l) rx step hinit1 hinit2
    (by rw [txrx_locals_tx, hact])
    (by rw [txrx_locals_state])
    (by rw [hact, k1]; exact i1)
    (by rw [hact, k3]; exact i2)
    (by rw [hact, k7]; exact i3)
    (by rw [txrx_locals_state]; exact i4) h
  refine ⟨fun r hr => ?_, fun e2 l2 hr => ?_⟩
  · rw [hd.1 r hr]; exact ⟨hlog1, p1⟩
  · obtain ⟨g1, g2⟩ := hd.2 e2 l2 hr
    exact ⟨by rw [g1]; exact hlog1, by rw [g1]; exact p1, g2⟩

/-- Every run of the exchange loop against the timed card that returns leaves
the two logs in correspondence, and its first receive used the multiplier
pending on entry. -/
theorem loop_wtx (opts : Teq1ProtocolOptions) (hpre : opts.preprocess = none)
    (init_state : Teq1State) (rx_len : Nat)
    (hinit1 : init_state.wait_mult = 1)
    (hinit2 : init_state.app_data.tx_len ≤ init_state.app_data.tx_buf.length) :
    ∀ (fuel : Nat) (ese : EseInterface Timed) (l : TransceiveLocals)
      (r : TransceiveResult Timed),
      WtxInv l → ese.hw.polls = ese.hw.sent.map (timeout_of opts.bwt) →
      teq1_transceive_loop (timed_ops opts) init_state rx_len fuel ese l = .ok r →
      r.ese.hw.polls = r.ese.hw.sent.map (timeout_of opts.bwt) ∧
      ∃ more, r.ese.hw.polls
        = ese.hw.polls ++ (opts.bwt * (l.state.wait_mult : ℚ)) :: more := by
  intro fuel
  induction fuel with
  | zero => intro ese l r _ _ h; simp [teq1_transceive_loop] at h
  | succ n ih =>
    intro ese l r hinv hlog h
    rw [teq1_transceive_loop] at h
    rcases hb : transceive_body (timed_ops opts) init_state rx_len (n + 1) ese l with
      e | ⟨r1⟩ | ⟨e2, l2⟩
    · rw [hb] at h; simp at h
    · rw [hb] at h
      simp only [Except.ok.injEq] at h
      subst h
      obtain ⟨g1, g2⟩ :=
        (body_wtx opts hpre init_state rx_len (n + 1) ese l _ hinit1 hinit2 hinv hlog hb).1
          _ rfl
      exact ⟨g1, [], g2⟩
    · rw [hb] at h
      simp only [] at h
      obtain ⟨g1, g2, g3⟩ :=
        (body_wtx opts hpre init_state rx_len (n + 1) ese l _ hinit1 hinit2 hinv hlog hb).2
          _ _ rfl
      obtain ⟨a1, more, a2⟩ := ih e2 l2 r g3 g1 h
      refine ⟨a1, (opts.bwt * (l2.state.wait_mult : ℚ)) :: more, ?_⟩
      rw [a2, g2, List.append_assoc]
      rfl

/-- The first half of the loop body leaves the wait multiplier at 1, whatever
the hardware and whatever the outcome of the receive. -/
theorem txrx_resets_wait_mult {H : Type} (ops : EseOperations H) (ese e1 : EseInterface H)
    (l l1 : TransceiveLocals) (rx : Teq1Frame)
    (h : transceive_txrx ops ese l = .ok (e1, l1, rx)) : l1.state.wait_mult = 1 := by
  unfold transceive_txrx at h
  split at h
  · simp at h
  · split at h
    · simp at h
    · simp only [] at h
      split at h
      · simp at h
      · simp only [Except.ok.injEq, Prod.mk.injEq] at h
        obtain ⟨-, rfl, -⟩ := h
        simp

/-- The locals with which `teq1_transceive` enters its loop satisfy the
invariant. -/
theorem start_wtx (init_state : Teq1State) (stack0 stack1 : Teq1Frame) (s : Int)
    (hinit1 : init_state.wait_mult = 1)
    (hinit2 : init_state.app_data.tx_len ≤ init_state.app_data.tx_buf.length)
    (hstack0 : stack0.INF.length = INF_LEN + 1) (hstack1 : stack1.INF.length = INF_LEN + 1) :
    WtxInv { tx_frame0 := (teq1_fill_info_block init_state
               { stack0 with PCB := TEQ1_I (lnot s) 0 }).2.2,
             tx_frame1 := stack1, tx := 0, was_reset := false, active := 0,
             state := (teq1_fill_info_block init_state
               { stack0 with PCB := TEQ1_I (lnot s) 0 }).2.1 } ∧
    (teq1_fill_info_block init_state
      { stack0 with PCB := TEQ1_I (lnot s) 0 }).2.1.wait_mult = 1 := by
  obtain ⟨f0, hf0⟩ : ∃ f0 : Teq1Frame,
      f0 = ⟨stack0.NAD, TEQ1_I (lnot s) 0, stack0.LEN, stack0.INF⟩ := ⟨_, rfl⟩
  have hpcb0 : f0.PCB = I 0 0 ∨ f0.PCB = I 1 0 := by
    rw [hf0]; show TEQ1_I (lnot s) 0 = _ ∨ _
    unfold lnot; split
    · right; rfl
    · left; rfl
  have hty : PCB_type f0.PCB = kPcbTypeInfo0 ∨ PCB_type f0.PCB = kPcbTypeInfo1 := by
    rcases hpcb0 with h | h <;> rw [h]
    · left; decide
    · right; decide
  have hlen0 : f0.INF.length = INF_LEN + 1 := by rw [hf0]; exact hstack0
  obtain ⟨f1, -, -, f4, f5⟩ := fill_info_block_keeps init_state f0 hinit2 (by omega)
  obtain ⟨n, p, -, -, hp, heq⟩ := fill_info_block_shape init_state f0 hty
  have hpcb : (teq1_fill_info_block init_state f0).2.2.PCB ≠ S WTX RESPONSE := by
    rw [heq]
    show p ≠ S WTX RESPONSE
    rcases hpcb0 with h | h <;> rw [h] at hp <;> rcases hp with rfl | rfl <;> decide
  have hfe : ({ stack0 with PCB := TEQ1_I (lnot s) 0 } : Teq1Frame) = f0 := by rw [hf0]
  rw [hfe]
  exact ⟨⟨hpcb, by rw [← hlen0]; exact f5, hstack1, f4, Or.inl ⟨rfl, by rw [← hinit1]; exact f1⟩⟩,
    by rw [← hinit1]; exact f1⟩

theorem timed_ok_of_summary (x : Except Fault (TransceiveResult Timed)) (a : Nat) (b : Int)
    (s : List (List Nat)) (h : timed_summary x = some (a, b, s)) :
    ∃ r, x = .ok r ∧ r.ret = a ∧ r.ese.error.is_err = b ∧ r.ese.hw.sent = s := by
  cases x with
  | error e => simp [timed_summary] at h
  | ok r =>
    simp only [timed_summary, Option.some.injEq, Prod.mk.injEq] at h
    exact ⟨r, rfl, h.1, h.2.1, h.2.2⟩

/-- The error check never accepts the sentinel. -/
theorem error_check_ok_ne_sentinel (state : Teq1State) (tx rx : Teq1Frame)
    (h : (teq1_frame_error_check state tx rx).1 = 0) :
    rx.PCB ≠ 255 ∧ rx.INF.getD rx.LEN 0 = teq1_compute_LRC rx := by
  by_cases hp : rx.PCB = 255
  · rw [error_check_sentinel state tx rx hp] at h
    exact absurd h (by show ¬ R 0 1 0 = 0; decide)
  · by_cases hl : rx.INF.getD rx.LEN 0 = teq1_compute_LRC rx
    · exact ⟨hp, hl⟩
    · rw [error_check_parity state tx rx hp hl] at h
      exact absurd h (by show ¬ R 0 0 1 = 0; decide)

/-- The code that the error check returns for a frame it rejects. -/
theorem error_check_code (state : Teq1State) (tx rx : Teq1Frame)
    (h : (teq1_frame_error_check state tx rx).1 ≠ 0) :
    (teq1_frame_error_check state tx rx).1 = error_code rx := by
  unfold error_code
  by_cases hp : rx.PCB = 255
  · rw [error_check_sentinel state tx rx hp, if_neg (fun hc => hc.1 hp)]
  · by_cases hl : rx.INF.getD rx.LEN 0 = teq1_compute_LRC rx
    · rw [if_neg (fun hc => hc.2 hl)]
      revert h
      unfold teq1_frame_error_check
      simp only [hp, if_false, hl, ne_eq, not_true_eq_false]
      split_ifs <;> simp
    · rw [error_check_parity state tx rx hp hl, if_pos ⟨hp, hl⟩]

/-- A frame that passes the error check and matches no case label is re-marked
with the sentinel and evaluated again, against the same sent block. -/
theorem rules_no_rule (fuel : Nat) (state : Teq1State) (tx rx next : Teq1Frame)
    (hok : (teq1_frame_error_check state tx rx).1 = 0)
    (harm : rule_arm (TEQ1_RULE tx.PCB rx.PCB) = default_) :
    teq1_rules (fuel + 2) state tx rx next =
      teq1_rules_loop (fuel + 1) (teq1_frame_error_check state tx rx).2 tx
        { rx with PCB := 255 } next (TEQ1_RULE tx.PCB rx.PCB) := by
  obtain ⟨hp, -⟩ := error_check_ok_ne_sentinel state tx rx hok
  unfold teq1_rules
  rw [rules_loop_ok (fuel + 1) state (teq1_frame_error_check state tx rx).2 tx rx next _
    (by rw [← hok])]
  simp only [teq1_rules_switch, harm]
  rw [if_pos hp]

theorem switch_none_iff (state : Teq1State) (tx rx next : Teq1Frame) (e txrx : Nat) :
    teq1_rules_switch state tx rx next e txrx = none ↔ rule_arm txrx = default_ := by
  unfold teq1_rules_switch
  generalize rule_arm txrx = a
  cases a <;> simp

/-- One evaluation settles a frame that carries the sentinel, whatever the
fuel and the pair handed down. -/
theorem rules_one_sentinel (state : Teq1State) (tx rx next : Teq1Frame) (txrx : Nat)
    (hp : rx.PCB = 255) :
    ∃ res st nx, ∀ fuel, teq1_rules_loop (fuel + 1) state tx rx next txrx
      = some (res, st, rx, nx) := by
  have hchk := error_check_sentinel state tx rx hp
  by_cases h6 : state.errors + 1 ≥ 6
  · refine ⟨kRuleResultResetDevice, count_error state, next, fun fuel => ?_⟩
    rw [rules_loop_err fuel state state tx rx next txrx _ hchk (by decide), if_pos h6]
  by_cases h3 : state.errors + 1 ≥ 3
  · refine ⟨kRuleResultContinue, count_error state, { next with PCB := S RESYNC REQUEST },
      fun fuel => ?_⟩
    rw [rules_loop_err fuel state state tx rx next txrx _ hchk (by decide), if_neg h6,
      if_pos h3]
  rcases hsw : teq1_rules_switch (count_error state) tx rx next (R 0 1 0)
      (TEQ1_RULE tx.PCB 255) with _ | ⟨res, st, nx⟩
  · refine ⟨kRuleResultHardFail, count_error state, next, fun fuel => ?_⟩
    rw [rules_loop_err fuel state state tx rx next txrx _ hchk (by decide), if_neg h6,
      if_neg h3, hsw]
    simp only [hp, ne_eq, not_true_eq_false, if_false]
  · refine ⟨res, st, nx, fun fuel => ?_⟩
    rw [rules_loop_err fuel state state tx rx next txrx _ hchk (by decide), if_neg h6,
      if_neg h3, hsw]

/-- Two evaluations settle every frame, whatever the fuel. -/
theorem rules_two (state : Teq1State) (tx rx next : Teq1Frame) (txrx : Nat) :
    ∃ res st rx2 nx, (rx2 = rx ∨ rx2 = { rx with PCB := 255 }) ∧
      ∀ fuel, teq1_rules_loop (fuel + 2) state tx rx next txrx = some (res, st, rx2, nx) := by
  by_cases hp : rx.PCB = 255
  · obtain ⟨res, st, nx, h⟩ := rules_one_sentinel state tx rx next txrx hp
    exact ⟨res, st, rx, nx, Or.inl rfl, fun fuel => h (fuel + 1)⟩
  rcases hchk : teq1_frame_error_check state tx rx with ⟨e, st1⟩
  by_cases he : e = 0
  · subst he
    rcases hsw : teq1_rules_switch st1 tx rx next 0 txrx with _ | ⟨res, st, nx⟩
    · obtain ⟨res, st, nx, h⟩ := rules_one_sentinel st1 tx { rx with PCB := 255 } next txrx rfl
      refine ⟨res, st, _, nx, Or.inr rfl, fun fuel => ?_⟩
      rw [rules_loop_ok (fuel + 1) state st1 tx rx next txrx hchk, hsw]
      simp only [hp, ne_eq, not_false_eq_true, if_true]
      exact h fuel
    · refine ⟨res, st, rx, nx, Or.inl rfl, fun fuel => ?_⟩
      rw [rules_loop_ok (fuel + 1) state st1 tx rx next txrx hchk, hsw]
  · by_cases h6 : st1.errors + 1 ≥ 6
    · refine ⟨kRuleResultResetDevice, count_error st1, rx, next, Or.inl rfl, fun fuel => ?_⟩
      rw [rules_loop_err (fuel + 1) state st1 tx rx next txrx e hchk he, if_pos h6]
    by_cases h3 : st1.errors + 1 ≥ 3
    · refine ⟨kRuleResultContinue, count_error st1, rx, { next with PCB := S RESYNC REQUEST },
        Or.inl rfl, fun fuel => ?_⟩
      rw [rules_loop_err (fuel + 1) state st1 tx rx next txrx e hchk he, if_neg h6, if_pos h3]
    rcases hsw : teq1_rules_switch (count_error st1) tx rx next e (TEQ1_RULE tx.PCB 255) with
      _ | ⟨res, st, nx⟩
    · obtain ⟨res, st, nx, h⟩ := rules_one_sentinel (count_error st1) tx { rx with PCB := 255 }
        next (TEQ1_RULE tx.PCB 255) rfl
      refine ⟨res, st, _, nx, Or.inr rfl, fun fuel => ?_⟩
      rw [rules_loop_err (fuel + 1) state st1 tx rx next txrx e hchk he, if_neg h6, if_neg h3,
        hsw]
      simp only [hp, ne_eq, not_false_eq_true, if_true]
      exact h fuel
    · refine ⟨res, st, rx, nx, Or.inl rfl, fun fuel => ?_⟩
      rw [rules_loop_err (fuel + 1) state st1 tx rx next txrx e hchk he, if_neg h6, if_neg h3,
        hsw]

/-- The second evaluation, of a frame re-marked with the sentinel, does not
depend on the pair handed down: it is a fresh call of the rule engine. -/
theorem rules_loop_sentinel_fresh (fuel : Nat) (state : Teq1State) (tx rx next : Teq1Frame)
    (txrx : Nat) (hp : rx.PCB = 255) :
    teq1_rules_loop (fuel + 1) state tx rx next txrx = teq1_rules (fuel + 1) state tx rx next := by
  unfold teq1_rules
  rw [rules_loop_err fuel _ _ tx rx next txrx (R 0 1 0) (error_check_sentinel _ tx _ hp)
    (by decide)]
  rw [rules_loop_err fuel _ _ tx rx next _ (R 0 1 0) (error_check_sentinel _ tx _ hp)
    (by decide)]

/-- The error exits of the exchange loop return 0 and record the code, when
the code is inside the error table of the backend. -/
theorem fail_ok {H : Type} (ese : EseInterface H) (l : TransceiveLocals) (code : Int)
    (h0 : 0 ≤ code) (hc : code.toNat < ese.errors_count) :
    ∃ r, transceive_fail ese l code = .ok (.ret r) ∧ r.ret = 0 ∧ r.ese.error.is_err = 1 ∧
      r.ese.error.code = code ∧ r.ese.hw = ese.hw ∧
      r.ese.error.message = ese.errors.get? code.toNat := by
  unfold transceive_fail ese_set_error_nonnull
  simp only []
  rw [if_neg (by omega), if_neg (by omega)]
  exact ⟨_, rfl, rfl, rfl, rfl, rfl, rfl⟩

/-- The first half of the loop body does not look at the reset operation. -/
theorem txrx_reset_free {H : Type} (ops : EseOperations H)
    (f : Option (EseInterface H → Int × EseInterface H)) (ese : EseInterface H)
    (l : TransceiveLocals) :
    transceive_txrx { ops with hw_reset := f } ese l = transceive_txrx ops ese l := rfl

/-- Once a reset was performed the second half of the loop body does not call
the reset operation. -/
theorem dispatch_reset_free {H : Type} (ops : EseOperations H)
    (f : Option (EseInterface H → Int × EseInterface H)) (init_state : Teq1State)
    (rx_len fuel : Nat) (ese : EseInterface H) (l : TransceiveLocals) (rx_frame : Teq1Frame)
    (hw : l.was_reset = true) :
    transceive_dispatch { ops with hw_reset := f } init_state rx_len fuel ese l rx_frame
      = transceive_dispatch ops init_state rx_len fuel ese l rx_frame := by
  unfold transceive_dispatch
  rcases teq1_rules fuel { l.state with card_state := ese.card_state } (l.frame l.tx) rx_frame
      (l.frame (inot l.active)) with _ | ⟨res, st, rx, nx⟩
  · rfl
  · cases res <;> simp only [setFrame_was_reset, hw, if_true]

/-- The flag `was_reset` is never cleared by an iteration of the loop. -/
theorem body_was_reset {H : Type} (ops : EseOperations H) (init_state : Teq1State)
    (rx_len fuel : Nat) (ese e2 : EseInterface H) (l l2 : TransceiveLocals)
    (hw : l.was_reset = true)
    (h : transceive_body ops init_state rx_len fuel ese l = .ok (.again e2 l2)) :
    l2.was_reset = true := by
  unfold transceive_body at h
  rcases hx : transceive_txrx ops ese l with e | ⟨e1, l1, rx⟩
  · rw [hx] at h; simp at h
  rw [hx] at h
  simp only [] at h
  have hw1 : l1.was_reset = true := by
    unfold transceive_txrx at hx
    split at hx
    · simp at hx
    · split at hx
      · simp at hx
      · simp only [] at hx
        split at hx
        · simp at hx
        · simp only [Except.ok.injEq, Prod.mk.injEq] at hx
          obtain ⟨-, rfl, -⟩ := hx
          simp [hw]
  unfold transceive_dispatch at h
  rcases hr : teq1_rules fuel { l1.state with card_state := e1.card_state } (l1.frame l1.tx) rx
      (l1.frame (inot l1.active)) with _ | ⟨res, st, rx2, nx⟩
  · rw [hr] at h; simp at h
  rw [hr] at h
  cases res <;> simp only [] at h
  case kRuleResultComplete => simp at h
  case kRuleResultAbort =>
    obtain ⟨r, hx, -⟩ := fail_ret _ _ _ _ h
    simp at hx
  case kRuleResultHardFail =>
    obtain ⟨r, hx, -⟩ := fail_ret _ _ _ _ h
    simp at hx
  case kRuleResultContinue =>
    simp only [Except.ok.injEq, LoopStep.again.injEq] at h
    obtain ⟨-, rfl⟩ := h
    rw [(cont_facts l1 st nx).2.2.2.2.2, hw1]
  case kRuleResultSingleShot =>
    simp only [Except.ok.injEq, LoopStep.again.injEq] at h
    obtain ⟨-, rfl⟩ := h
    simp [hw1]
  case kRuleResultResetSession =>
    simp only [Except.ok.injEq, LoopStep.again.injEq] at h
    obtain ⟨-, rfl⟩ := h
    simp [transceive_reset, hw1]
  case kRuleResultResetDevice =>
    simp only [setFrame_was_reset, hw1, if_true] at h
    obtain ⟨r, hx, -⟩ := fail_ret _ _ _ _ h
    simp at hx
  case kRuleResultRetransmit =>
    split at h
    · simp only [Except.ok.injEq, LoopStep.again.injEq] at h
      obtain ⟨-, rfl⟩ := h
      simp [hw1]
    · split at h
      · obtain ⟨r, hx, -⟩ := fail_ret _ _ _ _ h
        simp at hx
      · simp only [Except.ok.injEq, LoopStep.again.injEq] at h
        obtain ⟨-, rfl⟩ := h
        simp [transceive_cont, hw1]

/-- Once a reset was performed the rest of the exchange does not call the
reset operation: the loop runs the same whatever that operation is. -/
theorem loop_reset_free {H : Type} (ops : EseOperations H)
    (f : Option (EseInterface H → Int × EseInterface H)) (init_state : Teq1State)
    (rx_len : Nat) :
    ∀ (fuel : Nat) (ese : EseInterface H) (l : TransceiveLocals), l.was_reset = true →
      teq1_transceive_loop { ops with hw_reset := f } init_state rx_len fuel ese l
        = teq1_transceive_loop ops init_state rx_len fuel ese l := by
  intro fuel
  induction fuel with
  | zero => intro ese l _; rfl
  | succ n ih =>
    intro ese l hw
    have hb : transceive_body { ops with hw_reset := f } init_state rx_len (n + 1) ese l
        = transceive_body ops init_state rx_len (n + 1) ese l := by
      unfold transceive_body
      rw [txrx_reset_free]
      rcases hx : transceive_txrx ops ese l with e | ⟨e1, l1, rx⟩
      · rfl
      · simp only []
        apply dispatch_reset_free
        unfold transceive_txrx at hx
        split at hx
        · simp at hx
        · split at hx
          · simp at hx
          · simp only [] at hx
            split at hx
            · simp at hx
            · simp only [Except.ok.injEq, Prod.mk.injEq] at hx
              obtain ⟨-, rfl, -⟩ := hx
              simp [hw]
    rw [teq1_transceive_loop, teq1_transceive_loop, hb]
    rcases hbody : transceive_body ops init_state rx_len (n + 1) ese l with e | ⟨r1⟩ | ⟨e2, l2⟩
    · rfl
    · rfl
    · simp only []
      exact ih e2 l2 (body_was_reset ops init_state rx_len (n + 1) ese e2 l l2 hw hbody)

/-- `teq1_receive` on the probed backend when the poll returns a negative
value: no raw receive, result -1, frame untouched. -/
theorem receive_probe_neg (opts : Teq1ProtocolOptions) (ese : EseInterface Probe)
    (timeout : ℚ) (frame : Teq1Frame) (hpoll : ese.hw.poll_ret < 0) :
    teq1_receive (probe_ops opts) ese timeout frame =
      .ok (-1, { ese with hw := { ese.hw with
        calls := ese.hw.calls ++ [.poll opts.host_address timeout 0] } }, frame) := by
  simp [teq1_receive, probe_ops, probe_poll, hpoll]

/-- `teq1_receive` on the probed backend when the poll returns a value that is
not negative and the wire delivers a header that declares the length 255. -/
theorem receive_probe_255 (opts : Teq1ProtocolOptions) (ese : EseInterface Probe)
    (timeout : ℚ) (frame : Teq1Frame) (pcb : Nat) (rest : List Nat)
    (hpoll : 0 ≤ ese.hw.poll_ret) (hwire : ese.hw.wire = pcb :: 255 :: rest) :
    teq1_receive (probe_ops opts) ese timeout frame =
      .ok (-1, { ese with hw := { ese.hw with
          wire := rest
          calls := ese.hw.calls ++ [.poll opts.host_address timeout 0, .receive true 2 0,
            .receive false 0 1] } },
        { frame with NAD := opts.host_address, PCB := pcb, LEN := 255 }) := by
  have hp : ¬ ese.hw.poll_ret < 0 := by omega
  simp [teq1_receive, probe_ops, probe_poll, probe_receive, hp, hwire, memcpy]

/-- `teq1_receive` on the probed backend when the poll returns a value that is
not negative and the wire delivers nothing, into a frame whose length byte is
255 as in the frame that the exchange loop fills with 0xff. -/
theorem receive_probe_nothing (opts : Teq1ProtocolOptions) (ese : EseInterface Probe)
    (timeout : ℚ) (frame : Teq1Frame)
    (hpoll : 0 ≤ ese.hw.poll_ret) (hwire : ese.hw.wire = []) (hlen : frame.LEN = 255) :
    teq1_receive (probe_ops opts) ese timeout frame =
      .ok (-1, { ese with hw := { ese.hw with
          calls := ese.hw.calls ++ [.poll opts.host_address timeout 0, .receive true 2 0,
            .receive false 0 1] } },
        { frame with NAD := opts.host_address }) := by
  have hp : ¬ ese.hw.poll_ret < 0 := by omega
  simp [teq1_receive, probe_ops, probe_poll, probe_receive, hp, hwire, memcpy, hlen]

/-- `teq1_receive` on the probed backend when the poll returns a value that is
not negative and the wire delivers a header that declares another length. -/
theorem receive_probe_frame (opts : Teq1ProtocolOptions) (ese : EseInterface Probe)
    (timeout : ℚ) (frame : Teq1Frame) (pcb len : Nat) (rest : List Nat)
    (hpoll : 0 ≤ ese.hw.poll_ret) (hwire : ese.hw.wire = pcb :: len :: rest)
    (hlen : len ≠ 255) :
    teq1_receive (probe_ops opts) ese timeout frame =
      .ok (((hooked opts (assembled opts.host_address frame pcb len rest) 0).LEN : Int),
        { ese with hw := { ese.hw with
          wire := rest.drop (rest.take (len + 1)).length
          calls := ese.hw.calls ++ [.poll opts.host_address timeout 0, .receive true 2 0,
            .receive true (len + 1) 1] } },
        hooked opts (assembled opts.host_address frame pcb len rest) 0) := by
  have hp : ¬ ese.hw.poll_ret < 0 := by omega
  rcases hpre : opts.preprocess with _ | pre <;>
    simp [teq1_receive, probe_ops, probe_poll, probe_receive, hp, hwire, memcpy, hlen, hooked,
      assembled, hpre]

/-- `teq1_transmit` on the probed backend. -/
theorem transmit_probe (opts : Teq1ProtocolOptions) (ese : EseInterface Probe)
    (frame : Teq1Frame) :
    teq1_transmit (probe_ops opts) ese frame =
      .ok (0, { ese with hw := { ese.hw with
          calls := ese.hw.calls ++
            [.transmit ((hooked opts (sealed opts.node_address frame) 1).val.take
                ((hooked opts (sealed opts.node_address frame) 1).LEN + 4))
              ((hooked opts (sealed opts.node_address frame) 1).LEN + 4) 1] } },
        hooked opts (sealed opts.node_address frame) 1) := by
  rcases hpre : opts.preprocess with _ | pre
  · simp [teq1_transmit, probe_ops, probe_transmit, hooked, sealed, hpre, Nat.add_comm,
      Nat.add_left_comm]
  · simp [teq1_transmit, probe_ops, probe_transmit, hooked, sealed, hpre, Nat.add_comm,
      Nat.add_left_comm]
    refine ⟨by omega, by omega⟩

/-- One pass of the exchange loop on the probed backend up to the rule engine,
when the poll returns a value that is not negative and the wire delivers a
header that declares a length other than 255, no hook configured: the frame
handed to the rule engine carries the control byte and the length read from the
wire. -/
theorem txrx_probe_frame (opts : Teq1ProtocolOptions) (ese : EseInterface Probe)
    (l : TransceiveLocals) (pcb len : Nat) (rest : List Nat)
    (hpoll : 0 ≤ ese.hw.poll_ret) (hwire : ese.hw.wire = pcb :: len :: rest)
    (hlen : len ≠ 255) (hpre : opts.preprocess = none) :
    ∃ e1 l1 rx, transceive_txrx (probe_ops opts) ese l = .ok (e1, l1, rx) ∧
      rx = assembled opts.host_address frame_ff pcb len rest := by
  have ht := transmit_probe opts ese (l.frame l.tx)
  obtain ⟨e1, he1, hp1, hw1⟩ : ∃ e1 : EseInterface Probe,
      teq1_transmit (probe_ops opts) ese (l.frame l.tx) =
        .ok (0, e1, hooked opts (sealed opts.node_address (l.frame l.tx)) 1) ∧
      0 ≤ e1.hw.poll_ret ∧ e1.hw.wire = pcb :: len :: rest := ⟨_, ht, hpoll, hwire⟩
  unfold transceive_txrx
  rw [he1]
  simp only [probe_ops]
  rw [← probe_ops, receive_probe_frame opts e1 _ _ pcb len rest hp1 hw1 hlen]
  have hneg : ¬ (((hooked opts (assembled opts.host_address frame_ff pcb len rest) 0).LEN : Int)
      < 0) := by omega
  simp only [hneg, if_false]
  refine ⟨_, _, _, rfl, ?_⟩
  simp [hooked, hpre]

theorem int_of_size_t_small (n : Nat) (h : n < 2 ^ 31) : int_of_size_t n = (n : Int) := by
  unfold int_of_size_t
  have h1 : n % 2 ^ 32 = n := Nat.mod_eq_of_lt (by omega)
  simp only [h1, if_pos h]

theorem finish_minus_one {H : Type} (recvd : Nat) (ese : EseInterface H)
    (rx_buf : Option (List Nat)) (h : recvd < 2 ^ 31) :
    ∃ ret, ese_transceive_finish recvd ese rx_buf = .ok (ret, some ese, rx_buf) ∧
      (ret = -1 ↔ ese.error.is_err ≠ 0) ∧ (ese.error.is_err = 0 → ret = (recvd : Int)) := by
  refine ⟨_, rfl, ?_, ?_⟩
  · by_cases he : ese.error.is_err = 0
    · simp only [he, ne_eq, not_true_eq_false, if_false, iff_false]
      rw [int_of_size_t_small _ h]
      omega
    · simp [he]
  · intro he
    simp only [he, ne_eq, not_true_eq_false, if_false]
    exact int_of_size_t_small _ h

/-- A conditional whose first branch differs from `x` equals `x` only through
its second branch. -/
theorem ite_arm_ne {c : Prop} [Decidable c] {a b x : RuleArm} (ha : a ≠ x)
    (h : (if c then a else b) = x) : b = x := by
  by_cases hc : c
  · rw [if_pos hc] at h; exact absurd h ha
  · rw [if_neg hc] at h; exact h

/-- The arm `abort_done` is selected by its two case labels only. -/
theorem arm_abort_done (t : Nat) (h : rule_arm t = abort_done) :
    t = TEQ1_RULE (S ABORT RESPONSE) (R 0 0 0) ∨ t = TEQ1_RULE (S ABORT RESPONSE) (R 1 0 0) := by
  unfold rule_arm at h
  have h := ite_arm_ne (by decide) h
  have h := ite_arm_ne (by decide) h
  have h := ite_arm_ne (by decide) h
  have h := ite_arm_ne (by decide) h
  have h := ite_arm_ne (by decide) h
  have h := ite_arm_ne (by decide) h
  have h := ite_arm_ne (by decide) h
  have h := ite_arm_ne (by decide) h
  have h := ite_arm_ne (by decide) h
  have h := ite_arm_ne (by decide) h
  have h := ite_arm_ne (by decide) h
  have h := ite_arm_ne (by decide) h
  have h := ite_arm_ne (by decide) h
  have h := ite_arm_ne (by decide) h
  have h := ite_arm_ne (by decide) h
  by_cases hm : t ∈ [TEQ1_RULE (S ABORT RESPONSE) (R 0 0 0),
      TEQ1_RULE (S ABORT RESPONSE) (R 1 0 0)]
  · rcases List.mem_cons.1 hm with h1 | h1
    · exact Or.inl h1
    · exact Or.inr (List.mem_singleton.1 h1)
  · rw [if_neg hm] at h
    have h := ite_arm_ne (by decide) h
    have h := ite_arm_ne (by decide) h
    exact absurd h (by decide)

/-- Only the arm `abort_done` returns `Abort`. -/
theorem switch_abort (state : Teq1State) (tx rx next : Teq1Frame) (e txrx : Nat)
    (st : Teq1State) (nx : Teq1Frame)
    (h : teq1_rules_switch state tx rx next e txrx = some (kRuleResultAbort, st, nx)) :
    rule_arm txrx = abort_done := by
  unfold teq1_rules_switch at h
  generalize rule_arm txrx = a at h
  cases a <;> simp at h
  rfl

/-- A pair of the sent block and the sentinel never selects `abort_done`. -/
theorem arm_sentinel_not_abort (p : Nat) : rule_arm (TEQ1_RULE p 255) ≠ abort_done := by
  intro h
  have := arm_sentinel p
  rw [h] at this
  simp at this

/-- The loop of `teq1_rules` returns `Abort` only through the arm `abort_done`
selected by the pair it was entered with. -/
theorem rules_loop_abort : ∀ (fuel : Nat) (state : Teq1State) (tx rx next : Teq1Frame)
    (txrx : Nat) (st : Teq1State) (rx2 nx : Teq1Frame),
    teq1_rules_loop fuel state tx rx next txrx = some (kRuleResultAbort, st, rx2, nx) →
    rule_arm txrx = abort_done := by
  intro fuel
  induction fuel with
  | zero => intro state tx rx next txrx st rx2 nx h; simp [teq1_rules_loop] at h
  | succ n ih =>
    intro state tx rx next txrx st rx2 nx h
    rcases hchk : teq1_frame_error_check state tx rx with ⟨e, st1⟩
    by_cases he : e = 0
    · subst he
      rw [rules_loop_ok n state _ tx rx next txrx hchk] at h
      rcases hsw : teq1_rules_switch st1 tx rx next 0 txrx with _ | ⟨r, s, m⟩
      · rw [hsw] at h
        simp only at h
        by_cases hp : rx.PCB = 255
        · simp [hp] at h
        · simp only [ne_eq, hp, not_false_eq_true, if_true] at h
          exact ih _ tx _ next txrx st rx2 nx h
      · rw [hsw] at h
        simp only [Option.some.injEq, Prod.mk.injEq] at h
        obtain ⟨rfl, rfl, -, rfl⟩ := h
        exact switch_abort _ tx rx next 0 txrx _ _ hsw
    · exfalso
      rw [rules_loop_err n state _ tx rx next txrx e hchk he] at h
      by_cases h6 : st1.errors + 1 ≥ 6
      · rw [if_pos h6] at h; simp at h
      rw [if_neg h6] at h
      by_cases h3 : st1.errors + 1 ≥ 3
      · rw [if_pos h3] at h; simp at h
      rw [if_neg h3] at h
      rcases hsw : teq1_rules_switch (count_error st1) tx rx next e (TEQ1_RULE tx.PCB 255)
        with _ | ⟨r, s, m⟩
      · rw [hsw] at h
        simp only at h
        by_cases hp : rx.PCB = 255
        · simp [hp] at h
        · simp only [ne_eq, hp, not_false_eq_true, if_true] at h
          exact arm_sentinel_not_abort _ (ih _ tx _ next _ st rx2 nx h)
      · rw [hsw] at h
        simp only [Option.some.injEq, Prod.mk.injEq] at h
        obtain ⟨rfl, rfl, -, rfl⟩ := h
        exact arm_sentinel_not_abort _ (switch_abort _ tx rx next e _ _ _ hsw)

/-- `teq1_rules` returns `Abort` only when the block last sent is
`S(ABORT, RESPONSE)`. -/
theorem rules_abort_sent (fuel : Nat) (state : Teq1State) (tx rx next : Teq1Frame)
    (st : Teq1State) (rx2 nx : Teq1Frame)
    (h : teq1_rules fuel state tx rx next = some (kRuleResultAbort, st, rx2, nx)) :
    tx.PCB % 256 = S ABORT RESPONSE := by
  have harm := rules_loop_abort fuel state tx rx next _ st rx2 nx h
  have h2 := arm_abort_done _ harm
  rw [TEQ1_RULE_eq, TEQ1_RULE_eq, TEQ1_RULE_eq] at h2
  have hv : S ABORT RESPONSE = 226 := S_values.2.2.2.2.2.1
  have hr0 : R 0 0 0 = 128 := by decide
  have hr1 : R 1 0 0 = 144 := by decide
  rw [hv, hr0, hr1] at h2
  rw [hv]
  have := Nat.mod_lt rx.PCB (show 256 > 0 by norm_num)
  omega

theorem set_next_seq_ne_abort (e v : Nat) (he : e = 0 ∨ e = R 0 1 0 ∨ e = R 0 0 1) :
    PCB_set_R_next_seq e v % 256 ≠ S ABORT RESPONSE := by
  have hv : v % 2 = 0 ∨ v % 2 = 1 := by omega
  rcases he with rfl | rfl | rfl <;> rcases hv with h | h <;>
    simp [PCB_set_R_next_seq, bitfield_set, bitfield_get, h, S_values, R, TEQ1_R, kTeq1RrType]

theorem set_next_seq_ack_ne_abort (v : Nat) :
    PCB_set_R_next_seq (R 0 0 0) v % 256 ≠ S ABORT RESPONSE := by
  have hv : v % 2 = 0 ∨ v % 2 = 1 := by omega
  rcases hv with h | h <;>
    simp [PCB_set_R_next_seq, bitfield_set, bitfield_get, h, S_values, R, TEQ1_R, kTeq1RrType]

theorem ack_ne_abort (v : Nat) : TEQ1_R (lnot v) 0 0 % 256 ≠ S ABORT RESPONSE := by
  unfold lnot
  split <;> decide

/-- The control byte that `teq1_fill_info_block` leaves in an I-block with no
more-data bit is not `S(ABORT, RESPONSE)`. -/
theorem fill_info_block_ne_abort (state : Teq1State) (frame : Teq1Frame)
    (hpcb : frame.PCB = I 0 0 ∨ frame.PCB = I 1 0) :
    (teq1_fill_info_block state frame).2.2.PCB % 256 ≠ S ABORT RESPONSE := by
  have hty : PCB_type frame.PCB = kPcbTypeInfo0 ∨ PCB_type frame.PCB = kPcbTypeInfo1 := by
    rcases hpcb with h | h <;> rw [h] <;> decide
  obtain ⟨n, p, -, -, hp, heq⟩ := fill_info_block_shape state frame hty
  rw [heq]
  show p % 256 ≠ S ABORT RESPONSE
  rcases hpcb with h | h <;> rcases hp with hp | hp <;> rw [hp, h] <;> decide

/-- No arm of the rule table prepares `S(ABORT, RESPONSE)`. -/
theorem switch_next_pcb (state : Teq1State) (tx rx next : Teq1Frame) (e txrx : Nat)
    (res : RuleResult) (st : Teq1State) (nx : Teq1Frame)
    (h : teq1_rules_switch state tx rx next e txrx = some (res, st, nx))
    (he : e = 0 ∨ e = R 0 1 0 ∨ e = R 0 0 1)
    (hn : next.PCB % 256 ≠ S ABORT RESPONSE) : nx.PCB % 256 ≠ S ABORT RESPONSE := by
  unfold teq1_rules_switch at h
  generalize rule_arm txrx = a at h
  cases a <;> simp only [Option.some.injEq, Prod.mk.injEq] at h
  case default_ => exact absurd h (by simp)
  case chained_tx =>
    obtain ⟨-, -, rfl⟩ := h
    exact fill_info_block_ne_abort _ _ (set_send_seq_I _)
  case wtx_request =>
    obtain ⟨-, -, rfl⟩ := h
    show S WTX RESPONSE % 256 ≠ S ABORT RESPONSE
    decide
  case ifs_request =>
    obtain ⟨-, -, rfl⟩ := h
    show S IFS RESPONSE % 256 ≠ S ABORT RESPONSE
    decide
  case card_chain_begin =>
    obtain ⟨-, -, rfl⟩ := h
    exact ack_ne_abort _
  case chain_continue =>
    obtain ⟨-, -, rfl⟩ := h
    exact ack_ne_abort _
  case bad_rx =>
    obtain ⟨-, -, rfl⟩ := h
    exact set_next_seq_ne_abort _ _ he
  case weird_rx =>
    obtain ⟨-, -, rfl⟩ := h
    exact set_next_seq_ack_ne_abort _
  case abort_request =>
    obtain ⟨-, -, rfl⟩ := h
    show S ABORT REQUEST % 256 ≠ S ABORT RESPONSE
    decide
  all_goals
    obtain ⟨-, -, rfl⟩ := h
    exact hn

/-- The rule engine never prepares `S(ABORT, RESPONSE)`. -/
theorem rules_loop_next_pcb : ∀ (fuel : Nat) (state : Teq1State) (tx rx next : Teq1Frame)
    (txrx : Nat) (res : RuleResult) (st : Teq1State) (rx2 nx : Teq1Frame),
    teq1_rules_loop fuel state tx rx next txrx = some (res, st, rx2, nx) →
    next.PCB % 256 ≠ S ABORT RESPONSE → nx.PCB % 256 ≠ S ABORT RESPONSE := by
  intro fuel
  induction fuel with
  | zero => intro state tx rx next txrx res st rx2 nx h; simp [teq1_rules_loop] at h
  | succ n ih =>
    intro state tx rx next txrx res st rx2 nx h hn
    have hcodes := error_check_codes state tx rx
    rcases hchk : teq1_frame_error_check state tx rx with ⟨e, st1⟩
    rw [hchk] at hcodes
    simp only at hcodes
    by_cases he : e = 0
    · subst he
      rw [rules_loop_ok n state _ tx rx next txrx hchk] at h
      rcases hsw : teq1_rules_switch st1 tx rx next 0 txrx with _ | ⟨r, s, m⟩
      · rw [hsw] at h
        simp only at h
        by_cases hp : rx.PCB = 255
        · simp only [hp, ne_eq, not_true_eq_false, if_false, Option.some.injEq,
            Prod.mk.injEq] at h
          obtain ⟨-, -, -, rfl⟩ := h
          exact hn
        · simp only [ne_eq, hp, not_false_eq_true, if_true] at h
          exact ih _ tx _ next txrx res st rx2 nx h hn
      · rw [hsw] at h
        simp only [Option.some.injEq, Prod.mk.injEq] at h
        obtain ⟨rfl, rfl, -, rfl⟩ := h
        exact switch_next_pcb _ tx rx next 0 txrx _ _ _ hsw (Or.inl rfl) hn
    · rw [rules_loop_err n state _ tx rx next txrx e hchk he] at h
      by_cases h6 : st1.errors + 1 ≥ 6
      · rw [if_pos h6] at h
        simp only [Option.some.injEq, Prod.mk.injEq] at h
        obtain ⟨-, -, -, rfl⟩ := h
        exact hn
      rw [if_neg h6] at h
      by_cases h3 : st1.errors + 1 ≥ 3
      · rw [if_pos h3] at h
        simp only [Option.some.injEq, Prod.mk.injEq] at h
        obtain ⟨-, -, -, rfl⟩ := h
        show S RESYNC REQUEST % 256 ≠ S ABORT RESPONSE
        decide
      rw [if_neg h3] at h
      rcases hsw : teq1_rules_switch (count_error st1) tx rx next e (TEQ1_RULE tx.PCB 255)
        with _ | ⟨r, s, m⟩
      · rw [hsw] at h
        simp only at h
        by_cases hp : rx.PCB = 255
        · simp only [hp, ne_eq, not_true_eq_false, if_false, Option.some.injEq,
            Prod.mk.injEq] at h
          obtain ⟨-, -, -, rfl⟩ := h
          exact hn
        · simp only [ne_eq, hp, not_false_eq_true, if_true] at h
          exact ih _ tx _ next _ res st rx2 nx h hn
      · rw [hsw] at h
        simp only [Option.some.injEq, Prod.mk.injEq] at h
        obtain ⟨rfl, rfl, -, rfl⟩ := h
        exact switch_next_pcb _ tx rx next e _ _ _ _ hsw hcodes hn

theorem abortFree_of (l : TransceiveLocals) (a : Nat) (fa : Teq1Frame) (ha : l.active = a)
    (hfa : l.frame a = fa) (hp : fa.PCB % 256 ≠ S ABORT RESPONSE)
    (htx : l.tx = a ∨ l.tx = inot a) : AbortFree l := by
  subst ha hfa
  exact ⟨hp, htx⟩

/-- What `case kRuleResultResetSession` leaves satisfies the invariant. -/
theorem reset_abort_free {H : Type} (ese : EseInterface H) (l : TransceiveLocals)
    (init_state : Teq1State) (htx : l.tx = l.active) :
    (transceive_reset ese l init_state).1.error = ese.error ∧
    AbortFree (transceive_reset ese l init_state).2 := by
  refine ⟨rfl, ?_⟩
  obtain ⟨s0, hs0⟩ : ∃ s0 : Teq1State, s0 = ⟨init_state.wait_mult, init_state.ifs,
      init_state.errors, init_state.retransmits, init_state.last_error_message,
      TEQ1_INIT_CARD_STATE ese.card_state,
      ⟨init_state.app_data.tx_buf, init_state.app_data.tx_len, l.state.app_data.rx_mem,
        init_state.app_data.rx_buf, init_state.app_data.rx_len⟩⟩ := ⟨_, rfl⟩
  obtain ⟨f0, hf0⟩ : ∃ f0 : Teq1Frame, f0 = ⟨0, I 0 0, 0, List.replicate (INF_LEN + 1) 0⟩ :=
    ⟨_, rfl⟩
  have hf0pcb : f0.PCB = I 0 0 := by rw [hf0]
  have hpcb := fill_info_block_ne_abort s0 f0 (Or.inl hf0pcb)
  have hr : transceive_reset ese l init_state =
      ({ ese with card_state := TEQ1_INIT_CARD_STATE ese.card_state },
       { (l.setFrame l.tx (teq1_fill_info_block s0 f0).2.2) with
         state := (teq1_fill_info_block s0 f0).2.1 }) := by
    rw [hs0, hf0]; rfl
  rw [hr]
  refine abortFree_of _ l.active _ (setFrame_active _ _ _) ?_ hpcb (Or.inl ?_)
  · show (l.setFrame l.tx _).frame l.active = _
    rw [htx]; exact frame_setFrame_same _ _ _
  · show (l.setFrame l.tx _).tx = l.active
    rw [setFrame_tx, htx]

/-- The second half of the loop body, when the backend has no reset line: the
rule engine does not return `Abort` for an active frame that is not
`S(ABORT, RESPONSE)`, an exit leaves an error code other than
`TEQ1_ERROR_ABORT`, and another round keeps the error record and the
invariant. -/
theorem dispatch_abort_free {H : Type} (ops : EseOperations H) (hreset : ops.hw_reset = none)
    (init_state : Teq1State) (rx_len fuel : Nat) (ese : EseInterface H)
    (l : TransceiveLocals) (rx_frame : Teq1Frame) (step : LoopStep H)
    (htx : l.tx = l.active)
    (hp : (l.frame l.active).PCB % 256 ≠ S ABORT RESPONSE)
    (hn : (l.frame (inot l.active)).PCB = 0)
    (hcode : ese.error.code ≠ TEQ1_ERROR_ABORT)
    (h : transceive_dispatch ops init_state rx_len fuel ese l rx_frame = .ok step) :
    (∀ r, step = .ret r → r.ese.error.code ≠ TEQ1_ERROR_ABORT) ∧
    (∀ e2 l2, step = .again e2 l2 → e2.error = ese.error ∧ AbortFree l2) := by
  rcases hr : teq1_rules fuel { l.state with card_state := ese.card_state }
      (l.frame l.tx) rx_frame (l.frame (inot l.active)) with _ | ⟨res, st, rx, nx⟩
  · unfold transceive_dispatch at h
    rw [hr] at h; simp at h
  unfold transceive_dispatch at h
  rw [hr] at h
  simp only [] at h
  have hnx : nx.PCB % 256 ≠ S ABORT RESPONSE :=
    rules_loop_next_pcb fuel _ _ _ _ _ res st rx nx hr (by rw [hn]; decide)
  have hfail : ∀ (e : EseInterface H) (l0 : TransceiveLocals) (code : Int),
      transceive_fail e l0 code = .ok step → code ≠ TEQ1_ERROR_ABORT →
      (∀ r, step = .ret r → r.ese.error.code ≠ TEQ1_ERROR_ABORT) ∧
      (∀ e2 l2, step = .again e2 l2 → e2.error = ese.error ∧ AbortFree l2) := by
    intro e l0 code hf hc
    obtain ⟨r, rfl, -, -, hcd, -, -⟩ := fail_ret _ _ _ _ hf
    refine ⟨fun r2 h2 => ?_, fun e2 l2 h2 => by simp at h2⟩
    simp only [LoopStep.ret.injEq] at h2
    subst h2
    rw [hcd]; exact hc
  cases res <;> simp only [] at h
  case kRuleResultComplete =>
    simp only [Except.ok.injEq] at h
    subst h
    exact ⟨fun r h2 => by simp only [LoopStep.ret.injEq] at h2; subst h2; exact hcode,
      fun e2 l2 h2 => by simp at h2⟩
  case kRuleResultAbort =>
    exfalso
    have := rules_abort_sent fuel _ _ _ _ st rx nx hr
    rw [htx] at this
    exact hp this
  case kRuleResultHardFail => exact hfail _ _ _ h (by decide)
  case kRuleResultContinue =>
    simp only [Except.ok.injEq] at h
    subst h
    refine ⟨fun r h2 => by simp at h2, fun e2 l2 h2 => ?_⟩
    simp only [LoopStep.again.injEq] at h2
    obtain ⟨rfl, rfl⟩ := h2
    obtain ⟨c1, c2, c3, -, -, -⟩ := cont_facts l st nx
    exact ⟨rfl, abortFree_of _ (inot l.active) nx c1 c3 hnx (Or.inl c2)⟩
  case kRuleResultSingleShot =>
    simp only [Except.ok.injEq] at h
    subst h
    refine ⟨fun r h2 => by simp at h2, fun e2 l2 h2 => ?_⟩
    simp only [LoopStep.again.injEq] at h2
    obtain ⟨rfl, rfl⟩ := h2
    refine ⟨rfl, abortFree_of _ l.active (l.frame l.active) ?_ ?_ hp (Or.inr ?_)⟩
    · by_cases h0 : l.active = 0 <;> simp [h0, TransceiveLocals.setFrame, inot]
    · by_cases h0 : l.active = 0 <;>
        simp [h0, TransceiveLocals.frame, TransceiveLocals.setFrame, inot]
    · by_cases h0 : l.active = 0 <;> simp [h0, TransceiveLocals.setFrame, inot]
  case kRuleResultResetSession =>
    simp only [Except.ok.injEq] at h
    subst h
    refine ⟨fun r h2 => by simp at h2, fun e2 l2 h2 => ?_⟩
    simp only [LoopStep.again.injEq] at h2
    obtain ⟨rfl, rfl⟩ := h2
    obtain ⟨c1, c2, -, -, -, -⟩ := retx_facts l st nx
    exact reset_abort_free _ _ init_state (by rw [c2, c1, htx])
  case kRuleResultResetDevice =>
    rw [hreset] at h
    split at h
    · exact hfail _ _ _ h (by decide)
    · exact hfail _ _ _ h (by decide)
  case kRuleResultRetransmit =>
    split at h
    · simp only [Except.ok.injEq] at h
      subst h
      refine ⟨fun r h2 => by simp at h2, fun e2 l2 h2 => ?_⟩
      simp only [LoopStep.again.injEq] at h2
      obtain ⟨rfl, rfl⟩ := h2
      refine ⟨rfl, abortFree_of _ l.active (l.frame l.active) ?_ ?_ hp (Or.inl ?_)⟩
      · by_cases h0 : l.active = 0 <;> simp [h0, TransceiveLocals.setFrame, inot]
      · by_cases h0 : l.active = 0 <;>
          simp [h0, TransceiveLocals.frame, TransceiveLocals.setFrame, inot]
      · show (TransceiveLocals.tx _) = l.active
        simp only [setFrame_tx]
        exact htx
    · split at h
      · exact hfail _ _ _ h (by decide)
      · simp only [Except.ok.injEq] at h
        subst h
        refine ⟨fun r h2 => by simp at h2, fun e2 l2 h2 => ?_⟩
        simp only [LoopStep.again.injEq] at h2
        obtain ⟨rfl, rfl⟩ := h2
        refine ⟨rfl, abortFree_of _ (inot l.active) { nx with PCB := S RESYNC REQUEST }
          ?_ ?_ (by show S RESYNC REQUEST % 256 ≠ S ABORT RESPONSE; decide) (Or.inl ?_)⟩
        · by_cases h0 : l.active = 0 <;>
            simp [h0, TransceiveLocals.setFrame, inot, transceive_cont]
        · by_cases h0 : l.active = 0 <;>
            simp [h0, TransceiveLocals.frame, TransceiveLocals.setFrame, inot, transceive_cont]
        · by_cases h0 : l.active = 0 <;>
            simp [h0, TransceiveLocals.setFrame, inot, transceive_cont]

/-- `teq1_receive` leaves the error record alone when the poll and the raw
receive of the backend do. -/
theorem receive_error {H : Type} (ops : EseOperations H)
    (hpoll : ∀ poll, ops.poll = some poll → ∀ e a t c, (poll e a t c).2.error = e.error)
    (hrecv : ∀ hw_receive, ops.hw_receive = some hw_receive →
      ∀ e b k c, (hw_receive e b k c).ese.error = e.error)
    (ese : EseInterface H) (timeout : ℚ) (f : Teq1Frame) (n : Int) (e2 : EseInterface H)
    (f2 : Teq1Frame) (h : teq1_receive ops ese timeout f = .ok (n, e2, f2)) :
    e2.error = ese.error := by
  unfold teq1_receive at h
  rcases hopts : ops.opts with _ | opts
  · rw [hopts] at h; simp at h
  rcases hp : ops.poll with _ | poll
  · rw [hopts, hp] at h; simp at h
  have hpe := hpoll poll hp ese opts.host_address timeout 0
  rcases hr : ops.hw_receive with _ | hw_receive
  · rw [hopts, hp, hr] at h
    simp only [] at h
    split at h
    · simp only [Except.ok.injEq, Prod.mk.injEq] at h
      rw [← h.2.1]; exact hpe
    · simp at h
  have hre := hrecv hw_receive hr
  rw [hopts, hp, hr] at h
  simp only [] at h
  split at h
  · simp only [Except.ok.injEq, Prod.mk.injEq] at h
    rw [← h.2.1]; exact hpe
  · split at h
    · simp only [Except.ok.injEq, Prod.mk.injEq] at h
      rw [← h.2.1, hre, hre]; exact hpe
    · simp only [Except.ok.injEq, Prod.mk.injEq] at h
      rw [← h.2.1, hre, hre]; exact hpe

theorem script_poll_error (e : EseInterface Script) (a : Nat) (t : ℚ) (c : Int) :
    (script_poll e a t c).2.error = e.error := by
  unfold script_poll
  split <;> rfl

theorem script_receive_keeps_error (e : EseInterface Script) (b : Bool) (k : Nat) (c : Int) :
    (script_receive e b k c).ese.error = e.error := by
  unfold script_receive
  split <;> rfl

/-- `teq1_receive` against the scripted card leaves the error record alone,
whatever the script holds. -/
theorem script_receive_error (opts : Teq1ProtocolOptions) (ese : EseInterface Script)
    (timeout : ℚ) (f : Teq1Frame) (n : Int) (e2 : EseInterface Script) (f2 : Teq1Frame)
    (h : teq1_receive (script_ops opts) ese timeout f = .ok (n, e2, f2)) :
    e2.error = ese.error := by
  refine receive_error (script_ops opts) ?_ ?_ ese timeout f n e2 f2 h
  · intro poll hp e a t c
    have : poll = script_poll := by
      simp only [script_ops, Option.some.injEq] at hp; exact hp.symm
    rw [this]; exact script_poll_error e a t c
  · intro hw_receive hr e b k c
    have : hw_receive = script_receive := by
      simp only [script_ops, Option.some.injEq] at hr; exact hr.symm
    rw [this]; exact script_receive_keeps_error e b k c

/-- The first half of the loop body against the scripted card, whatever the
script holds: the error record is left alone and the locals are those of
`txrx_locals`. -/
theorem txrx_script_any (opts : Teq1ProtocolOptions) (hpre : opts.preprocess = none)
    (ese e1 : EseInterface Script) (l l1 : TransceiveLocals) (rx : Teq1Frame)
    (h : transceive_txrx (script_ops opts) ese l = .ok (e1, l1, rx)) :
    e1.error = ese.error ∧ l1 = txrx_locals opts.node_address l := by
  unfold transceive_txrx at h
  have hopts : (script_ops opts).opts = some opts := rfl
  simp only [hopts, script_transmit_eq opts hpre, setFrame_state] at h
  rcases hrx : teq1_receive (script_ops opts)
      { ese with hw := { ese.hw with sent := ese.hw.sent ++
        [(sealed opts.node_address (l.frame l.tx)).val.take (3 + (l.frame l.tx).LEN + 1)] } }
      (opts.bwt * (l.state.wait_mult : ℚ)) frame_ff with e | ⟨n, e2, f2⟩
  · rw [hrx] at h; simp at h
  · rw [hrx] at h
    simp only [Except.ok.injEq, Prod.mk.injEq] at h
    obtain ⟨rfl, rfl, -⟩ := h
    have k := script_receive_error opts _ _ _ n _ f2 hrx
    exact ⟨k, by simp [txrx_locals]⟩

/-- One iteration of the exchange loop against the scripted card keeps the
invariant and never ends with the code `TEQ1_ERROR_ABORT`. -/
theorem body_abort_free (opts : Teq1ProtocolOptions) (hpre : opts.preprocess = none)
    (init_state : Teq1State) (rx_len fuel : Nat) (ese : EseInterface Script)
    (l : TransceiveLocals) (step : LoopStep Script)
    (hinv : AbortFree l) (hcode : ese.error.code ≠ TEQ1_ERROR_ABORT)
    (h : transceive_body (script_ops opts) init_state rx_len fuel ese l = .ok step) :
    (∀ r, step = .ret r → r.ese.error.code ≠ TEQ1_ERROR_ABORT) ∧
    (∀ e2 l2, step = .again e2 l2 → e2.error.code ≠ TEQ1_ERROR_ABORT ∧ AbortFree l2) := by
  unfold transceive_body at h
  rcases hx : transceive_txrx (script_ops opts) ese l with e | ⟨e1, l1, rx⟩
  · rw [hx] at h; simp at h
  rw [hx] at h
  simp only [] at h
  obtain ⟨herr, rfl⟩ := txrx_script_any opts hpre ese e1 l l1 rx hx
  obtain ⟨i1, i2⟩ := hinv
  obtain ⟨k1, -, -, -, k5, -, -⟩ := txrx_locals_keep opts.node_address l i2
  have hact := txrx_locals_active opts.node_address l
  have hd := dispatch_abort_free (script_ops opts) rfl init_state rx_len fuel e1
    (txrx_locals opts.node_address l) rx step
    (by rw [txrx_locals_tx, hact])
    (by rw [hact, k1]; exact i1)
    (by rw [hact, k5])
    (by rw [herr]; exact hcode) h
  refine ⟨hd.1, fun e2 l2 hr => ?_⟩
  obtain ⟨g1, g2⟩ := hd.2 e2 l2 hr
  exact ⟨by rw [g1, herr]; exact hcode, g2⟩

/-- No run of the exchange loop against the scripted card ends with the code
`TEQ1_ERROR_ABORT`. -/
theorem loop_abort_free (opts : Teq1ProtocolOptions) (hpre : opts.preprocess = none)
    (init_state : Teq1State) (rx_len : Nat) :
    ∀ (fuel : Nat) (ese : EseInterface Script) (l : TransceiveLocals)
      (r : TransceiveResult Script),
      AbortFree l → ese.error.code ≠ TEQ1_ERROR_ABORT →
      teq1_transceive_loop (script_ops opts) init_state rx_len fuel ese l = .ok r →
      r.ese.error.code ≠ TEQ1_ERROR_ABORT := by
  intro fuel
  induction fuel with
  | zero => intro ese l r _ _ h; simp [teq1_transceive_loop] at h
  | succ n ih =>
    intro ese l r hinv hcode h
    rw [teq1_transceive_loop] at h
    rcases hb : transceive_body (script_ops opts) init_state rx_len (n + 1) ese l with
      e | ⟨r1⟩ | ⟨e2, l2⟩
    · rw [hb] at h; simp at h
    · rw [hb] at h
      simp only [Except.ok.injEq] at h
      subst h
      exact (body_abort_free opts hpre init_state rx_len (n + 1) ese l _ hinv hcode hb).1 _ rfl
    · rw [hb] at h
      simp only [] at h
      obtain ⟨g1, g2⟩ :=
        (body_abort_free opts hpre init_state rx_len (n + 1) ese l _ hinv hcode hb).2 _ _ rfl
      exact ih e2 l2 r g2 g1 h

/-- No exchange with the scripted card ends with the code `TEQ1_ERROR_ABORT`,
whatever the card replies, when the interface is free of that code on
entry. -/
theorem transceive_abort_free (opts : Teq1ProtocolOptions) (hpre : opts.preprocess = none)
    (fuel : Nat) (ese : EseInterface Script) (tx_buf : List Nat) (tx_len : Nat)
    (rx_mem : List Nat) (rx_len : Nat) (stack0 stack1 : Teq1Frame)
    (r : TransceiveResult Script) (hcode : ese.error.code ≠ TEQ1_ERROR_ABORT)
    (h : teq1_transceive fuel (script_ops opts) ese tx_buf tx_len rx_mem rx_len stack0 stack1
      = .ok r) :
    r.ese.error.code ≠ TEQ1_ERROR_ABORT := by
  unfold teq1_transceive teq1_transceive_from at h
  refine loop_abort_free opts hpre _ rx_len fuel ese _ r ?_ hcode h
  refine abortFree_of _ 0 _ rfl rfl ?_ (Or.inl rfl)
  apply fill_info_block_ne_abort
  show TEQ1_I (lnot (int1_read ese.card_state.interface)) 0 = I 0 0 ∨
    TEQ1_I (lnot (int1_read ese.card_state.interface)) 0 = I 1 0
  unfold lnot
  split
  · right; rfl
  · left; rfl

/-- A run with a summary returned. -/
theorem run_ok_of_summary (x : Except Fault (TransceiveResult Script))
    (s : Nat × Int × Int × List (List Nat)) (h : run_summary x = some s) :
    ∃ r, x = .ok r ∧ r.ese.error.code = s.2.2.1 := by
  cases x with
  | error e => simp [run_summary] at h
  | ok r =>
    simp only [run_summary, Option.some.injEq] at h
    exact ⟨r, rfl, by rw [← h]⟩

/-- A checksum-valid abort request of the peer, received mid-chain or after an
R-block, is answered with `Continue` and the block `S(ABORT, REQUEST)` in
`next_tx`. -/
theorem rules_abort_request (fuel : Nat) (state : Teq1State) (tx rx next : Teq1Frame)
    (htx : abort_request_block tx.PCB) (hrx : rx.PCB = S ABORT REQUEST)
    (hok : (teq1_frame_error_check state tx rx).1 = 0) :
    teq1_rules (fuel + 1) state tx rx next =
      some (kRuleResultContinue, (teq1_frame_error_check state tx rx).2, rx,
        { next with PCB := S ABORT REQUEST }) := by
  have hchk : teq1_frame_error_check state tx rx = (0, (teq1_frame_error_check state tx rx).2) := by
    rw [← hok]
  have harm : rule_arm (TEQ1_RULE tx.PCB rx.PCB) = abort_request := by
    rw [hrx]
    unfold abort_request_block at htx
    simp only [List.mem_cons, List.mem_singleton, List.not_mem_nil, or_false] at htx
    rcases htx with h | h | h | h | h | h | h | h | h | h <;> rw [h] <;> decide
  unfold teq1_rules
  rw [rules_loop_ok fuel state _ tx rx next _ hchk]
  simp only [teq1_rules_switch, harm]

theorem set_error_hw {H : Type} (ese e : EseInterface H) (code : Int)
    (h : ese_set_error_nonnull ese code = .ok e) :
    e.error.code = code ∧ e.error.is_err = 1 ∧ e.errors = ese.errors ∧
    e.errors_count = ese.errors_count ∧ e.card_state = ese.card_state ∧ e.hw = ese.hw := by
  unfold ese_set_error_nonnull at h
  simp only [] at h
  split at h
  · split at h
    · simp at h
    · simp only [Except.ok.injEq] at h
      subst h
      exact ⟨rfl, rfl, rfl, rfl, rfl, rfl⟩
  · split at h
    · simp at h
    · simp only [Except.ok.injEq] at h
      subst h
      exact ⟨rfl, rfl, rfl, rfl, rfl, rfl⟩

theorem set_error_backend {H : Type} (ese : EseInterface H) (code : Int) (h0 : 0 ≤ code)
    (hc : code.toNat < ese.errors_count) :
    ese_set_error_nonnull ese code = .ok
      ⟨⟨1, code, ese.errors.get? code.toNat⟩, ese.errors, ese.errors_count, ese.card_state,
        ese.hw⟩ := by
  unfold ese_set_error_nonnull
  simp only []
  rw [if_neg (by omega), if_neg (by omega)]

theorem set_error_library {H : Type} (ese : EseInterface H) (code : Int)
    (hc : code = -1 ∨ code = -2) :
    ese_set_error_nonnull ese code = .ok
      ⟨⟨1, code, kEseErrorMessages.get? (-(code + 1)).toNat⟩, ese.errors, ese.errors_count,
        ese.card_state, ese.hw⟩ := by
  unfold ese_set_error_nonnull
  rcases hc with rfl | rfl <;> simp [kEseErrorMessages]

theorem xor_ne_of_ne (a b x : Nat) (h : a ≠ b) : x ^^^ a ≠ x ^^^ b :=
  fun hc => h (Nat.xor_right_injective hc)

/-- Replacing one element of a list changes the exclusive-or of the list. -/
theorem xor_all_set_ne : ∀ (l : List Nat) (i v : Nat), i < l.length → v ≠ l.getD i 0 →
    xor_all (l.set i v) ≠ xor_all l := by
  intro l
  induction l with
  | nil => intro i v h; simp at h
  | cons a t ih =>
    intro i v h hv
    cases i with
    | zero =>
      simp only [List.set_cons_zero, xor_all_cons]
      intro hc
      exact hv (Nat.xor_left_injective hc)
    | succ j =>
      simp only [List.set_cons_succ, xor_all_cons]
      exact xor_ne_of_ne _ _ a
        (ih j v (by simpa using h) (by simpa using hv))

theorem checksum_fails_of_ne (state : Teq1State) (tx frame : Teq1Frame)
    (h : frame.INF.getD frame.LEN 0 ≠ teq1_compute_LRC frame) :
    checksum_fails state tx frame := by
  refine ⟨h, ?_, ?_⟩
  · by_cases hp : frame.PCB = 255
    · rw [error_check_sentinel state tx frame hp]
      show R 0 1 0 ≠ 0
      decide
    · rw [error_check_parity state tx frame hp h]
      show R 0 0 1 ≠ 0
      decide
  · intro hp
    rw [error_check_parity state tx frame hp h]

set_option maxRecDepth 100000 in
/-- The more-data bit of an information byte is set and cleared without a
change to the other fields. -/
theorem info_more_data_fin : ∀ b : Fin 256,
    PCB_type b.val = kPcbTypeInfo0 ∨ PCB_type b.val = kPcbTypeInfo1 →
    PCB_I_more_data (PCB_set_I_more_data (PCB_set_I_more_data b.val 0) 1) = 1 ∧
    PCB_I_more_data (PCB_set_I_more_data b.val 0) = 0 ∧
    PCB_I_send_seq (PCB_set_I_more_data (PCB_set_I_more_data b.val 0) 1)
      = PCB_I_send_seq b.val ∧
    PCB_I_send_seq (PCB_set_I_more_data b.val 0) = PCB_I_send_seq b.val ∧
    PCB_type (PCB_set_I_more_data (PCB_set_I_more_data b.val 0) 1) = PCB_type b.val ∧
    PCB_type (PCB_set_I_more_data b.val 0) = PCB_type b.val ∧
    bitfield_get (PCB_set_I_more_data (PCB_set_I_more_data b.val 0) 1) 0 5
      = bitfield_get b.val 0 5 ∧
    bitfield_get (PCB_set_I_more_data b.val 0) 0 5 = bitfield_get b.val 0 5 := by
  decide

/-- What `teq1_fill_info_block` returns for an information block, when the
remaining length fits the `uint32_t` it is read into. -/
theorem fill_info_block_info (state : Teq1State) (frame : Teq1Frame)
    (hty : PCB_type frame.PCB = kPcbTypeInfo0 ∨ PCB_type frame.PCB = kPcbTypeInfo1)
    (hlen : state.app_data.tx_len < 2 ^ 32) :
    teq1_fill_info_block state frame =
      (chunk_len state,
       { state with app_data :=
          { state.app_data with
              tx_len := state.app_data.tx_len - chunk_len state,
              tx_buf := state.app_data.tx_buf.drop (chunk_len state) } },
       { frame with
          INF := memcpy frame.INF 0 state.app_data.tx_buf (chunk_len state)
          LEN := chunk_len state
          PCB := if state.app_data.tx_len - chunk_len state > 0 then
              PCB_set_I_more_data (PCB_set_I_more_data frame.PCB 0) 1
            else PCB_set_I_more_data frame.PCB 0 }) := by
  have hmod : state.app_data.tx_len % 2 ^ 32 = state.app_data.tx_len := Nat.mod_eq_of_lt hlen
  have hlen' : (if state.app_data.tx_len > (if state.ifs < INF_LEN then state.ifs else INF_LEN)
      then (if state.ifs < INF_LEN then state.ifs else INF_LEN) else state.app_data.tx_len)
      = chunk_len state := by
    unfold chunk_len; split <;> split <;> omega
  have h254 : chunk_len state ≤ 254 := by unfold chunk_len INF_LEN; omega
  unfold teq1_fill_info_block
  simp only [hty, if_true, hmod, hlen', and_255 _ h254,
    Nat.mod_eq_of_lt (show chunk_len state < 256 by omega)]
  by_cases hmore : state.app_data.tx_len - chunk_len state > 0
  · simp only [hmore, if_true]
  · simp only [hmore, if_false]

/-- One step of a chained transmission for every information field size up to
254, 0 included: the fragment `I(s,1)` is sent and the acknowledgement
`R(!s,0,0)` arrives. -/
theorem loop_chain_tx_step_any (opts : Teq1ProtocolOptions) (hpre : opts.preprocess = none)
    (init_state : Teq1State) (rx_len fuel ifs : Nat) (hifs2 : ifs ≤ 254)
    (ese : EseInterface Script) (l : TransceiveLocals) (s : Nat) (c remaining : List Nat)
    (rest : List (Option (List Nat)))
    (hrep : ese.hw.replies = some (wire_reply opts.host_address (R (1 - s) 0 0) []) :: rest)
    (hcur : ese.hw.cursor = 0) (hinv : TxReady ifs s c remaining l) (hs : s < 2)
    (hrem : 0 < remaining.length) (h32 : remaining.length < 2 ^ 32) :
    ∃ l2 : TransceiveLocals,
      teq1_transceive_loop (script_ops opts) init_state rx_len (fuel + 1) ese l =
        teq1_transceive_loop (script_ops opts) init_state rx_len fuel
          { script_after ese rest (opts.node_address :: wire_reply opts.node_address (I s 1) c)
            with card_state := { ese.card_state with interface := s } } l2 ∧
      TxReady ifs (1 - s) (remaining.take ifs) (remaining.drop ifs) l2 ∧
      l2.state.app_data.rx_mem = l.state.app_data.rx_mem ∧
      l2.state.app_data.rx_buf = l.state.app_data.rx_buf ∧
      l2.state.app_data.rx_len = l.state.app_data.rx_len := by
  obtain ⟨htx, hpcb, hL, htake, hc, hinf, hinf2, hbuf, hlen, hifs⟩ := hinv
  rw [if_pos hrem] at hpcb
  have hfr := txrx_locals_frames opts.node_address l htx
  have htx' : ((txrx_locals opts.node_address l).frame (txrx_locals opts.node_address l).tx).PCB
      = I s 1 := by
    rw [txrx_locals_tx, hfr.1, sealed_PCB, hpcb]
  have hrules := rules_chained_tx fuel
    { (txrx_locals opts.node_address l).state with card_state := ese.card_state }
    ((txrx_locals opts.node_address l).frame (txrx_locals opts.node_address l).tx)
    (received opts.host_address (R (1 - s) 0 0) [])
    ((txrx_locals opts.node_address l).frame (inot (txrx_locals opts.node_address l).active))
    s hs htx' rfl rfl (received_LRC _ _ _)
  obtain ⟨st2, nx, hfill, f1, f2, f3, f4, f5, f6, f7, f8, f9, f10⟩ := fill_info_block_fields
    { ({ (txrx_locals opts.node_address l).state with card_state := ese.card_state }
        : Teq1State) with card_state := { ese.card_state with interface := s } }
    { (txrx_locals opts.node_address l).frame (inot (txrx_locals opts.node_address l).active)
        with PCB := I (1 - s) 0 } (1 - s) (by omega) rfl
    (by show (txrx_locals opts.node_address l).state.app_data.tx_len < 2 ^ 32
        rw [txrx_locals_app_data, hlen]; exact h32)
  have hchunk : chunk_len
      { ({ (txrx_locals opts.node_address l).state with card_state := ese.card_state }
        : Teq1State) with card_state := { ese.card_state with interface := s } }
      = (remaining.take ifs).length := by
    show min (txrx_locals opts.node_address l).state.app_data.tx_len
      (min (txrx_locals opts.node_address l).state.ifs INF_LEN) = _
    rw [txrx_locals_app_data, txrx_locals_ifs, hlen, hifs, List.length_take, INF_LEN]; omega
  rw [hchunk] at f1 f2 f8 f9 f10
  rw [hfill] at hrules
  have hdisp := dispatch_continue (script_ops opts) init_state rx_len (fuel + 1)
    (script_after ese rest
      ((sealed opts.node_address (l.frame l.tx)).val.take (3 + (l.frame l.tx).LEN + 1)))
    (txrx_locals opts.node_address l) (received opts.host_address (R (1 - s) 0 0) [])
    st2 _ nx hrules
  have hstep := loop_step_again opts hpre init_state rx_len fuel ese l (R (1 - s) 0 0) []
    rest _ _ hrep hcur (by simp) hdisp
  have hw := sealed_wire opts.node_address (l.frame l.active) c hL (by rw [hL]; exact htake)
    (by rw [hinf, hL, INF_LEN]; omega)
  rw [hpcb] at hw
  rw [htx, hw, f7] at hstep
  have htl : (List.take ifs remaining).length = min ifs remaining.length := List.length_take _ _
  have hready := txReady_after_continue ifs (1 - s) (remaining.take ifs) (remaining.drop ifs)
    (txrx_locals opts.node_address l) st2 nx
    (by rw [txrx_locals_active, hfr.1, sealed_INF_length]; exact hinf)
    (by rw [f8]
        show I (1 - s) (if (txrx_locals opts.node_address l).state.app_data.tx_len
          - (List.take ifs remaining).length > 0 then 1 else 0) = _
        rw [txrx_locals_app_data, hlen, List.length_drop, htl]
        have e1 : remaining.length - min ifs remaining.length = remaining.length - ifs := by
          omega
        rw [e1])
    f9
    (by rw [f10]
        show List.take _ (memcpy _ 0 (txrx_locals opts.node_address l).state.app_data.tx_buf _)
          = _
        rw [txrx_locals_app_data, hbuf, memcpy_zero_take _ _ _ (by rw [htl]; omega), htl,
          List.take_eq_take]
        omega)
    (by rw [htl]; omega)
    (by rw [f10]
        show (memcpy ((txrx_locals opts.node_address l).frame
          (inot (txrx_locals opts.node_address l).active)).INF 0
          (txrx_locals opts.node_address l).state.app_data.tx_buf _).length = _
        rw [txrx_locals_active, txrx_locals_app_data, hbuf, memcpy_length _ _ _ _
          (by rw [hfr.2]; show 0 + _ ≤ (l.frame (inot l.active)).INF.length
              rw [hinf2, htl, INF_LEN]; omega) (by rw [htl]; omega), hfr.2]
        exact hinf2)
    (by rw [f1]
        show List.drop _ (txrx_locals opts.node_address l).state.app_data.tx_buf = _
        rw [txrx_locals_app_data, hbuf, htl]
        rcases Nat.le_total ifs remaining.length with h | h
        · rw [Nat.min_eq_left h]
        · rw [Nat.min_eq_right h, List.drop_length, List.drop_of_length_le h])
    (by rw [f2]
        show (txrx_locals opts.node_address l).state.app_data.tx_len - _ = _
        rw [txrx_locals_app_data, hlen, List.length_drop, htl]; omega)
    (by rw [f6]
        show (txrx_locals opts.node_address l).state.ifs = ifs
        rw [txrx_locals_ifs, hifs])
  refine ⟨_, hstep, hready.1, ?_, ?_, ?_⟩
  · rw [hready.2, f3]
    show (txrx_locals opts.node_address l).state.app_data.rx_mem = _
    rw [txrx_locals_app_data]
  · rw [hready.2, f4]
    show (txrx_locals opts.node_address l).state.app_data.rx_buf = _
    rw [txrx_locals_app_data]
  · rw [hready.2, f5]
    show (txrx_locals opts.node_address l).state.app_data.rx_len = _
    rw [txrx_locals_app_data]

/-- An IFS request of the peer is recorded as it comes, whatever the size. -/
theorem rules_ifs_records (fuel : Nat) (state : Teq1State) (tx rx next : Teq1Frame) (v : Nat)
    (htx : tx.PCB ∈ [I 0 0, I 0 1, I 1 0, I 1 1, R 0 0 0, R 1 0 0])
    (hrx : rx.PCB = S IFS REQUEST) (hlen : rx.LEN = 1)
    (hv : rx.INF.getD 0 0 = v) (hl : rx.INF.getD rx.LEN 0 = teq1_compute_LRC rx) :
    ∃ st nx, teq1_rules (fuel + 1) state tx rx next = some (kRuleResultSingleShot, st, rx, nx) ∧
      nx.PCB = S IFS RESPONSE ∧ st.ifs = v ∧ st.app_data = state.app_data := by
  have hchk := error_check_S_ok state tx rx (by rw [hrx]; decide) (by rw [hrx]; decide) hl
    (Or.inr hlen)
  have harm : rule_arm (TEQ1_RULE tx.PCB rx.PCB) = ifs_request := by
    rw [hrx]
    simp only [List.mem_cons, List.mem_singleton, List.not_mem_nil, or_false] at htx
    rcases htx with h | h | h | h | h | h <;> rw [h] <;> decide
  have hf := note_tx_seq_fields state tx
  unfold teq1_rules
  rw [rules_loop_ok _ _ _ _ _ _ _ hchk]
  simp only [teq1_rules_switch, harm]
  exact ⟨_, _, rfl, rfl, hv, hf.1⟩

/-- With the information field size 0 a chained transmission stalls: after
every acknowledgement the locals are ready to send an empty I-block with the
more-data bit, and the bytes that remain are the same. -/
theorem loop_stalled (opts : Teq1ProtocolOptions) (hpre : opts.preprocess = none)
    (init_state : Teq1State) (rx_len : Nat) (remaining : List Nat)
    (hrem : 0 < remaining.length) (h32 : remaining.length < 2 ^ 32) :
    ∀ (k fuel : Nat) (ese : EseInterface Script) (l : TransceiveLocals) (s : Nat) (c : List Nat)
      (rest : List (Option (List Nat))),
      s < 2 → TxReady 0 s c remaining l →
      ese.hw.replies = tx_acks opts.host_address s k ++ rest → ese.hw.cursor = 0 →
      ∃ (e2 : EseInterface Script) (l2 : TransceiveLocals) (s2 : Nat) (c2 : List Nat),
        teq1_transceive_loop (script_ops opts) init_state rx_len (fuel + k) ese l =
          teq1_transceive_loop (script_ops opts) init_state rx_len fuel e2 l2 ∧
        TxReady 0 s2 c2 remaining l2 ∧ s2 < 2 ∧ (c = [] ∨ 0 < k → c2 = []) ∧
        e2.hw.replies = rest ∧ e2.hw.cursor = 0 ∧
        e2.hw.sent.length = ese.hw.sent.length + k := by
  intro k
  induction k with
  | zero =>
    intro fuel ese l s c rest hs hinv hrep hcur
    exact ⟨ese, l, s, c, rfl, hinv, hs,
      fun h => h.elim id (fun h0 => absurd h0 (by omega)), by simpa [tx_acks] using hrep,
      hcur, rfl⟩
  | succ k ih =>
    intro fuel ese l s c rest hs hinv hrep hcur
    have hrep' : ese.hw.replies = some (wire_reply opts.host_address (R (1 - s) 0 0) []) ::
        (tx_acks opts.host_address (1 - s) k ++ rest) := by
      rw [hrep]; rfl
    obtain ⟨l1, hstep, hinv1, -, -, -⟩ := loop_chain_tx_step_any opts hpre init_state rx_len
      (fuel + k) 0 (by omega) ese l s c remaining _ hrep' hcur hinv hs hrem h32
    have hinv1' : TxReady 0 (1 - s) [] remaining l1 := by
      simpa using hinv1
    obtain ⟨e2, l2, s2, c2, hrun, hinv2, hs2, hc2, hr2, hcur2, hsent2⟩ :=
      ih fuel
        { script_after ese (tx_acks opts.host_address (1 - s) k ++ rest)
            (opts.node_address :: wire_reply opts.node_address (I s 1) c)
          with card_state := { ese.card_state with interface := s } }
        l1 (1 - s) [] rest (by omega) hinv1' rfl rfl
    refine ⟨e2, l2, s2, c2, ?_, hinv2, hs2, fun _ => hc2 (Or.inl rfl), hr2, hcur2, ?_⟩
    · rw [show fuel + (k + 1) = fuel + k + 1 by omega, hstep, hrun]
    · rw [hsent2]
      simp [script_after]
      omega

theorem fill_info_block_errors (state : Teq1State) (frame : Teq1Frame) :
    (teq1_fill_info_block state frame).2.1.errors = state.errors := by
  unfold teq1_fill_info_block
  simp only []
  split <;> rfl

theorem switch_errors (state : Teq1State) (tx rx next : Teq1Frame) (e txrx : Nat)
    (res : RuleResult) (st : Teq1State) (nx : Teq1Frame)
    (h : teq1_rules_switch state tx rx next e txrx = some (res, st, nx)) :
    st.errors = state.errors := by
  have g := (get_app_data_keeps state rx).2.2.1
  unfold teq1_rules_switch at h
  generalize rule_arm txrx = a at h
  cases a <;> simp only [Option.some.injEq, Prod.mk.injEq] at h
  case default_ => exact absurd h (by simp)
  case chained_tx =>
    obtain ⟨-, rfl, -⟩ := h
    exact fill_info_block_errors _ _
  all_goals
    obtain ⟨-, rfl, -⟩ := h
    first | rfl | exact g

/-- A block that carries the sentinel is counted once by the loop, whatever the
pair handed down. -/
theorem rules_loop_sentinel_errors (fuel : Nat) (state : Teq1State) (tx rx next : Teq1Frame)
    (txrx : Nat) (hp : rx.PCB = 255) :
    ∃ res st nx, teq1_rules_loop (fuel + 1) state tx rx next txrx = some (res, st, rx, nx) ∧
      st.errors = state.errors + 1 := by
  have hchk := error_check_sentinel state tx rx hp
  rw [rules_loop_err fuel state state tx rx next txrx _ hchk (by decide)]
  by_cases h6 : state.errors + 1 ≥ 6
  · rw [if_pos h6]
    exact ⟨_, _, _, rfl, rfl⟩
  rw [if_neg h6]
  by_cases h3 : state.errors + 1 ≥ 3
  · rw [if_pos h3]
    exact ⟨_, _, _, rfl, rfl⟩
  rw [if_neg h3]
  rcases hsw : teq1_rules_switch (count_error state) tx rx next (R 0 1 0)
      (TEQ1_RULE tx.PCB 255) with _ | ⟨res, st, nx⟩
  · simp only []
    rw [if_neg (by simp [hp])]
    exact ⟨_, _, _, rfl, rfl⟩
  · simp only []
    exact ⟨_, _, _, rfl, switch_errors _ _ _ _ _ _ _ _ _ hsw⟩

set_option maxRecDepth 1000000 in
/-- The sent control bytes with a case label for the sentinel, among the
bytes. -/
theorem sentinel_rule_fin : ∀ p : Fin 256,
    (rule_arm (TEQ1_RULE p.val 255) = default_ ↔ p.val ∉ sentinel_rule_pcbs) := by
  decide

theorem setFrame_keeps (l : TransceiveLocals) (a : Nat) (f : Teq1Frame) :
    (l.setFrame a f).active = l.active ∧ (l.setFrame a f).tx = l.tx ∧
    (l.setFrame a f).state = l.state ∧ (l.setFrame a f).was_reset = l.was_reset := by
  by_cases h0 : a = 0 <;> simp [TransceiveLocals.setFrame, h0]

/-- One pass of the exchange loop up to the rule engine, entered with `tx`
pointing to the inactive frame: that frame is the one handed to `teq1_transmit`,
`tx` points to the active frame afterwards, and the active frame is left as it
was. -/
theorem txrx_keeps_active {H : Type} (ops : EseOperations H) (ese e1 : EseInterface H)
    (l l1 : TransceiveLocals) (rx : Teq1Frame) (htx : l.tx = inot l.active)
    (h : transceive_txrx ops ese l = .ok (e1, l1, rx)) :
    (∃ n e f, teq1_transmit ops ese (l.frame (inot l.active)) = .ok (n, e, f)) ∧
    l1.active = l.active ∧ l1.tx = l.active ∧ l1.frame l.active = l.frame l.active := by
  unfold transceive_txrx at h
  split at h
  · simp at h
  · rw [htx] at h
    split at h
    · simp at h
    · rename_i n0 e0 f0 ht
      simp only [] at h
      split at h
      · simp at h
      · simp only [Except.ok.injEq, Prod.mk.injEq] at h
        obtain ⟨-, rfl, -⟩ := h
        refine ⟨⟨_, _, _, ht⟩, ?_, ?_, ?_⟩
        · simp [(setFrame_keeps _ _ _).1]
        · simp [(setFrame_keeps _ _ _).1, (setFrame_keeps _ _ _).2.1]
        · simp only [(setFrame_keeps _ _ _).1]
          rw [frame_setFrame_inot]
          show (l.setFrame (inot l.active) f0).frame l.active = _
          rw [frame_setFrame_inot]

/-- The raw receive and the poll of the probed backend add no call of the raw
transmit to the log, and `teq1_receive` returns on it. -/
theorem receive_probe_transmits (opts : Teq1ProtocolOptions) (ese : EseInterface Probe)
    (timeout : ℚ) (frame : Teq1Frame) :
    ∃ n e1 f1, teq1_receive (probe_ops opts) ese timeout frame = .ok (n, e1, f1) ∧
      transmit_calls e1.hw.calls = transmit_calls ese.hw.calls := by
  rcases hpre : opts.preprocess with _ | pre
  · simp only [teq1_receive, probe_ops, probe_poll, probe_receive, hpre]
    split_ifs <;> exact ⟨_, _, _, rfl, by simp [transmit_calls, List.filter_append]⟩
  · simp only [teq1_receive, probe_ops, probe_poll, probe_receive, hpre]
    split_ifs <;> exact ⟨_, _, _, rfl, by simp [transmit_calls, List.filter_append]⟩

/-- One pass of the exchange loop up to the rule engine on the probed backend:
it returns, and the log gains one call of the raw transmit, with the bytes of the
frame `tx` points to as `teq1_transmit` leaves them. -/
theorem txrx_probe_transmits (opts : Teq1ProtocolOptions) (ese : EseInterface Probe)
    (l : TransceiveLocals) :
    ∃ e1 l1 rx, transceive_txrx (probe_ops opts) ese l = .ok (e1, l1, rx) ∧
      transmit_calls e1.hw.calls = transmit_calls ese.hw.calls ++
        [.transmit ((hooked opts (sealed opts.node_address (l.frame l.tx)) 1).val.take
            ((hooked opts (sealed opts.node_address (l.frame l.tx)) 1).LEN + 4))
          ((hooked opts (sealed opts.node_address (l.frame l.tx)) 1).LEN + 4) 1] := by
  have ht := transmit_probe opts ese (l.frame l.tx)
  obtain ⟨e0, he0, hc0⟩ : ∃ e0 : EseInterface Probe,
      teq1_transmit (probe_ops opts) ese (l.frame l.tx) =
        .ok (0, e0, hooked opts (sealed opts.node_address (l.frame l.tx)) 1) ∧
      transmit_calls e0.hw.calls = transmit_calls ese.hw.calls ++
        [.transmit ((hooked opts (sealed opts.node_address (l.frame l.tx)) 1).val.take
            ((hooked opts (sealed opts.node_address (l.frame l.tx)) 1).LEN + 4))
          ((hooked opts (sealed opts.node_address (l.frame l.tx)) 1).LEN + 4) 1] :=
    ⟨_, ht, by simp [transmit_calls, List.filter_append]⟩
  unfold transceive_txrx
  rw [he0]
  simp only [probe_ops]
  rw [← probe_ops]
  obtain ⟨n, e1, f1, hrx, hc1⟩ := receive_probe_transmits opts e0
    (opts.bwt * ((({ l.setFrame l.tx (hooked opts (sealed opts.node_address (l.frame l.tx)) 1)
      with tx := (l.setFrame l.tx
        (hooked opts (sealed opts.node_address (l.frame l.tx)) 1)).active } :
      TransceiveLocals).state.wait_mult : Nat) : ℚ)) frame_ff
  rw [hrx]
  exact ⟨_, _, _, rfl, by rw [hc1, hc0]⟩

theorem memcpy_after (dst src : List Nat) (off n : Nat) (h : off + n ≤ dst.length)
    (hs : n ≤ src.length) : (memcpy dst off src n).drop (off + n) = dst.drop (off + n) := by
  unfold memcpy
  rw [List.drop_append_of_le_length (by simp; omega)]
  rw [List.drop_of_length_le (by simp; omega), List.nil_append]

/-- The receive cursor never moves back in `teq1_get_app_data` and the end of
the receive window stays where it is. -/
theorem get_app_data_rx (state : Teq1State) (frame : Teq1Frame) :
    state.app_data.rx_buf ≤ (teq1_get_app_data state frame).app_data.rx_buf ∧
    rx_end (teq1_get_app_data state frame) = rx_end state := by
  unfold teq1_get_app_data rx_end
  split
  · simp only []
    split_ifs <;> omega
  · exact ⟨le_refl _, rfl⟩

theorem fill_info_block_rx (state : Teq1State) (frame : Teq1Frame) :
    (teq1_fill_info_block state frame).2.1.app_data.rx_buf = state.app_data.rx_buf ∧
    (teq1_fill_info_block state frame).2.1.app_data.rx_len = state.app_data.rx_len ∧
    (teq1_fill_info_block state frame).2.1.app_data.rx_mem = state.app_data.rx_mem := by
  unfold teq1_fill_info_block
  simp only []
  split <;> exact ⟨rfl, rfl, rfl⟩

theorem switch_rx (state : Teq1State) (tx rx next : Teq1Frame) (e txrx : Nat)
    (res : RuleResult) (st : Teq1State) (nx : Teq1Frame)
    (h : teq1_rules_switch state tx rx next e txrx = some (res, st, nx)) :
    state.app_data.rx_buf ≤ st.app_data.rx_buf ∧ rx_end st = rx_end state := by
  have g := get_app_data_rx state rx
  unfold teq1_rules_switch at h
  generalize rule_arm txrx = a at h
  cases a <;> simp only [Option.some.injEq, Prod.mk.injEq] at h
  case default_ => exact absurd h (by simp)
  case chained_tx =>
    obtain ⟨-, rfl, -⟩ := h
    obtain ⟨f1, f2, -⟩ := fill_info_block_rx state
      { next with PCB := PCB_set_I_send_seq (I 0 0) (PCB_R_next_seq rx.PCB) }
    exact ⟨by rw [f1], by unfold rx_end; rw [f1, f2]⟩
  all_goals
    obtain ⟨-, rfl, -⟩ := h
    first | exact ⟨le_refl _, rfl⟩ | exact g

/-- One call of the rule engine never moves the receive cursor back and keeps
the end of the receive window. -/
theorem rules_loop_rx : ∀ (fuel : Nat) (state : Teq1State) (tx rx next : Teq1Frame)
    (txrx : Nat) (res : RuleResult) (st : Teq1State) (rx2 nx : Teq1Frame),
    teq1_rules_loop fuel state tx rx next txrx = some (res, st, rx2, nx) →
    state.app_data.rx_buf ≤ st.app_data.rx_buf ∧ rx_end st = rx_end state := by
  intro fuel
  induction fuel with
  | zero => intro state tx rx next txrx res st rx2 nx h; simp [teq1_rules_loop] at h
  | succ n ih =>
    intro state tx rx next txrx res st rx2 nx h
    obtain ⟨cs, hcs⟩ := error_check_state state tx rx
    rcases hchk : teq1_frame_error_check state tx rx with ⟨e, st1⟩
    rw [hchk] at hcs
    simp only at hcs
    subst hcs
    have hdone : ∀ x : Teq1State, x.app_data = state.app_data →
        state.app_data.rx_buf ≤ x.app_data.rx_buf ∧ rx_end x = rx_end state := by
      intro x hx
      unfold rx_end
      rw [hx]
      exact ⟨le_refl _, rfl⟩
    have hvia : ∀ x : Teq1State, x.app_data = state.app_data →
        (x.app_data.rx_buf ≤ st.app_data.rx_buf ∧ rx_end st = rx_end x) →
        state.app_data.rx_buf ≤ st.app_data.rx_buf ∧ rx_end st = rx_end state := by
      intro x hx hk
      unfold rx_end at hk ⊢
      rw [hx] at hk
      exact hk
    by_cases he : e = 0
    · subst he
      rw [rules_loop_ok n state _ tx rx next txrx hchk] at h
      rcases hsw : teq1_rules_switch { state with card_state := cs } tx rx next 0 txrx
        with _ | ⟨res1, st1, nx1⟩
      · rw [hsw] at h
        simp only [] at h
        split_ifs at h
        · exact hvia _ (by rfl) (ih _ _ _ _ _ _ _ _ _ h)
        · simp only [Option.some.injEq, Prod.mk.injEq] at h
          obtain ⟨-, rfl, -, -⟩ := h
          exact hdone _ rfl
      · rw [hsw] at h
        simp only [Option.some.injEq, Prod.mk.injEq] at h
        obtain ⟨-, rfl, -, -⟩ := h
        exact hvia _ (by rfl) (switch_rx _ _ _ _ _ _ _ _ _ hsw)
    · rw [rules_loop_err n state _ tx rx next txrx e hchk he] at h
      rcases hsw : teq1_rules_switch (count_error { state with card_state := cs }) tx rx next
          e (TEQ1_RULE tx.PCB 255) with _ | ⟨res1, st1, nx1⟩
      · rw [hsw] at h
        simp only [] at h
        split_ifs at h
        · simp only [Option.some.injEq, Prod.mk.injEq] at h
          obtain ⟨-, rfl, -, -⟩ := h
          exact hdone _ rfl
        · simp only [Option.some.injEq, Prod.mk.injEq] at h
          obtain ⟨-, rfl, -, -⟩ := h
          exact hdone _ rfl
        · exact hvia _ (by rfl) (ih _ _ _ _ _ _ _ _ _ h)
        · simp only [Option.some.injEq, Prod.mk.injEq] at h
          obtain ⟨-, rfl, -, -⟩ := h
          exact hdone _ rfl
      · rw [hsw] at h
        simp only [] at h
        split_ifs at h
        · simp only [Option.some.injEq, Prod.mk.injEq] at h
          obtain ⟨-, rfl, -, -⟩ := h
          exact hdone _ rfl
        · simp only [Option.some.injEq, Prod.mk.injEq] at h
          obtain ⟨-, rfl, -, -⟩ := h
          exact hdone _ rfl
        · simp only [Option.some.injEq, Prod.mk.injEq] at h
          obtain ⟨-, rfl, -, -⟩ := h
          exact hvia _ (by rfl) (switch_rx _ _ _ _ _ _ _ _ _ hsw)

/-- The first half of the loop body leaves the application data cursors, whatever
the hardware. -/
theorem txrx_app_data {H : Type} (ops : EseOperations H) (ese e1 : EseInterface H)
    (l l1 : TransceiveLocals) (rx : Teq1Frame)
    (h : transceive_txrx ops ese l = .ok (e1, l1, rx)) :
    l1.state.app_data = l.state.app_data := by
  unfold transceive_txrx at h
  split at h
  · simp at h
  · split at h
    · simp at h
    · simp only [] at h
      split at h
      · simp at h
      · simp only [Except.ok.injEq, Prod.mk.injEq] at h
        obtain ⟨-, rfl, -⟩ := h
        simp

theorem reset_rx {H : Type} (ese : EseInterface H) (l : TransceiveLocals)
    (init_state : Teq1State) :
    (transceive_reset ese l init_state).2.state.app_data.rx_buf = init_state.app_data.rx_buf ∧
    (transceive_reset ese l init_state).2.state.app_data.rx_len = init_state.app_data.rx_len := by
  unfold transceive_reset
  simp only [setFrame_state]
  exact ⟨(fill_info_block_rx _ _).1, (fill_info_block_rx _ _).2.1⟩

/-- The second half of the loop body, when the end of the receive window is the
caller's `rx_len` on entry and in `init_state`: a return hands back at most
`rx_len`, the receive cursor when the rule engine returned `Complete` and 0
otherwise; another round keeps the end of the receive window. -/
theorem dispatch_rx {H : Type} (ops : EseOperations H) (init_state : Teq1State)
    (rx_len fuel : Nat) (ese : EseInterface H) (l : TransceiveLocals) (rx_frame : Teq1Frame)
    (step : LoopStep H) (hinit : rx_end init_state = rx_len) (hinv : rx_end l.state = rx_len)
    (h : transceive_dispatch ops init_state rx_len fuel ese l rx_frame = .ok step) :
    ∃ res st rx nx, teq1_rules fuel { l.state with card_state := ese.card_state }
        (l.frame l.tx) rx_frame (l.frame (inot l.active)) = some (res, st, rx, nx) ∧
      (∀ r, step = .ret r → r.ret ≤ rx_len ∧
        (res = kRuleResultComplete → r.ret = st.app_data.rx_buf) ∧
        (res ≠ kRuleResultComplete → r.ret = 0)) ∧
      (∀ e2 l2, step = .again e2 l2 → rx_end l2.state = rx_len) := by
  rcases hr : teq1_rules fuel { l.state with card_state := ese.card_state }
      (l.frame l.tx) rx_frame (l.frame (inot l.active)) with _ | ⟨res, st, rx, nx⟩
  · unfold transceive_dispatch at h
    rw [hr] at h; simp at h
  refine ⟨res, st, rx, nx, rfl, ?_⟩
  have hst : rx_end st = rx_len := by
    have := (rules_loop_rx fuel _ _ _ _ _ res st rx nx hr).2
    rw [this]
    exact hinv
  unfold transceive_dispatch at h
  rw [hr] at h
  simp only [] at h
  have hfail : ∀ (e : EseInterface H) (l0 : TransceiveLocals) (code : Int),
      transceive_fail e l0 code = .ok step → res ≠ kRuleResultComplete →
      (∀ r, step = .ret r → r.ret ≤ rx_len ∧
        (res = kRuleResultComplete → r.ret = st.app_data.rx_buf) ∧
        (res ≠ kRuleResultComplete → r.ret = 0)) ∧
      (∀ e2 l2, step = .again e2 l2 → rx_end l2.state = rx_len) := by
    intro e l0 code hf hne
    obtain ⟨r, rfl, h0, -⟩ := fail_ret _ _ _ _ hf
    refine ⟨fun r2 h2 => ?_, fun e2 l2 h2 => by simp at h2⟩
    simp only [LoopStep.ret.injEq] at h2
    subst h2
    exact ⟨by omega, fun hc => absurd hc hne, fun _ => h0⟩
  have hagain : ∀ (e : EseInterface H) (l0 : TransceiveLocals),
      step = .again e l0 → rx_end l0.state = rx_len →
      (∀ r, step = .ret r → r.ret ≤ rx_len ∧
        (res = kRuleResultComplete → r.ret = st.app_data.rx_buf) ∧
        (res ≠ kRuleResultComplete → r.ret = 0)) ∧
      (∀ e2 l2, step = .again e2 l2 → rx_end l2.state = rx_len) := by
    intro e l0 hs hl
    subst hs
    refine ⟨fun r h2 => by simp at h2, fun e2 l2 h2 => ?_⟩
    simp only [LoopStep.again.injEq] at h2
    obtain ⟨-, rfl⟩ := h2
    exact hl
  cases res <;> simp only [] at h
  case kRuleResultComplete =>
    simp only [Except.ok.injEq] at h
    subst h
    refine ⟨fun r h2 => ?_, fun e2 l2 h2 => by simp at h2⟩
    simp only [LoopStep.ret.injEq] at h2
    subst h2
    simp only [setFrame_state]
    unfold rx_end at hst
    exact ⟨by omega, fun _ => by omega, fun hc => absurd rfl hc⟩
  case kRuleResultAbort => exact hfail _ _ _ h (by decide)
  case kRuleResultHardFail => exact hfail _ _ _ h (by decide)
  case kRuleResultContinue =>
    simp only [Except.ok.injEq] at h
    refine hagain _ _ h.symm ?_
    rw [(cont_facts l st nx).2.2.2.2.1]
    exact hst
  case kRuleResultSingleShot =>
    simp only [Except.ok.injEq] at h
    refine hagain _ _ h.symm ?_
    simp only [setFrame_state]
    exact hst
  case kRuleResultResetSession =>
    simp only [Except.ok.injEq] at h
    refine hagain _ _ h.symm ?_
    unfold rx_end
    rw [(reset_rx _ _ _).1, (reset_rx _ _ _).2]
    exact hinit
  case kRuleResultResetDevice =>
    split at h
    · exact hfail _ _ _ h (by decide)
    · split at h
      · exact hfail _ _ _ h (by decide)
      · split at h
        · exact hfail _ _ _ h (by decide)
        · simp only [Except.ok.injEq] at h
          refine hagain _ _ h.symm ?_
          unfold rx_end
          rw [(reset_rx _ _ _).1, (reset_rx _ _ _).2]
          exact hinit
  case kRuleResultRetransmit =>
    split at h
    · simp only [Except.ok.injEq] at h
      refine hagain _ _ h.symm ?_
      simp only [setFrame_state]
      exact hst
    · split at h
      · exact hfail _ _ _ h (by decide)
      · simp only [Except.ok.injEq] at h
        refine hagain _ _ h.symm ?_
        simp only [transceive_cont, setFrame_state]
        exact hst

/-- Every run of the exchange loop that returns hands back at most `rx_len`,
whatever the hardware. -/
theorem loop_rx {H : Type} (ops : EseOperations H) (init_state : Teq1State) (rx_len : Nat)
    (hinit : rx_end init_state = rx_len) :
    ∀ (fuel : Nat) (ese : EseInterface H) (l : TransceiveLocals) (r : TransceiveResult H),
      rx_end l.state = rx_len →
      teq1_transceive_loop ops init_state rx_len fuel ese l = .ok r → r.ret ≤ rx_len := by
  intro fuel
  induction fuel with
  | zero => intro ese l r _ h; simp [teq1_transceive_loop] at h
  | succ n ih =>
    intro ese l r hinv h
    rw [teq1_transceive_loop] at h
    unfold transceive_body at h
    rcases hx : transceive_txrx ops ese l with e | ⟨e1, l1, rx⟩
    · rw [hx] at h; simp at h
    rw [hx] at h
    simp only [] at h
    have hinv1 : rx_end l1.state = rx_len := by
      unfold rx_end
      rw [txrx_app_data ops ese e1 l l1 rx hx]
      exact hinv
    rcases hd : transceive_dispatch ops init_state rx_len (n + 1) e1 l1 rx with
      e | ⟨r1⟩ | ⟨e2, l2⟩
    · rw [hd] at h; simp at h
    · rw [hd] at h
      simp only [Except.ok.injEq] at h
      subst h
      obtain ⟨_, _, _, _, -, g, -⟩ := dispatch_rx ops init_state rx_len (n + 1) e1 l1 rx _
        hinit hinv1 hd
      exact (g _ rfl).1
    · rw [hd] at h
      simp only [] at h
      obtain ⟨_, _, _, _, -, -, g⟩ := dispatch_rx ops init_state rx_len (n + 1) e1 l1 rx _
        hinit hinv1 hd
      exact ih e2 l2 r (g _ _ rfl) h

theorem getD_of_take_succ (l m : List Nat) (n : Nat) (h : l.take (n + 1) = m.take (n + 1)) :
    l.getD n 0 = m.getD n 0 := by
  have h1 : (l.take (n + 1))[n]? = l[n]? := by
    rw [List.getElem?_take]; simp
  have h2 : (m.take (n + 1))[n]? = m[n]? := by
    rw [List.getElem?_take]; simp
  rw [List.getD_eq_getElem?_getD, List.getD_eq_getElem?_getD, ← h1, ← h2, h]

theorem take_of_take_succ (l m : List Nat) (n : Nat) (h : l.take (n + 1) = m.take (n + 1)) :
    l.take n = m.take n := by
  have := congrArg (List.take n) h
  simpa [List.take_take] using this

/-- The two hooks do the same: on the way out the LRC is stored with NAD read as
0 and NAD is set to the node address; on the way in NAD is set to 0. -/
theorem backend_hook_eq (pre : Teq1ProtocolOptionsData → Teq1Frame → Int → Int × Teq1Frame)
    (hpre : backend_hook pre) (opts : Teq1ProtocolOptionsData) (frame : Teq1Frame) :
    pre opts frame 1 = (0, { frame with
      NAD := opts.node_address
      INF := frame.INF.set frame.LEN (teq1_compute_LRC { frame with NAD := 0 }) }) ∧
    pre opts frame 0 = (0, { frame with NAD := 0 }) := by
  rcases hpre with rfl | rfl
  · exact ⟨rfl, rfl⟩
  · exact ⟨rfl, rfl⟩

/-- A frame whose byte `INF[LEN]` is the exclusive-or of PCB, LEN and the
payload passes the checksum comparison once NAD is 0. -/
theorem zero_nad_LRC (rx : Teq1Frame)
    (h : rx.INF.getD rx.LEN 0 = xor_all (rx.PCB :: rx.LEN :: rx.INF.take rx.LEN)) :
    ({ rx with NAD := 0 } : Teq1Frame).INF.getD ({ rx with NAD := 0 } : Teq1Frame).LEN 0
      = teq1_compute_LRC { rx with NAD := 0 } := by
  rw [compute_LRC_eq]
  show rx.INF.getD rx.LEN 0 = xor_all (0 :: rx.PCB :: rx.LEN :: rx.INF.take rx.LEN)
  rw [h, xor_all_cons 0, Nat.zero_xor]

theorem error_check_not_parity (state : Teq1State) (tx rx : Teq1Frame)
    (h : rx.INF.getD rx.LEN 0 = teq1_compute_LRC rx) :
    (teq1_frame_error_check state tx rx).1 ≠ R 0 0 1 := by
  unfold teq1_frame_error_check
  simp only []
  split_ifs <;> simp_all [R, TEQ1_R, kTeq1RrType]

theorem set_error_sets {H : Type} (ese e2 : EseInterface H) (code : Int)
    (h : ese_set_error_nonnull ese code = .ok e2) : e2.error.is_err = 1 := by
  unfold ese_set_error_nonnull at h
  simp only [] at h
  split_ifs at h <;> simp only [Except.ok.injEq] at h <;> subst h <;> rfl

theorem transmit_sticky {H : Type} (ops : EseOperations H) (hst : Sticky ops)
    (ese e1 : EseInterface H) (frame f1 : Teq1Frame) (n : Int)
    (herr : ese.error.is_err ≠ 0) (h : teq1_transmit ops ese frame = .ok (n, e1, f1)) :
    e1.error.is_err ≠ 0 := by
  unfold teq1_transmit at h
  split at h
  · simp at h
  · simp only [] at h
    split at h
    · simp at h
    · rename_i f hf
      simp only [Except.ok.injEq, Prod.mk.injEq] at h
      obtain ⟨-, rfl, -⟩ := h
      exact hst.1 f hf _ _ _ _ herr

theorem receive_sticky {H : Type} (ops : EseOperations H) (hst : Sticky ops)
    (ese e1 : EseInterface H) (frame f1 : Teq1Frame) (t : ℚ) (n : Int)
    (herr : ese.error.is_err ≠ 0) (h : teq1_receive ops ese t frame = .ok (n, e1, f1)) :
    e1.error.is_err ≠ 0 := by
  unfold teq1_receive at h
  split at h
  · simp at h
  · rename_i opts hopts
    split at h
    · simp at h
    · rename_i p hp
      simp only [] at h
      have h1 := hst.2.2.1 p hp ese opts.host_address t 0 herr
      split at h
      · simp only [Except.ok.injEq, Prod.mk.injEq] at h
        obtain ⟨-, rfl, -⟩ := h
        exact h1
      · split at h
        · simp at h
        · rename_i r hr
          have h2 := hst.2.1 r hr _ true (3 - 1) 0 h1
          split at h
          · simp only [Except.ok.injEq, Prod.mk.injEq] at h
            obtain ⟨-, rfl, -⟩ := h
            exact hst.2.1 r hr _ _ _ _ h2
          · simp only [Except.ok.injEq, Prod.mk.injEq] at h
            obtain ⟨-, rfl, -⟩ := h
            exact hst.2.1 r hr _ _ _ _ h2

theorem txrx_sticky {H : Type} (ops : EseOperations H) (hst : Sticky ops)
    (ese e1 : EseInterface H) (l l1 : TransceiveLocals) (rx : Teq1Frame)
    (herr : ese.error.is_err ≠ 0) (h : transceive_txrx ops ese l = .ok (e1, l1, rx)) :
    e1.error.is_err ≠ 0 := by
  unfold transceive_txrx at h
  split at h
  · simp at h
  · split at h
    · simp at h
    · rename_i n0 e0 f0 ht
      have h0 := transmit_sticky ops hst ese e0 _ f0 n0 herr ht
      simp only [] at h
      split at h
      · simp at h
      · rename_i n2 e2 f2 hrx
        simp only [Except.ok.injEq, Prod.mk.injEq] at h
        obtain ⟨rfl, -, -⟩ := h
        exact receive_sticky ops hst e0 e2 _ f2 _ n2 h0 hrx

/-- The second half of the loop body leaves the error flag set. -/
theorem dispatch_sticky {H : Type} (ops : EseOperations H) (hst : Sticky ops)
    (init_state : Teq1State) (rx_len fuel : Nat) (ese : EseInterface H)
    (l : TransceiveLocals) (rx_frame : Teq1Frame) (step : LoopStep H)
    (herr : ese.error.is_err ≠ 0)
    (h : transceive_dispatch ops init_state rx_len fuel ese l rx_frame = .ok step) :
    (∀ r, step = .ret r → r.ese.error.is_err ≠ 0) ∧
    (∀ e2 l2, step = .again e2 l2 → e2.error.is_err ≠ 0) := by
  rcases hr : teq1_rules fuel { l.state with card_state := ese.card_state }
      (l.frame l.tx) rx_frame (l.frame (inot l.active)) with _ | ⟨res, st, rx, nx⟩
  · unfold transceive_dispatch at h
    rw [hr] at h; simp at h
  unfold transceive_dispatch at h
  rw [hr] at h
  simp only [] at h
  have hfail : ∀ (e : EseInterface H) (l0 : TransceiveLocals) (code : Int),
      transceive_fail e l0 code = .ok step →
      (∀ r, step = .ret r → r.ese.error.is_err ≠ 0) ∧
      (∀ e2 l2, step = .again e2 l2 → e2.error.is_err ≠ 0) := by
    intro e l0 code hf
    obtain ⟨r, rfl, -, h1, -⟩ := fail_ret _ _ _ _ hf
    refine ⟨fun r2 h2 => ?_, fun e2 l2 h2 => by simp at h2⟩
    simp only [LoopStep.ret.injEq] at h2
    subst h2
    rw [h1]; decide
  have hagain : ∀ (e : EseInterface H) (l0 : TransceiveLocals),
      step = .again e l0 → e.error.is_err ≠ 0 →
      (∀ r, step = .ret r → r.ese.error.is_err ≠ 0) ∧
      (∀ e2 l2, step = .again e2 l2 → e2.error.is_err ≠ 0) := by
    intro e l0 hs he
    subst hs
    refine ⟨fun r h2 => by simp at h2, fun e2 l2 h2 => ?_⟩
    simp only [LoopStep.again.injEq] at h2
    obtain ⟨rfl, -⟩ := h2
    exact he
  cases res <;> simp only [] at h
  case kRuleResultComplete =>
    simp only [Except.ok.injEq] at h
    subst h
    refine ⟨fun r h2 => ?_, fun e2 l2 h2 => by simp at h2⟩
    simp only [LoopStep.ret.injEq] at h2
    subst h2
    exact herr
  case kRuleResultAbort => exact hfail _ _ _ h
  case kRuleResultHardFail => exact hfail _ _ _ h
  case kRuleResultContinue =>
    simp only [Except.ok.injEq] at h
    exact hagain _ _ h.symm herr
  case kRuleResultSingleShot =>
    simp only [Except.ok.injEq] at h
    exact hagain _ _ h.symm herr
  case kRuleResultResetSession =>
    simp only [Except.ok.injEq] at h
    exact hagain _ _ h.symm herr
  case kRuleResultResetDevice =>
    split at h
    · exact hfail _ _ _ h
    · split at h
      · exact hfail _ _ _ h
      · rename_i f hf
        split at h
        · exact hfail _ _ _ h
        · simp only [Except.ok.injEq] at h
          refine hagain _ _ h.symm ?_
          exact hst.2.2.2.1 f hf _ herr
  case kRuleResultRetransmit =>
    split at h
    · simp only [Except.ok.injEq] at h
      exact hagain _ _ h.symm herr
    · split at h
      · exact hfail _ _ _ h
      · simp only [Except.ok.injEq] at h
        exact hagain _ _ h.symm herr

/-- The exchange loop leaves the error flag set. -/
theorem loop_sticky {H : Type} (ops : EseOperations H) (hst : Sticky ops)
    (init_state : Teq1State) (rx_len : Nat) :
    ∀ (fuel : Nat) (ese : EseInterface H) (l : TransceiveLocals) (r : TransceiveResult H),
      ese.error.is_err ≠ 0 →
      teq1_transceive_loop ops init_state rx_len fuel ese l = .ok r →
      r.ese.error.is_err ≠ 0 := by
  intro fuel
  induction fuel with
  | zero => intro ese l r _ h; simp [teq1_transceive_loop] at h
  | succ n ih =>
    intro ese l r herr h
    rw [teq1_transceive_loop] at h
    unfold transceive_body at h
    rcases hx : transceive_txrx ops ese l with e | ⟨e1, l1, rx⟩
    · rw [hx] at h; simp at h
    rw [hx] at h
    simp only [] at h
    have h1 := txrx_sticky ops hst ese e1 l l1 rx herr hx
    rcases hd : transceive_dispatch ops init_state rx_len (n + 1) e1 l1 rx with
      e | ⟨r1⟩ | ⟨e2, l2⟩
    · rw [hd] at h; simp at h
    · rw [hd] at h
      simp only [Except.ok.injEq] at h
      subst h
      exact (dispatch_sticky ops hst init_state rx_len (n + 1) e1 l1 rx _ h1 hd).1 _ rfl
    · rw [hd] at h
      simp only [] at h
      exact ih e2 l2 r
        ((dispatch_sticky ops hst init_state rx_len (n + 1) e1 l1 rx _ h1 hd).2 _ _ rfl) h

theorem transceive_sticky {H : Type} (ops : EseOperations H) (hst : Sticky ops)
    (fuel : Nat) (ese : EseInterface H) (tx_buf rx_mem : List Nat) (tx_len rx_len : Nat)
    (stack0 stack1 : Teq1Frame) (r : TransceiveResult H) (herr : ese.error.is_err ≠ 0)
    (h : teq1_transceive fuel ops ese tx_buf tx_len rx_mem rx_len stack0 stack1 = .ok r) :
    r.ese.error.is_err ≠ 0 := by
  unfold teq1_transceive teq1_transceive_from at h
  exact loop_sticky ops hst _ rx_len fuel ese _ r herr h

/-- The error counter over one call of `teq1_rules` that returns: +1 for a
block the error check rejects, +2 when it is counted twice, +0 for an accepted
block with a rule, +1 for an accepted block without one. -/
theorem rules_error_count (fuel : Nat) (state st : Teq1State) (tx rx next rx2 nx : Teq1Frame)
    (res : RuleResult)
    (h : teq1_rules (fuel + 2) state tx rx next = some (res, st, rx2, nx)) :
    ((teq1_frame_error_check state tx rx).1 ≠ 0 → ¬ counted_twice state tx rx →
      st.errors = state.errors + 1) ∧
    (counted_twice state tx rx → st.errors = state.errors + 2) ∧
    ((teq1_frame_error_check state tx rx).1 = 0 →
      rule_arm (TEQ1_RULE tx.PCB rx.PCB) ≠ default_ → st.errors = state.errors) ∧
    ((teq1_frame_error_check state tx rx).1 = 0 →
      rule_arm (TEQ1_RULE tx.PCB rx.PCB) = default_ → st.errors = state.errors + 1) ∧
    st.errors ≤ state.errors + 2 ∧
    (tx.PCB < 256 →
      (rule_arm (TEQ1_RULE tx.PCB 255) = default_ ↔ tx.PCB ∉ sentinel_rule_pcbs)) := by
  have hce := error_check_errors state tx rx
  have key : (counted_twice state tx rx ∧ st.errors = state.errors + 2) ∨
      (¬ counted_twice state tx rx ∧ (teq1_frame_error_check state tx rx).1 ≠ 0 ∧
        st.errors = state.errors + 1) ∨
      ((teq1_frame_error_check state tx rx).1 = 0 ∧
        rule_arm (TEQ1_RULE tx.PCB rx.PCB) ≠ default_ ∧ st.errors = state.errors) ∨
      ((teq1_frame_error_check state tx rx).1 = 0 ∧
        rule_arm (TEQ1_RULE tx.PCB rx.PCB) = default_ ∧ st.errors = state.errors + 1) := by
    by_cases he : (teq1_frame_error_check state tx rx).1 = 0
    · right; right
      by_cases harm : rule_arm (TEQ1_RULE tx.PCB rx.PCB) = default_
      · right
        rw [rules_no_rule fuel state tx rx next he harm] at h
        obtain ⟨res1, st1, nx1, h1, h2⟩ := rules_loop_sentinel_errors fuel
          (teq1_frame_error_check state tx rx).2 tx { rx with PCB := 255 } next
          (TEQ1_RULE tx.PCB rx.PCB) rfl
        rw [h1] at h
        simp only [Option.some.injEq, Prod.mk.injEq] at h
        obtain ⟨-, rfl, -, -⟩ := h
        exact ⟨he, harm, by rw [h2, hce]⟩
      · left
        unfold teq1_rules at h
        rw [rules_loop_ok (fuel + 1) state (teq1_frame_error_check state tx rx).2 tx rx next _
          (by rw [← he])] at h
        rcases hsw : teq1_rules_switch (teq1_frame_error_check state tx rx).2 tx rx next 0
            (TEQ1_RULE tx.PCB rx.PCB) with _ | ⟨res1, st1, nx1⟩
        · exact absurd ((switch_none_iff _ _ _ _ _ _).1 hsw) harm
        · rw [hsw] at h
          simp only [Option.some.injEq, Prod.mk.injEq] at h
          obtain ⟨-, rfl, -, -⟩ := h
          exact ⟨he, harm, by rw [switch_errors _ _ _ _ _ _ _ _ _ hsw, hce]⟩
    · unfold teq1_rules at h
      rw [rules_loop_err (fuel + 1) state (teq1_frame_error_check state tx rx).2 tx rx next _
        (teq1_frame_error_check state tx rx).1 rfl he] at h
      rw [hce] at h
      by_cases h6 : state.errors + 1 ≥ 6
      · rw [if_pos h6] at h
        simp only [Option.some.injEq, Prod.mk.injEq] at h
        obtain ⟨-, rfl, -, -⟩ := h
        right; left
        refine ⟨fun hc => ?_, he, by simp [count_error, hce]⟩
        have := hc.2.2.1
        omega
      rw [if_neg h6] at h
      by_cases h3 : state.errors + 1 ≥ 3
      · rw [if_pos h3] at h
        simp only [Option.some.injEq, Prod.mk.injEq] at h
        obtain ⟨-, rfl, -, -⟩ := h
        right; left
        refine ⟨fun hc => ?_, he, by simp [count_error, hce]⟩
        have := hc.2.2.1
        omega
      rw [if_neg h3] at h
      rcases hsw : teq1_rules_switch (count_error (teq1_frame_error_check state tx rx).2) tx rx
          next (teq1_frame_error_check state tx rx).1 (TEQ1_RULE tx.PCB 255)
          with _ | ⟨res1, st1, nx1⟩
      · have harm := (switch_none_iff _ _ _ _ _ _).1 hsw
        rw [hsw] at h
        simp only [] at h
        by_cases hp : rx.PCB = 255
        · rw [if_neg (by simp [hp])] at h
          simp only [Option.some.injEq, Prod.mk.injEq] at h
          obtain ⟨-, rfl, -, -⟩ := h
          right; left
          exact ⟨fun hc => hc.2.1 hp, he, by simp [count_error, hce]⟩
        · rw [if_pos hp] at h
          obtain ⟨res1, st1, nx1, h1, h2⟩ := rules_loop_sentinel_errors fuel
            (count_error (teq1_frame_error_check state tx rx).2) tx { rx with PCB := 255 } next
            (TEQ1_RULE tx.PCB 255) rfl
          rw [h1] at h
          simp only [Option.some.injEq, Prod.mk.injEq] at h
          obtain ⟨-, rfl, -, -⟩ := h
          left
          refine ⟨⟨he, hp, by omega, harm⟩, ?_⟩
          rw [h2]
          simp [count_error, hce]
      · rw [hsw] at h
        simp only [Option.some.injEq, Prod.mk.injEq] at h
        obtain ⟨-, rfl, -, -⟩ := h
        right; left
        refine ⟨fun hc => ?_, he, ?_⟩
        · rw [(switch_none_iff _ _ _ _ _ _).2 hc.2.2.2] at hsw
          exact absurd hsw (by simp)
        · rw [switch_errors _ _ _ _ _ _ _ _ _ hsw]
          simp [count_error, hce]
  refine ⟨?_, ?_, ?_, ?_, ?_, ?_⟩
  · intro he hn
    rcases key with ⟨hc, -⟩ | ⟨-, -, h1⟩ | ⟨h0, -, -⟩ | ⟨h0, -, -⟩
    · exact absurd hc hn
    · exact h1
    · exact absurd h0 he
    · exact absurd h0 he
  · intro hc
    rcases key with ⟨-, h2⟩ | ⟨hn, -, -⟩ | ⟨h0, -, -⟩ | ⟨h0, -, -⟩
    · exact h2
    · exact absurd hc hn
    · exact absurd h0 hc.1
    · exact absurd h0 hc.1
  · intro h0 harm
    rcases key with ⟨hc, -⟩ | ⟨-, he, -⟩ | ⟨-, -, h1⟩ | ⟨-, hd, -⟩
    · exact absurd h0 hc.1
    · exact absurd h0 he
    · exact h1
    · exact absurd hd harm
  · intro h0 harm
    rcases key with ⟨hc, -⟩ | ⟨-, he, -⟩ | ⟨-, hd, -⟩ | ⟨-, -, h1⟩
    · exact absurd h0 hc.1
    · exact absurd h0 he
    · exact absurd harm hd
    · exact h1
  · rcases key with ⟨-, h2⟩ | ⟨-, -, h1⟩ | ⟨-, -, h1⟩ | ⟨-, -, h1⟩ <;> omega
  · intro hb
    exact sentinel_rule_fin ⟨tx.PCB, hb⟩

/-- The conversion of a count to `int`: the count itself below 2^31, and -1
exactly for the counts whose low 32 bits are all set. -/
theorem int_of_size_t_minus_one (n : Nat) :
    int_of_size_t n = -1 ↔ n % 2 ^ 32 = 2 ^ 32 - 1 := by
  unfold int_of_size_t
  simp only []
  have hm : n % 2 ^ 32 < 2 ^ 32 := Nat.mod_lt n (by decide)
  generalize n % 2 ^ 32 = m at hm ⊢
  have h32 : (2 : Int) ^ 32 = 4294967296 := by norm_num
  have h31 : (2 : Nat) ^ 31 = 2147483648 := by norm_num
  have h32n : (2 : Nat) ^ 32 = 4294967296 := by norm_num
  rw [h31]
  rw [h32n] at hm ⊢
  split_ifs with h
  · constructor
    · intro h1
      exact h1.elim
    · intro h1; omega
  · rw [h32]
    constructor
    · intro h1; omega
    · intro h1; omega

/-- The tail of `ese_transceive`: -1 when the error flag is set, otherwise the
count converted to `int`. -/
theorem finish_result {H : Type} (recvd : Nat) (ese : EseInterface H)
    (rx_buf : Option (List Nat)) :
    ∃ ret, ese_transceive_finish recvd ese rx_buf = .ok (ret, some ese, rx_buf) ∧
      (ese.error.is_err ≠ 0 → ret = -1) ∧
      (ese.error.is_err = 0 → ret = int_of_size_t recvd) ∧
      (ret = -1 ↔ ese.error.is_err ≠ 0 ∨ recvd % 2 ^ 32 = 2 ^ 32 - 1) ∧
      (ese.error.is_err = 0 → recvd < 2 ^ 31 → ret = (recvd : Int)) := by
  unfold ese_transceive_finish
  by_cases he : ese.error.is_err ≠ 0
  · rw [if_pos he]
    exact ⟨_, rfl, fun _ => rfl, fun h => absurd h he, ⟨fun _ => Or.inl he, fun _ => rfl⟩,
      fun h => absurd h he⟩
  · rw [if_neg he]
    have he0 : ese.error.is_err = 0 := by
      by_contra h; exact he h
    refine ⟨_, rfl, fun h => absurd h he, fun _ => rfl, ⟨fun h => Or.inr ?_, fun h => ?_⟩,
      fun _ hs => int_of_size_t_small recvd hs⟩
    · exact (int_of_size_t_minus_one recvd).1 h
    · rcases h with h | h
      · exact absurd h he
      · exact (int_of_size_t_minus_one recvd).2 h

theorem transceive_from_start {H : Type} (fuel : Nat) (ops : EseOperations H)
    (ese : EseInterface H) (init_state : Teq1State) (rx_len : Nat) (stack0 stack1 : Teq1Frame) :
    teq1_transceive_from fuel ops ese init_state rx_len stack0 stack1
      = teq1_transceive_loop ops init_state rx_len fuel ese
          (transceive_start ese init_state stack0 stack1) := rfl

/-- The configuration `loop_config` gives is the one the loop continues
from. -/
theorem loop_config_loop {H : Type} (ops : EseOperations H) (init_state : Teq1State)
    (rx_len : Nat) : ∀ (k fuel : Nat) (ese e2 : EseInterface H) (l l2 : TransceiveLocals),
    loop_config ops init_state rx_len fuel k ese l = some (e2, l2) →
    k ≤ fuel ∧ teq1_transceive_loop ops init_state rx_len fuel ese l
      = teq1_transceive_loop ops init_state rx_len (fuel - k) e2 l2 := by
  intro k
  induction k with
  | zero =>
    intro fuel ese e2 l l2 h
    cases fuel <;> simp only [loop_config, Option.some.injEq, Prod.mk.injEq] at h <;>
      obtain ⟨rfl, rfl⟩ := h <;> exact ⟨Nat.zero_le _, rfl⟩
  | succ k ih =>
    intro fuel ese e2 l l2 h
    cases fuel with
    | zero => simp [loop_config] at h
    | succ fuel =>
      simp only [loop_config] at h
      rcases hb : transceive_body ops init_state rx_len (fuel + 1) ese l with e | x
      · rw [hb] at h; simp at h
      · rw [hb] at h
        cases x with
        | ret r => simp at h
        | again e3 l3 =>
          simp only [] at h
          obtain ⟨hk, hl⟩ := ih fuel e3 e2 l3 l2 h
          refine ⟨by omega, ?_⟩
          rw [teq1_transceive_loop, hb]
          simp only []
          rw [hl]
          congr 1
          omega

/-- What the first half of the loop body keeps: the active index and the
counters, and it leaves `tx` on the active frame. -/
theorem txrx_counters {H : Type} (ops : EseOperations H) (ese e1 : EseInterface H)
    (l l1 : TransceiveLocals) (rx : Teq1Frame)
    (h : transceive_txrx ops ese l = .ok (e1, l1, rx)) :
    l1.active = l.active ∧ l1.tx = l.active ∧
    l1.state.retransmits = l.state.retransmits ∧ l1.state.errors = l.state.errors ∧
    l1.was_reset = l.was_reset ∧
    (l.tx = l.active → ∃ n e f, teq1_transmit ops ese (l.frame l.active) = .ok (n, e, f) ∧
      l1.frame l.active = f) ∧
    (l.tx = inot l.active → l1.frame l.active = l.frame l.active) := by
  unfold transceive_txrx at h
  split at h
  · simp at h
  · split at h
    · simp at h
    · rename_i n0 e0 f0 ht
      simp only [] at h
      split at h
      · simp at h
      · simp only [Except.ok.injEq, Prod.mk.injEq] at h
        obtain ⟨-, rfl, -⟩ := h
        refine ⟨?_, ?_, ?_, ?_, ?_, ?_, ?_⟩
        · by_cases h0 : l.active = 0 <;> by_cases h1 : l.tx = 0 <;>
            simp [h0, h1, TransceiveLocals.setFrame, inot]
        · by_cases h0 : l.active = 0 <;> by_cases h1 : l.tx = 0 <;>
            simp [h0, h1, TransceiveLocals.setFrame, inot]
        · by_cases h0 : l.active = 0 <;> by_cases h1 : l.tx = 0 <;>
            simp [h0, h1, TransceiveLocals.setFrame, inot]
        · by_cases h0 : l.active = 0 <;> by_cases h1 : l.tx = 0 <;>
            simp [h0, h1, TransceiveLocals.setFrame, inot]
        · by_cases h0 : l.active = 0 <;> by_cases h1 : l.tx = 0 <;>
            simp [h0, h1, TransceiveLocals.setFrame, inot]
        · intro htx
          rw [htx] at ht
          refine ⟨n0, e0, f0, ht, ?_⟩
          by_cases h0 : l.active = 0 <;>
            simp [h0, htx, TransceiveLocals.frame, TransceiveLocals.setFrame, inot]
        · intro htx
          by_cases h0 : l.active = 0 <;> by_cases h1 : l.tx = 0 <;>
            simp_all [TransceiveLocals.frame, TransceiveLocals.setFrame, inot]

theorem inot_ne (a : Nat) : inot a ≠ a := by
  unfold inot
  by_cases h : a = 0
  · simp [h]
  · simp only [h, if_false]
    exact fun h2 => h h2.symm

/-- After the `switch (result)` has gone round again, the retransmit counter is
0, or the active frame is unchanged and the counter was raised by one by a
`Retransmit` outcome below 3 or left alone by another outcome. -/
theorem dispatch_again_retransmits {H : Type} (ops : EseOperations H) (init_state : Teq1State)
    (rx_len fuel : Nat) (ese : EseInterface H) (l : TransceiveLocals) (rx_frame : Teq1Frame)
    (res : RuleResult) (st : Teq1State) (rx nx : Teq1Frame)
    (hinit : init_state.retransmits = 0)
    (hr : teq1_rules fuel { l.state with card_state := ese.card_state }
      (l.frame l.tx) rx_frame (l.frame (inot l.active)) = some (res, st, rx, nx))
    (e2 : EseInterface H) (l2 : TransceiveLocals)
    (hd : transceive_dispatch ops init_state rx_len fuel ese l rx_frame = .ok (.again e2 l2)) :
    l2.state.retransmits = 0 ∨
      (l2.active = l.active ∧ l2.frame l.active = l.frame l.active ∧
        ((res = kRuleResultRetransmit ∧ l.state.retransmits < 3 ∧
            l2.state.retransmits = l.state.retransmits + 1 ∧ l2.tx = l.tx ∧
            e2 = { ese with card_state := st.card_state }) ∨
         (res ≠ kRuleResultRetransmit ∧ l2.state.retransmits = l.state.retransmits))) := by
  have hst : st.retransmits = l.state.retransmits := by
    have k := rules_loop_retransmits fuel { l.state with card_state := ese.card_state }
      (l.frame l.tx) rx_frame (l.frame (inot l.active))
      (TEQ1_RULE (l.frame l.tx).PCB rx_frame.PCB) res st rx nx hr
    exact k
  unfold transceive_dispatch at hd
  rw [hr] at hd
  cases res <;> simp only [] at hd
  case kRuleResultComplete => simp at hd
  case kRuleResultAbort =>
    obtain ⟨r, hx, -⟩ := fail_ret _ _ _ _ hd
    simp at hx
  case kRuleResultHardFail =>
    obtain ⟨r, hx, -⟩ := fail_ret _ _ _ _ hd
    simp at hx
  case kRuleResultContinue =>
    simp only [Except.ok.injEq, LoopStep.again.injEq] at hd
    obtain ⟨-, rfl⟩ := hd
    left
    rw [(cont_facts l st nx).2.2.2.2.1]
  case kRuleResultSingleShot =>
    simp only [Except.ok.injEq, LoopStep.again.injEq] at hd
    obtain ⟨-, rfl⟩ := hd
    right
    obtain ⟨s1, -, -, s4, s5, -⟩ := shot_facts l st nx
    exact ⟨s1, s4, Or.inr ⟨by simp, by rw [s5, hst]⟩⟩
  case kRuleResultResetSession =>
    simp only [Except.ok.injEq, LoopStep.again.injEq] at hd
    obtain ⟨-, rfl⟩ := hd
    left
    rw [reset_retransmits, hinit]
  case kRuleResultResetDevice =>
    split at hd
    · obtain ⟨r, hx, -⟩ := fail_ret _ _ _ _ hd
      simp at hx
    · split at hd
      · obtain ⟨r, hx, -⟩ := fail_ret _ _ _ _ hd
        simp at hx
      · split at hd
        · obtain ⟨r, hx, -⟩ := fail_ret _ _ _ _ hd
          simp at hx
        · simp only [Except.ok.injEq, LoopStep.again.injEq] at hd
          obtain ⟨-, rfl⟩ := hd
          left
          rw [reset_retransmits, hinit]
  case kRuleResultRetransmit =>
    split at hd
    · rename_i hlt
      simp only [Except.ok.injEq, LoopStep.again.injEq] at hd
      obtain ⟨rfl, rfl⟩ := hd
      right
      have hlt' : st.retransmits < 3 := by simpa using hlt
      refine ⟨?_, ?_, Or.inl ⟨rfl, by rw [← hst]; exact hlt', ?_, ?_, rfl⟩⟩
      · by_cases h0 : l.active = 0 <;>
          simp [h0, TransceiveLocals.setFrame, inot]
      · by_cases h0 : l.active = 0 <;>
          simp [h0, TransceiveLocals.frame, TransceiveLocals.setFrame, inot]
      · simp [hst]
      · by_cases h0 : l.active = 0 <;>
          simp [h0, TransceiveLocals.setFrame, inot]
    · split at hd
      · obtain ⟨r, hx, -⟩ := fail_ret _ _ _ _ hd
        simp at hx
      · simp only [Except.ok.injEq, LoopStep.again.injEq] at hd
        obtain ⟨-, rfl⟩ := hd
        left
        simp [transceive_cont]

/-- The three exits of `case kRuleResultRetransmit`. -/
theorem dispatch_retransmit_cases {H : Type} (ops : EseOperations H) (init_state : Teq1State)
    (rx_len fuel : Nat) (ese : EseInterface H) (l : TransceiveLocals) (rx_frame : Teq1Frame)
    (st : Teq1State) (rx nx : Teq1Frame) (htx : l.tx = l.active)
    (hr : teq1_rules fuel { l.state with card_state := ese.card_state }
      (l.frame l.tx) rx_frame (l.frame (inot l.active))
        = some (kRuleResultRetransmit, st, rx, nx)) :
    (l.state.retransmits < 3 →
      ∃ l2, transceive_dispatch ops init_state rx_len fuel ese l rx_frame
          = .ok (.again { ese with card_state := st.card_state } l2) ∧
        l2.tx = l.active ∧ l2.active = l.active ∧ l2.frame l.active = l.frame l.active ∧
        l2.state.retransmits = l.state.retransmits + 1) ∧
    (3 ≤ l.state.retransmits → (l.frame l.active).PCB = S RESYNC REQUEST →
      0 < ese.errors_count →
      ∃ r, transceive_dispatch ops init_state rx_len fuel ese l rx_frame = .ok (.ret r) ∧
        r.ret = 0 ∧ r.ese.error.is_err = 1 ∧ r.ese.error.code = TEQ1_ERROR_HARD_FAIL) ∧
    (3 ≤ l.state.retransmits → (l.frame l.active).PCB ≠ S RESYNC REQUEST →
      ∃ l2, transceive_dispatch ops init_state rx_len fuel ese l rx_frame
          = .ok (.again { ese with card_state := st.card_state } l2) ∧
        l2.active = inot l.active ∧ l2.tx = inot l.active ∧
        (l2.frame (inot l.active)).PCB = S RESYNC REQUEST ∧ l2.state.retransmits = 0 ∧
        l2.state.errors = 0) := by
  have hst : st.retransmits = l.state.retransmits := by
    have k := rules_loop_retransmits fuel { l.state with card_state := ese.card_state }
      (l.frame l.tx) rx_frame (l.frame (inot l.active))
      (TEQ1_RULE (l.frame l.tx).PCB rx_frame.PCB) _ st rx nx hr
    exact k
  refine ⟨?_, ?_, ?_⟩
  · intro hlt
    have hlt' : st.retransmits < 3 := by rw [hst]; exact hlt
    unfold transceive_dispatch
    rw [hr]
    by_cases h0 : l.active = 0 <;>
      simp_all [TransceiveLocals.frame, TransceiveLocals.setFrame, inot]
  · intro hge hpcb hcount
    have hge' : ¬ l.state.retransmits < 3 := by omega
    have hcount' : ¬ ese.errors_count ≤ 0 := by omega
    unfold transceive_dispatch
    rw [hr]
    by_cases h0 : l.active = 0 <;>
      simp_all [TransceiveLocals.frame, TransceiveLocals.setFrame, inot, transceive_fail,
        ese_set_error_nonnull, TEQ1_ERROR_HARD_FAIL] <;>
      rw [if_neg (by omega)] <;>
      exact ⟨_, rfl, rfl, rfl, rfl⟩
  · intro hge hpcb
    have hge' : ¬ l.state.retransmits < 3 := by omega
    unfold transceive_dispatch
    rw [hr]
    by_cases h0 : l.active = 0 <;>
      simp_all [TransceiveLocals.frame, TransceiveLocals.setFrame, inot, transceive_cont] <;>
      rw [if_neg (by omega)] <;>
      exact ⟨_, rfl, rfl, rfl, rfl, rfl, rfl⟩

/-- What one resending iteration does: it is an iteration of the loop body, it
found the counter below 3 and raised it by one, and it left the active frame
and `tx` in place. -/
theorem resend_step_facts {H : Type} (ops : EseOperations H) (init_state : Teq1State)
    (rx_len fuel : Nat) (ese e2 : EseInterface H) (l l2 : TransceiveLocals)
    (h : resend_step ops init_state rx_len fuel ese l = some (e2, l2)) :
    transceive_body ops init_state rx_len fuel ese l = .ok (.again e2 l2) ∧
    l.state.retransmits < 3 ∧ l2.state.retransmits = l.state.retransmits + 1 ∧
    l2.active = l.active ∧ l2.tx = l.active := by
  unfold resend_step at h
  rcases hx : transceive_txrx ops ese l with e | ⟨e1, l1, rx⟩
  · rw [hx] at h; simp at h
  · rw [hx] at h
    simp only [] at h
    obtain ⟨t1, t2, t3, -, -, -, -⟩ := txrx_counters ops ese e1 l l1 rx hx
    rcases hr : teq1_rules fuel { l1.state with card_state := e1.card_state }
        (l1.frame l1.tx) rx (l1.frame (inot l1.active)) with _ | ⟨res, st, rx2, nx⟩
    · rw [hr] at h; simp at h
    · rw [hr] at h
      simp only [] at h
      split_ifs at h with hres
      subst hres
      rcases hd : transceive_dispatch ops init_state rx_len fuel e1 l1 rx with e | x
      · rw [hd] at h; simp at h
      · rw [hd] at h
        cases x with
        | ret r => simp at h
        | again e3 l3 =>
          simp only [] at h
          split_ifs at h with hact
          simp only [Option.some.injEq, Prod.mk.injEq] at h
          obtain ⟨rfl, rfl⟩ := h
          have hst : st.retransmits = l1.state.retransmits :=
            rules_loop_retransmits fuel { l1.state with card_state := e1.card_state }
              (l1.frame l1.tx) rx (l1.frame (inot l1.active))
              (TEQ1_RULE (l1.frame l1.tx).PCB rx.PCB) _ st rx2 nx hr
          refine ⟨by rw [transceive_body, hx]; exact hd, ?_⟩
          unfold transceive_dispatch at hd
          rw [hr] at hd
          simp only [] at hd
          split at hd
          · rename_i hlt
            simp only [Except.ok.injEq, LoopStep.again.injEq] at hd
            obtain ⟨-, rfl⟩ := hd
            have hlt' : st.retransmits < 3 := by simpa using hlt
            refine ⟨by omega, ?_, ?_, ?_⟩
            · by_cases h0 : l1.active = 0 <;>
                simp [h0, TransceiveLocals.setFrame, inot] <;> omega
            · rw [← t1]
              by_cases h0 : l1.active = 0 <;>
                simp [h0, TransceiveLocals.setFrame, inot]
            · rw [← t2]
              by_cases h0 : l1.active = 0 <;>
                simp [h0, TransceiveLocals.setFrame, inot]
          · split at hd
            · obtain ⟨r, hx2, -⟩ := fail_ret _ _ _ _ hd
              simp at hx2
            · simp only [Except.ok.injEq, LoopStep.again.injEq] at hd
              obtain ⟨-, rfl⟩ := hd
              exfalso
              by_cases h0 : l1.active = 0
              · simp [h0, TransceiveLocals.setFrame, inot, transceive_cont] at hact
              · simp [h0, TransceiveLocals.setFrame, inot, transceive_cont] at hact
                exact h0 hact.symm

/-- A streak of resending iterations is a stretch of the loop, raises the
counter by its length from a value that stays at most 3, and leaves the active
frame in place. -/
theorem resend_streak_facts {H : Type} (ops : EseOperations H) (init_state : Teq1State)
    (rx_len : Nat) : ∀ (m fuel : Nat) (ese e2 : EseInterface H) (l l2 : TransceiveLocals),
    resend_streak ops init_state rx_len fuel m ese l = some (e2, l2) →
    loop_config ops init_state rx_len fuel m ese l = some (e2, l2) ∧
    l2.state.retransmits = l.state.retransmits + m ∧ l2.active = l.active ∧
    (0 < m → l2.state.retransmits ≤ 3 ∧ l2.tx = l2.active) := by
  intro m
  induction m with
  | zero =>
    intro fuel ese e2 l l2 h
    cases fuel <;> simp only [resend_streak, Option.some.injEq, Prod.mk.injEq] at h <;>
      obtain ⟨rfl, rfl⟩ := h <;>
      exact ⟨by simp [loop_config], rfl, rfl, fun h0 => absurd h0 (by decide)⟩
  | succ m ih =>
    intro fuel ese e2 l l2 h
    cases fuel with
    | zero => simp [resend_streak] at h
    | succ fuel =>
      simp only [resend_streak] at h
      rcases hs : resend_step ops init_state rx_len (fuel + 1) ese l with _ | ⟨e3, l3⟩
      · rw [hs] at h; simp at h
      · rw [hs] at h
        simp only [] at h
        obtain ⟨b1, b2, b3, b4, b5⟩ := resend_step_facts ops init_state rx_len _ ese e3 l l3 hs
        obtain ⟨i1, i2, i3, i4⟩ := ih fuel e3 e2 l3 l2 h
        refine ⟨?_, by omega, by rw [i3, b4], fun _ => ?_⟩
        · simp only [loop_config, b1]
          exact i1
        · rcases Nat.eq_zero_or_pos m with hm | hm
          · subst hm
            cases fuel <;> simp only [resend_streak, Option.some.injEq, Prod.mk.injEq] at h <;>
              obtain ⟨rfl, rfl⟩ := h <;> exact ⟨by omega, by rw [b5, b4]⟩
          · exact i4 hm

theorem loop_config_append {H : Type} (ops : EseOperations H) (init_state : Teq1State)
    (rx_len : Nat) : ∀ (k fuel m : Nat) (ese e1 e2 : EseInterface H) (l l1 l2 : TransceiveLocals),
    loop_config ops init_state rx_len fuel k ese l = some (e1, l1) →
    loop_config ops init_state rx_len (fuel - k) m e1 l1 = some (e2, l2) →
    loop_config ops init_state rx_len fuel (k + m) ese l = some (e2, l2) := by
  intro k
  induction k with
  | zero =>
    intro fuel m ese e1 e2 l l1 l2 h1 h2
    cases fuel <;> simp only [loop_config, Option.some.injEq, Prod.mk.injEq] at h1 <;>
      obtain ⟨rfl, rfl⟩ := h1 <;> simpa using h2
  | succ k ih =>
    intro fuel m ese e1 e2 l l1 l2 h1 h2
    cases fuel with
    | zero => simp [loop_config] at h1
    | succ fuel =>
      simp only [loop_config] at h1
      rcases hb : transceive_body ops init_state rx_len (fuel + 1) ese l with e | x
      · rw [hb] at h1; simp at h1
      · rw [hb] at h1
        cases x with
        | ret r => simp at h1
        | again e3 l3 =>
          simp only [] at h1
          have h2' : loop_config ops init_state rx_len (fuel - k) m e1 l1 = some (e2, l2) := by
            rw [← h2]; congr 1; omega
          have := ih fuel m e3 e1 e2 l3 l1 l2 h1 h2'
          rw [show k + 1 + m = (k + m) + 1 by omega]
          simp only [loop_config, hb]
          exact this

/-- The retransmit counter never exceeds 3 at the top of the loop. -/
theorem loop_config_retransmits {H : Type} (ops : EseOperations H) (init_state : Teq1State)
    (rx_len : Nat) (hinit : init_state.retransmits = 0) :
    ∀ (k fuel : Nat) (ese e2 : EseInterface H) (l l2 : TransceiveLocals),
    l.state.retransmits ≤ 3 →
    loop_config ops init_state rx_len fuel k ese l = some (e2, l2) →
    l2.state.retransmits ≤ 3 := by
  intro k
  induction k with
  | zero =>
    intro fuel ese e2 l l2 hle h
    cases fuel <;> simp only [loop_config, Option.some.injEq, Prod.mk.injEq] at h <;>
      obtain ⟨rfl, rfl⟩ := h <;> exact hle
  | succ k ih =>
    intro fuel ese e2 l l2 hle h
    cases fuel with
    | zero => simp [loop_config] at h
    | succ fuel =>
      simp only [loop_config] at h
      rcases hb : transceive_body ops init_state rx_len (fuel + 1) ese l with e | x
      · rw [hb] at h; simp at h
      · rw [hb] at h
        cases x with
        | ret r => simp at h
        | again e3 l3 =>
          simp only [] at h
          refine ih fuel e3 e2 l3 l2 ?_ h
          unfold transceive_body at hb
          rcases hx : transceive_txrx ops ese l with e | ⟨e1, l1, rx⟩
          · rw [hx] at hb; simp at hb
          · rw [hx] at hb
            simp only [] at hb
            obtain ⟨-, -, t3, -⟩ := txrx_counters ops ese e1 l l1 rx hx
            rcases hr : teq1_rules (fuel + 1) { l1.state with card_state := e1.card_state }
                (l1.frame l1.tx) rx (l1.frame (inot l1.active)) with _ | ⟨res, st, rx2, nx⟩
            · unfold transceive_dispatch at hb
              rw [hr] at hb
              simp at hb
            · rcases dispatch_again_retransmits ops init_state rx_len (fuel + 1) e1 l1 rx res st
                rx2 nx hinit hr e3 l3 hb with h0 | ⟨-, -, h1 | h1⟩
              · omega
              · omega
              · omega

/-- Claim C1: `teq1_compute_LRC` is the exclusive-or of the first `LEN + 3`
bytes of the frame (NAD, PCB, LEN and `INF[0..LEN-1]`), and two frames that
agree on those bytes have the same LRC whatever lies at or after `INF[LEN]`.
It holds for every `LEN`, in particular for `LEN <= 254`. -/
theorem C1_compute_LRC_first_bytes (frame : Teq1Frame) :
    teq1_compute_LRC frame
        = xor_all (frame.NAD :: frame.PCB :: frame.LEN :: frame.INF.take frame.LEN) ∧
    ∀ other : Teq1Frame, other.NAD = frame.NAD → other.PCB = frame.PCB →
      other.LEN = frame.LEN → other.INF.take frame.LEN = frame.INF.take frame.LEN →
      teq1_compute_LRC other = teq1_compute_LRC frame := by
  refine ⟨compute_LRC_eq frame, ?_⟩
  intro other h1 h2 h3 h4
  rw [compute_LRC_eq, compute_LRC_eq, h1, h2, h3, h4]

theorem C1_compute_LRC_first_bytes_witness :
    teq1_compute_LRC { NAD := 0x5A, PCB := 0, LEN := 2, INF := [1, 2, 3] ++ List.replicate 252 0 }
        = xor_all [0x5A, 0, 2, 1, 2] ∧
    teq1_compute_LRC { NAD := 0x5A, PCB := 0, LEN := 2, INF := [1, 2, 77] ++ List.replicate 252 9 }
        = teq1_compute_LRC
            { NAD := 0x5A, PCB := 0, LEN := 2, INF := [1, 2, 3] ++ List.replicate 252 0 } :=
  ⟨(C1_compute_LRC_first_bytes
      { NAD := 0x5A, PCB := 0, LEN := 2, INF := [1, 2, 3] ++ List.replicate 252 0 }).1,
   (C1_compute_LRC_first_bytes
      { NAD := 0x5A, PCB := 0, LEN := 2, INF := [1, 2, 3] ++ List.replicate 252 0 }).2
      { NAD := 0x5A, PCB := 0, LEN := 2, INF := [1, 2, 77] ++ List.replicate 252 9 }
      rfl rfl rfl rfl⟩

/-- Claim C2: checksum round trip. With no preprocess hook, for a frame with
`LEN <= 254`, `teq1_transmit` hands the hardware the frame given with NAD set
to the node address, the same PCB, LEN and payload, and the byte `INF[LEN]`
set to the exclusive-or of NAD, PCB, LEN and the payload (the cells after it
are left alone). That byte equals `teq1_compute_LRC` of the frame handed over,
so `teq1_frame_error_check` never reports a parity error for those bytes, and
the exclusive-or of the `LEN + 4` bytes transmitted is 0. -/
theorem C2_checksum_round_trip {H : Type} (ops : EseOperations H) (ese : EseInterface H)
    (opts : Teq1ProtocolOptions)
    (hw_transmit : EseInterface H → Option (List Nat) → Nat → Int → Nat × EseInterface H)
    (frame : Teq1Frame) (hopts : ops.opts = some opts) (hpre : opts.preprocess = none)
    (htx : ops.hw_transmit = some hw_transmit) (hLEN : frame.LEN ≤ 254)
    (hINF : frame.INF.length = INF_LEN + 1) :
    ∃ sent : Teq1Frame,
      teq1_transmit ops ese frame
        = .ok (0, (hw_transmit ese (some sent.val) (3 + sent.LEN + 1) 1).2, sent) ∧
      sent.NAD = opts.node_address ∧ sent.PCB = frame.PCB ∧ sent.LEN = frame.LEN ∧
      sent.INF = frame.INF.set frame.LEN
        (xor_all (opts.node_address :: frame.PCB :: frame.LEN :: frame.INF.take frame.LEN)) ∧
      sent.INF.take frame.LEN = frame.INF.take frame.LEN ∧
      sent.INF.drop (frame.LEN + 1) = frame.INF.drop (frame.LEN + 1) ∧
      sent.INF.getD sent.LEN 0
        = xor_all (opts.node_address :: frame.PCB :: frame.LEN :: frame.INF.take frame.LEN) ∧
      sent.val.take (sent.LEN + 4)
        = opts.node_address :: frame.PCB :: frame.LEN :: frame.INF.take frame.LEN ++
          [xor_all (opts.node_address :: frame.PCB :: frame.LEN :: frame.INF.take frame.LEN)] ∧
      sent.INF.getD sent.LEN 0 = teq1_compute_LRC sent ∧
      (∀ state tx_frame, (teq1_frame_error_check state tx_frame sent).1 ≠ R 0 0 1) ∧
      xor_all (sent.val.take (sent.LEN + 4)) = 0 := by
  have hlt : frame.LEN < frame.INF.length := by rw [hINF, INF_LEN]; omega
  have hl : teq1_compute_LRC { frame with NAD := opts.node_address }
      = xor_all (opts.node_address :: frame.PCB :: frame.LEN :: frame.INF.take frame.LEN) :=
    compute_LRC_eq _
  have hval : ({ frame with
      NAD := opts.node_address
      INF := frame.INF.set frame.LEN
        (teq1_compute_LRC { frame with NAD := opts.node_address }) } : Teq1Frame).val.take
        (frame.LEN + 4)
      = opts.node_address :: frame.PCB :: frame.LEN :: frame.INF.take frame.LEN ++
        [xor_all (opts.node_address :: frame.PCB :: frame.LEN :: frame.INF.take frame.LEN)] := by
    simp only [Teq1Frame.val]
    rw [show frame.LEN + 4 = (frame.LEN + 1) + 3 from rfl]
    simp only [List.take_succ_cons]
    rw [set_LRC_take _ _ _ hlt, hl]
    rfl
  refine ⟨{ frame with
              NAD := opts.node_address
              INF := frame.INF.set frame.LEN
                (teq1_compute_LRC { frame with NAD := opts.node_address }) },
    ?_, rfl, rfl, rfl, ?_, ?_, ?_, ?_, hval, ?_, ?_, ?_⟩
  · simp [teq1_transmit, hopts, hpre, htx]
  · simp only []
    rw [hl]
  · exact take_set_self _ _ _
  · simp only []
    rw [List.drop_set_of_lt _ _ (by omega)]
  · simp only []
    rw [hl]
    simp [hlt]
  · rw [transmit_frame_LRC frame _]
    simp [hlt]
  · intro state tx_frame
    have hl := transmit_frame_LRC frame opts.node_address
    unfold teq1_frame_error_check
    simp only []
    split_ifs <;> simp_all [R, TEQ1_R, kTeq1RrType]
  · rw [hval]
    have := xor_all_snoc_self
      (opts.node_address :: frame.PCB :: frame.LEN :: List.take frame.LEN frame.INF)
    simpa using this

set_option maxRecDepth 100000 in
/-- Sample for C2: the frame `frame_demo`, with payload 1, 2, leaves with the
bytes 5A 00 02 01 02 5B. -/
theorem C2_checksum_round_trip_witness :
    ∃ sent : Teq1Frame,
      teq1_transmit (script_ops opts_plain) (script_ese ⟨1, 1⟩ []) frame_demo
        = .ok (0, (script_transmit (script_ese ⟨1, 1⟩ []) (some sent.val) (3 + sent.LEN + 1) 1).2,
            sent) ∧
      sent.val.take (sent.LEN + 4) = [0x5A, 0, 2, 1, 2, 0x5B] ∧
      sent.INF.getD sent.LEN 0 = teq1_compute_LRC sent ∧
      (∀ state tx_frame, (teq1_frame_error_check state tx_frame sent).1 ≠ R 0 0 1) ∧
      xor_all (sent.val.take (sent.LEN + 4)) = 0 := by
  obtain ⟨sent, h1, -, -, -, -, -, -, -, h9, h10, h11, h12⟩ :=
    C2_checksum_round_trip (script_ops opts_plain) (script_ese ⟨1, 1⟩ []) opts_plain
      script_transmit frame_demo rfl rfl rfl (by decide)
      (by rw [frame_demo, List.length_append, List.length_replicate]; rfl)
  exact ⟨sent, h1, h9.trans (by decide), h10, h11, h12⟩

/-- Claim C3: a frame whose control byte is not the sentinel and whose checksum
byte `INF[LEN]` differs from `teq1_compute_LRC` is never taken as a valid
block: with fuel for two iterations `teq1_rules` returns, its result is not
`Complete`, the application cursors and the receive buffer are unchanged, and
so is the recorded peer sequence bit `seq.card`. -/
theorem C3_bad_checksum_never_valid (fuel : Nat) (state : Teq1State)
    (tx_frame rx_frame next_tx : Teq1Frame) (hpcb : rx_frame.PCB ≠ 255)
    (hlrc : rx_frame.INF.getD rx_frame.LEN 0 ≠ teq1_compute_LRC rx_frame) :
    ∃ res st rx next,
      teq1_rules (fuel + 2) state tx_frame rx_frame next_tx = some (res, st, rx, next) ∧
      res ≠ kRuleResultComplete ∧
      st.app_data = state.app_data ∧
      st.card_state.card = state.card_state.card := by
  obtain ⟨res, st, rx, next, h, h1, h2, h3, _⟩ :=
    rules_loop_err_outcome fuel state state tx_frame rx_frame next_tx
      (TEQ1_RULE tx_frame.PCB rx_frame.PCB) (R 0 0 1)
      (error_check_parity state tx_frame rx_frame hpcb hlrc) (by decide)
  exact ⟨res, st, rx, next, h, h1, h2, by rw [h3]⟩


theorem C3_bad_checksum_never_valid_witness :
    ∃ res st rx next,
      teq1_rules 2 state_demo sent_demo reply_bad_demo frame_demo = some (res, st, rx, next) ∧
      res ≠ kRuleResultComplete ∧
      st.app_data = state_demo.app_data ∧
      st.card_state.card = state_demo.card_state.card :=
  C3_bad_checksum_never_valid 0 state_demo sent_demo reply_bad_demo frame_demo
    (by decide) (by decide)

/-- Claim C4: non-chained exchange. When the block sent is `I(s,0)` and the
frame received is `I(t,0)` with `LEN <= 254`, a correct checksum and `t`
different from the recorded peer sequence bit, `teq1_rules` returns `Complete`,
copies the first `min(LEN, rx_len)` payload bytes to the receive cursor (the
bytes before the cursor are kept), advances the cursor and lowers the remaining
capacity by that amount, records `seq.card = t`, and leaves the error counter
unchanged. -/
theorem C4_non_chained_exchange (fuel : Nat) (state : Teq1State)
    (tx_frame rx_frame next_tx : Teq1Frame) (s t : Nat) (hs : s < 2) (ht : t < 2)
    (htx : tx_frame.PCB = I s 0) (hrx : rx_frame.PCB = I t 0) (hLEN : rx_frame.LEN ≤ 254)
    (hINF : rx_frame.INF.length = INF_LEN + 1)
    (hlrc : rx_frame.INF.getD rx_frame.LEN 0 = teq1_compute_LRC rx_frame)
    (hcard : state.card_state.card < 2) (hfresh : t ≠ state.card_state.card)
    (hbuf : state.app_data.rx_buf + state.app_data.rx_len ≤ state.app_data.rx_mem.length) :
    ∃ st : Teq1State,
      teq1_rules (fuel + 1) state tx_frame rx_frame next_tx
        = some (kRuleResultComplete, st, rx_frame, next_tx) ∧
      st.app_data.rx_mem = memcpy state.app_data.rx_mem state.app_data.rx_buf rx_frame.INF
        (min rx_frame.LEN state.app_data.rx_len) ∧
      (st.app_data.rx_mem.drop state.app_data.rx_buf).take
          (min rx_frame.LEN state.app_data.rx_len)
        = rx_frame.INF.take (min rx_frame.LEN state.app_data.rx_len) ∧
      st.app_data.rx_mem.take state.app_data.rx_buf
        = state.app_data.rx_mem.take state.app_data.rx_buf ∧
      st.app_data.rx_buf = state.app_data.rx_buf + min rx_frame.LEN state.app_data.rx_len ∧
      st.app_data.rx_len = state.app_data.rx_len - min rx_frame.LEN state.app_data.rx_len ∧
      st.card_state.card = t ∧
      st.errors = state.errors := by
  refine ⟨_, rules_I_I_complete fuel state tx_frame rx_frame next_tx s t hs ht htx hrx hlrc
    hcard (by omega), ?_⟩
  rw [get_app_data_I _ rx_frame t 0 ht (by omega) hrx hLEN]
  have herr : (note_tx_seq state tx_frame).errors = state.errors := by
    unfold note_tx_seq; split <;> rfl
  have happ : (note_tx_seq state tx_frame).app_data = state.app_data := by
    unfold note_tx_seq; split <;> rfl
  have hsrc : min rx_frame.LEN state.app_data.rx_len ≤ rx_frame.INF.length := by
    rw [hINF, INF_LEN]; omega
  refine ⟨?_, ?_, ?_, ?_, ?_, ?_, ?_⟩
  · simp only [happ]
  · simp only [happ]
    exact memcpy_read _ _ _ _ (by omega) hsrc
  · simp only [happ]
    exact memcpy_before _ _ _ _ (by omega)
  · simp only [happ]
  · simp only [happ]
  · rfl
  · exact herr


theorem C4_non_chained_exchange_witness :
    ∃ st : Teq1State,
      teq1_rules 1 state_demo sent_demo reply_demo frame_demo
        = some (kRuleResultComplete, st, reply_demo, frame_demo) ∧
      (st.app_data.rx_mem.drop 0).take 2 = [7, 8] ∧
      st.app_data.rx_buf = 2 ∧ st.app_data.rx_len = 6 ∧ st.card_state.card = 0 ∧
      st.errors = 0 :=
  let ⟨st, h1, _, h3, _, h5, h6, h7, h8⟩ :=
    C4_non_chained_exchange 0 state_demo sent_demo reply_demo frame_demo 0 0
      (by decide) (by decide) rfl rfl (by decide)
      (by rw [reply_demo, List.length_append, List.length_replicate]; rfl)
      (by decide) (by decide) (by decide) (by decide)
  ⟨st, h1, h3, h5, h6, h7, h8⟩

/-- Claim C5: single-frame exchange against the scripted card. For a transmit
payload of `n <= 254` bytes and a receive capacity `rx_len`, when the first
reply is a checksum-valid non-chained I-block with a fresh sequence bit `t` and
`k <= rx_len` payload bytes, `teq1_transceive` transmits exactly one frame (the
I-block with more-data clear, `LEN = n`, the `n` payload bytes and the LRC),
writes the `k` reply bytes to the start of the receive buffer, records no
error, records the two sequence bits, and returns `k`. -/
theorem C5_single_frame_exchange (fuel : Nat) (opts : Teq1ProtocolOptions)
    (hpre : opts.preprocess = none) (cs : Teq1CardState) (hcard : cs.card < 2)
    (tx_buf rx_mem payload : List Nat) (rx_len t : Nat)
    (rest : List (Option (List Nat))) (stack0 stack1 : Teq1Frame)
    (hstack : stack0.INF.length = INF_LEN + 1)
    (hn : tx_buf.length ≤ 254) (hk : payload.length ≤ 254) (hcap : payload.length ≤ rx_len)
    (hmem : rx_len ≤ rx_mem.length) (ht : t < 2) (hfresh : t ≠ cs.card) :
    ∃ r : TransceiveResult Script,
      teq1_transceive (fuel + 1) (script_ops opts)
          (script_ese cs (some (wire_reply opts.host_address (I t 0) payload) :: rest))
          tx_buf tx_buf.length rx_mem rx_len stack0 stack1 = .ok r ∧
      r.ret = payload.length ∧
      r.rx_mem = payload ++ rx_mem.drop payload.length ∧
      r.rx_mem.length = rx_mem.length ∧
      r.ese.error.is_err = 0 ∧
      r.ese.hw.sent = [opts.node_address ::
        wire_reply opts.node_address (I (lnot (int1_read cs.interface)) 0) tx_buf] ∧
      r.ese.hw.replies = rest ∧
      r.ese.card_state = { card := t, interface := lnot (int1_read cs.interface) } := by
  obtain ⟨r, h1, h2, h3, h4, h5, h6, h7, _, h9⟩ :=
    transceive_single_exchange fuel opts hpre
      (script_ese cs (some (wire_reply opts.host_address (I t 0) payload) :: rest))
      hcard tx_buf rx_mem payload rx_len t rest stack0 stack1 rfl rfl hstack hn hk hcap hmem ht
      (by simp only [script_ese]; omega)
  exact ⟨r, h1, h2, h3, h4, by rw [h5]; rfl, by rw [h6]; rfl, h7, h9⟩

theorem C5_single_frame_exchange_witness :
    ∃ r : TransceiveResult Script,
      teq1_transceive 1 (script_ops opts_plain)
          (script_ese ⟨1, 1⟩ [some (wire_reply 0xA5 (I 0 0) [1, 2, 3, 4, 5])])
          [0, 1, 2, 3, 4, 5, 6, 7, 8, 9] 10 (List.replicate 8 0) 8 frame_demo frame_demo
        = .ok r ∧
      r.ret = 5 ∧
      r.rx_mem = [1, 2, 3, 4, 5, 0, 0, 0] ∧
      r.ese.error.is_err = 0 ∧
      r.ese.hw.sent.length = 1 :=
  let ⟨r, h1, h2, h3, _, h5, h6, _, _⟩ :=
    C5_single_frame_exchange 0 opts_plain rfl ⟨1, 1⟩ (by decide)
      [0, 1, 2, 3, 4, 5, 6, 7, 8, 9] (List.replicate 8 0) [1, 2, 3, 4, 5] 8 0 [] frame_demo
      frame_demo (by rw [frame_demo, List.length_append, List.length_replicate]; rfl)
      (by decide) (by decide) (by decide) (by decide) (by decide) (by decide)
  ⟨r, h1, h2, h3, h5, by rw [h6]; rfl⟩

/-- Claim C6, evaluated at the failing input: with the peer sequence bit
recorded as 1 (the value `TEQ1_INIT_CARD_STATE` stores), a checksum-valid
I-block that repeats bit 1 passes `teq1_frame_error_check` (it returns 0, not
`R(0,1,0)`), and `teq1_rules` returns `Complete`, delivers the payload and
leaves the error counter at 0; a block that repeats a recorded bit 0 is
rejected with `R(0,1,0)`. -/
theorem C6_replay_of_bit_one_accepted :
    state_demo.card_state.card = 1 ∧ PCB_I_send_seq replay_demo.PCB = 1 ∧
    replay_demo.INF.getD replay_demo.LEN 0 = teq1_compute_LRC replay_demo ∧
    (teq1_frame_error_check state_demo sent_demo replay_demo).1 = 0 ∧
    (∃ st : Teq1State,
      teq1_rules 1 state_demo sent_demo replay_demo frame_demo
        = some (kRuleResultComplete, st, replay_demo, frame_demo) ∧
      st.errors = 0 ∧ st.app_data.rx_buf = 2) ∧
    (teq1_frame_error_check
      { state_demo with card_state := { card := 0, interface := 1 } } sent_demo reply_demo).1
      = R 0 1 0 := by
  have hchk := error_check_I_accept state_demo sent_demo replay_demo 1 0 (by decide) (by decide)
    rfl (by decide) (by decide) (Or.inl rfl)
  have hrules := rules_I_I_complete 0 state_demo sent_demo replay_demo frame_demo 0 1
    (by decide) (by decide) rfl rfl (by decide) (by decide) (Or.inl rfl)
  refine ⟨by decide, by decide, by decide, by rw [hchk], ⟨_, hrules, ?_, ?_⟩, by decide⟩
  · rw [get_app_data_I _ replay_demo 1 0 (by decide) (by decide) rfl (by decide)]
    rw [note_tx_seq_I _ _ 0 0 (by decide) (by decide) rfl]
    rfl
  · rw [get_app_data_I _ replay_demo 1 0 (by decide) (by decide) rfl (by decide)]
    rw [note_tx_seq_I _ _ 0 0 (by decide) (by decide) rfl]
    rfl

/-- Claim C7, evaluated at the failing input: from the initial sequence state
two successive calls of `teq1_transceive` whose replies both carry sequence bit
1 both complete without error, so the accepted peer bits 1, 1 do not alternate;
the I-blocks sent carry bits 0 and 1, and after each call the recorded peer bit
is the bit the peer used. -/
theorem C7_peer_bit_one_accepted_twice :
    ∃ r1 r2 : TransceiveResult Script,
      teq1_transceive 1 (script_ops opts_plain)
          (script_ese (TEQ1_INIT_CARD_STATE ⟨0, 0⟩)
            [some (wire_reply 0xA5 (I 1 0) [7]), some (wire_reply 0xA5 (I 1 0) [8])])
          [1] 1 (List.replicate 8 0) 8 frame_demo frame_demo = .ok r1 ∧
      teq1_transceive 1 (script_ops opts_plain) r1.ese
          [2] 1 (List.replicate 8 0) 8 frame_demo frame_demo = .ok r2 ∧
      r1.ret = 1 ∧ r2.ret = 1 ∧
      r1.ese.error.is_err = 0 ∧ r2.ese.error.is_err = 0 ∧
      r1.ese.card_state.card = 1 ∧ r2.ese.card_state.card = 1 ∧
      r2.ese.hw.sent = [0x5A :: wire_reply 0x5A (I 0 0) [1], 0x5A :: wire_reply 0x5A (I 1 0) [2]] := by
  have hstack : frame_demo.INF.length = INF_LEN + 1 := by
    rw [frame_demo, List.length_append, List.length_replicate]; rfl
  obtain ⟨r1, h1, h2, _, _, h5, h6, h7, h8, h9⟩ :=
    transceive_single_exchange 0 opts_plain rfl
      (script_ese (TEQ1_INIT_CARD_STATE ⟨0, 0⟩)
        [some (wire_reply 0xA5 (I 1 0) [7]), some (wire_reply 0xA5 (I 1 0) [8])])
      (by decide) [1] (List.replicate 8 0) [7] 8 1 [some (wire_reply 0xA5 (I 1 0) [8])]
      frame_demo frame_demo rfl rfl hstack (by decide) (by decide) (by decide) (by decide)
      (by decide) (Or.inl rfl)
  obtain ⟨r2, k1, k2, _, _, k5, k6, _, _, k9⟩ :=
    transceive_single_exchange 0 opts_plain rfl r1.ese (by rw [h9]; decide)
      [2] (List.replicate 8 0) [8] 8 1 [] frame_demo frame_demo h7 h8 hstack
      (by decide) (by decide) (by decide) (by decide) (by decide) (Or.inl rfl)
  refine ⟨r1, r2, h1, k1, h2, k2, by rw [h5]; rfl, by rw [k5, h5]; rfl, by rw [h9],
    by rw [k9], ?_⟩
  rw [k6, h6, h9]
  rfl

/-- Claim C9: chained reception in a fresh session against the scripted card.
The card answers the first I-block with the payloads `blocks` in I-blocks that
have the more-data bit set and then `last` in a final I-block, all with a valid
checksum and with sequence bits alternating from 0. `teq1_transceive` sends its
I-block, then one empty R-block `R(!t,0,0)` for each non-final block (`t` the
bit of that block: `R(1,0,0)`, `R(0,0,0)`, ...), completes on the final block,
leaves in the receive buffer the concatenation of the payloads truncated to the
capacity `rx_len`, and returns the smaller of the total length and `rx_len`. -/
theorem C9_chained_reception (fuel : Nat) (opts : Teq1ProtocolOptions)
    (hpre : opts.preprocess = none) (cs : Teq1CardState)
    (tx_buf rx_mem : List Nat) (rx_len : Nat) (blocks : List (List Nat)) (last : List Nat)
    (rest : List (Option (List Nat))) (stack0 stack1 : Teq1Frame)
    (hstack0 : stack0.INF.length = INF_LEN + 1) (hstack1 : stack1.INF.length = INF_LEN + 1)
    (hn : tx_buf.length ≤ 254) (hb : ∀ b ∈ blocks, b.length ≤ 254) (hlast : last.length ≤ 254)
    (hmem : rx_len ≤ rx_mem.length) :
    ∃ r : TransceiveResult Script,
      teq1_transceive (fuel + blocks.length + 1) (script_ops opts)
          (script_ese (TEQ1_INIT_CARD_STATE cs)
            (chain_replies opts.host_address last 0 blocks ++ rest))
          tx_buf tx_buf.length rx_mem rx_len stack0 stack1 = .ok r ∧
      r.ret = min (blocks.flatten ++ last).length rx_len ∧
      r.rx_mem = (blocks.flatten ++ last).take rx_len
        ++ rx_mem.drop (min (blocks.flatten ++ last).length rx_len) ∧
      r.ese.hw.sent = (opts.node_address :: wire_reply opts.node_address (I 0 0) tx_buf)
        :: chain_acks opts.node_address 1 blocks.length ∧
      r.ese.error.is_err = 0 ∧ r.ese.hw.replies = rest := by
  have hs : lnot (int1_read (TEQ1_INIT_CARD_STATE cs).interface) = 0 := rfl
  have hchunk : chunk_len (TEQ1_INIT_STATE tx_buf tx_buf.length rx_mem rx_len
      (TEQ1_INIT_CARD_STATE cs)) = tx_buf.length := by
    simp [chunk_len, TEQ1_INIT_STATE, IFSC, INF_LEN]; omega
  have hfill := fill_info_block_I
    (TEQ1_INIT_STATE tx_buf tx_buf.length rx_mem rx_len (TEQ1_INIT_CARD_STATE cs))
    { stack0 with PCB := TEQ1_I 0 0 } 0 (by decide) rfl
    (by simp only [TEQ1_INIT_STATE]; omega)
  rw [hchunk] at hfill
  have hmore : (if (TEQ1_INIT_STATE tx_buf tx_buf.length rx_mem rx_len
      (TEQ1_INIT_CARD_STATE cs)).app_data.tx_len - tx_buf.length > 0 then 1 else 0) = 0 := by
    simp [TEQ1_INIT_STATE]
  rw [hmore] at hfill
  have hcs : (script_ese (TEQ1_INIT_CARD_STATE cs)
      (chain_replies opts.host_address last 0 blocks ++ rest)).card_state
      = TEQ1_INIT_CARD_STATE cs := rfl
  have hlen0 : (memcpy stack0.INF 0 tx_buf tx_buf.length).length = stack0.INF.length :=
    memcpy_length _ _ _ _ (by rw [hstack0, INF_LEN]; omega) (le_refl _)
  unfold teq1_transceive teq1_transceive_from
  simp only [hcs, hs, hfill]
  obtain ⟨r, hr, h1, h2, h3, h4, h5⟩ := loop_rx_all opts hpre
    (TEQ1_INIT_STATE tx_buf tx_buf.length rx_mem rx_len (TEQ1_INIT_CARD_STATE cs)) rx_len fuel
    last hlast blocks hb
    (script_ese (TEQ1_INIT_CARD_STATE cs) (chain_replies opts.host_address last 0 blocks ++ rest))
    { tx_frame0 := { NAD := stack0.NAD, PCB := I 0 0, LEN := tx_buf.length,
                     INF := memcpy stack0.INF 0 tx_buf tx_buf.length },
      tx_frame1 := stack1, tx := 0, was_reset := false, active := 0,
      state := { TEQ1_INIT_STATE tx_buf tx_buf.length rx_mem rx_len (TEQ1_INIT_CARD_STATE cs) with
        app_data := { (TEQ1_INIT_STATE tx_buf tx_buf.length rx_mem rx_len
            (TEQ1_INIT_CARD_STATE cs)).app_data with
          tx_len := tx_buf.length - tx_buf.length
          tx_buf := tx_buf.drop tx_buf.length } } }
    0 rest rfl rfl rfl rfl
    (by show 0 < (memcpy stack0.INF 0 tx_buf tx_buf.length).length
        rw [hlen0, hstack0, INF_LEN]; omega)
    (by show 0 < stack1.INF.length; rw [hstack1, INF_LEN]; omega)
    (by decide) rfl
  have hfold := rx_write_foldl (blocks ++ [last])
    { tx_buf := tx_buf.drop tx_buf.length, tx_len := tx_buf.length - tx_buf.length,
      rx_mem := rx_mem, rx_buf := 0, rx_len := rx_len } (by simpa using hmem)
  have hflat : (blocks ++ [last]).flatten = blocks.flatten ++ last := by simp
  rw [hflat] at hfold
  have htake : (blocks.flatten ++ last).take (min (blocks.flatten ++ last).length rx_len)
      = (blocks.flatten ++ last).take rx_len := by
    rw [List.take_eq_take]; omega
  refine ⟨r, hr, ?_, ?_, ?_, ?_, h5⟩
  · rw [h1]
    simp only [TEQ1_INIT_STATE, hfold, rx_write]
    omega
  · rw [h2]
    simp only [TEQ1_INIT_STATE, hfold, rx_write, memcpy, List.take_zero, List.nil_append,
      Nat.zero_add, htake]
  · rw [h3]
    have hw := sealed_wire opts.node_address
      { NAD := stack0.NAD, PCB := I 0 0, LEN := tx_buf.length,
        INF := memcpy stack0.INF 0 tx_buf tx_buf.length } tx_buf rfl
      (by simpa using memcpy_zero_take stack0.INF tx_buf tx_buf.length (le_refl _))
      (by simp only [hlen0, hstack0, INF_LEN]; omega)
    simp only [script_ese, List.nil_append]
    exact congrArg (fun x => x :: chain_acks opts.node_address 1 blocks.length) hw
  · rw [h4]; rfl

theorem C9_chained_reception_witness :
    ∃ r : TransceiveResult Script,
      teq1_transceive 3 (script_ops opts_plain)
          (script_ese (TEQ1_INIT_CARD_STATE ⟨0, 0⟩)
            (chain_replies 0xA5 [5] 0 [[1, 2], [3, 4]] ++ []))
          [9] 1 (List.replicate 4 0) 4 frame_demo frame_demo = .ok r ∧
      r.ret = 4 ∧ r.rx_mem = [1, 2, 3, 4] ∧
      r.ese.hw.sent = [0x5A :: wire_reply 0x5A (I 0 0) [9], 0x5A :: wire_reply 0x5A (R 1 0 0) [],
        0x5A :: wire_reply 0x5A (R 0 0 0) []] ∧
      r.ese.error.is_err = 0 :=
  let ⟨r, h1, h2, h3, h4, h5, _⟩ :=
    C9_chained_reception 0 opts_plain rfl ⟨0, 0⟩ [9] (List.replicate 4 0) 4 [[1, 2], [3, 4]] [5] []
      frame_demo frame_demo
      (by rw [frame_demo, List.length_append, List.length_replicate]; rfl)
      (by rw [frame_demo, List.length_append, List.length_replicate]; rfl)
      (by decide) (by decide) (by decide) (by decide)
  ⟨r, h1, h2, h3, h4, h5⟩

/-- Claim C10, evaluated at the failing input: the block sent is `I(0,0)`, the
recorded peer bit is 0 and the frame received is a checksum-valid `I(1,1)`. The
switch of `teq1_rules` has no case for this pair: the frame is re-marked as
invalid and counted as an error, the result is `SingleShot` with the error
block `R(0,1,0)` in `next_tx`, and nothing is delivered. With equal bits (sent
`I(0,0)`, received `I(0,1)`, recorded peer bit 1) the result is `Continue` with
`R(1,0,0)` and the two payload bytes are delivered. -/
theorem C10_chain_start_other_bit_rejected :
    sent_demo.PCB = I 0 0 ∧ chain_demo.PCB = I 1 1 ∧
    chain_demo.INF.getD chain_demo.LEN 0 = teq1_compute_LRC chain_demo ∧
    state_card0_demo.card_state.card = 0 ∧
    (teq1_rules 2 state_card0_demo sent_demo chain_demo frame_demo).map
        (fun r => (r.1, r.2.1.errors, r.2.1.app_data.rx_buf, r.2.1.app_data.rx_len,
          r.2.2.2.PCB))
      = some (kRuleResultSingleShot, 1, 0, 8, R 0 1 0) ∧
    (teq1_rules 2 state_demo sent_demo chain_same_demo frame_demo).map
        (fun r => (r.1, r.2.1.errors, r.2.1.app_data.rx_buf, r.2.1.app_data.rx_len,
          r.2.2.2.PCB, r.2.2.2.LEN))
      = some (kRuleResultContinue, 0, 2, 6, R 1 0 0, 0) := by
  refine ⟨rfl, rfl, by decide, rfl, ?_, ?_⟩
  · decide
  · decide

/-- Claim C11: WTX echo. When the last sent block is a non-chained I-block
`I(s,0)` and the received frame is a checksum-valid `S(WTX, REQUEST)` with
`LEN = 1` and `INF[0] = M`, for every `M`, `teq1_rules` returns `SingleShot`
with `next_tx` carrying `S(WTX, RESPONSE)`, `LEN = 1` and `INF[0] = M`, and
records `M` as the pending wait multiplier; the application cursors, the two
counters and the negotiated size are as before. -/
theorem C11_wtx_echo (fuel : Nat) (state : Teq1State) (tx rx next : Teq1Frame) (s M : Nat)
    (hs : s < 2) (htx : tx.PCB = I s 0) (hrx : rx.PCB = S WTX REQUEST) (hlen : rx.LEN = 1)
    (hM : rx.INF.getD 0 0 = M) (hl : rx.INF.getD rx.LEN 0 = teq1_compute_LRC rx)
    (hnext : 0 < next.INF.length) :
    ∃ st nx, teq1_rules (fuel + 1) state tx rx next = some (kRuleResultSingleShot, st, rx, nx) ∧
      nx.PCB = S WTX RESPONSE ∧ nx.LEN = 1 ∧ nx.INF.getD 0 0 = M ∧ nx.INF.length = next.INF.length ∧
      st.wait_mult = M ∧ st.app_data = state.app_data ∧ st.errors = state.errors ∧
      st.retransmits = state.retransmits ∧ st.ifs = state.ifs := by
  have hchk := error_check_S_ok state tx rx (by rw [hrx]; decide) (by rw [hrx]; decide) hl
    (Or.inr hlen)
  have harm : rule_arm (TEQ1_RULE tx.PCB rx.PCB) = wtx_request := by
    rw [htx, hrx]
    obtain rfl | rfl : s = 0 ∨ s = 1 := by omega
    all_goals decide
  have hf := note_tx_seq_fields state tx
  unfold teq1_rules
  rw [rules_loop_ok _ _ _ _ _ _ _ hchk]
  simp only [teq1_rules_switch, harm]
  refine ⟨_, _, rfl, rfl, rfl, ?_, ?_, ?_, hf.1, hf.2.1, hf.2.2.1, hf.2.2.2.1⟩
  · rw [hM]; exact getD_set_zero _ _ hnext
  · simp
  · exact hM

/-- Sample for C11: a request for the multiplier 9 while `I(0,0)` is
outstanding. -/
theorem C11_wtx_echo_witness :
    ∃ st nx, teq1_rules 1 state_demo sent_demo wtx_demo frame_demo
        = some (kRuleResultSingleShot, st, wtx_demo, nx) ∧
      nx.PCB = S WTX RESPONSE ∧ nx.LEN = 1 ∧ nx.INF.getD 0 0 = 9 ∧ st.wait_mult = 9 ∧
      st.app_data = state_demo.app_data :=
  let ⟨st, nx, h1, h2, h3, h4, _, h6, h7, _⟩ :=
    C11_wtx_echo 0 state_demo sent_demo wtx_demo frame_demo 0 9 (by decide) rfl rfl rfl rfl
      (by decide) (by rw [frame_demo, List.length_append, List.length_replicate]; decide)
  ⟨st, nx, h1, h2, h3, h4, h6, h7⟩

/-- Claim C12: the WTX multiplier is used exactly once. Against the timed
card, which logs the timeout of every poll, a call of `teq1_transceive` that
returns has polled once per frame sent, with the base wait time times `M` for
the receive that follows an `S(WTX, RESPONSE)` carrying `M` and with the base
wait time times 1 for the receive that follows any other frame; the first
receive of the exchange used the base wait time times 1; and the first half of
the loop body leaves the multiplier at 1 whatever the receive returned. -/
theorem C12_wtx_multiplier_used_once (fuel : Nat) (opts : Teq1ProtocolOptions)
    (hpre : opts.preprocess = none) (cs : Teq1CardState)
    (replies : List (Option (List Nat))) (tx_buf rx_mem : List Nat) (tx_len rx_len : Nat)
    (stack0 stack1 : Teq1Frame)
    (hstack0 : stack0.INF.length = INF_LEN + 1) (hstack1 : stack1.INF.length = INF_LEN + 1)
    (htl : tx_len ≤ tx_buf.length) (r : TransceiveResult Timed)
    (h : teq1_transceive fuel (timed_ops opts) (timed_ese cs replies) tx_buf tx_len rx_mem
      rx_len stack0 stack1 = .ok r) :
    r.ese.hw.polls = r.ese.hw.sent.map (timeout_of opts.bwt) ∧
    (∃ more, r.ese.hw.polls = (opts.bwt * 1) :: more) ∧
    (∀ (e e1 : EseInterface Timed) (l l1 : TransceiveLocals) (rx : Teq1Frame),
      transceive_txrx (timed_ops opts) e l = .ok (e1, l1, rx) → l1.state.wait_mult = 1) := by
  unfold teq1_transceive teq1_transceive_from at h
  simp only [] at h
  obtain ⟨hinv, hwm⟩ := start_wtx (TEQ1_INIT_STATE tx_buf tx_len rx_mem rx_len cs) stack0 stack1
    (int1_read cs.interface) rfl htl hstack0 hstack1
  obtain ⟨g1, more, g2⟩ := loop_wtx opts hpre (TEQ1_INIT_STATE tx_buf tx_len rx_mem rx_len cs)
    rx_len rfl htl fuel _ _ r hinv rfl h
  refine ⟨g1, ?_, fun e e1 l l1 rx hx => txrx_resets_wait_mult _ e e1 l l1 rx hx⟩
  · refine ⟨more, ?_⟩
    rw [g2]
    show [] ++ _ = _
    rw [List.nil_append]
    simp only []
    rw [hwm]
    norm_num

set_option maxRecDepth 1000000 in
/-- Sample for C12: the card asks for the multiplier 5, stays silent once and
then answers; the three receives wait 1, 5 and 1 times the base wait time. -/
theorem C12_wtx_multiplier_used_once_witness :
    ∃ r, teq1_transceive 4 (timed_ops opts_plain)
        (timed_ese ⟨1, 1⟩
          [some (wire_reply 0xA5 (S WTX REQUEST) [5]), none,
           some (wire_reply 0xA5 (I 0 0) [7, 8])])
        [9] 1 (List.replicate 8 0) 8 frame_demo frame_demo = .ok r ∧
      r.ret = 2 ∧
      r.ese.hw.sent = [[0x5A, I 0 0, 1, 9, 0x52], [0x5A, S WTX RESPONSE, 1, 5, 0xBD],
        [0x5A, R 0 1 0, 0, 0xD8]] ∧
      r.ese.hw.polls = [1, 5, 1] :=
  let ⟨r, hr, hret, _, hs⟩ := timed_ok_of_summary
    (teq1_transceive 4 (timed_ops opts_plain)
      (timed_ese ⟨1, 1⟩
        [some (wire_reply 0xA5 (S WTX REQUEST) [5]), none,
         some (wire_reply 0xA5 (I 0 0) [7, 8])])
      [9] 1 (List.replicate 8 0) 8 frame_demo frame_demo)
    2 0 [[0x5A, I 0 0, 1, 9, 0x52], [0x5A, S WTX RESPONSE, 1, 5, 0xBD],
      [0x5A, R 0 1 0, 0, 0xD8]] (by decide)
  ⟨r, hr, hret, hs,
    (C12_wtx_multiplier_used_once 4 opts_plain rfl ⟨1, 1⟩ _ [9] (List.replicate 8 0) 1 8
      frame_demo frame_demo
      (by rw [frame_demo, List.length_append, List.length_replicate]; rfl)
      (by rw [frame_demo, List.length_append, List.length_replicate]; rfl)
      (by decide) r hr).1.trans (by rw [hs]; simp [timeout_of, opts_plain, S, I, R, TEQ1_I,
        TEQ1_R, kTeq1RrType, TEQ1_S_WTX, kTeq1SuperType, kTeq1SuperWtxBit, RESPONSE])⟩

/-- Claim C13: peer-initiated IFS renegotiation. When the last sent block is
an I-block `I(s,m)` or an error-free R-block `R(s,0,0)` and the received frame
is a checksum-valid `S(IFS, REQUEST)` with `LEN = 1` and `INF[0] = v`,
`teq1_rules` returns `SingleShot` with `next_tx` carrying `S(IFS, RESPONSE)`,
`LEN = 1` and `INF[0] = v`, and records `v` as the negotiated size. -/
theorem C13_ifs_request (fuel : Nat) (state : Teq1State) (tx rx next : Teq1Frame) (v : Nat)
    (htx : (∃ s m, s < 2 ∧ m < 2 ∧ tx.PCB = I s m) ∨ (∃ s, s < 2 ∧ tx.PCB = R s 0 0))
    (hrx : rx.PCB = S IFS REQUEST) (hlen : rx.LEN = 1)
    (hv : rx.INF.getD 0 0 = v) (hl : rx.INF.getD rx.LEN 0 = teq1_compute_LRC rx)
    (hnext : 0 < next.INF.length) :
    ∃ st nx, teq1_rules (fuel + 1) state tx rx next = some (kRuleResultSingleShot, st, rx, nx) ∧
      nx.PCB = S IFS RESPONSE ∧ nx.LEN = 1 ∧ nx.INF.getD 0 0 = v ∧ nx.INF.length = next.INF.length ∧
      st.ifs = v ∧ st.app_data = state.app_data ∧ st.errors = state.errors ∧
      st.retransmits = state.retransmits ∧ st.wait_mult = state.wait_mult := by
  have hchk := error_check_S_ok state tx rx (by rw [hrx]; decide) (by rw [hrx]; decide) hl
    (Or.inr hlen)
  have harm : rule_arm (TEQ1_RULE tx.PCB rx.PCB) = ifs_request := by
    rw [hrx]
    rcases htx with ⟨s, m, hs, hm, h⟩ | ⟨s, hs, h⟩
    · rw [h]
      obtain rfl | rfl : s = 0 ∨ s = 1 := by omega
      all_goals obtain rfl | rfl : m = 0 ∨ m = 1 := by omega
      all_goals decide
    · rw [h]
      obtain rfl | rfl : s = 0 ∨ s = 1 := by omega
      all_goals decide
  have hf := note_tx_seq_fields state tx
  unfold teq1_rules
  rw [rules_loop_ok _ _ _ _ _ _ _ hchk]
  simp only [teq1_rules_switch, harm]
  refine ⟨_, _, rfl, rfl, rfl, ?_, ?_, ?_, hf.1, hf.2.1, hf.2.2.1, hf.2.2.2.2.1⟩
  · rw [hv]; exact getD_set_zero _ _ hnext
  · simp
  · exact hv

/-- Sample for C13: the size 32 is proposed while `I(0,0)` is outstanding. -/
theorem C13_ifs_request_witness :
    ∃ st nx, teq1_rules 1 state_demo sent_demo ifs_demo frame_demo
        = some (kRuleResultSingleShot, st, ifs_demo, nx) ∧
      nx.PCB = S IFS RESPONSE ∧ nx.LEN = 1 ∧ nx.INF.getD 0 0 = 32 ∧ st.ifs = 32 :=
  let ⟨st, nx, h1, h2, h3, h4, _, h6, _⟩ :=
    C13_ifs_request 0 state_demo sent_demo ifs_demo frame_demo 32
      (Or.inl ⟨0, 0, by decide, by decide, rfl⟩) rfl rfl rfl (by decide)
      (by rw [frame_demo, List.length_append, List.length_replicate]; decide)
  ⟨st, nx, h1, h2, h3, h4, h6⟩

/-- Claim C15: escalation thresholds of the rule engine. For every sent
block and every received frame that `teq1_frame_error_check` rejects, with `e`
the error counter before the call: when `e + 1 >= 6` `teq1_rules` returns
`ResetDevice`; when `3 <= e + 1 < 6` it sets the control byte of `next_tx` to
`S(RESYNC, REQUEST)` and returns `Continue`, whatever the rule table holds for
the block pair; and when `e + 1 < 3` the result is that of the rule table
looked up with the sent block and the invalid-block sentinel 255. The counter
is `e + 1` afterwards. -/
theorem C15_escalation_thresholds (fuel : Nat) (state : Teq1State) (tx rx next : Teq1Frame)
    (herr : (teq1_frame_error_check state tx rx).1 ≠ 0) :
    (6 ≤ state.errors + 1 →
      ∃ st, teq1_rules (fuel + 1) state tx rx next = some (kRuleResultResetDevice, st, rx, next) ∧
        st.errors = state.errors + 1) ∧
    (3 ≤ state.errors + 1 → state.errors + 1 < 6 →
      ∃ st, teq1_rules (fuel + 1) state tx rx next
          = some (kRuleResultContinue, st, rx, { next with PCB := S RESYNC REQUEST }) ∧
        st.errors = state.errors + 1) ∧
    (state.errors + 1 < 3 →
      teq1_rules (fuel + 1) state tx rx next =
        match teq1_rules_switch (count_error (teq1_frame_error_check state tx rx).2) tx rx next
            (teq1_frame_error_check state tx rx).1 (TEQ1_RULE tx.PCB 255) with
        | some (result, st, next_tx) => some (result, st, rx, next_tx)
        | none =>
          if rx.PCB ≠ 255 then
            teq1_rules_loop fuel (count_error (teq1_frame_error_check state tx rx).2) tx
              { rx with PCB := 255 } next (TEQ1_RULE tx.PCB 255)
          else
            some (kRuleResultHardFail, count_error (teq1_frame_error_check state tx rx).2, rx,
              next)) := by
  have he := error_check_errors state tx rx
  have hloop := rules_loop_err fuel state (teq1_frame_error_check state tx rx).2 tx rx next
    (TEQ1_RULE tx.PCB rx.PCB) (teq1_frame_error_check state tx rx).1 rfl herr
  unfold teq1_rules
  rw [hloop, he]
  refine ⟨fun h6 => ?_, fun h3 h6 => ?_, fun h3 => ?_⟩
  · rw [if_pos h6]
    exact ⟨_, rfl, by simp [count_error, he]⟩
  · rw [if_neg (by omega), if_pos h3]
    exact ⟨_, rfl, by simp [count_error, he]⟩
  · rw [if_neg (by omega), if_neg (by omega)]

/-- Sample for C15: the third error forces the RESYNC request. -/
theorem C15_escalation_thresholds_witness :
    (teq1_frame_error_check { state_demo with errors := 2 } sent_demo reply_bad_demo).1 ≠ 0 ∧
    ∃ st, teq1_rules 1 { state_demo with errors := 2 } sent_demo reply_bad_demo frame_demo
        = some (kRuleResultContinue, st, reply_bad_demo,
            { frame_demo with PCB := S RESYNC REQUEST }) ∧
      st.errors = 3 :=
  ⟨by decide,
   (C15_escalation_thresholds 0 { state_demo with errors := 2 } sent_demo reply_bad_demo
      frame_demo (by decide)).2.1 (by decide) (by decide)⟩

set_option maxRecDepth 1000000 in
/-- Claim C16, evaluated at the failing input: the card, which has no reset
line, lets six receives in a row time out and then answers. The call does not
end with `TEQ1_ERROR_DEVICE_RESET`: the third and the sixth error each produce
an `S(RESYNC, REQUEST)`, and once the card answers the exchange completes with
return value 1 and no error recorded. The frames sent are the I-block, two
error R-blocks, four RESYNC requests and the I-block again. -/
theorem C16_six_errors_no_device_reset :
    run_summary (teq1_transceive 8 (script_ops opts_plain)
      (script_ese (TEQ1_INIT_CARD_STATE ⟨0, 0⟩)
        [none, none, none, none, none, none,
         some (wire_reply 0xA5 (S RESYNC RESPONSE) []), some (wire_reply 0xA5 (I 0 0) [7])])
      [1] 1 (List.replicate 8 0) 8 frame_demo frame_demo)
    = some (1, 0, 0,
        [[0x5A, I 0 0, 1, 1, 0x5A], [0x5A, R 0 1 0, 0, 0xD8], [0x5A, R 0 1 0, 0, 0xD8],
         [0x5A, S RESYNC REQUEST, 0, 0x9A], [0x5A, S RESYNC REQUEST, 0, 0x9A],
         [0x5A, S RESYNC REQUEST, 0, 0x9A], [0x5A, S RESYNC REQUEST, 0, 0x9A],
         [0x5A, I 0 0, 1, 1, 0x5A]]) := by
  decide

set_option maxRecDepth 1000000 in
/-- Claim C17: the retransmission bound, over a run of `teq1_transceive`. Take
any point of the exchange loop of a call of `teq1_transceive`, reached after
`k` iterations. The retransmit counter is at most 3 there. Every streak of
consecutive iterations from there in which `teq1_rules` returns `Retransmit`
and the same active block is kept for sending again has at most 3 iterations:
the counter goes up by one in each and never passes 3, so a block is resent at
most 3 consecutive times. At a further `Retransmit` outcome, with the counter
at 3, the block is not sent again: the call fails with `TEQ1_ERROR_HARD_FAIL`
and returns 0 when the block is `S(RESYNC, REQUEST)`, and otherwise the engine
switches to sending `S(RESYNC, REQUEST)` with the counter back at 0. The bound
is reached: a card that answers an I-block with `R(0,0,0)` every time makes the
I-block go out four times, three of them resends, before `S(RESYNC, REQUEST)`
is sent. -/
theorem C17_retransmit_bound {H : Type} (ops : EseOperations H) (ese : EseInterface H)
    (tx_buf : List Nat) (tx_len : Nat) (rx_mem : List Nat) (rx_len : Nat)
    (stack0 stack1 : Teq1Frame) (init_state : Teq1State) (fuel k : Nat)
    (e : EseInterface H) (l : TransceiveLocals)
    (hinit : init_state = TEQ1_INIT_STATE tx_buf tx_len rx_mem rx_len ese.card_state)
    (hreach : loop_config ops init_state rx_len fuel k ese
      (transceive_start ese init_state stack0 stack1) = some (e, l)) :
    teq1_transceive fuel ops ese tx_buf tx_len rx_mem rx_len stack0 stack1
      = teq1_transceive_loop ops init_state rx_len (fuel - k) e l ∧
    l.state.retransmits ≤ 3 ∧
    (∀ m e2 l2, resend_streak ops init_state rx_len (fuel - k) m e l = some (e2, l2) →
      m ≤ 3 ∧ l.state.retransmits + m ≤ 3 ∧
      l2.state.retransmits = l.state.retransmits + m ∧ l2.active = l.active ∧
      loop_config ops init_state rx_len fuel (k + m) ese
        (transceive_start ese init_state stack0 stack1) = some (e2, l2) ∧
      teq1_transceive fuel ops ese tx_buf tx_len rx_mem rx_len stack0 stack1
        = teq1_transceive_loop ops init_state rx_len (fuel - (k + m)) e2 l2) ∧
    (∀ e1 l1 rx st rx2 nx, transceive_txrx ops e l = .ok (e1, l1, rx) →
      teq1_rules (fuel - k) { l1.state with card_state := e1.card_state }
        (l1.frame l1.tx) rx (l1.frame (inot l1.active))
          = some (kRuleResultRetransmit, st, rx2, nx) →
      (l.state.retransmits < 3 →
        ∃ l2, transceive_body ops init_state rx_len (fuel - k) e l
            = .ok (.again { e1 with card_state := st.card_state } l2) ∧
          resend_step ops init_state rx_len (fuel - k) e l
            = some ({ e1 with card_state := st.card_state }, l2) ∧
          l2.tx = l.active ∧ l2.active = l.active ∧
          l2.frame l.active = l1.frame l.active ∧
          l2.state.retransmits = l.state.retransmits + 1) ∧
      (l.state.retransmits = 3 → (l1.frame l.active).PCB = S RESYNC REQUEST →
        0 < e1.errors_count →
        ∃ r, transceive_body ops init_state rx_len (fuel - k) e l = .ok (.ret r) ∧
          resend_step ops init_state rx_len (fuel - k) e l = none ∧
          r.ret = 0 ∧ r.ese.error.is_err = 1 ∧ r.ese.error.code = TEQ1_ERROR_HARD_FAIL) ∧
      (l.state.retransmits = 3 → (l1.frame l.active).PCB ≠ S RESYNC REQUEST →
        ∃ l2, transceive_body ops init_state rx_len (fuel - k) e l
            = .ok (.again { e1 with card_state := st.card_state } l2) ∧
          resend_step ops init_state rx_len (fuel - k) e l = none ∧
          l2.active = inot l.active ∧ l2.tx = inot l.active ∧
          (l2.frame (inot l.active)).PCB = S RESYNC REQUEST ∧
          l2.state.retransmits = 0)) ∧
    run_summary (teq1_transceive 8 (script_ops opts_plain)
      (script_ese ⟨1, 1⟩ [some (wire_reply 0xA5 (R 0 0 0) []),
        some (wire_reply 0xA5 (R 0 0 0) []), some (wire_reply 0xA5 (R 0 0 0) []),
        some (wire_reply 0xA5 (R 0 0 0) []), some (wire_reply 0xA5 (S RESYNC RESPONSE) []),
        some (wire_reply 0xA5 (I 0 0) [7, 8])])
      [9] 1 (List.replicate 8 0) 8 frame_demo frame_demo)
      = some (2, 0, 0, [[0x5A, I 0 0, 1, 9, 0x52], [0x5A, I 0 0, 1, 9, 0x52],
          [0x5A, I 0 0, 1, 9, 0x52], [0x5A, I 0 0, 1, 9, 0x52],
          [0x5A, S RESYNC REQUEST, 0, 0x9A], [0x5A, I 0 0, 1, 9, 0x52]]) := by
  have h0 : init_state.retransmits = 0 := by rw [hinit]; rfl
  have hstart : (transceive_start ese init_state stack0 stack1).state.retransmits ≤ 3 := by
    have : (transceive_start ese init_state stack0 stack1).state.retransmits
        = init_state.retransmits := fill_info_block_retransmits _ _
    omega
  have hb : l.state.retransmits ≤ 3 :=
    loop_config_retransmits ops init_state rx_len h0 k fuel ese e _ l hstart hreach
  have hrun : ∀ k2 e2 l2, loop_config ops init_state rx_len fuel k2 ese
      (transceive_start ese init_state stack0 stack1) = some (e2, l2) →
      teq1_transceive fuel ops ese tx_buf tx_len rx_mem rx_len stack0 stack1
        = teq1_transceive_loop ops init_state rx_len (fuel - k2) e2 l2 := by
    intro k2 e2 l2 h2
    rw [teq1_transceive, ← hinit, transceive_from_start]
    exact (loop_config_loop ops init_state rx_len k2 fuel ese e2 _ l2 h2).2
  refine ⟨hrun k e l hreach, hb, ?_, ?_, by decide⟩
  · intro m e2 l2 hs
    obtain ⟨s1, s2, s3, s4⟩ := resend_streak_facts ops init_state rx_len m _ e e2 l l2 hs
    have hcfg := loop_config_append ops init_state rx_len k fuel m ese e e2 _ l l2 hreach s1
    have hm : l.state.retransmits + m ≤ 3 := by
      rcases Nat.eq_zero_or_pos m with hz | hp
      · omega
      · have := (s4 hp).1
        omega
    exact ⟨by omega, hm, s2, s3, hcfg, hrun _ e2 l2 hcfg⟩
  · intro e1 l1 rx st rx2 nx hx hr
    obtain ⟨t1, t2, t3, -, -, -, -⟩ := txrx_counters ops e e1 l l1 rx hx
    have htx : l1.tx = l1.active := by rw [t1, t2]
    obtain ⟨d1, d2, d3⟩ := dispatch_retransmit_cases ops init_state rx_len (fuel - k) e1 l1 rx
      st rx2 nx htx hr
    rw [t1, t3] at d1 d2 d3
    refine ⟨?_, ?_, ?_⟩
    · intro hlt
      obtain ⟨l2, hd, a1, a2, a3, a4⟩ := d1 hlt
      refine ⟨l2, by rw [transceive_body, hx]; exact hd, ?_, a1, a2, a3, a4⟩
      unfold resend_step
      rw [hx]
      simp only []
      rw [hr]
      simp only [if_true]
      rw [hd]
      simp only []
      rw [if_pos (by rw [a2, t1])]
    · intro h3 hpcb hcount
      obtain ⟨r, hd, a1, a2, a3⟩ := d2 (by omega) hpcb hcount
      refine ⟨r, by rw [transceive_body, hx]; exact hd, ?_, a1, a2, a3⟩
      unfold resend_step
      rw [hx]
      simp only []
      rw [hr]
      simp only [if_true]
      rw [hd]
    · intro h3 hpcb
      obtain ⟨l2, hd, a1, a2, a3, a4, -⟩ := d3 (by omega) hpcb
      refine ⟨l2, by rw [transceive_body, hx]; exact hd, ?_, a1, a2, a3, a4⟩
      unfold resend_step
      rw [hx]
      simp only []
      rw [hr]
      simp only [if_true]
      rw [hd]
      simp only []
      rw [if_neg]
      rw [a1, t1]
      exact inot_ne _

set_option maxRecDepth 1000000 in
/-- Sample for C17: a card that answers the first I-block with `R(0,0,0)` three
times. The streak of three resends starts at the first iteration of the call,
ends with the counter at 3 and the I-block still active, and cannot be made
longer. -/
theorem C17_retransmit_bound_witness :
    ∃ e2 l2, resend_streak (script_ops opts_plain)
        (TEQ1_INIT_STATE [9] 1 (List.replicate 8 0) 8 ⟨1, 1⟩) 8 8 3
        (script_ese ⟨1, 1⟩ [some (wire_reply 0xA5 (R 0 0 0) []),
          some (wire_reply 0xA5 (R 0 0 0) []), some (wire_reply 0xA5 (R 0 0 0) []),
          some (wire_reply 0xA5 (R 0 0 0) [])])
        (transceive_start (script_ese ⟨1, 1⟩ [some (wire_reply 0xA5 (R 0 0 0) []),
          some (wire_reply 0xA5 (R 0 0 0) []), some (wire_reply 0xA5 (R 0 0 0) []),
          some (wire_reply 0xA5 (R 0 0 0) [])])
          (TEQ1_INIT_STATE [9] 1 (List.replicate 8 0) 8 ⟨1, 1⟩) frame_demo frame_demo)
          = some (e2, l2) ∧
      l2.state.retransmits = 3 ∧ l2.active = 0 ∧
      resend_streak (script_ops opts_plain)
        (TEQ1_INIT_STATE [9] 1 (List.replicate 8 0) 8 ⟨1, 1⟩) 8 8 4
        (script_ese ⟨1, 1⟩ [some (wire_reply 0xA5 (R 0 0 0) []),
          some (wire_reply 0xA5 (R 0 0 0) []), some (wire_reply 0xA5 (R 0 0 0) []),
          some (wire_reply 0xA5 (R 0 0 0) [])])
        (transceive_start (script_ese ⟨1, 1⟩ [some (wire_reply 0xA5 (R 0 0 0) []),
          some (wire_reply 0xA5 (R 0 0 0) []), some (wire_reply 0xA5 (R 0 0 0) []),
          some (wire_reply 0xA5 (R 0 0 0) [])])
          (TEQ1_INIT_STATE [9] 1 (List.replicate 8 0) 8 ⟨1, 1⟩) frame_demo frame_demo)
          = none := by
  have hs : (resend_streak (script_ops opts_plain)
        (TEQ1_INIT_STATE [9] 1 (List.replicate 8 0) 8 ⟨1, 1⟩) 8 8 3
        (script_ese ⟨1, 1⟩ [some (wire_reply 0xA5 (R 0 0 0) []),
          some (wire_reply 0xA5 (R 0 0 0) []), some (wire_reply 0xA5 (R 0 0 0) []),
          some (wire_reply 0xA5 (R 0 0 0) [])])
        (transceive_start (script_ese ⟨1, 1⟩ [some (wire_reply 0xA5 (R 0 0 0) []),
          some (wire_reply 0xA5 (R 0 0 0) []), some (wire_reply 0xA5 (R 0 0 0) []),
          some (wire_reply 0xA5 (R 0 0 0) [])])
          (TEQ1_INIT_STATE [9] 1 (List.replicate 8 0) 8 ⟨1, 1⟩) frame_demo
          frame_demo)).isSome = true := by decide
  obtain ⟨⟨e2, l2⟩, h⟩ := Option.isSome_iff_exists.1 hs
  have hc := (C17_retransmit_bound (script_ops opts_plain)
    (script_ese ⟨1, 1⟩ [some (wire_reply 0xA5 (R 0 0 0) []),
      some (wire_reply 0xA5 (R 0 0 0) []), some (wire_reply 0xA5 (R 0 0 0) []),
      some (wire_reply 0xA5 (R 0 0 0) [])])
    [9] 1 (List.replicate 8 0) 8 frame_demo frame_demo
    (TEQ1_INIT_STATE [9] 1 (List.replicate 8 0) 8 ⟨1, 1⟩) 8 0 _ _ rfl rfl).2.2.1 3 e2 l2 h
  exact ⟨e2, l2, h, hc.2.2.1, hc.2.2.2.1, Option.isNone_iff_eq_none.1 (by decide)⟩

/-- Claim C19, evaluated at the failing inputs: against a card that never
answers, `teq1_transceive` does not return, however much fuel the loop is
given; in particular it never returns 0 with `TEQ1_ERROR_HARD_FAIL`. -/
theorem C19_silent_peer_never_returns (fuel : Nat) (opts : Teq1ProtocolOptions)
    (hpre : opts.preprocess = none) (ese : EseInterface Script) (hsil : script_silent ese)
    (tx_buf : List Nat) (tx_len : Nat) (rx_mem : List Nat) (rx_len : Nat)
    (stack0 stack1 : Teq1Frame) :
    teq1_transceive fuel (script_ops opts) ese tx_buf tx_len rx_mem rx_len stack0 stack1
      = .error Fault.OutOfFuel := by
  have hs := lnot_lt (int1_read ese.card_state.interface)
  obtain ⟨hp, he, -, -⟩ := fill_info_block_PCB
    (TEQ1_INIT_STATE tx_buf tx_len rx_mem rx_len ese.card_state)
    { stack0 with PCB := TEQ1_I (lnot (int1_read ese.card_state.interface)) 0 }
    (lnot (int1_read ese.card_state.interface)) hs rfl
  unfold teq1_transceive teq1_transceive_from
  apply silent_loop opts hpre _ rx_len fuel ese _ hsil
  refine ⟨?_, Or.inl rfl, Or.inl ?_⟩
  · show (teq1_fill_info_block _ _).2.1.errors ≤ 2
    rw [he]; exact Nat.zero_le _
  · show (teq1_fill_info_block _ _).2.2.PCB ∈ _
    generalize lnot (int1_read ese.card_state.interface) = s at hs hp
    obtain rfl | rfl : s = 0 ∨ s = 1 := by omega
    all_goals rcases hp with h | h <;> rw [h] <;> decide

/-- Sample for C19: a thousand iterations against a silent card. -/
theorem C19_silent_peer_never_returns_witness :
    script_silent (script_ese (TEQ1_INIT_CARD_STATE ⟨0, 0⟩) [none, none]) ∧
    teq1_transceive 1000 (script_ops opts_plain)
        (script_ese (TEQ1_INIT_CARD_STATE ⟨0, 0⟩) [none, none])
        [1, 2, 3] 3 (List.replicate 8 0) 8 frame_demo frame_demo = .error Fault.OutOfFuel :=
  ⟨by decide,
   C19_silent_peer_never_returns 1000 opts_plain rfl
     (script_ese (TEQ1_INIT_CARD_STATE ⟨0, 0⟩) [none, none]) (by decide)
     [1, 2, 3] 3 (List.replicate 8 0) 8 frame_demo frame_demo⟩

set_option maxRecDepth 1000000 in
/-- Claim C20, counterexample: the card answers the block `I(0,0)` with a frame
whose checksum byte is wrong and then with a valid `I(0,0)` carrying two
bytes. The call returns 2 with no error, and the frames sent are the I-block
and one error R-block `R(0,0,1)`: no frame was sent a second time. The rule
engine answers a corrupted reply to `I(0,0)` with `SingleShot`, not with
`Retransmit`, and leaves the retransmit counter at 0. -/
theorem C20_no_retransmission :
    run_summary (teq1_transceive 2 (script_ops opts_plain)
      (script_ese ⟨1, 1⟩ [some [0, 1, 7, 0], some (wire_reply 0xA5 (I 0 0) [7, 8])])
      [9] 1 (List.replicate 8 0) 8 frame_demo frame_demo)
    = some (2, 0, 0, [[0x5A, I 0 0, 1, 9, 0x52], [0x5A, R 0 0 1, 0, 0xDB]]) ∧
    [[0x5A, I 0 0, 1, 9, 0x52], [0x5A, R 0 0 1, 0, 0xDB]].Nodup ∧
    (teq1_rules 2 state_demo sent_demo reply_bad_demo frame_demo).map
        (fun r => (r.1, r.2.1.retransmits))
      = some (kRuleResultSingleShot, 0) := by
  decide

/-- Claim C20, amended: recovery from one corrupted reply, on a backend without
preprocess hook. For a payload of at most 254 bytes, when the first reply is a
frame with a wrong checksum and the second a checksum-valid non-chained I-block
with a fresh sequence bit and `k` bytes, `k` within the receive capacity,
`teq1_transceive` returns `k` with the `k` bytes at the start of the receive
buffer and no error recorded. No block is retransmitted: exactly two frames
were sent, the I-block, once, and in between the two replies one error R-block
that asks the card to repeat its block (`R(s,0,1)`, or `R(s,1,0)` when the
corrupted frame carries the control byte 255). -/
theorem C20_recovery_after_corrupt_reply (fuel : Nat) (opts : Teq1ProtocolOptions)
    (hpre : opts.preprocess = none) (cs : Teq1CardState) (hcard : cs.card < 2)
    (pcb c : Nat) (inf tx_buf rx_mem payload : List Nat) (rx_len t : Nat)
    (rest : List (Option (List Nat))) (stack0 stack1 : Teq1Frame)
    (hstack0 : stack0.INF.length = INF_LEN + 1) (hstack1 : stack1.INF.length = INF_LEN + 1)
    (hinf : inf.length ≤ 254)
    (hbad : c ≠ xor_all (opts.host_address :: pcb :: inf.length :: inf))
    (hn : tx_buf.length ≤ 254) (hk : payload.length ≤ 254) (hcap : payload.length ≤ rx_len)
    (ht : t < 2) (hfresh : t ≠ cs.card) :
    ∃ r : TransceiveResult Script,
      teq1_transceive (fuel + 2) (script_ops opts)
          (script_ese cs (some (pcb :: inf.length :: inf ++ [c]) ::
            some (wire_reply opts.host_address (I t 0) payload) :: rest))
          tx_buf tx_buf.length rx_mem rx_len stack0 stack1 = .ok r ∧
      r.ret = payload.length ∧
      r.rx_mem = payload ++ rx_mem.drop payload.length ∧
      r.ese.error.is_err = 0 ∧
      r.ese.hw.sent =
        [opts.node_address ::
          wire_reply opts.node_address (I (lnot (int1_read cs.interface)) 0) tx_buf,
         opts.node_address :: wire_reply opts.node_address
          (if pcb = 255 then R (lnot (int1_read cs.interface)) 1 0
           else R (lnot (int1_read cs.interface)) 0 1) []] ∧
      r.ese.hw.replies = rest := by
  have hs := lnot_lt (int1_read cs.interface)
  generalize hsdef : lnot (int1_read cs.interface) = s at hs
  have hchunk : chunk_len (TEQ1_INIT_STATE tx_buf tx_buf.length rx_mem rx_len cs)
      = tx_buf.length := by
    simp [chunk_len, TEQ1_INIT_STATE, IFSC, INF_LEN]; omega
  have hfill := fill_info_block_I
    (TEQ1_INIT_STATE tx_buf tx_buf.length rx_mem rx_len cs)
    { stack0 with PCB := TEQ1_I s 0 } s hs rfl
    (by simp only [TEQ1_INIT_STATE]; omega)
  rw [hchunk] at hfill
  have hmore : (if (TEQ1_INIT_STATE tx_buf tx_buf.length rx_mem rx_len
      cs).app_data.tx_len - tx_buf.length > 0 then 1 else 0) = 0 := by
    simp [TEQ1_INIT_STATE]
  rw [hmore] at hfill
  unfold teq1_transceive teq1_transceive_from
  have hcs : (script_ese cs (some (pcb :: inf.length :: inf ++ [c]) ::
      some (wire_reply opts.host_address (I t 0) payload) :: rest)).card_state = cs := rfl
  simp only [hcs, hsdef, hfill]
  refine ⟨_, loop_corrupt_recovery opts hpre _ rx_len fuel _ _ pcb c inf payload s t rest
    rfl rfl hinf hbad hk rfl rfl hs ht hcard (by show t = 1 ∨ cs.card = 1; omega) rfl
    (by show 0 < stack1.INF.length; rw [hstack1, INF_LEN]; omega), ?_, ?_, rfl, ?_, rfl⟩
  · simp only [TEQ1_INIT_STATE]; omega
  · simp only [TEQ1_INIT_STATE, memcpy, Nat.min_eq_left hcap, List.take_zero, List.nil_append,
      Nat.zero_add]
    rw [received_take _ _ _ _ (le_refl _), List.take_length]
  · have hlen : (memcpy stack0.INF 0 tx_buf tx_buf.length).length = stack0.INF.length :=
      memcpy_length _ _ _ _ (by rw [hstack0, INF_LEN]; omega) (le_refl _)
    have hw := sealed_wire opts.node_address
      { NAD := stack0.NAD, PCB := I s 0, LEN := tx_buf.length,
        INF := memcpy stack0.INF 0 tx_buf tx_buf.length } tx_buf rfl
      (by simpa using memcpy_zero_take stack0.INF tx_buf tx_buf.length (le_refl _))
      (by simp only [hlen, hstack0, INF_LEN]; omega)
    show [] ++ [wire_of opts.node_address _, _] = _
    unfold wire_of
    exact congrArg (fun x => [x, _]) hw

/-- Sample for C20: a reply with checksum byte 0, then `I(0,0)` with two
bytes. -/
theorem C20_recovery_after_corrupt_reply_witness :
    ∃ r : TransceiveResult Script,
      teq1_transceive 2 (script_ops opts_plain)
          (script_ese ⟨1, 1⟩ [some [0, 1, 7, 0], some (wire_reply 0xA5 (I 0 0) [7, 8])])
          [9] 1 (List.replicate 8 0) 8 frame_demo frame_demo = .ok r ∧
      r.ret = 2 ∧
      r.rx_mem = [7, 8, 0, 0, 0, 0, 0, 0] ∧
      r.ese.error.is_err = 0 ∧
      r.ese.hw.sent = [[0x5A, I 0 0, 1, 9, 0x52], [0x5A, R 0 0 1, 0, 0xDB]] :=
  let ⟨r, h1, h2, h3, h4, h5, _⟩ :=
    C20_recovery_after_corrupt_reply 0 opts_plain rfl ⟨1, 1⟩ (by decide) 0 0 [7] [9]
      (List.replicate 8 0) [7, 8] 8 0 [] frame_demo frame_demo
      (by rw [frame_demo, List.length_append, List.length_replicate]; rfl)
      (by rw [frame_demo, List.length_append, List.length_replicate]; rfl)
      (by decide) (by decide) (by decide) (by decide) (by decide) (by decide) (by decide)
  ⟨r, h1, h2, h3, h4, h5.trans (by decide)⟩

/-- Claim C21: error reply to an I-block. When the last sent block is an
I-block `I(s,m)`, the received frame is classified erroneous (the error check
rejects it, or it passes the check and no case label matches) and the error
counter after counting it is below 3, `teq1_rules` returns `SingleShot` with
`next_tx` changed in its control byte only, to an R-block whose next-sequence
bit is `s` and which has exactly one error flag: the parity flag when the frame
was not the sentinel and its checksum did not match, otherwise the other-error
flag. One error is counted and the application cursors are as before; the sent
block is no output of `teq1_rules`, which only reads it. -/
theorem C21_error_reply_to_I_block (fuel : Nat) (state : Teq1State) (tx rx next : Teq1Frame)
    (s m : Nat) (hs : s < 2) (hm : m < 2) (htx : tx.PCB = I s m)
    (hbad : classified_erroneous state tx rx) (hcount : state.errors + 1 < 3) :
    ∃ st rx2 nx,
      teq1_rules (fuel + 2) state tx rx next = some (kRuleResultSingleShot, st, rx2, nx) ∧
      nx = { next with PCB := nx.PCB } ∧
      PCB_type nx.PCB = kPcbTypeReceiveReady ∧ PCB_R_next_seq nx.PCB = s ∧
      (rx.PCB ≠ 255 ∧ rx.INF.getD rx.LEN 0 ≠ teq1_compute_LRC rx →
        nx.PCB = R s 0 1 ∧ PCB_R_parity_err nx.PCB = 1 ∧ PCB_R_other_err nx.PCB = 0) ∧
      (¬ (rx.PCB ≠ 255 ∧ rx.INF.getD rx.LEN 0 ≠ teq1_compute_LRC rx) →
        nx.PCB = R s 1 0 ∧ PCB_R_parity_err nx.PCB = 0 ∧ PCB_R_other_err nx.PCB = 1) ∧
      st.errors = state.errors + 1 ∧ st.app_data = state.app_data ∧
      (rx2 = rx ∨ rx2 = { rx with PCB := 255 }) := by
  have htxm : tx.PCB ∈ [I 0 0, I 0 1, I 1 0, I 1 1] := by
    rw [htx]
    obtain rfl | rfl : s = 0 ∨ s = 1 := by omega
    all_goals obtain rfl | rfl : m = 0 ∨ m = 1 := by omega
    all_goals decide
  have hflags : ∀ e, e = R 0 0 1 ∨ e = R 0 1 0 →
      PCB_type (PCB_set_R_next_seq e (PCB_I_send_seq (I s m))) = kPcbTypeReceiveReady ∧
      PCB_R_next_seq (PCB_set_R_next_seq e (PCB_I_send_seq (I s m))) = s ∧
      (e = R 0 0 1 → PCB_set_R_next_seq e (PCB_I_send_seq (I s m)) = R s 0 1 ∧
        PCB_R_parity_err (PCB_set_R_next_seq e (PCB_I_send_seq (I s m))) = 1 ∧
        PCB_R_other_err (PCB_set_R_next_seq e (PCB_I_send_seq (I s m))) = 0) ∧
      (e = R 0 1 0 → PCB_set_R_next_seq e (PCB_I_send_seq (I s m)) = R s 1 0 ∧
        PCB_R_parity_err (PCB_set_R_next_seq e (PCB_I_send_seq (I s m))) = 0 ∧
        PCB_R_other_err (PCB_set_R_next_seq e (PCB_I_send_seq (I s m))) = 1) := by
    intro e he
    obtain rfl | rfl : s = 0 ∨ s = 1 := by omega
    all_goals obtain rfl | rfl : m = 0 ∨ m = 1 := by omega
    all_goals rcases he with rfl | rfl
    all_goals decide
  by_cases herr : (teq1_frame_error_check state tx rx).1 ≠ 0
  · have hcode := error_check_code state tx rx herr
    have he := error_check_errors state tx rx
    obtain ⟨cs, hcs⟩ := error_check_state state tx rx
    have hr := rules_err_I (fuel + 1) state (teq1_frame_error_check state tx rx).2 tx rx next
      (teq1_frame_error_check state tx rx).1 rfl herr htxm (by rw [he]; exact hcount)
    rw [hcode, htx] at hr
    have hcases : error_code rx = R 0 0 1 ∨ error_code rx = R 0 1 0 := by
      unfold error_code; split
      · exact Or.inl rfl
      · exact Or.inr rfl
    obtain ⟨f1, f2, f3, f4⟩ := hflags (error_code rx) hcases
    refine ⟨_, _, _, hr, rfl, f1, f2, ?_, ?_, ?_, ?_, Or.inl rfl⟩
    · intro hc
      exact f3 (by unfold error_code; rw [if_pos hc])
    · intro hc
      exact f4 (by unfold error_code; rw [if_neg hc])
    · simp [count_error, he]
    · rw [hcs]; rfl
  · have hok : (teq1_frame_error_check state tx rx).1 = 0 := by
      by_contra h; exact herr h
    have harm : rule_arm (TEQ1_RULE tx.PCB rx.PCB) = default_ := by
      rcases hbad with h | h
      · exact absurd h herr
      · exact h
    obtain ⟨hp, hl⟩ := error_check_ok_ne_sentinel state tx rx hok
    have he := error_check_errors state tx rx
    obtain ⟨cs, hcs⟩ := error_check_state state tx rx
    have h1 := rules_no_rule fuel state tx rx next hok harm
    have hr := rules_err_I fuel (teq1_frame_error_check state tx rx).2
      (teq1_frame_error_check state tx rx).2 tx { rx with PCB := 255 } next (R 0 1 0)
      (error_check_sentinel _ tx _ rfl) (by decide) htxm (by rw [he]; exact hcount)
    unfold teq1_rules at hr
    have h2 : teq1_rules_loop (fuel + 1) (teq1_frame_error_check state tx rx).2 tx
        { rx with PCB := 255 } next (TEQ1_RULE tx.PCB rx.PCB) =
        teq1_rules_loop (fuel + 1) (teq1_frame_error_check state tx rx).2 tx
        { rx with PCB := 255 } next
          (TEQ1_RULE tx.PCB ({ rx with PCB := 255 } : Teq1Frame).PCB) := by
      rw [rules_loop_err fuel _ _ tx { rx with PCB := 255 } next (TEQ1_RULE tx.PCB rx.PCB)
        (R 0 1 0) (error_check_sentinel _ tx _ rfl) (by decide)]
      rw [rules_loop_err fuel _ _ tx { rx with PCB := 255 } next _
        (R 0 1 0) (error_check_sentinel _ tx _ rfl) (by decide)]
    rw [h2, hr, htx] at h1
    obtain ⟨f1, f2, -, f4⟩ := hflags (R 0 1 0) (Or.inr rfl)
    refine ⟨_, _, _, h1, rfl, f1, f2, ?_, ?_, ?_, ?_, Or.inr rfl⟩
    · intro hc
      exact absurd hl hc.2
    · intro _
      exact f4 rfl
    · simp [count_error, he]
    · rw [hcs]; rfl

set_option maxRecDepth 1000000 in
/-- Sample for C21: the empty block `I(0,0)` was sent and the reply has a
wrong checksum byte; the R-block prepared is `R(0,0,1)`. -/
theorem C21_error_reply_to_I_block_witness :
    ∃ st rx2 nx, teq1_rules (0 + 2) state_demo sent_demo reply_bad_demo frame_demo
        = some (kRuleResultSingleShot, st, rx2, nx) ∧
      nx = { frame_demo with PCB := nx.PCB } ∧ nx.PCB = R 0 0 1 ∧
      st.errors = state_demo.errors + 1 := by
  obtain ⟨st, rx2, nx, h, hnx, -, -, hpar, -, herr, -⟩ :=
    C21_error_reply_to_I_block 0 state_demo sent_demo reply_bad_demo frame_demo 0 0
      (by decide) (by decide) rfl (by decide) (by decide)
  exact ⟨st, rx2, nx, h, hnx, (hpar ⟨by decide, by decide⟩).1, herr⟩

/-- Claim C22: retransmit of the unchanged block. When the last sent block is
`S(RESYNC, REQUEST)` or any R-block, the received frame is invalid (the error
check rejects it, as for the sentinel or a checksum mismatch, or it passes the
check and no case label matches) and the error counter after counting it is
below 3, `teq1_rules` returns `Retransmit` with `next_tx` exactly as on entry;
one error is counted and the retransmit counter and the application cursors are
as before. The sent block is no output of `teq1_rules`, which only reads it. -/
theorem C22_retransmit_unchanged (fuel : Nat) (state : Teq1State) (tx rx next : Teq1Frame)
    (htx : retransmit_block tx.PCB) (hbad : classified_erroneous state tx rx)
    (hcount : state.errors + 1 < 3) :
    ∃ st rx2,
      teq1_rules (fuel + 2) state tx rx next = some (kRuleResultRetransmit, st, rx2, next) ∧
      st.errors = state.errors + 1 ∧ st.retransmits = state.retransmits ∧
      st.app_data = state.app_data ∧ (rx2 = rx ∨ rx2 = { rx with PCB := 255 }) := by
  have he := error_check_errors state tx rx
  obtain ⟨cs, hcs⟩ := error_check_state state tx rx
  by_cases herr : (teq1_frame_error_check state tx rx).1 ≠ 0
  · have hr := rules_err_retransmit (fuel + 1) state (teq1_frame_error_check state tx rx).2 tx rx
      next (teq1_frame_error_check state tx rx).1 rfl herr htx (by rw [he]; exact hcount)
    refine ⟨_, _, hr, ?_, ?_, ?_, Or.inl rfl⟩
    · simp [count_error, he]
    · rw [hcs]; rfl
    · rw [hcs]; rfl
  · have hok : (teq1_frame_error_check state tx rx).1 = 0 := by
      by_contra h; exact herr h
    have harm : rule_arm (TEQ1_RULE tx.PCB rx.PCB) = default_ := by
      rcases hbad with h | h
      · exact absurd h herr
      · exact h
    have h1 := rules_no_rule fuel state tx rx next hok harm
    rw [rules_loop_sentinel_fresh fuel _ tx _ next _ rfl] at h1
    have hr := rules_err_retransmit fuel (teq1_frame_error_check state tx rx).2
      (teq1_frame_error_check state tx rx).2 tx { rx with PCB := 255 } next (R 0 1 0)
      (error_check_sentinel _ tx _ rfl) (by decide) htx (by rw [he]; exact hcount)
    rw [hr] at h1
    refine ⟨_, _, h1, ?_, ?_, ?_, Or.inr rfl⟩
    · simp [count_error, he]
    · rw [hcs]; rfl
    · rw [hcs]; rfl

set_option maxRecDepth 1000000 in
/-- Sample for C22: the block `R(1,0,0)` was sent and nothing valid came
back. -/
theorem C22_retransmit_unchanged_witness :
    ∃ st rx2, teq1_rules (0 + 2) state_demo ack_demo frame_ff frame_demo
        = some (kRuleResultRetransmit, st, rx2, frame_demo) ∧
      st.errors = state_demo.errors + 1 ∧ st.retransmits = state_demo.retransmits ∧
      st.app_data = state_demo.app_data ∧ (rx2 = frame_ff ∨ rx2 = { frame_ff with PCB := 255 }) :=
  C22_retransmit_unchanged 0 state_demo ack_demo frame_ff frame_demo (by decide) (by decide)
    (by decide)

set_option maxRecDepth 1000000 in
/-- Claim C23, evaluated at the failing inputs: a peer-initiated abort never
ends in `Abort`. The rule engine answers a checksum-valid `S(ABORT, REQUEST)`,
received mid-chain or after an R-block, with `Continue` and the block
`S(ABORT, REQUEST)` in `next_tx`, not `S(ABORT, RESPONSE)`; `teq1_rules`
returns `Abort` only when the block last sent is `S(ABORT, RESPONSE)`; and no
exchange with the scripted card, whatever it replies, ends with the code
`TEQ1_ERROR_ABORT`. In the three runs, the card aborts while it sends a chain
and then acknowledges (hard failure, code 0), or then sends
`S(ABORT, RESPONSE)` (success with the two bytes received before), or aborts
while the host sends a chain and then sends `S(ABORT, RESPONSE)` (success with
no byte). -/
theorem C23_peer_abort_never_aborts :
    (∀ (fuel : Nat) (state : Teq1State) (tx rx next : Teq1Frame),
      abort_request_block tx.PCB → rx.PCB = S ABORT REQUEST →
      (teq1_frame_error_check state tx rx).1 = 0 →
      teq1_rules (fuel + 1) state tx rx next =
        some (kRuleResultContinue, (teq1_frame_error_check state tx rx).2, rx,
          { next with PCB := S ABORT REQUEST })) ∧
    (∀ (fuel : Nat) (state : Teq1State) (tx rx next : Teq1Frame) (st : Teq1State)
      (rx2 nx : Teq1Frame),
      teq1_rules fuel state tx rx next = some (kRuleResultAbort, st, rx2, nx) →
      tx.PCB % 256 = S ABORT RESPONSE) ∧
    (∀ (opts : Teq1ProtocolOptions) (fuel : Nat) (ese : EseInterface Script)
      (tx_buf : List Nat) (tx_len : Nat) (rx_mem : List Nat) (rx_len : Nat)
      (stack0 stack1 : Teq1Frame) (r : TransceiveResult Script),
      opts.preprocess = none → ese.error.code ≠ TEQ1_ERROR_ABORT →
      teq1_transceive fuel (script_ops opts) ese tx_buf tx_len rx_mem rx_len stack0 stack1
        = .ok r →
      r.ese.error.code ≠ TEQ1_ERROR_ABORT) ∧
    run_summary (teq1_transceive 4 (script_ops opts_plain)
      (script_ese (TEQ1_INIT_CARD_STATE ⟨0, 0⟩)
        [some (wire_reply 0xA5 (I 0 1) [1, 2]), some (wire_reply 0xA5 (S ABORT REQUEST) [0]),
         some (wire_reply 0xA5 (R 0 0 0) [])])
      [9] 1 (List.replicate 8 0) 8 frame_demo frame_demo)
    = some (0, 1, TEQ1_ERROR_HARD_FAIL,
        [[0x5A, I 0 0, 1, 9, 0x52], [0x5A, R 1 0 0, 0, 0xCA],
         [0x5A, S ABORT REQUEST, 0, 0x98]]) ∧
    run_summary (teq1_transceive 4 (script_ops opts_plain)
      (script_ese (TEQ1_INIT_CARD_STATE ⟨0, 0⟩)
        [some (wire_reply 0xA5 (I 0 1) [1, 2]), some (wire_reply 0xA5 (S ABORT REQUEST) [0]),
         some (wire_reply 0xA5 (S ABORT RESPONSE) [0])])
      [9] 1 (List.replicate 8 0) 8 frame_demo frame_demo)
    = some (2, 0, 0,
        [[0x5A, I 0 0, 1, 9, 0x52], [0x5A, R 1 0 0, 0, 0xCA],
         [0x5A, S ABORT REQUEST, 0, 0x98]]) ∧
    run_summary (teq1_transceive 4 (script_ops opts_plain)
      (script_ese (TEQ1_INIT_CARD_STATE ⟨0, 0⟩)
        [some (wire_reply 0xA5 (S ABORT REQUEST) [0]),
         some (wire_reply 0xA5 (S ABORT RESPONSE) [0])])
      (List.replicate 255 7) 255 (List.replicate 8 0) 8 frame_demo frame_demo)
    = some (0, 0, 0,
        [0x5A :: wire_reply 0x5A (I 0 1) (List.replicate 254 7),
         [0x5A, S ABORT REQUEST, 0, 0x98]]) ∧
    TEQ1_ERROR_HARD_FAIL ≠ TEQ1_ERROR_ABORT := by
  refine ⟨?_, ?_, ?_, ?_, ?_, ?_, ?_⟩
  · intro fuel state tx rx next htx hrx hok
    exact rules_abort_request fuel state tx rx next htx hrx hok
  · intro fuel state tx rx next st rx2 nx h
    exact rules_abort_sent fuel state tx rx next st rx2 nx h
  · intro opts fuel ese tx_buf tx_len rx_mem rx_len stack0 stack1 r hpre hcode h
    exact transceive_abort_free opts hpre fuel ese tx_buf tx_len rx_mem rx_len stack0 stack1 r
      hcode h
  · decide
  · decide
  · decide
  · decide

set_option maxRecDepth 1000000 in
/-- Sample for C23: an abort request of the peer after the block `R(1,0,0)`
is answered with `Continue` and `S(ABORT, REQUEST)`. -/
theorem C23_peer_abort_never_aborts_witness :
    teq1_rules (0 + 1) state_demo ack_demo abort_request_demo frame_demo =
      some (kRuleResultContinue, (teq1_frame_error_check state_demo ack_demo abort_request_demo).2,
        abort_request_demo, { frame_demo with PCB := S ABORT REQUEST }) :=
  C23_peer_abort_never_aborts.1 0 state_demo ack_demo abort_request_demo frame_demo
    (by decide) (by decide) (by decide)

/-- Claim C24: `teq1_rules` settles within two evaluations. For every input, a
fuel of 2 is enough and more fuel gives the same result, with the received
frame returned as it came or with its control byte rewritten to 255; a frame
that is already sentinel-marked is settled in one evaluation. A frame that is
not sentinel-marked and finds no rule has its control byte rewritten to 255
and is evaluated once more against the same sent block, from the state the
first evaluation left, and that second evaluation returns. A sentinel-marked
frame that finds no rule, the thresholds not reached, gives `HardFail` with
one error counted and `next_tx` untouched. -/
theorem C24_rules_two_evaluations (fuel : Nat) (state : Teq1State) (tx rx next : Teq1Frame) :
    (∃ res st rx2 nx, teq1_rules 2 state tx rx next = some (res, st, rx2, nx) ∧
      teq1_rules (fuel + 2) state tx rx next = some (res, st, rx2, nx) ∧
      (rx2 = rx ∨ rx2 = { rx with PCB := 255 })) ∧
    (rx.PCB = 255 →
      ∃ res st nx, teq1_rules 1 state tx rx next = some (res, st, rx, nx) ∧
        teq1_rules (fuel + 1) state tx rx next = some (res, st, rx, nx)) ∧
    (no_rule state tx rx → rx.PCB ≠ 255 →
      teq1_rules (fuel + 2) state tx rx next =
        teq1_rules (fuel + 1) (first_pass state tx rx) tx { rx with PCB := 255 } next ∧
      ∃ res st nx, teq1_rules 1 (first_pass state tx rx) tx { rx with PCB := 255 } next
        = some (res, st, { rx with PCB := 255 }, nx)) ∧
    (no_rule state tx rx → rx.PCB = 255 →
      teq1_rules (fuel + 1) state tx rx next =
        some (kRuleResultHardFail, first_pass state tx rx, rx, next) ∧
      (first_pass state tx rx).errors = state.errors + 1) := by
  refine ⟨?_, ?_, ?_, ?_⟩
  · obtain ⟨res, st, rx2, nx, hrx, h⟩ := rules_two state tx rx next (TEQ1_RULE tx.PCB rx.PCB)
    exact ⟨res, st, rx2, nx, h 0, h fuel, hrx⟩
  · intro hp
    obtain ⟨res, st, nx, h⟩ := rules_one_sentinel state tx rx next (TEQ1_RULE tx.PCB rx.PCB) hp
    exact ⟨res, st, nx, h 0, h fuel⟩
  · intro hno hp
    have hsec : ∀ st0, ∃ res st nx, teq1_rules 1 st0 tx { rx with PCB := 255 } next
        = some (res, st, { rx with PCB := 255 }, nx) := by
      intro st0
      obtain ⟨res, st, nx, h⟩ := rules_one_sentinel st0 tx { rx with PCB := 255 } next
        (TEQ1_RULE tx.PCB ({ rx with PCB := 255 } : Teq1Frame).PCB) rfl
      exact ⟨res, st, nx, h 0⟩
    refine ⟨?_, hsec _⟩
    rcases hno with ⟨hok, harm⟩ | ⟨herr, hcount, harm⟩
    · rw [rules_no_rule fuel state tx rx next hok harm,
        rules_loop_sentinel_fresh fuel _ tx _ next _ rfl]
      unfold first_pass
      rw [if_neg (by rw [hok]; simp)]
    · have he := error_check_errors state tx rx
      unfold teq1_rules
      rw [rules_loop_err (fuel + 1) state (teq1_frame_error_check state tx rx).2 tx rx next _
          (teq1_frame_error_check state tx rx).1 rfl herr,
        if_neg (by rw [he]; omega), if_neg (by rw [he]; omega),
        (switch_none_iff _ tx rx next _ _).2 harm]
      simp only [hp, ne_eq, not_false_eq_true, if_true]
      rw [rules_loop_sentinel_fresh fuel _ tx _ next _ rfl]
      unfold first_pass teq1_rules
      rw [if_pos herr]
  · intro hno hp
    have hchk := error_check_sentinel state tx rx hp
    rcases hno with ⟨hok, -⟩ | ⟨herr, hcount, harm⟩
    · rw [hchk] at hok
      exact absurd hok (by show ¬ R 0 1 0 = 0; decide)
    · have hfp : first_pass state tx rx = count_error state := by
        unfold first_pass
        rw [if_pos herr, hchk]
      unfold teq1_rules
      rw [rules_loop_err fuel state state tx rx next _ _ hchk (by decide),
        if_neg (by omega), if_neg (by omega),
        (switch_none_iff _ tx rx next _ _).2 harm, hfp]
      simp only [hp, ne_eq, not_true_eq_false, if_false]
      exact ⟨trivial, rfl⟩

set_option maxRecDepth 1000000 in
/-- Sample for C24: after `S(ABORT, REQUEST)` was sent, a sentinel-marked
frame matches no rule and the outcome is `HardFail` with one error counted. -/
theorem C24_rules_two_evaluations_witness :
    teq1_rules (0 + 1) state_demo abort_sent_demo frame_ff frame_demo =
      some (kRuleResultHardFail, first_pass state_demo abort_sent_demo frame_ff, frame_ff,
        frame_demo) ∧
    (first_pass state_demo abort_sent_demo frame_ff).errors = state_demo.errors + 1 :=
  (C24_rules_two_evaluations 0 state_demo abort_sent_demo frame_ff frame_demo).2.2.2
    (by decide) (by decide)

set_option maxRecDepth 1000000 in
/-- Claim C25: terminal failures return no byte count. Whatever the state of
the receive cursor, when `teq1_rules` returns `HardFail`, or `Retransmit` with
the retransmit counter at 3 and `S(RESYNC, REQUEST)` active, the loop body
returns 0 with `is_err = 1` and code `TEQ1_ERROR_HARD_FAIL` (0); for `Abort`
the code is `TEQ1_ERROR_ABORT` (1); for `ResetDevice` when a reset was already
performed or there is no `hw_reset`, or when `hw_reset` returns -1, the code is
`TEQ1_ERROR_DEVICE_RESET` (2), and `hw_reset` was not called in the first two
cases. A `hw_reset` that succeeds sets `was_reset`, and once `was_reset` is set
the run of the loop does not depend on the `hw_reset` operation, so it is not
called again. A return of the loop body is the return of the loop. The error
table of the backend is taken to have the three T=1 entries. In the run shown,
two payload bytes are already in the receive buffer when the exchange fails,
and the value returned is 0. -/
theorem C25_terminal_failures {H : Type} (ops : EseOperations H) (init_state : Teq1State)
    (rx_len fuel : Nat) (ese : EseInterface H) (l : TransceiveLocals) (rx_frame : Teq1Frame)
    (res : RuleResult) (st : Teq1State) (rx nx : Teq1Frame)
    (hcount : 3 ≤ ese.errors_count) (htx : l.tx = l.active)
    (hr : teq1_rules fuel { l.state with card_state := ese.card_state }
      (l.frame l.tx) rx_frame (l.frame (inot l.active)) = some (res, st, rx, nx)) :
    (res = kRuleResultHardFail →
      ∃ r, transceive_dispatch ops init_state rx_len fuel ese l rx_frame = .ok (.ret r) ∧
        r.ret = 0 ∧ r.ese.error.is_err = 1 ∧ r.ese.error.code = TEQ1_ERROR_HARD_FAIL ∧
        TEQ1_ERROR_HARD_FAIL = 0) ∧
    (res = kRuleResultRetransmit → 3 ≤ l.state.retransmits →
      (l.frame l.active).PCB = S RESYNC REQUEST →
      ∃ r, transceive_dispatch ops init_state rx_len fuel ese l rx_frame = .ok (.ret r) ∧
        r.ret = 0 ∧ r.ese.error.is_err = 1 ∧ r.ese.error.code = TEQ1_ERROR_HARD_FAIL) ∧
    (res = kRuleResultAbort →
      ∃ r, transceive_dispatch ops init_state rx_len fuel ese l rx_frame = .ok (.ret r) ∧
        r.ret = 0 ∧ r.ese.error.is_err = 1 ∧ r.ese.error.code = TEQ1_ERROR_ABORT ∧
        TEQ1_ERROR_ABORT = 1) ∧
    (res = kRuleResultResetDevice → l.was_reset = true ∨ ops.hw_reset = none →
      ∃ r, transceive_dispatch ops init_state rx_len fuel ese l rx_frame = .ok (.ret r) ∧
        r.ret = 0 ∧ r.ese.error.is_err = 1 ∧ r.ese.error.code = TEQ1_ERROR_DEVICE_RESET ∧
        TEQ1_ERROR_DEVICE_RESET = 2 ∧ r.ese.hw = ese.hw) ∧
    (res = kRuleResultResetDevice → l.was_reset = false →
      ∀ hw_reset, ops.hw_reset = some hw_reset →
        3 ≤ (hw_reset { ese with card_state := st.card_state }).2.errors_count →
        ((hw_reset { ese with card_state := st.card_state }).1 = -1 →
          ∃ r, transceive_dispatch ops init_state rx_len fuel ese l rx_frame = .ok (.ret r) ∧
            r.ret = 0 ∧ r.ese.error.is_err = 1 ∧
            r.ese.error.code = TEQ1_ERROR_DEVICE_RESET ∧
            r.ese.hw = (hw_reset { ese with card_state := st.card_state }).2.hw) ∧
        ((hw_reset { ese with card_state := st.card_state }).1 ≠ -1 →
          ∃ e2 l2, transceive_dispatch ops init_state rx_len fuel ese l rx_frame
              = .ok (.again e2 l2) ∧
            l2.was_reset = true ∧
            e2.hw = (hw_reset { ese with card_state := st.card_state }).2.hw)) ∧
    (l.was_reset = true → ∀ f n e0,
      teq1_transceive_loop { ops with hw_reset := f } init_state rx_len n e0 l
        = teq1_transceive_loop ops init_state rx_len n e0 l) ∧
    (∀ r n, transceive_body ops init_state rx_len (n + 1) ese l = .ok (.ret r) →
      teq1_transceive_loop ops init_state rx_len (n + 1) ese l = .ok r) ∧
    rx_summary (teq1_transceive 4 (script_ops opts_plain)
      (script_ese (TEQ1_INIT_CARD_STATE ⟨0, 0⟩)
        [some (wire_reply 0xA5 (I 0 1) [1, 2]), some (wire_reply 0xA5 (S ABORT REQUEST) [0]),
         some (wire_reply 0xA5 (R 0 0 0) [])])
      [9] 1 (List.replicate 8 0) 8 frame_demo frame_demo)
      = some (0, 1, TEQ1_ERROR_HARD_FAIL, [1, 2, 0, 0, 0, 0, 0, 0]) := by
  have h0 : (0 : Int).toNat < ese.errors_count := by simp; omega
  have h1 : (1 : Int).toNat < ese.errors_count := by simp; omega
  have h2 : (2 : Int).toNat < ese.errors_count := by simp; omega
  refine ⟨?_, ?_, ?_, ?_, ?_, ?_, ?_, by decide⟩
  · rintro rfl
    unfold transceive_dispatch
    rw [hr]
    obtain ⟨r, g1, g2, g3, g4, -⟩ := fail_ok { ese with card_state := st.card_state }
      (({ l with state := st }).setFrame (inot l.active) nx) TEQ1_ERROR_HARD_FAIL
      (by decide) h0
    exact ⟨r, g1, g2, g3, g4, rfl⟩
  · rintro rfl hge hpcb
    have hst : st.retransmits = l.state.retransmits :=
      rules_loop_retransmits fuel { l.state with card_state := ese.card_state }
        (l.frame l.tx) rx_frame (l.frame (inot l.active))
        (TEQ1_RULE (l.frame l.tx).PCB rx_frame.PCB) kRuleResultRetransmit st rx nx hr
    have hcount' : ¬ ese.errors_count ≤ 0 := by omega
    unfold transceive_dispatch
    rw [hr]
    by_cases hz : l.active = 0 <;>
      simp_all [TransceiveLocals.frame, TransceiveLocals.setFrame, inot, transceive_fail,
        ese_set_error_nonnull, TEQ1_ERROR_HARD_FAIL] <;>
      rw [if_neg (by omega)] <;>
      exact ⟨_, rfl, rfl, rfl, rfl⟩
  · rintro rfl
    unfold transceive_dispatch
    rw [hr]
    obtain ⟨r, g1, g2, g3, g4, -⟩ := fail_ok { ese with card_state := st.card_state }
      (({ l with state := st }).setFrame (inot l.active) nx) TEQ1_ERROR_ABORT
      (by decide) h1
    exact ⟨r, g1, g2, g3, g4, rfl⟩
  · rintro rfl hno
    obtain ⟨r, g1, g2, g3, g4, g5, -⟩ := fail_ok { ese with card_state := st.card_state }
      (({ l with state := st }).setFrame (inot l.active) nx) TEQ1_ERROR_DEVICE_RESET
      (by decide) h2
    refine ⟨r, ?_, g2, g3, g4, rfl, g5⟩
    rw [← g1]
    unfold transceive_dispatch
    rw [hr]
    rcases hno with hw | hn
    · simp only [setFrame_was_reset]
      rw [if_pos hw]
    · simp only [hn]
      split
      · rfl
      · rfl
  · rintro rfl hw hw_reset hsome hcnt
    have h2' : (2 : Int).toNat < (hw_reset { ese with card_state := st.card_state }).2.errors_count := by
      simp; omega
    have hw' : ¬ l.was_reset = true := by rw [hw]; simp
    refine ⟨fun hfail => ?_, fun hgood => ?_⟩
    · obtain ⟨r, g1, g2, g3, g4, g5, -⟩ := fail_ok
        (hw_reset { ese with card_state := st.card_state }).2
        (({ l with state := st }).setFrame (inot l.active) nx) TEQ1_ERROR_DEVICE_RESET
        (by decide) h2'
      refine ⟨r, ?_, g2, g3, g4, g5⟩
      rw [← g1]
      unfold transceive_dispatch
      rw [hr]
      simp only [setFrame_was_reset, hsome]
      rw [if_neg hw', if_pos hfail]
    · unfold transceive_dispatch
      rw [hr]
      simp only [setFrame_was_reset, hsome]
      rw [if_neg hw', if_neg hgood]
      refine ⟨_, _, rfl, ?_, ?_⟩
      · simp [transceive_reset]
      · simp [transceive_reset]
  · intro hw f n e0
    exact loop_reset_free ops f init_state rx_len n e0 l hw
  · intro r n hb
    rw [teq1_transceive_loop, hb]

set_option maxRecDepth 1000000 in
/-- Sample for C25: the active block is `S(ABORT, REQUEST)` and nothing came
back; the rule engine returns `HardFail` and the exchange returns 0 with the
code `TEQ1_ERROR_HARD_FAIL`. -/
theorem C25_terminal_failures_witness :
    ∃ r, transceive_dispatch (script_ops opts_plain) state_demo 8 2
        (script_ese (TEQ1_INIT_CARD_STATE ⟨0, 0⟩) []) abort_locals_demo frame_ff
        = .ok (.ret r) ∧
      r.ret = 0 ∧ r.ese.error.is_err = 1 ∧ r.ese.error.code = TEQ1_ERROR_HARD_FAIL ∧
      TEQ1_ERROR_HARD_FAIL = 0 :=
  (C25_terminal_failures (script_ops opts_plain) state_demo 8 2
    (script_ese (TEQ1_INIT_CARD_STATE ⟨0, 0⟩) []) abort_locals_demo frame_ff
    kRuleResultHardFail
    (first_pass { abort_locals_demo.state with
      card_state := (script_ese (TEQ1_INIT_CARD_STATE ⟨0, 0⟩) []).card_state }
      abort_sent_demo frame_ff)
    frame_ff frame_demo (by decide) rfl (by decide)).1 rfl

/-- Claim C26, evaluated at the failing inputs: on the probed backend a poll
result 0, the timeout of the documented poll contract, does not make
`teq1_receive` fail.
When the wire then delivers a control byte, a length other than 255 and
further bytes, `teq1_receive` performs the two raw receives, returns the
length read (not -1) and leaves the control byte read in the frame, and the
exchange loop hands that frame to the rule engine, not the sentinel 255. When
the wire delivers nothing into the frame that the exchange loop has filled
with 0xff, the result is -1, but after two raw receives. Only a negative poll
result gives -1 after the poll alone, with the frame untouched. -/
theorem C26_poll_timeout_not_failure (opts : Teq1ProtocolOptions) (ese : EseInterface Probe)
    (timeout : ℚ) (frame : Teq1Frame) (l : TransceiveLocals) (pcb len : Nat) (rest : List Nat)
    (hpoll : ese.hw.poll_ret = 0) (hwire : ese.hw.wire = pcb :: len :: rest)
    (hlen : len ≠ 255) (hpre : opts.preprocess = none) :
    (∃ e2 f2, teq1_receive (probe_ops opts) ese timeout frame = .ok ((len : Int), e2, f2) ∧
      (len : Int) ≠ -1 ∧
      e2.hw.calls = ese.hw.calls ++
        [.poll opts.host_address timeout 0, .receive true 2 0, .receive true (len + 1) 1] ∧
      f2.PCB = pcb ∧ f2.LEN = len) ∧
    (∃ e1 l1 rx, transceive_txrx (probe_ops opts) ese l = .ok (e1, l1, rx) ∧
      rx.PCB = pcb ∧ rx.LEN = len ∧ (pcb ≠ 255 → rx.PCB ≠ 255)) ∧
    (∀ ese0 : EseInterface Probe, ese0.hw.poll_ret = 0 → ese0.hw.wire = [] →
      ∃ e2, teq1_receive (probe_ops opts) ese0 timeout frame_ff
          = .ok (-1, e2, { frame_ff with NAD := opts.host_address }) ∧
        e2.hw.calls = ese0.hw.calls ++
          [.poll opts.host_address timeout 0, .receive true 2 0, .receive false 0 1]) ∧
    (∀ ese0 : EseInterface Probe, ese0.hw.poll_ret < 0 →
      ∃ e2, teq1_receive (probe_ops opts) ese0 timeout frame = .ok (-1, e2, frame) ∧
        e2.hw.calls = ese0.hw.calls ++ [.poll opts.host_address timeout 0]) := by
  have h0 : 0 ≤ ese.hw.poll_ret := by omega
  refine ⟨?_, ?_, ?_, ?_⟩
  · have h := receive_probe_frame opts ese timeout frame pcb len rest h0 hwire hlen
    simp only [hooked, hpre] at h
    exact ⟨_, _, h, by omega, rfl, rfl, rfl⟩
  · obtain ⟨e1, l1, rx, h, hrx⟩ := txrx_probe_frame opts ese l pcb len rest h0 hwire hlen hpre
    exact ⟨e1, l1, rx, h, by rw [hrx]; rfl, by rw [hrx]; rfl, fun hp => by rw [hrx]; exact hp⟩
  · intro ese0 hz hw
    exact ⟨_, receive_probe_nothing opts ese0 timeout frame_ff (by omega) hw rfl, rfl⟩
  · intro ese0 hneg
    exact ⟨_, receive_probe_neg opts ese0 timeout frame hneg, rfl⟩

/-- Sample for C26: the poll reports a timeout and the bus then reads three
zero bytes; `teq1_receive` returns 0 with the control byte 0 of `I(0,0)`. -/
theorem C26_poll_timeout_not_failure_witness :
    (∃ e2 f2, teq1_receive (probe_ops opts_plain) (probe_ese 0 [0, 0, 0] 4) 1 frame_ff
        = .ok (((0 : Nat) : Int), e2, f2) ∧
      ((0 : Nat) : Int) ≠ -1 ∧
      e2.hw.calls = (probe_ese 0 [0, 0, 0] 4).hw.calls ++
        [.poll opts_plain.host_address 1 0, .receive true 2 0, .receive true (0 + 1) 1] ∧
      f2.PCB = 0 ∧ f2.LEN = 0) ∧
    (∃ e1 l1 rx, transceive_txrx (probe_ops opts_plain) (probe_ese 0 [0, 0, 0] 4)
        ack_locals_demo = .ok (e1, l1, rx) ∧
      rx.PCB = 0 ∧ rx.LEN = 0 ∧ (0 ≠ 255 → rx.PCB ≠ 255)) ∧
    (∀ ese0 : EseInterface Probe, ese0.hw.poll_ret = 0 → ese0.hw.wire = [] →
      ∃ e2, teq1_receive (probe_ops opts_plain) ese0 1 frame_ff
          = .ok (-1, e2, { frame_ff with NAD := opts_plain.host_address }) ∧
        e2.hw.calls = ese0.hw.calls ++
          [.poll opts_plain.host_address 1 0, .receive true 2 0, .receive false 0 1]) ∧
    (∀ ese0 : EseInterface Probe, ese0.hw.poll_ret < 0 →
      ∃ e2, teq1_receive (probe_ops opts_plain) ese0 1 frame_ff = .ok (-1, e2, frame_ff) ∧
        e2.hw.calls = ese0.hw.calls ++ [.poll opts_plain.host_address 1 0]) :=
  C26_poll_timeout_not_failure opts_plain (probe_ese 0 [0, 0, 0] 4) 1 frame_ff ack_locals_demo
    0 0 [0] rfl rfl (by decide) rfl

/-- Claim C27: frame assembly on receive. On the probed backend, when the poll
returns a value that is not negative (1 when it matches) and the wire delivers
the control byte `pcb`, the length byte `len` and then `rest`, `teq1_receive`
polls for the host address and reads two header bytes with the transaction
open. If `len` is 255 it closes the transaction with a final receive of no
byte into a null buffer and returns -1, with the host address, `pcb` and 255
in the header. Otherwise it makes exactly one final receive of `len + 1`
bytes and returns the LEN of the frame after the optional hook; without a
hook that is `len`, at most 254, the header holds the host address, `pcb` and
`len`, and the `len + 1` bytes read are stored as they came, whatever the last
of them is, so no checksum is validated. -/
theorem C27_receive_assembles_frame (opts : Teq1ProtocolOptions) (ese : EseInterface Probe)
    (timeout : ℚ) (frame : Teq1Frame) (pcb len : Nat) (rest : List Nat)
    (hpoll : 0 ≤ ese.hw.poll_ret) (hwire : ese.hw.wire = pcb :: len :: rest)
    (hbyte : len < 256) :
    (len = 255 → ∃ e2, teq1_receive (probe_ops opts) ese timeout frame =
        .ok (-1, e2, { frame with NAD := opts.host_address, PCB := pcb, LEN := 255 }) ∧
      e2.hw.calls = ese.hw.calls ++
        [.poll opts.host_address timeout 0, .receive true 2 0, .receive false 0 1]) ∧
    (len ≠ 255 → ∃ e2 f2, teq1_receive (probe_ops opts) ese timeout frame =
        .ok ((f2.LEN : Int), e2, f2) ∧
      e2.hw.calls = ese.hw.calls ++
        [.poll opts.host_address timeout 0, .receive true 2 0, .receive true (len + 1) 1] ∧
      f2 = hooked opts (assembled opts.host_address frame pcb len rest) 0 ∧
      (opts.preprocess = none →
        f2.NAD = opts.host_address ∧ f2.PCB = pcb ∧ f2.LEN = len ∧ len ≤ 254 ∧
        (len + 1 ≤ rest.length → f2.INF.take (len + 1) = rest.take (len + 1)))) := by
  refine ⟨?_, ?_⟩
  · intro h255
    subst h255
    exact ⟨_, receive_probe_255 opts ese timeout frame pcb rest hpoll hwire, rfl⟩
  · intro hlen
    refine ⟨_, _, receive_probe_frame opts ese timeout frame pcb len rest hpoll hwire hlen,
      rfl, rfl, ?_⟩
    intro hpre
    simp only [hooked, hpre, assembled]
    refine ⟨trivial, trivial, trivial, by omega, ?_⟩
    intro hrest
    have hl : (rest.take (len + 1)).length = len + 1 := by
      rw [List.length_take]; omega
    rw [hl, Nat.min_self]
    have := memcpy_zero_take frame.INF (rest.take (len + 1)) (len + 1) (by omega)
    rw [this, List.take_take, Nat.min_self]

/-- Sample for C27: the poll matches and the wire delivers `I(0,0)` with the
payload 7, 8 and the wrong checksum byte 0xA9; the frame is returned with LEN
2 and the three bytes stored. -/
theorem C27_receive_assembles_frame_witness :
    ∃ e2 f2, teq1_receive (probe_ops opts_plain) (probe_ese 1 [0, 2, 7, 8, 0xA9] 6) 1 frame_ff =
        .ok ((f2.LEN : Int), e2, f2) ∧
      e2.hw.calls = (probe_ese 1 [0, 2, 7, 8, 0xA9] 6).hw.calls ++
        [.poll opts_plain.host_address 1 0, .receive true 2 0, .receive true (2 + 1) 1] ∧
      f2 = hooked opts_plain (assembled opts_plain.host_address frame_ff 0 2 [7, 8, 0xA9]) 0 ∧
      (opts_plain.preprocess = none →
        f2.NAD = opts_plain.host_address ∧ f2.PCB = 0 ∧ f2.LEN = 2 ∧ 2 ≤ 254 ∧
        (2 + 1 ≤ [7, 8, 0xA9].length →
          f2.INF.take (2 + 1) = [7, 8, 0xA9].take (2 + 1))) :=
  (C27_receive_assembles_frame opts_plain (probe_ese 1 [0, 2, 7, 8, 0xA9] 6) 1 frame_ff
    0 2 [7, 8, 0xA9] (by decide) rfl (by decide)).2 (by decide)

/-- Claim C28: frame preparation on transmit. On the probed backend, for every
frame with LEN at most 254 in a buffer of 255 information cells,
`teq1_transmit` returns 0 whatever count the raw transmit reports and leaves
the error record alone. The frame it seals has the node address in NAD, the
PCB, LEN and payload unchanged and `teq1_compute_LRC` of the frame at
`INF[LEN]`; the sealed frame goes through the hook when one is configured, and
exactly one raw transmit is made, of the first LEN + 4 bytes of the resulting
frame, marked final; without a hook these are the node address, PCB, LEN, the
payload and the checksum. -/
theorem C28_transmit_prepares_frame (opts : Teq1ProtocolOptions) (ese : EseInterface Probe)
    (frame : Teq1Frame) (hlen : frame.LEN ≤ 254) (hinf : frame.INF.length = INF_LEN + 1) :
    ∃ e2 f2, teq1_transmit (probe_ops opts) ese frame = .ok (0, e2, f2) ∧
      f2 = hooked opts (sealed opts.node_address frame) 1 ∧
      (sealed opts.node_address frame).NAD = opts.node_address ∧
      (sealed opts.node_address frame).PCB = frame.PCB ∧
      (sealed opts.node_address frame).LEN = frame.LEN ∧
      (sealed opts.node_address frame).INF.take frame.LEN = frame.INF.take frame.LEN ∧
      (sealed opts.node_address frame).INF.getD frame.LEN 0 =
        teq1_compute_LRC { frame with NAD := opts.node_address } ∧
      (sealed opts.node_address frame).INF.length = frame.INF.length ∧
      e2.hw.calls = ese.hw.calls ++ [.transmit (f2.val.take (f2.LEN + 4)) (f2.LEN + 4) 1] ∧
      e2.error = ese.error ∧
      (opts.preprocess = none →
        f2 = sealed opts.node_address frame ∧
        f2.val.take (f2.LEN + 4) =
          opts.node_address :: wire_reply opts.node_address frame.PCB
            (frame.INF.take frame.LEN) ∧
        (f2.val.take (f2.LEN + 4)).length = frame.LEN + 4) := by
  have hlt : frame.LEN < frame.INF.length := by rw [hinf]; unfold INF_LEN; omega
  have htl : (frame.INF.take frame.LEN).length = frame.LEN := by
    rw [List.length_take]; omega
  refine ⟨_, _, transmit_probe opts ese frame, rfl, rfl, rfl, rfl, ?_, ?_, ?_, rfl, rfl, ?_⟩
  · simp only [sealed]
    exact take_set_self _ _ _
  · simp only [sealed]
    rw [List.getD_eq_getElem _ _ (by rw [List.length_set]; exact hlt)]
    simp
  · simp [sealed]
  · intro hpre
    have hw := sealed_wire opts.node_address frame (frame.INF.take frame.LEN) htl.symm rfl hlt
    have h4 : (sealed opts.node_address frame).LEN + 4 = 3 + frame.LEN + 1 := by
      show frame.LEN + 4 = 3 + frame.LEN + 1
      omega
    simp only [hooked, hpre]
    rw [h4, hw]
    refine ⟨trivial, rfl, ?_⟩
    simp only [wire_reply, List.length_cons, List.length_append, htl, List.length_nil]

/-- Sample for C28: the frame `frame_demo` with payload 1, 2 goes out as the
six bytes 0x5A, 0, 2, 1, 2 and the checksum, although the raw transmit reports
a count of 0. -/
theorem C28_transmit_prepares_frame_witness :
    ∃ e2 f2, teq1_transmit (probe_ops opts_plain) (probe_ese 1 [] 0) frame_demo
        = .ok (0, e2, f2) ∧
      f2 = hooked opts_plain (sealed opts_plain.node_address frame_demo) 1 ∧
      (sealed opts_plain.node_address frame_demo).NAD = opts_plain.node_address ∧
      (sealed opts_plain.node_address frame_demo).PCB = frame_demo.PCB ∧
      (sealed opts_plain.node_address frame_demo).LEN = frame_demo.LEN ∧
      (sealed opts_plain.node_address frame_demo).INF.take frame_demo.LEN =
        frame_demo.INF.take frame_demo.LEN ∧
      (sealed opts_plain.node_address frame_demo).INF.getD frame_demo.LEN 0 =
        teq1_compute_LRC { frame_demo with NAD := opts_plain.node_address } ∧
      (sealed opts_plain.node_address frame_demo).INF.length = frame_demo.INF.length ∧
      e2.hw.calls = (probe_ese 1 [] 0).hw.calls ++
        [.transmit (f2.val.take (f2.LEN + 4)) (f2.LEN + 4) 1] ∧
      e2.error = (probe_ese 1 [] 0).error ∧
      (opts_plain.preprocess = none →
        f2 = sealed opts_plain.node_address frame_demo ∧
        f2.val.take (f2.LEN + 4) =
          opts_plain.node_address :: wire_reply opts_plain.node_address frame_demo.PCB
            (frame_demo.INF.take frame_demo.LEN) ∧
        (f2.val.take (f2.LEN + 4)).length = frame_demo.LEN + 4) :=
  C28_transmit_prepares_frame opts_plain (probe_ese 1 [] 0) frame_demo (by decide)
    (by rw [frame_demo, INF_LEN, List.length_append, List.length_replicate]; rfl)

set_option maxRecDepth 1000000 in
/-- Claim C29: control-byte classification and encoding. For every byte `b`
the block kind is given by `b / 64`, its top two bits: 0 and 1 Information, 2
Receive-ready, 3 Supervisory. `TEQ1_I(s,m)` is an Information byte with
`send_seq = s` and `more_data = m`; `TEQ1_R(s,o,p)` is a Receive-ready byte
with `next_seq = s`, `other_err = o` and `parity_err = p`; and
`TEQ1_S_RESYNC/IFS/ABORT/WTX(r)` are Supervisory bytes with sub-type 0, 1, 2, 3
and response bit `r`. The 20 encodings are pairwise distinct, each is a byte,
and none is the sentinel 255. -/
theorem C29_control_byte_encoding :
    (∀ b, b < 256 → PCB_type b = b / 64 ∧
      (b / 64 = 0 → PCB_type b = kPcbTypeInfo0) ∧ (b / 64 = 1 → PCB_type b = kPcbTypeInfo1) ∧
      (b / 64 = 2 → PCB_type b = kPcbTypeReceiveReady) ∧
      (b / 64 = 3 → PCB_type b = kPcbTypeSupervisory)) ∧
    (∀ s, s < 2 → ∀ m, m < 2 →
      (PCB_type (TEQ1_I s m) = kPcbTypeInfo0 ∨ PCB_type (TEQ1_I s m) = kPcbTypeInfo1) ∧
      PCB_I_send_seq (TEQ1_I s m) = s ∧ PCB_I_more_data (TEQ1_I s m) = m) ∧
    (∀ s, s < 2 → ∀ o, o < 2 → ∀ p, p < 2 →
      PCB_type (TEQ1_R s o p) = kPcbTypeReceiveReady ∧ PCB_R_next_seq (TEQ1_R s o p) = s ∧
      PCB_R_other_err (TEQ1_R s o p) = o ∧ PCB_R_parity_err (TEQ1_R s o p) = p) ∧
    (∀ r, r < 2 →
      PCB_type (TEQ1_S_RESYNC r) = kPcbTypeSupervisory ∧ PCB_S_type (TEQ1_S_RESYNC r) = 0 ∧
      PCB_S_response (TEQ1_S_RESYNC r) = r ∧
      PCB_type (TEQ1_S_IFS r) = kPcbTypeSupervisory ∧ PCB_S_type (TEQ1_S_IFS r) = 1 ∧
      PCB_S_response (TEQ1_S_IFS r) = r ∧
      PCB_type (TEQ1_S_ABORT r) = kPcbTypeSupervisory ∧ PCB_S_type (TEQ1_S_ABORT r) = 2 ∧
      PCB_S_response (TEQ1_S_ABORT r) = r ∧
      PCB_type (TEQ1_S_WTX r) = kPcbTypeSupervisory ∧ PCB_S_type (TEQ1_S_WTX r) = 3 ∧
      PCB_S_response (TEQ1_S_WTX r) = r) ∧
    pcb_encodings.length = 20 ∧ pcb_encodings.Nodup ∧ 255 ∉ pcb_encodings ∧
    (∀ b ∈ pcb_encodings, b < 256) := by
  refine ⟨?_, ?_, ?_, ?_, ?_, ?_, ?_, ?_⟩ <;> decide

/-- Claim C30, counterexample: the transceive operation of the backend reports
4294967295 bytes and records no error; `ese_transceive` returns -1 although
the interface is not null and its error flag is clear after the operation. -/
theorem C30_full_count_returns_minus_one :
    ese_transceive (counting_ops 4294967295) (some (probe_ese 1 [] 0)) (some [1, 2]) 2
        (some [0, 0]) 2 = .ok (-1, some (probe_ese 1 [] 0), some [0, 0]) ∧
    (probe_ese 1 [] 0).error.is_err = 0 :=
  ⟨rfl, rfl⟩

/-- Claim C30, amended: `ese_transceive`. For a null interface it returns -1.
With a transceive operation it returns -1 when the error flag is set after the
operation and otherwise the count the operation produced, converted from
`size_t` to `int`: the count itself, zero included, when it is below 2^31, and
-1 exactly when its low 32 bits are all set, as for 4294967295. Without a
transceive operation but with raw transmit and raw receive, it transmits, and
either the error flag is set and it returns -1 without receiving, or it
receives and returns in the same way -1 or the converted count of the raw
receive. With neither, it records the error code -1 with the message
"Hardware supplied no transceive implementation." and returns -1. -/
theorem C30_ese_transceive_result {H : Type} (ops : EseOperations H) (ese : EseInterface H)
    (tx_buf : Option (List Nat)) (tx_len : Nat) (rx_buf : Option (List Nat)) (rx_max : Nat) :
    ese_transceive ops none tx_buf tx_len rx_buf rx_max = .ok (-1, none, rx_buf) ∧
    (∀ transceive recvd e2 rx2, ops.transceive = some transceive →
      transceive ese tx_buf tx_len rx_buf rx_max = .ok (recvd, e2, rx2) →
      ∃ ret, ese_transceive ops (some ese) tx_buf tx_len rx_buf rx_max = .ok (ret, some e2, rx2) ∧
        (e2.error.is_err ≠ 0 → ret = -1) ∧
        (e2.error.is_err = 0 → ret = int_of_size_t recvd) ∧
        (ret = -1 ↔ e2.error.is_err ≠ 0 ∨ recvd % 2 ^ 32 = 2 ^ 32 - 1) ∧
        (e2.error.is_err = 0 → recvd < 2 ^ 31 → ret = (recvd : Int))) ∧
    (∀ hw_transmit hw_receive t r, ops.transceive = none → ops.hw_transmit = some hw_transmit →
      ops.hw_receive = some hw_receive → t = hw_transmit ese tx_buf tx_len 1 →
      r = hw_receive t.2 rx_buf.isSome rx_max 1 →
      (t.2.error.is_err ≠ 0 →
        ese_transceive ops (some ese) tx_buf tx_len rx_buf rx_max = .ok (-1, some t.2, rx_buf)) ∧
      (t.2.error.is_err = 0 →
        ∃ ret, ese_transceive ops (some ese) tx_buf tx_len rx_buf rx_max =
            .ok (ret, some r.ese,
              rx_buf.map fun b => memcpy b 0 r.bytes (min r.bytes.length rx_max)) ∧
          (r.ese.error.is_err ≠ 0 → ret = -1) ∧
          (r.ese.error.is_err = 0 → ret = int_of_size_t r.ret) ∧
          (ret = -1 ↔ r.ese.error.is_err ≠ 0 ∨ r.ret % 2 ^ 32 = 2 ^ 32 - 1) ∧
          (r.ese.error.is_err = 0 → r.ret < 2 ^ 31 → ret = (r.ret : Int)))) ∧
    (ops.transceive = none → (ops.hw_transmit = none ∨ ops.hw_receive = none) →
      ∃ e2, ese_transceive ops (some ese) tx_buf tx_len rx_buf rx_max =
          .ok (-1, some e2, rx_buf) ∧
        e2.error.is_err = 1 ∧ e2.error.code = -1 ∧
        e2.error.message = some "Hardware supplied no transceive implementation." ∧
        e2.error.message = kEseErrorMessages.get? 0 ∧
        e2.hw = ese.hw) ∧
    (∀ n : Nat, n < 2 ^ 31 → int_of_size_t n = (n : Int)) ∧
    (∀ n : Nat, int_of_size_t n = -1 ↔ n % 2 ^ 32 = 2 ^ 32 - 1) := by
  refine ⟨rfl, ?_, ?_, ?_, int_of_size_t_small, int_of_size_t_minus_one⟩
  · intro transceive recvd e2 rx2 hop hrun
    obtain ⟨ret, hret, h⟩ := finish_result recvd e2 rx2
    refine ⟨ret, ?_, h⟩
    simp only [ese_transceive, hop, hrun]
    exact hret
  · intro hw_transmit hw_receive t r hop ht hr htv hrv
    subst htv
    subst hrv
    refine ⟨?_, ?_⟩
    · intro herr
      simp only [ese_transceive, hop, ht, hr]
      rw [if_pos herr]
      simp only [ese_transceive_finish]
      rw [if_pos herr]
    · intro hok
      obtain ⟨ret, hret, h⟩ := finish_result
        (hw_receive (hw_transmit ese tx_buf tx_len 1).2 rx_buf.isSome rx_max 1).ret
        (hw_receive (hw_transmit ese tx_buf tx_len 1).2 rx_buf.isSome rx_max 1).ese
        (rx_buf.map fun b => memcpy b 0
          (hw_receive (hw_transmit ese tx_buf tx_len 1).2 rx_buf.isSome rx_max 1).bytes
          (min (hw_receive (hw_transmit ese tx_buf tx_len 1).2 rx_buf.isSome rx_max 1).bytes.length
            rx_max))
      refine ⟨ret, ?_, h⟩
      simp only [ese_transceive, hop, ht, hr]
      rw [if_neg (by rw [hok]; simp)]
      exact hret
  · intro hop hnone
    have hset : ese_set_error_nonnull ese (-1) = .ok
        ⟨⟨1, -1, some "Hardware supplied no transceive implementation."⟩, ese.errors,
          ese.errors_count, ese.card_state, ese.hw⟩ := by
      simp [ese_set_error_nonnull, kEseErrorMessages]
    refine ⟨⟨⟨1, -1, some "Hardware supplied no transceive implementation."⟩, ese.errors,
      ese.errors_count, ese.card_state, ese.hw⟩, ?_, rfl, rfl, rfl, rfl, rfl⟩
    rcases hnone with hn | hn
    · simp only [ese_transceive, hop, hn, hset, ese_transceive_finish]
      simp
    · rcases ht : ops.hw_transmit with _ | t
      · simp only [ese_transceive, hop, hn, ht, hset, ese_transceive_finish]
        simp
      · simp only [ese_transceive, hop, hn, ht, hset, ese_transceive_finish]
        simp

/-- Sample for C30: a backend whose transceive operation reports 7 bytes and
sets no error; `ese_transceive` returns 7. -/
theorem C30_ese_transceive_result_witness :
    ∃ ret, ese_transceive (counting_ops 7) (some (probe_ese 1 [] 0)) (some [1, 2]) 2
        (some [0, 0]) 2 = .ok (ret, some (probe_ese 1 [] 0), some [0, 0]) ∧ ret = 7 := by
  obtain ⟨ret, h1, -, -, -, h5⟩ :=
    (C30_ese_transceive_result (counting_ops 7) (probe_ese 1 [] 0) (some [1, 2]) 2
      (some [0, 0]) 2).2.1 _ 7 (probe_ese 1 [] 0) (some [0, 0]) rfl rfl
  exact ⟨ret, h1, h5 (by decide) (by decide)⟩

/-- Claim C31: `ese_set_error`. On a null interface it does nothing. On an
interface that is not null, for a code with `0 <= code < errors_count` it
records the code, sets `is_err` to 1 and takes the message `errors[code]` of
the backend; for the codes -1 and -2 it records the code, sets `is_err` to 1
and takes the library message at index `-(code + 1)`, which is "Hardware
supplied no transceive implementation." and "Timed out polling for value.";
the rest of the interface is untouched. For every code at all, a call that
returns has recorded the code and set `is_err` to 1, and the only other way
out is the abort of `LOG_ALWAYS_FATAL`. -/
theorem C31_set_error_records {H : Type} (ese : EseInterface H) (code : Int) :
    ese_set_error (none : Option (EseInterface H)) code = .ok none ∧
    (0 ≤ code → code.toNat < ese.errors_count →
      ∃ e, ese_set_error (some ese) code = .ok (some e) ∧
        e.error.code = code ∧ e.error.is_err = 1 ∧
        e.error.message = ese.errors.get? code.toNat ∧
        (ese.errors_count ≤ ese.errors.length →
          ∃ m, ese.errors.get? code.toNat = some m ∧ e.error.message = some m) ∧
        e.errors = ese.errors ∧ e.errors_count = ese.errors_count ∧
        e.card_state = ese.card_state ∧ e.hw = ese.hw) ∧
    (code = -1 ∨ code = -2 →
      ∃ e, ese_set_error (some ese) code = .ok (some e) ∧
        e.error.code = code ∧ e.error.is_err = 1 ∧
        e.error.message = kEseErrorMessages.get? (-(code + 1)).toNat ∧
        (code = -1 →
          e.error.message = some "Hardware supplied no transceive implementation.") ∧
        (code = -2 → e.error.message = some "Timed out polling for value.") ∧
        e.errors = ese.errors ∧ e.errors_count = ese.errors_count ∧
        e.card_state = ese.card_state ∧ e.hw = ese.hw) ∧
    (∀ e, ese_set_error (some ese) code = .ok e →
      ∃ e1, e = some e1 ∧ e1.error.code = code ∧ e1.error.is_err = 1) ∧
    (∀ f, ese_set_error (some ese) code = .error f → f = Fault.Fatal) := by
  refine ⟨rfl, ?_, ?_, ?_, ?_⟩
  · intro h0 hc
    refine ⟨⟨⟨1, code, ese.errors.get? code.toNat⟩, ese.errors, ese.errors_count,
      ese.card_state, ese.hw⟩, ?_, rfl, rfl, rfl, ?_, rfl, rfl, rfl, rfl⟩
    · simp only [ese_set_error, set_error_backend ese code h0 hc]
    · intro hlen
      have hlt : code.toNat < ese.errors.length := by omega
      have hg : ese.errors.get? code.toNat = some ese.errors[code.toNat] := by
        rw [List.get?_eq_getElem?]; exact List.getElem?_eq_getElem hlt
      exact ⟨ese.errors[code.toNat], hg, hg⟩
  · intro hc
    refine ⟨⟨⟨1, code, kEseErrorMessages.get? (-(code + 1)).toNat⟩, ese.errors,
      ese.errors_count, ese.card_state, ese.hw⟩, ?_, rfl, rfl, rfl, ?_, ?_, rfl, rfl, rfl, rfl⟩
    · simp only [ese_set_error, set_error_library ese code hc]
    · rintro rfl; rfl
    · rintro rfl; rfl
  · intro e h
    simp only [ese_set_error] at h
    rcases hs : ese_set_error_nonnull ese code with f | e1
    · rw [hs] at h; simp at h
    · rw [hs] at h
      simp only [Except.ok.injEq] at h
      obtain ⟨g1, g2, -⟩ := set_error_hw ese e1 code hs
      exact ⟨e1, h.symm, g1, g2⟩
  · intro f h
    simp only [ese_set_error] at h
    rcases hs : ese_set_error_nonnull ese code with f1 | e1
    · rw [hs] at h
      simp only [Except.error.injEq] at h
      subst h
      unfold ese_set_error_nonnull at hs
      simp only [] at hs
      split at hs
      · split at hs
        · simp only [Except.error.injEq] at hs; exact hs.symm
        · simp at hs
      · split at hs
        · simp only [Except.error.injEq] at hs; exact hs.symm
        · simp at hs
    · rw [hs] at h; simp at h

/-- Sample for C31: the code 2 on an interface with the error table of the T=1
backends. -/
theorem C31_set_error_records_witness :
    ∃ e, ese_set_error (some plain_ese) 2 = .ok (some e) ∧
      e.error.code = 2 ∧ e.error.is_err = 1 ∧
      e.error.message = some "T=1 device reset failed." := by
  obtain ⟨e, h, h1, h2, h3, -⟩ := (C31_set_error_records plain_ese 2).2.1 (by decide) (by decide)
  exact ⟨e, h, h1, h2, by rw [h3]; rfl⟩

/-- Claim C33: in the exchange loop, when `teq1_rules` returns `SingleShot` the
loop goes on with `tx` pointing to the inactive frame, which holds the block
that the rule engine prepared, and the active frame untouched; the next pass
hands the prepared block to `teq1_transmit`, points `tx` back to the active
frame and so gives the next call of `teq1_rules` as last-sent block the very
frame of the call that returned `SingleShot` (all of it: NAD, PCB, LEN and
payload). On the probed backend the next pass returns and the log gains exactly
one call of the raw transmit, with the bytes of the prepared block. -/
theorem C33_single_shot_keeps_reference {H : Type} (ops : EseOperations H)
    (init_state : Teq1State) (rx_len fuel : Nat) (ese : EseInterface H) (l : TransceiveLocals)
    (rx_frame rx nx : Teq1Frame) (st : Teq1State) (htx : l.tx = l.active)
    (hr : teq1_rules fuel { l.state with card_state := ese.card_state } (l.frame l.tx) rx_frame
      (l.frame (inot l.active)) = some (kRuleResultSingleShot, st, rx, nx)) :
    (∃ e2 l2, transceive_dispatch ops init_state rx_len fuel ese l rx_frame = .ok (.again e2 l2) ∧
      l2.active = l.active ∧ l2.tx = inot l.active ∧ l2.frame l2.tx = nx ∧
      l2.frame l2.active = l.frame l.tx ∧
      (∀ e3 l3 rx3, transceive_txrx ops e2 l2 = .ok (e3, l3, rx3) →
        (∃ n e f, teq1_transmit ops e2 nx = .ok (n, e, f)) ∧
        l3.active = l.active ∧ l3.tx = l3.active ∧ l3.frame l3.tx = l.frame l.tx)) ∧
    (∀ (opts : Teq1ProtocolOptions) (pe : EseInterface Probe),
      pe.card_state = ese.card_state →
      ∃ e2 l2 e3 l3 rx3,
        transceive_dispatch (probe_ops opts) init_state rx_len fuel pe l rx_frame
          = .ok (.again e2 l2) ∧
        transceive_txrx (probe_ops opts) e2 l2 = .ok (e3, l3, rx3) ∧
        transmit_calls e3.hw.calls = transmit_calls pe.hw.calls ++
          [.transmit ((hooked opts (sealed opts.node_address nx) 1).val.take
              ((hooked opts (sealed opts.node_address nx) 1).LEN + 4))
            ((hooked opts (sealed opts.node_address nx) 1).LEN + 4) 1] ∧
        l3.tx = l3.active ∧ l3.frame l3.tx = l.frame l.tx) := by
  have hl2 : ∀ l2 : TransceiveLocals,
      l2 = { ({ l with state := st } : TransceiveLocals).setFrame (inot l.active) nx with
          tx := inot l.active } →
      l2.active = l.active ∧ l2.tx = inot l.active ∧ l2.frame l2.tx = nx ∧
      l2.frame l2.active = l.frame l.tx ∧ l2.tx = inot l2.active ∧
      l2.frame (inot l2.active) = nx := by
    intro l2 h2
    subst h2
    by_cases h0 : l.active = 0 <;>
      simp [TransceiveLocals.frame, TransceiveLocals.setFrame, inot, h0, htx]
  constructor
  · refine ⟨_, _, dispatch_single_shot ops init_state rx_len fuel ese l rx_frame st rx nx hr, ?_⟩
    obtain ⟨ha, ht, hf, hk, hti, hfi⟩ := hl2 _ rfl
    refine ⟨ha, ht, hf, hk, ?_⟩
    intro e3 l3 rx3 h3
    obtain ⟨k1, k2, k3, k4⟩ := txrx_keeps_active ops _ e3 _ l3 rx3 hti h3
    rw [hfi] at k1
    refine ⟨k1, k2.trans ha, k3.trans k2.symm, ?_⟩
    rw [k3, k4, hk]
  · intro opts pe hcs
    have hr2 : teq1_rules fuel { l.state with card_state := pe.card_state } (l.frame l.tx)
        rx_frame (l.frame (inot l.active)) = some (kRuleResultSingleShot, st, rx, nx) := by
      rw [hcs]; exact hr
    have hd := dispatch_single_shot (probe_ops opts) init_state rx_len fuel pe l rx_frame st rx
      nx hr2
    obtain ⟨ha, ht, hf, hk, hti, hfi⟩ := hl2 _ rfl
    obtain ⟨e3, l3, rx3, h3, hc⟩ := txrx_probe_transmits opts
      { pe with card_state := st.card_state }
      { ({ l with state := st } : TransceiveLocals).setFrame (inot l.active) nx with
          tx := inot l.active }
    obtain ⟨-, k2, k3, k4⟩ := txrx_keeps_active (probe_ops opts) _ e3 _ l3 rx3 hti h3
    rw [hf] at hc
    refine ⟨_, _, e3, l3, rx3, hd, h3, hc, k3.trans k2.symm, ?_⟩
    rw [k3, k4, hk]

set_option maxRecDepth 1000000 in
/-- Sample for C33: the block `I(0,0)` was sent and the card asks for more time
with `S(WTX, REQUEST)`; the rule engine prepares `S(WTX, RESPONSE)` and returns
`SingleShot`. -/
theorem C33_single_shot_keeps_reference_witness :
    ∃ e2 l2, transceive_dispatch (probe_ops opts_plain) state_demo 8 2 (probe_ese 1 [] 0)
        info_locals_demo wtx_demo = .ok (.again e2 l2) ∧
      l2.active = 0 ∧ l2.tx = 1 ∧ (l2.frame l2.tx).PCB = S WTX RESPONSE ∧
      l2.frame l2.active = sent_demo ∧
      (∀ e3 l3 rx3, transceive_txrx (probe_ops opts_plain) e2 l2 = .ok (e3, l3, rx3) →
        l3.tx = l3.active ∧ l3.frame l3.tx = sent_demo) := by
  obtain ⟨e2, l2, h1, h2, h3, h4, h5, h6⟩ :=
    (C33_single_shot_keeps_reference (probe_ops opts_plain) state_demo 8 2 (probe_ese 1 [] 0)
      info_locals_demo wtx_demo wtx_demo
      { frame_demo with PCB := S WTX RESPONSE, LEN := 1,
                        INF := frame_demo.INF.set 0 9 }
      { state_demo with card_state := ⟨1, 0⟩, wait_mult := 9 } rfl (by decide)).1
  refine ⟨e2, l2, h1, h2, h3, by rw [h4], h5, ?_⟩
  intro e3 l3 rx3 h
  exact ⟨(h6 e3 l3 rx3 h).2.2.1, (h6 e3 l3 rx3 h).2.2.2⟩

/-- Claim C34, counterexample: the block `R(0,0,0)` with `LEN = 1` and a
correct checksum is rejected by `teq1_frame_error_check`, which returns
`R(0,1,0)`, not 0. -/
theorem C34_long_ack_rejected :
    PCB_type ack_long_demo.PCB = kPcbTypeReceiveReady ∧ ack_long_demo.LEN = 1 ∧
    ack_long_demo.INF.getD ack_long_demo.LEN 0 = teq1_compute_LRC ack_long_demo ∧
    (teq1_frame_error_check state_demo sent_demo ack_long_demo).1 = R 0 1 0 ∧
    R 0 1 0 ≠ 0 := by
  refine ⟨?_, ?_, ?_, ?_, ?_⟩ <;> decide

/-- Claim C34, amended: a Receive-ready block with nonzero length is rejected.
For a received R-block with a correct checksum, `teq1_frame_error_check`
returns `R(0,1,0)` when `LEN` is not 0, whatever was sent and whatever the
state; when `LEN` is 0 it returns 0, whatever was sent and whatever the
state, the checks on chaining and on the sequence bit being compiled out. -/
theorem C34_long_ack_is_error (state : Teq1State) (tx rx : Teq1Frame)
    (hty : PCB_type rx.PCB = kPcbTypeReceiveReady)
    (hl : rx.INF.getD rx.LEN 0 = teq1_compute_LRC rx) :
    (rx.LEN ≠ 0 → (teq1_frame_error_check state tx rx).1 = R 0 1 0) ∧
    (rx.LEN = 0 → (teq1_frame_error_check state tx rx).1 = 0) := by
  have h255 : rx.PCB ≠ 255 := by
    intro h; rw [h] at hty; exact absurd hty (by decide)
  have hs : ¬ kPcbTypeReceiveReady = kPcbTypeSupervisory := by decide
  unfold teq1_frame_error_check
  rw [if_neg h255]
  simp only [hl, ne_eq, not_true_eq_false, if_false, hty, if_true]
  rw [if_neg hs]
  refine ⟨fun h => ?_, fun h => ?_⟩
  · rw [if_pos h]
  · rw [if_neg (by rw [h]; simp)]

set_option maxRecDepth 1000000 in
/-- Sample for C34: the block `R(0,0,0)` with one byte of payload. -/
theorem C34_long_ack_is_error_witness :
    (teq1_frame_error_check state_demo sent_demo ack_long_demo).1 = R 0 1 0 :=
  (C34_long_ack_is_error state_demo sent_demo ack_long_demo (by decide) (by decide)).1
    (by decide)

/-- Claim C35, counterexample: the request `S(ABORT, REQUEST)` was sent, the
error counter is 0 and the block received has a wrong checksum byte; the error
check rejects it once with `R(0,0,1)`, and one call of `teq1_rules` leaves the
error counter at 2, with the result `HardFail`. -/
theorem C35_bad_block_counted_twice :
    state_demo.errors = 0 ∧
    (teq1_frame_error_check state_demo abort_sent_demo reply_bad_demo).1 = R 0 0 1 ∧
    errors_after (teq1_rules 2 state_demo abort_sent_demo reply_bad_demo frame_demo) = some 2 ∧
    (teq1_rules 2 state_demo abort_sent_demo reply_bad_demo frame_demo).map (fun r => r.1)
      = some kRuleResultHardFail := by
  decide

/-- Claim C35, amended: one call of `teq1_rules` returns, with fuel for two
rounds, and raises the error counter by 1 when the error check rejects the
received block (sentinel, checksum mismatch, structural or sequence error),
except that it raises it by 2 when the block is not
the sentinel, the count stays below 3 after the first count and the sent block
has no case label for the sentinel; a block that passes the check leaves the
counter as it was when a rule matches the pair and raises it by 1 when none
does; the counter never rises by more than 2; and among the bytes the sent
blocks with a case label for the sentinel are the I-blocks, the R-blocks,
`S(RESYNC, REQUEST)` and `S(ABORT, RESPONSE)`. -/
theorem C35_error_count (fuel : Nat) (state : Teq1State) (tx rx next : Teq1Frame) :
    ∃ res st rx2 nx, teq1_rules (fuel + 2) state tx rx next = some (res, st, rx2, nx) ∧
      ((teq1_frame_error_check state tx rx).1 ≠ 0 → ¬ counted_twice state tx rx →
        st.errors = state.errors + 1) ∧
      (counted_twice state tx rx → st.errors = state.errors + 2) ∧
      ((teq1_frame_error_check state tx rx).1 = 0 →
        rule_arm (TEQ1_RULE tx.PCB rx.PCB) ≠ default_ → st.errors = state.errors) ∧
      ((teq1_frame_error_check state tx rx).1 = 0 →
        rule_arm (TEQ1_RULE tx.PCB rx.PCB) = default_ → st.errors = state.errors + 1) ∧
      st.errors ≤ state.errors + 2 ∧
      (tx.PCB < 256 →
        (rule_arm (TEQ1_RULE tx.PCB 255) = default_ ↔ tx.PCB ∉ sentinel_rule_pcbs)) := by
  obtain ⟨res, st, rx2, nx, -, h⟩ := rules_two state tx rx next (TEQ1_RULE tx.PCB rx.PCB)
  exact ⟨res, st, rx2, nx, h fuel,
    rules_error_count fuel state st tx rx next rx2 nx res (h fuel)⟩

set_option maxRecDepth 1000000 in
/-- Sample for C35: the request `S(ABORT, REQUEST)` answered by a block with a
wrong checksum byte. -/
theorem C35_error_count_witness :
    ∃ res st rx2 nx,
      teq1_rules 2 state_demo abort_sent_demo reply_bad_demo frame_demo
        = some (res, st, rx2, nx) ∧
      st.errors = state_demo.errors + 2 := by
  obtain ⟨res, st, rx2, nx, h, -, h2, -⟩ :=
    C35_error_count 0 state_demo abort_sent_demo reply_bad_demo frame_demo
  exact ⟨res, st, rx2, nx, h, h2 (by decide)⟩

/-- Claim C36: `teq1_get_app_data` copies `min(LEN, rx_len)` payload bytes of
an I-block to the receive cursor, never more than the remaining capacity, and
moves the cursor by that amount: the buffer keeps its length, the bytes before
the cursor and the bytes from the new cursor on are untouched, and the end of
the receive window stays where it is (the rest of the payload is dropped, with
no error); other blocks leave the state alone. One call of `teq1_rules` never
moves the cursor back and keeps the end of the window. In the exchange loop,
with the window ending at the caller's `rx_len`, a return hands back the cursor
offset when the rule engine returned `Complete` and 0 otherwise, a session reset
puts the cursor back to the start of the buffer, and every call of
`teq1_transceive` that returns, on any backend, returns at most `rx_len`. -/
theorem C36_bounded_delivery :
    (∀ (state : Teq1State) (frame : Teq1Frame),
      (PCB_type frame.PCB = kPcbTypeInfo0 ∨ PCB_type frame.PCB = kPcbTypeInfo1) →
      frame.INF.length = INF_LEN + 1 →
      state.app_data.rx_buf + state.app_data.rx_len ≤ state.app_data.rx_mem.length →
      ∃ k, k = min (frame.LEN % 256) state.app_data.rx_len ∧ k ≤ state.app_data.rx_len ∧
        (teq1_get_app_data state frame).app_data.rx_buf = state.app_data.rx_buf + k ∧
        (teq1_get_app_data state frame).app_data.rx_len = state.app_data.rx_len - k ∧
        (teq1_get_app_data state frame).app_data.rx_mem.length
          = state.app_data.rx_mem.length ∧
        (teq1_get_app_data state frame).app_data.rx_mem.take state.app_data.rx_buf
          = state.app_data.rx_mem.take state.app_data.rx_buf ∧
        ((teq1_get_app_data state frame).app_data.rx_mem.drop state.app_data.rx_buf).take k
          = frame.INF.take k ∧
        (teq1_get_app_data state frame).app_data.rx_mem.drop (state.app_data.rx_buf + k)
          = state.app_data.rx_mem.drop (state.app_data.rx_buf + k) ∧
        rx_end (teq1_get_app_data state frame) = rx_end state) ∧
    (∀ (state : Teq1State) (frame : Teq1Frame),
      ¬ (PCB_type frame.PCB = kPcbTypeInfo0 ∨ PCB_type frame.PCB = kPcbTypeInfo1) →
      teq1_get_app_data state frame = state) ∧
    (∀ (fuel : Nat) (state st : Teq1State) (tx rx next rx2 nx : Teq1Frame) (res : RuleResult),
      teq1_rules fuel state tx rx next = some (res, st, rx2, nx) →
      state.app_data.rx_buf ≤ st.app_data.rx_buf ∧ rx_end st = rx_end state) ∧
    (∀ {H : Type} (ops : EseOperations H) (init_state : Teq1State) (rx_len fuel : Nat)
      (ese : EseInterface H) (l : TransceiveLocals) (rx_frame : Teq1Frame)
      (r : TransceiveResult H),
      rx_end init_state = rx_len → rx_end l.state = rx_len →
      transceive_dispatch ops init_state rx_len fuel ese l rx_frame = .ok (.ret r) →
      ∃ res st rx nx, teq1_rules fuel { l.state with card_state := ese.card_state }
          (l.frame l.tx) rx_frame (l.frame (inot l.active)) = some (res, st, rx, nx) ∧
        r.ret ≤ rx_len ∧ (res = kRuleResultComplete → r.ret = st.app_data.rx_buf) ∧
        (res ≠ kRuleResultComplete → r.ret = 0)) ∧
    (∀ {H : Type} (ese : EseInterface H) (l : TransceiveLocals) (tx_buf rx_mem : List Nat)
      (tx_len rx_len : Nat) (cs : Teq1CardState),
      (transceive_reset ese l (TEQ1_INIT_STATE tx_buf tx_len rx_mem rx_len cs)).2.state.app_data.rx_buf
        = 0 ∧
      (transceive_reset ese l (TEQ1_INIT_STATE tx_buf tx_len rx_mem rx_len cs)).2.state.app_data.rx_len
        = rx_len) ∧
    (∀ {H : Type} (fuel : Nat) (ops : EseOperations H) (ese : EseInterface H)
      (tx_buf rx_mem : List Nat) (tx_len rx_len : Nat) (stack0 stack1 : Teq1Frame)
      (r : TransceiveResult H),
      teq1_transceive fuel ops ese tx_buf tx_len rx_mem rx_len stack0 stack1 = .ok r →
      r.ret ≤ rx_len) := by
  refine ⟨?_, ?_, ?_, ?_, ?_, ?_⟩
  · intro state frame hty hinf hbuf
    have hk : min (frame.LEN % 256) state.app_data.rx_len ≤ frame.INF.length := by
      rw [hinf, INF_LEN]
      have := Nat.mod_lt frame.LEN (by decide : 0 < 256)
      omega
    have heq : teq1_get_app_data state frame =
        { state with app_data :=
          { state.app_data with
              rx_mem := memcpy state.app_data.rx_mem state.app_data.rx_buf frame.INF
                (min (frame.LEN % 256) state.app_data.rx_len),
              rx_len := state.app_data.rx_len - min (frame.LEN % 256) state.app_data.rx_len,
              rx_buf := state.app_data.rx_buf
                + min (frame.LEN % 256) state.app_data.rx_len } } := by
      unfold teq1_get_app_data
      rw [if_pos hty]
      simp only []
      have hm : (if frame.LEN % 256 > state.app_data.rx_len then state.app_data.rx_len
          else frame.LEN % 256) = min (frame.LEN % 256) state.app_data.rx_len := by
        split_ifs <;> omega
      rw [hm]
    have hmin := Nat.min_le_right (frame.LEN % 256) state.app_data.rx_len
    refine ⟨_, rfl, hmin, ?_⟩
    rw [heq]
    refine ⟨rfl, rfl, ?_, ?_, ?_, ?_, ?_⟩
    · exact memcpy_length _ _ _ _ (by omega) hk
    · exact memcpy_before _ _ _ _ (by omega)
    · exact memcpy_read _ _ _ _ (by omega) hk
    · exact memcpy_after _ _ _ _ (by omega) hk
    · unfold rx_end
      show state.app_data.rx_buf + min (frame.LEN % 256) state.app_data.rx_len
        + (state.app_data.rx_len - min (frame.LEN % 256) state.app_data.rx_len) = _
      omega
  · intro state frame hty
    unfold teq1_get_app_data
    rw [if_neg hty]
  · intro fuel state st tx rx next rx2 nx res h
    exact rules_loop_rx fuel state tx rx next _ res st rx2 nx h
  · intro H ops init_state rx_len fuel ese l rx_frame r hinit hinv h
    obtain ⟨res, st, rx, nx, hr, g, -⟩ := dispatch_rx ops init_state rx_len fuel ese l rx_frame
      _ hinit hinv h
    exact ⟨res, st, rx, nx, hr, g r rfl⟩
  · intro H ese l tx_buf rx_mem tx_len rx_len cs
    exact reset_rx ese l (TEQ1_INIT_STATE tx_buf tx_len rx_mem rx_len cs)
  · intro H fuel ops ese tx_buf rx_mem tx_len rx_len stack0 stack1 r h
    unfold teq1_transceive teq1_transceive_from at h
    simp only [] at h
    refine loop_rx ops _ rx_len ?_ fuel ese _ r ?_ h
    · unfold rx_end TEQ1_INIT_STATE
      simp
    · unfold rx_end
      simp only []
      rw [(fill_info_block_rx _ _).1, (fill_info_block_rx _ _).2.1]
      unfold TEQ1_INIT_STATE
      simp

set_option maxRecDepth 1000000 in
/-- Sample for C36: three bytes of capacity are left at offset 5 and a block
with six payload bytes arrives; three bytes are written, the cursor ends at 8
and nothing is left. -/
theorem C36_bounded_delivery_witness :
    ∃ k, k = min (long_reply_demo.LEN % 256) rx_state_demo.app_data.rx_len ∧
      k ≤ rx_state_demo.app_data.rx_len ∧
      (teq1_get_app_data rx_state_demo long_reply_demo).app_data.rx_buf
        = rx_state_demo.app_data.rx_buf + k ∧
      (teq1_get_app_data rx_state_demo long_reply_demo).app_data.rx_len
        = rx_state_demo.app_data.rx_len - k ∧
      (teq1_get_app_data rx_state_demo long_reply_demo).app_data.rx_mem
        = [1, 2, 3, 4, 5, 11, 12, 13] := by
  obtain ⟨k, h1, h2, h3, h4, -⟩ := C36_bounded_delivery.1 rx_state_demo long_reply_demo
    (by decide) (by decide) (by decide)
  exact ⟨k, h1, h2, h3, h4, by decide⟩

set_option maxRecDepth 1000000 in
/-- Claim C37, evaluated at the failing inputs: with the information field
size 0 a chained transmission makes no progress. `teq1_rules` records the size
0 from a checksum-valid `S(IFS, REQUEST)` with `INF[0] = 0`;
`teq1_fill_info_block` then builds, while bytes remain, an I-block with
`LEN = 0` and the more-data bit set and leaves the transmit cursor where it
was; and in the exchange loop every acknowledgement of the scripted card is
answered with another empty I-block, the bytes that remain being the same
after any number `k` of acknowledgements. In the run shown a payload of 255
bytes goes out as a block of 254 bytes, two empty blocks after the card asked
for the size 0, and the last byte only after the card asked for the size
254. -/
theorem C37_zero_ifs_stalls :
    (∀ (state : Teq1State) (frame : Teq1Frame),
      PCB_type frame.PCB = kPcbTypeInfo0 ∨ PCB_type frame.PCB = kPcbTypeInfo1 →
      frame.PCB < 256 → state.ifs = 0 → 0 < state.app_data.tx_len →
      state.app_data.tx_len < 2 ^ 32 →
      ∃ st nx, teq1_fill_info_block state frame = (0, st, nx) ∧ nx.LEN = 0 ∧
        PCB_I_more_data nx.PCB = 1 ∧ st.app_data.tx_len = state.app_data.tx_len ∧
        st.app_data.tx_buf = state.app_data.tx_buf ∧ st.ifs = 0) ∧
    (∀ (fuel : Nat) (state : Teq1State) (tx rx next : Teq1Frame),
      tx.PCB ∈ [I 0 0, I 0 1, I 1 0, I 1 1, R 0 0 0, R 1 0 0] →
      rx.PCB = S IFS REQUEST → rx.LEN = 1 → rx.INF.getD 0 0 = 0 →
      rx.INF.getD rx.LEN 0 = teq1_compute_LRC rx →
      ∃ st nx, teq1_rules (fuel + 1) state tx rx next
          = some (kRuleResultSingleShot, st, rx, nx) ∧ st.ifs = 0) ∧
    (∀ (opts : Teq1ProtocolOptions) (init_state : Teq1State) (rx_len : Nat)
      (remaining : List Nat) (k fuel : Nat) (ese : EseInterface Script) (l : TransceiveLocals)
      (s : Nat) (c : List Nat) (rest : List (Option (List Nat))),
      opts.preprocess = none → 0 < remaining.length → remaining.length < 2 ^ 32 → s < 2 →
      TxReady 0 s c remaining l →
      ese.hw.replies = tx_acks opts.host_address s k ++ rest → ese.hw.cursor = 0 →
      ∃ (e2 : EseInterface Script) (l2 : TransceiveLocals) (s2 : Nat) (c2 : List Nat),
        teq1_transceive_loop (script_ops opts) init_state rx_len (fuel + k) ese l =
          teq1_transceive_loop (script_ops opts) init_state rx_len fuel e2 l2 ∧
        TxReady 0 s2 c2 remaining l2 ∧ (0 < k → c2 = []) ∧
        e2.hw.sent.length = ese.hw.sent.length + k ∧
        teq1_transceive_loop (script_ops opts) init_state rx_len k ese l
          = .error Fault.OutOfFuel) ∧
    run_headers (teq1_transceive 8 (script_ops opts_plain)
      (script_ese (TEQ1_INIT_CARD_STATE ⟨0, 0⟩)
        [some (wire_reply 0xA5 (S IFS REQUEST) [0]), some (wire_reply 0xA5 (R 1 0 0) []),
         some (wire_reply 0xA5 (R 0 0 0) []), some (wire_reply 0xA5 (S IFS REQUEST) [254]),
         some (wire_reply 0xA5 (R 1 0 0) []), some (wire_reply 0xA5 (I 0 0) [7])])
      (List.replicate 255 7) 255 (List.replicate 8 0) 8 frame_demo frame_demo)
    = some (1, 0, 0,
        [([0x5A, I 0 1, 254], 258), ([0x5A, S IFS RESPONSE, 1], 5), ([0x5A, I 1 1, 0], 4),
         ([0x5A, I 0 1, 0], 4), ([0x5A, S IFS RESPONSE, 1], 5), ([0x5A, I 1 0, 1], 5)]) := by
  refine ⟨?_, ?_, ?_, by decide⟩
  · intro state frame hty hb hifs h0 h32
    have hb2 := (info_more_data_fin ⟨frame.PCB, hb⟩ hty).1
    simp only [] at hb2
    have hc : chunk_len state = 0 := by
      unfold chunk_len; rw [hifs]; simp
    have h := fill_info_block_info state frame hty h32
    rw [hc] at h
    refine ⟨_, _, h, rfl, ?_, rfl, rfl, hifs⟩
    show PCB_I_more_data (if state.app_data.tx_len - 0 > 0 then _ else _) = 1
    rw [if_pos (by omega)]
    exact hb2
  · intro fuel state tx rx next htx hrx hlen hv hl
    obtain ⟨st, nx, h, -, h2, -⟩ := rules_ifs_records fuel state tx rx next 0 htx hrx hlen hv hl
    exact ⟨st, nx, h, h2⟩
  · intro opts init_state rx_len remaining k fuel ese l s c rest hpre hrem h32 hs hinv hrep hcur
    obtain ⟨e2, l2, s2, c2, hrun, hinv2, -, hc2, -, -, hsent⟩ :=
      loop_stalled opts hpre init_state rx_len remaining hrem h32 k fuel ese l s c rest hs hinv
        hrep hcur
    obtain ⟨e3, l3, -, -, hrun3, -⟩ :=
      loop_stalled opts hpre init_state rx_len remaining hrem h32 k 0 ese l s c rest hs hinv
        hrep hcur
    refine ⟨e2, l2, s2, c2, hrun, hinv2, fun hk => hc2 (Or.inr hk), hsent, ?_⟩
    rw [Nat.zero_add] at hrun3
    rw [hrun3]
    rfl

set_option maxRecDepth 1000000 in
/-- Sample for C37: one byte is left to send and the size is 0; the block built
is empty and has the more-data bit set. -/
theorem C37_zero_ifs_stalls_witness :
    ∃ st nx, teq1_fill_info_block stalled_state_demo sent_demo = (0, st, nx) ∧ nx.LEN = 0 ∧
      PCB_I_more_data nx.PCB = 1 ∧ st.app_data.tx_len = stalled_state_demo.app_data.tx_len ∧
      st.app_data.tx_buf = stalled_state_demo.app_data.tx_buf ∧ st.ifs = 0 :=
  C37_zero_ifs_stalls.1 stalled_state_demo sent_demo (by decide) (by decide) rfl (by decide)
    (by decide)

/-- Claim C38: single-byte corruption is always detected. For a frame with
`LEN <= 254` in a buffer of 255 information cells whose checksum byte
`INF[LEN]` equals `teq1_compute_LRC`, replacing NAD, PCB, a payload byte
`INF[i]` with `i < LEN`, or the checksum byte by a different value `v`, LEN
kept, gives a frame whose checksum byte differs from `teq1_compute_LRC`:
`teq1_frame_error_check` returns the parity error `R(0,0,1)` for it, or the
other error `R(0,1,0)` when the control byte was replaced by the sentinel
255. -/
theorem C38_single_byte_corruption (state : Teq1State) (tx frame : Teq1Frame) (i v : Nat)
    (hlen : frame.LEN ≤ 254) (hinf : frame.INF.length = INF_LEN + 1)
    (hok : frame.INF.getD frame.LEN 0 = teq1_compute_LRC frame) :
    (v ≠ frame.NAD → checksum_fails state tx { frame with NAD := v }) ∧
    (v ≠ frame.PCB → checksum_fails state tx { frame with PCB := v }) ∧
    (i < frame.LEN → v ≠ frame.INF.getD i 0 →
      checksum_fails state tx { frame with INF := frame.INF.set i v }) ∧
    (v ≠ frame.INF.getD frame.LEN 0 →
      checksum_fails state tx { frame with INF := frame.INF.set frame.LEN v }) := by
  have hlt : frame.LEN < frame.INF.length := by rw [hinf]; unfold INF_LEN; omega
  rw [compute_LRC_eq] at hok
  refine ⟨fun hv => ?_, fun hv => ?_, fun hi hv => ?_, fun hv => ?_⟩
  · apply checksum_fails_of_ne
    rw [compute_LRC_eq]
    show frame.INF.getD frame.LEN 0 ≠ _
    rw [hok]
    have := xor_all_set_ne (frame.NAD :: frame.PCB :: frame.LEN :: frame.INF.take frame.LEN)
      0 v (by simp) (by simpa using hv)
    exact fun hc => this (by simpa using hc.symm)
  · apply checksum_fails_of_ne
    rw [compute_LRC_eq]
    show frame.INF.getD frame.LEN 0 ≠ _
    rw [hok]
    have := xor_all_set_ne (frame.NAD :: frame.PCB :: frame.LEN :: frame.INF.take frame.LEN)
      1 v (by simp) (by simpa using hv)
    exact fun hc => this (by simpa using hc.symm)
  · apply checksum_fails_of_ne
    rw [compute_LRC_eq]
    show (frame.INF.set i v).getD frame.LEN 0 ≠
      xor_all (frame.NAD :: frame.PCB :: frame.LEN :: (frame.INF.set i v).take frame.LEN)
    have hget : (frame.INF.set i v).getD frame.LEN 0 = frame.INF.getD frame.LEN 0 := by
      simp only [List.getD_eq_getElem?_getD]
      rw [List.getElem?_set_ne (by omega)]
    have hti : i < (frame.INF.take frame.LEN).length := by
      rw [List.length_take]; omega
    have hgi : (frame.INF.take frame.LEN).getD i 0 = frame.INF.getD i 0 := by
      simp only [List.getD_eq_getElem?_getD]
      rw [List.getElem?_take_of_lt hi]
    rw [hget, hok, List.set_take]
    have := xor_all_set_ne (frame.NAD :: frame.PCB :: frame.LEN :: frame.INF.take frame.LEN)
      (i + 3) v (by simp; omega)
      (by show v ≠ (frame.INF.take frame.LEN).getD i 0; rw [hgi]; exact hv)
    exact fun hc => this (by simpa using hc.symm)
  · apply checksum_fails_of_ne
    rw [compute_LRC_eq]
    show (frame.INF.set frame.LEN v).getD frame.LEN 0 ≠
      xor_all (frame.NAD :: frame.PCB :: frame.LEN ::
        (frame.INF.set frame.LEN v).take frame.LEN)
    rw [take_set_self, ← hok]
    have hget : (frame.INF.set frame.LEN v).getD frame.LEN 0 = v := by
      simp only [List.getD_eq_getElem?_getD]
      rw [List.getElem?_set_self hlt]
      rfl
    rw [hget]
    exact hv

set_option maxRecDepth 1000000 in
/-- Sample for C38: in the block `reply_demo` the payload byte 8 is replaced by
9. -/
theorem C38_single_byte_corruption_witness :
    checksum_fails state_demo sent_demo { reply_demo with INF := reply_demo.INF.set 1 9 } :=
  (C38_single_byte_corruption state_demo sent_demo reply_demo 1 9 (by decide)
    (by rw [reply_demo, INF_LEN, List.length_append, List.length_replicate]; rfl)
    (by decide)).2.2.1 (by decide) (by decide)

/-- Claim C39: with the preprocess hook of the echo backend or of the PN80T
backend, for every frame with `LEN <= 254` and every node and host address,
`teq1_transmit` hands the hardware a frame with NAD equal to the node address,
the PCB, LEN and payload given, and the byte `INF[LEN]` equal to the
exclusive-or of PCB, LEN and the payload, which is `teq1_compute_LRC` of the
frame with NAD 0; and every frame with those PCB, LEN, payload and checksum
bytes, whatever its NAD, leaves the receive-side call of the hook with NAD 0 and
then passes the checksum comparison of `teq1_frame_error_check`, which does not
return `R(0,0,1)`. When the probed backend delivers those bytes, `teq1_receive`
returns such a frame. -/
theorem C39_preprocess_hooks_agree {H : Type} (ops : EseOperations H) (ese : EseInterface H)
    (opts : Teq1ProtocolOptions)
    (pre : Teq1ProtocolOptionsData → Teq1Frame → Int → Int × Teq1Frame)
    (hw_transmit : EseInterface H → Option (List Nat) → Nat → Int → Nat × EseInterface H)
    (frame : Teq1Frame) (hopts : ops.opts = some opts) (hpre : opts.preprocess = some pre)
    (hhook : backend_hook pre)
    (htx : ops.hw_transmit = some hw_transmit) (hLEN : frame.LEN ≤ 254)
    (hINF : frame.INF.length = INF_LEN + 1) :
    ∃ sent : Teq1Frame,
      teq1_transmit ops ese frame
        = .ok (0, (hw_transmit ese (some sent.val) (3 + sent.LEN + 1) 1).2, sent) ∧
      sent.NAD = opts.node_address ∧ sent.PCB = frame.PCB ∧ sent.LEN = frame.LEN ∧
      sent.INF.take frame.LEN = frame.INF.take frame.LEN ∧
      sent.INF.getD sent.LEN 0 = xor_all (frame.PCB :: frame.LEN :: frame.INF.take frame.LEN) ∧
      sent.INF.getD sent.LEN 0 = teq1_compute_LRC { sent with NAD := 0 } ∧
      (∀ rx : Teq1Frame, rx.PCB = sent.PCB → rx.LEN = sent.LEN →
        rx.INF.take (rx.LEN + 1) = sent.INF.take (sent.LEN + 1) →
        (pre opts.toTeq1ProtocolOptionsData rx 0).2 = { rx with NAD := 0 } ∧
        (pre opts.toTeq1ProtocolOptionsData rx 0).2.INF.getD
            (pre opts.toTeq1ProtocolOptionsData rx 0).2.LEN 0
          = teq1_compute_LRC (pre opts.toTeq1ProtocolOptionsData rx 0).2 ∧
        ∀ state tx_frame, (teq1_frame_error_check state tx_frame
          (pre opts.toTeq1ProtocolOptionsData rx 0).2).1 ≠ R 0 0 1) ∧
      (∀ (pe : EseInterface Probe) (timeout : ℚ) (buffer : Teq1Frame),
        0 ≤ pe.hw.poll_ret → buffer.INF.length = INF_LEN + 1 →
        pe.hw.wire = sent.PCB :: sent.LEN :: sent.INF.take (sent.LEN + 1) →
        ∃ n e1 rx, teq1_receive (probe_ops opts) pe timeout buffer = .ok (n, e1, rx) ∧
          n = (frame.LEN : Int) ∧ rx.NAD = 0 ∧ rx.PCB = frame.PCB ∧ rx.LEN = frame.LEN ∧
          rx.INF.take (frame.LEN + 1) = sent.INF.take (frame.LEN + 1) ∧
          rx.INF.getD rx.LEN 0 = teq1_compute_LRC rx ∧
          ∀ state tx_frame, (teq1_frame_error_check state tx_frame rx).1 ≠ R 0 0 1) := by
  have hlt : frame.LEN < frame.INF.length := by rw [hINF, INF_LEN]; omega
  obtain ⟨hout, hin⟩ : (∀ f, pre opts.toTeq1ProtocolOptionsData f 1 = (0, { f with
        NAD := opts.node_address
        INF := f.INF.set f.LEN (teq1_compute_LRC { f with NAD := 0 }) })) ∧
      (∀ f, pre opts.toTeq1ProtocolOptionsData f 0 = (0, { f with NAD := 0 })) :=
    ⟨fun f => (backend_hook_eq pre hhook _ f).1, fun f => (backend_hook_eq pre hhook _ f).2⟩
  have hlrc : teq1_compute_LRC
      { NAD := 0, PCB := frame.PCB, LEN := frame.LEN,
        INF := frame.INF.set frame.LEN (teq1_compute_LRC { frame with NAD := opts.node_address }) }
      = xor_all (frame.PCB :: frame.LEN :: frame.INF.take frame.LEN) := by
    rw [compute_LRC_eq]
    simp only []
    rw [take_set_self, xor_all_cons 0, Nat.zero_xor]
  obtain ⟨sent, hsent⟩ : ∃ sent : Teq1Frame, sent =
      { NAD := opts.node_address, PCB := frame.PCB, LEN := frame.LEN,
        INF := frame.INF.set frame.LEN
          (xor_all (frame.PCB :: frame.LEN :: frame.INF.take frame.LEN)) } := ⟨_, rfl⟩
  have hs1 : sent.NAD = opts.node_address := by rw [hsent]
  have hs2 : sent.PCB = frame.PCB := by rw [hsent]
  have hs3 : sent.LEN = frame.LEN := by rw [hsent]
  have hs4 : sent.INF.take frame.LEN = frame.INF.take frame.LEN := by
    rw [hsent]; exact take_set_self _ _ _
  have hs5 : sent.INF.getD sent.LEN 0
      = xor_all (frame.PCB :: frame.LEN :: frame.INF.take frame.LEN) := by
    rw [hsent]
    simp [hlt]
  have hs6 : sent.INF.getD sent.LEN 0
      = xor_all (sent.PCB :: sent.LEN :: sent.INF.take sent.LEN) := by
    rw [hs5, hs2, hs3, hs4]
  have hrx : ∀ rx : Teq1Frame, rx.PCB = sent.PCB → rx.LEN = sent.LEN →
      rx.INF.take (rx.LEN + 1) = sent.INF.take (sent.LEN + 1) →
      ({ rx with NAD := 0 } : Teq1Frame).INF.getD ({ rx with NAD := 0 } : Teq1Frame).LEN 0
        = teq1_compute_LRC { rx with NAD := 0 } := by
    intro rx h1 h2 h3
    apply zero_nad_LRC
    rw [h2] at h3
    rw [h1, h2, getD_of_take_succ _ _ _ h3, take_of_take_succ _ _ _ h3]
    exact hs6
  refine ⟨sent, ?_, hs1, hs2, hs3, hs4, hs5, ?_, ?_, ?_⟩
  · have ht : teq1_transmit ops ese frame = .ok (0,
        (hw_transmit ese (some (pre opts.toTeq1ProtocolOptionsData
          { NAD := opts.node_address, PCB := frame.PCB, LEN := frame.LEN,
            INF := frame.INF.set frame.LEN
              (teq1_compute_LRC { frame with NAD := opts.node_address }) } 1).2.val)
          (3 + (pre opts.toTeq1ProtocolOptionsData
          { NAD := opts.node_address, PCB := frame.PCB, LEN := frame.LEN,
            INF := frame.INF.set frame.LEN
              (teq1_compute_LRC { frame with NAD := opts.node_address }) } 1).2.LEN + 1) 1).2,
        (pre opts.toTeq1ProtocolOptionsData
          { NAD := opts.node_address, PCB := frame.PCB, LEN := frame.LEN,
            INF := frame.INF.set frame.LEN
              (teq1_compute_LRC { frame with NAD := opts.node_address }) } 1).2) := by
      simp [teq1_transmit, hopts, hpre, htx]
    rw [ht, hout]
    simp only []
    rw [hlrc, List.set_set, ← hsent, hs3]
  · have := zero_nad_LRC sent hs6
    exact this
  · intro rx h1 h2 h3
    rw [hin]
    refine ⟨rfl, hrx rx h1 h2 h3, fun state tx_frame => ?_⟩
    exact error_check_not_parity state tx_frame _ (hrx rx h1 h2 h3)
  · intro pe timeout buffer hpoll hbuf hwire
    have h255 : sent.LEN ≠ 255 := by rw [hs3]; omega
    have hr := receive_probe_frame opts pe timeout buffer sent.PCB sent.LEN
      (sent.INF.take (sent.LEN + 1)) hpoll hwire h255
    have hsl : sent.INF.length = INF_LEN + 1 := by rw [hsent]; simp [hINF]
    have hasm : (assembled opts.host_address buffer sent.PCB sent.LEN
        (sent.INF.take (sent.LEN + 1))).INF.take (sent.LEN + 1) = sent.INF.take (sent.LEN + 1) := by
      unfold assembled
      simp only [List.take_take, Nat.min_self]
      have hl : (List.take (sent.LEN + 1) sent.INF).length = sent.LEN + 1 := by
        rw [List.length_take, hsl, INF_LEN]; omega
      rw [hl, Nat.min_self]
      have := memcpy_zero_take buffer.INF (List.take (sent.LEN + 1) sent.INF) (sent.LEN + 1)
        (by rw [hl])
      rw [this, List.take_take, Nat.min_self]
    have hhk : hooked opts (assembled opts.host_address buffer sent.PCB sent.LEN
        (sent.INF.take (sent.LEN + 1))) 0
        = { assembled opts.host_address buffer sent.PCB sent.LEN
              (sent.INF.take (sent.LEN + 1)) with NAD := 0 } := by
      unfold hooked
      rw [hpre]
      simp only []
      rw [hin]
    rw [hhk] at hr
    have hok := hrx (assembled opts.host_address buffer sent.PCB sent.LEN
      (sent.INF.take (sent.LEN + 1))) rfl rfl hasm
    refine ⟨_, _, _, hr, ?_, rfl, hs2, hs3, ?_, hok, fun state tx_frame => ?_⟩
    · show ((sent.LEN : Nat) : Int) = _
      rw [hs3]
    · rw [← hs3]; exact hasm
    · exact error_check_not_parity state tx_frame _ hok

set_option maxRecDepth 1000000 in
/-- Sample for C39: the frame `frame_demo` sent with the options of the PN80T
backend leaves with NAD 0x5A and the checksum byte 1, the exclusive-or of 0, 2,
1 and 2. -/
theorem C39_preprocess_hooks_agree_witness :
    ∃ sent : Teq1Frame,
      teq1_transmit (probe_ops nxp_pn80t_teq1_options) (probe_ese 1 [] 0) frame_demo
        = .ok (0, (probe_transmit (probe_ese 1 [] 0) (some sent.val) (3 + sent.LEN + 1) 1).2,
            sent) ∧
      sent.NAD = 0x5A ∧ sent.INF.getD sent.LEN 0 = 1 := by
  obtain ⟨sent, h1, h2, -, -, -, h6, -⟩ :=
    C39_preprocess_hooks_agree (probe_ops nxp_pn80t_teq1_options) (probe_ese 1 [] 0)
      nxp_pn80t_teq1_options nxp_pn80t_preprocess probe_transmit frame_demo rfl rfl
      (Or.inr rfl) rfl (by decide)
      (by rw [frame_demo, List.length_append, List.length_replicate]; rfl)
  refine ⟨sent, h1, h2, ?_⟩
  rw [h6]
  decide

/-- Claim C40: on an interface whose error flag is set, with a backend whose
operations do not clear it, every operation of the library leaves the flag set:
`ese_set_error` sets it to 1 whenever it returns, `ese_open` and `ese_close`
write nothing themselves, `teq1_transceive` leaves it set whenever it returns,
also as the member `transceive` of a backend, and `ese_transceive` returns -1:
whatever byte count the transceive operation of the backend returns, after the
raw transmit when there is no transceive operation, and after recording the
error -1 when there is neither. -/
theorem C40_error_flag_sticky {H : Type} (ops : EseOperations H) (ese : EseInterface H)
    (hst : Sticky ops) (herr : ese.error.is_err ≠ 0) :
    (∀ code e2, ese_set_error (some ese) code = .ok e2 →
      ∃ e3, e2 = some e3 ∧ e3.error.is_err = 1) ∧
    (∀ hw_opts, ∃ r e2, ese_open ops (some ese) hw_opts = (r, some e2) ∧
      e2.error.is_err ≠ 0 ∧ (ops.open_op = none → r = 0 ∧ e2 = ese)) ∧
    (∃ r e2, ese_close ops (some ese) = (r, some e2) ∧ e2.error.is_err ≠ 0 ∧
      (ops.close_op = none → r = 0 ∧ e2 = ese)) ∧
    (∀ fuel tx_buf tx_len rx_mem rx_len stack0 stack1 r,
      teq1_transceive fuel ops ese tx_buf tx_len rx_mem rx_len stack0 stack1 = .ok r →
      r.ese.error.is_err ≠ 0) ∧
    (∀ fuel stack0 stack1 tx_buf tx_len rx_buf rx_len n e2 rx2,
      teq1_transceive_op fuel ops stack0 stack1 ese tx_buf tx_len rx_buf rx_len
        = .ok (n, e2, rx2) → e2.error.is_err ≠ 0) ∧
    (∀ tx_buf tx_len rx_buf rx_max ret e2 rx2,
      ese_transceive ops (some ese) tx_buf tx_len rx_buf rx_max = .ok (ret, e2, rx2) →
      ret = -1 ∧ ∃ e3, e2 = some e3 ∧ e3.error.is_err ≠ 0) ∧
    (∀ tr tx_buf tx_len rx_buf rx_max n e2 rx2, ops.transceive = some tr →
      tr ese tx_buf tx_len rx_buf rx_max = .ok (n, e2, rx2) →
      ese_transceive ops (some ese) tx_buf tx_len rx_buf rx_max = .ok (-1, some e2, rx2)) ∧
    (∀ t tx_buf tx_len rx_buf rx_max, ops.transceive = none → ops.hw_transmit = some t →
      ops.hw_receive ≠ none →
      ese_transceive ops (some ese) tx_buf tx_len rx_buf rx_max
        = .ok (-1, some (t ese tx_buf tx_len 1).2, rx_buf)) ∧
    (∀ tx_buf tx_len rx_buf rx_max, ops.transceive = none →
      (ops.hw_transmit = none ∨ ops.hw_receive = none) →
      ese_transceive ops (some ese) tx_buf tx_len rx_buf rx_max
        = .ok (-1, some { ese with error :=
            ⟨1, -1, some "Hardware supplied no transceive implementation."⟩ }, rx_buf)) := by
  have hfin : ∀ (n : Nat) (e : EseInterface H) (b : Option (List Nat)),
      e.error.is_err ≠ 0 → ese_transceive_finish n e b = .ok (-1, some e, b) := by
    intro n e b he
    unfold ese_transceive_finish
    rw [if_pos he]
  refine ⟨?_, ?_, ?_, ?_, ?_, ?_, ?_, ?_, ?_⟩
  · intro code e2 h
    simp only [ese_set_error] at h
    rcases hs : ese_set_error_nonnull ese code with e | e3
    · rw [hs] at h; simp at h
    · rw [hs] at h
      simp only [Except.ok.injEq] at h
      exact ⟨e3, h.symm, set_error_sets ese e3 code hs⟩
  · intro hw_opts
    rcases ho : ops.open_op with _ | f
    · exact ⟨0, ese, by simp [ese_open, ho], herr, fun _ => ⟨rfl, rfl⟩⟩
    · exact ⟨(f ese hw_opts).1, (f ese hw_opts).2, by simp [ese_open, ho],
        hst.2.2.2.2.2.1 f ho ese hw_opts herr, fun hn => by simp at hn⟩
  · rcases hc : ops.close_op with _ | f
    · exact ⟨0, ese, by simp [ese_close, hc], herr, fun _ => ⟨rfl, rfl⟩⟩
    · exact ⟨(f ese).1, (f ese).2, by simp [ese_close, hc],
        hst.2.2.2.2.2.2 f hc ese herr, fun hn => by simp at hn⟩
  · intro fuel tx_buf tx_len rx_mem rx_len stack0 stack1 r h
    exact transceive_sticky ops hst fuel ese tx_buf rx_mem tx_len rx_len stack0 stack1 r herr h
  · intro fuel stack0 stack1 tx_buf tx_len rx_buf rx_len n e2 rx2 h
    unfold teq1_transceive_op at h
    rcases hr : teq1_transceive fuel ops ese (tx_buf.getD []) tx_len (rx_buf.getD []) rx_len
        stack0 stack1 with e | r
    · rw [hr] at h; simp at h
    · rw [hr] at h
      simp only [Except.ok.injEq, Prod.mk.injEq] at h
      obtain ⟨-, rfl, -⟩ := h
      exact transceive_sticky ops hst fuel ese _ _ tx_len rx_len stack0 stack1 r herr hr
  · intro tx_buf tx_len rx_buf rx_max ret e2 rx2 h
    rcases hop : ops.transceive with _ | tr
    · rcases ht : ops.hw_transmit with _ | t
      · have hset : ese_set_error_nonnull ese (-1) = .ok { ese with error :=
            { is_err := 1, code := -1,
              message := some "Hardware supplied no transceive implementation." } } := by
          simp [ese_set_error_nonnull, kEseErrorMessages]
        simp only [ese_transceive, hop, ht, hset, ese_transceive_finish] at h
        simp only [Except.ok.injEq, Prod.mk.injEq] at h
        obtain ⟨rfl, rfl, -⟩ := h
        exact ⟨by simp, _, rfl, by simp⟩
      · rcases hrc : ops.hw_receive with _ | rc
        · have hset : ese_set_error_nonnull ese (-1) = .ok { ese with error :=
              { is_err := 1, code := -1,
                message := some "Hardware supplied no transceive implementation." } } := by
            simp [ese_set_error_nonnull, kEseErrorMessages]
          simp only [ese_transceive, hop, ht, hrc, hset, ese_transceive_finish] at h
          simp only [Except.ok.injEq, Prod.mk.injEq] at h
          obtain ⟨rfl, rfl, -⟩ := h
          exact ⟨by simp, _, rfl, by simp⟩
        · have h1 := hst.1 t ht ese tx_buf tx_len 1 herr
          simp only [ese_transceive, hop, ht, hrc] at h
          rw [if_pos h1, hfin _ _ _ h1] at h
          simp only [Except.ok.injEq, Prod.mk.injEq] at h
          obtain ⟨rfl, rfl, -⟩ := h
          exact ⟨rfl, _, rfl, h1⟩
    · simp only [ese_transceive, hop] at h
      rcases hrun : tr ese tx_buf tx_len rx_buf rx_max with e | ⟨n, e3, b3⟩
      · rw [hrun] at h; simp at h
      · rw [hrun] at h
        simp only [] at h
        have h3 := hst.2.2.2.2.1 tr hop ese tx_buf tx_len rx_buf rx_max n e3 b3 hrun herr
        rw [hfin _ _ _ h3] at h
        simp only [Except.ok.injEq, Prod.mk.injEq] at h
        obtain ⟨rfl, rfl, -⟩ := h
        exact ⟨rfl, _, rfl, h3⟩
  · intro tr tx_buf tx_len rx_buf rx_max n e2 rx2 hop hrun
    have h3 := hst.2.2.2.2.1 tr hop ese tx_buf tx_len rx_buf rx_max n e2 rx2 hrun herr
    simp only [ese_transceive, hop, hrun]
    exact hfin _ _ _ h3
  · intro t tx_buf tx_len rx_buf rx_max hop ht hrc
    rcases hr : ops.hw_receive with _ | rc
    · exact absurd hr hrc
    · have h1 := hst.1 t ht ese tx_buf tx_len 1 herr
      simp only [ese_transceive, hop, ht, hr]
      rw [if_pos h1, hfin _ _ _ h1]
  · intro tx_buf tx_len rx_buf rx_max hop hn
    have hset : ese_set_error_nonnull ese (-1) = .ok { ese with error :=
        { is_err := 1, code := -1,
          message := some "Hardware supplied no transceive implementation." } } := by
      simp [ese_set_error_nonnull, kEseErrorMessages]
    rcases hn with ht | hrc
    · simp only [ese_transceive, hop, ht, hset, ese_transceive_finish]
      simp
    · rcases ht : ops.hw_transmit with _ | t
      · simp only [ese_transceive, hop, ht, hset, ese_transceive_finish]
        simp
      · simp only [ese_transceive, hop, ht, hrc, hset, ese_transceive_finish]
        simp

/-- Sample for C40: the error `TEQ1_ERROR_HARD_FAIL` is recorded on the
interface and the transceive operation of the backend reports 5 bytes;
`ese_transceive` returns -1. -/
theorem C40_error_flag_sticky_witness :
    ese_transceive (counting_ops 5) (some errored_ese) (some [1, 2]) 2 (some [0, 0]) 2
      = .ok (-1, some errored_ese, some [0, 0]) :=
  (C40_error_flag_sticky (counting_ops 5) errored_ese
    (by
      refine ⟨?_, ?_, ?_, ?_, ?_, ?_, ?_⟩
      · intro f hf; simp [counting_ops] at hf
      · intro f hf; simp [counting_ops] at hf
      · intro f hf; simp [counting_ops] at hf
      · intro f hf; simp [counting_ops] at hf
      · intro f hf e a b c d n e2 x hrun he
        simp only [counting_ops, Option.some.injEq] at hf
        subst hf
        simp only [Except.ok.injEq, Prod.mk.injEq] at hrun
        obtain ⟨-, rfl, -⟩ := hrun
        exact he
      · intro f hf; simp [counting_ops] at hf
      · intro f hf; simp [counting_ops] at hf)
    (by decide)).2.2.2.2.2.2.1 _ (some [1, 2]) 2 (some [0, 0]) 2 5 errored_ese (some [0, 0])
    rfl rfl

end Teq1
